import Mathlib

/-!
Procedural foliage tile simulation.

A shallow embedding of `ProceduralFoliageTile.cpp` and of the region helpers of
`ProceduralFoliageComponent.cpp`, followed by theorems about them.

Conventions of the embedding.

* `float` values are rationals (`ℚ`), and the float arithmetic of the simulation (seed
  distances and offsets, the clearance test, locations, the seed count) rounds every result to
  the nearest `float` (IEEE binary32, ties to even): see `Float32.round`. Comparisons are
  exact, as they are on floats. The box arithmetic of the region and copy helpers is carried
  out on the values as they are. `int32` values are integers (`Int`), with an explicit 32-bit
  wrap where the source adds to a value that may be extreme.
* Instance pointers are addresses (`Nat`) into the tile's `Heap`; `new` hands out the address
  `NumAllocated` and increments it, `delete` leaves the storage untouched (the address is never
  handed out again).
* `TSet<FProceduralFoliageInstance*>` is a duplicate-free list of addresses in insertion order.
* Engine code that the tile calls but that is not part of the two source files (random stream,
  trigonometry, broadphase geometry, the domination rule, the world sweep) is collected in the
  structure `Engine` and is arbitrary in every theorem.
-/

namespace ProceduralFoliage

/-! ## Engine value types -/

/-- Engine vector with three float components. -/
structure FVector where
  X : ℚ
  Y : ℚ
  Z : ℚ

/-- Engine vector with two float components. -/
structure FVector2D where
  X : ℚ
  Y : ℚ

/-- Axis-aligned 2D box as built by `FBox2D(Min, Max)`. -/
structure FBox2D where
  Min : FVector2D
  Max : FVector2D
  bIsValid : Bool

/-- Engine transform, as far as the tile code reads it: `TransformPosition` and
`GetLocation` (the translation). -/
structure FTransform where
  TransformPosition : FVector → FVector
  GetLocation : FVector

/-- Modelled from the spec: the random generator (`FRandomStream` is not under the source
files): a generator state that is "seeded deterministically from seed". -/
structure FRandomStream where
  Seed : Int

/-- Overlap classification attached to an overlap by the broadphase. -/
abbrev ESimulationOverlap := Nat

/-- The per-species parameter set (`UFoliageType_InstancedStaticMesh`): the fields and the
pure mappings read by the tile code. -/
structure UFoliageType_InstancedStaticMesh where
  NumSteps : Int
  SeedsPerStep : Int
  MaxAge : ℚ
  SpreadVariance : ℚ
  AverageSpreadDistance : ℚ
  HeightMin : ℚ
  HeightMax : ℚ
  GroundSlope : ℚ
  GetMaxRadius : ℚ
  GetSeedDensitySquared : ℚ
  GetNextAge : ℚ → Int → ℚ
  GetScaleForAge : ℚ → ℚ
  GetInitAge : FRandomStream → ℚ × FRandomStream

/-- A single vegetation entity (`FProceduralFoliageInstance`). `Rotation` is the angle about
the vertical axis, `BaseComponent` the surface component set by the projection. -/
structure FProceduralFoliageInstance where
  Location : FVector
  Rotation : ℚ
  Age : ℚ
  Type_ : UFoliageType_InstancedStaticMesh
  Normal : FVector
  Scale : ℚ
  bBlocker : Bool
  bAlive : Bool
  BaseComponent : Option Nat

/-- Modelled from the spec: `FProceduralFoliageInstance::IsAlive` (the instance class is not
under the source files), the "alive: bool" flag of an instance. -/
def FProceduralFoliageInstance.IsAlive (I : FProceduralFoliageInstance) : Bool :=
  I.bAlive

/-- Modelled from the spec: `FProceduralFoliageInstance::TerminateInstance` (not under the
source files), which "flags it dead". -/
def FProceduralFoliageInstance.TerminateInstance (I : FProceduralFoliageInstance) :
    FProceduralFoliageInstance :=
  { I with bAlive := false }

/-- One entry of `ProceduralFoliage->GetTypes()`; `TypeInstance` may be null. -/
structure FProceduralFoliageTypeData where
  TypeInstance : Option UFoliageType_InstancedStaticMesh

/-- The asset that owns the species list and the tile size (`UProceduralFoliage`). -/
structure UProceduralFoliage where
  TileSize : ℚ
  GetTypes : List FProceduralFoliageTypeData

/-- An overlap reported by the broadphase: the two instances and the classification. -/
structure FProceduralFoliageOverlap where
  A : Nat
  B : Nat
  OverlapType : ESimulationOverlap

/-- Modelled from the spec: the outcome of the domination function on a pair, "which of the
two instances, if either, is suppressed". -/
inductive EDominated where
  | Neither : EDominated
  | First : EDominated
  | Second : EDominated

/-- Class of the actor hit by a sweep, as far as the projection distinguishes it. -/
inductive EHitActor where
  | BlockingVolume : EHitActor
  | InstancedFoliageActor : EHitActor
  | Other : EHitActor

/-- The parts of `FHitResult` read by the projection. `Actor = none` is an invalid
(null) actor handle. -/
structure FHitResult where
  Actor : Option EHitActor
  ImpactPoint : FVector
  ImpactNormal : FVector
  Component : Option Nat

/-- World geometry: `SweepSingle` from a start to an end point with a sphere of the given
radius; `none` when the sweep does not hit. -/
structure UWorld where
  SweepSingle : FVector → FVector → ℚ → Option FHitResult

/-- Engine code called by the tile that lives outside the two source files. Every theorem
holds for every value of this structure. -/
structure Engine where
  /-- Engine function `FRandomStream::MutateSeed`. -/
  MutateSeed : Int → Int
  /-- Engine function `FRandomStream::GetFraction`, the float read off the seed. -/
  GetFraction : Int → ℚ
  /-- Engine function `FMath::Cos`. -/
  Cos : ℚ → ℚ
  /-- Engine function `FMath::Sin`. -/
  Sin : ℚ → ℚ
  /-- Engine function `FMath::Sqrt`. -/
  Sqrt : ℚ → ℚ
  /-- Engine function `FMath::Loge`. -/
  Loge : ℚ → ℚ
  /-- Broadphase geometry: whether the radius disks of the query instance and of an indexed
  instance intersect, and with which classification. -/
  OverlapTest : FProceduralFoliageInstance → FProceduralFoliageInstance →
    Option ESimulationOverlap
  /-- Broadphase geometry of the box query. -/
  InBoxTest : FBox2D → FProceduralFoliageInstance → Bool
  /-- The domination rule on the data of two instances. -/
  Dominates : FProceduralFoliageInstance → FProceduralFoliageInstance →
    ESimulationOverlap → EDominated
  /-- Engine function `FProceduralFoliageInstance::GetMaxRadius`. -/
  GetMaxRadius : FProceduralFoliageInstance → ℚ

/-! ## Single precision arithmetic -/

/-- Round a rational to the nearest integer, ties to the even one. -/
def Float32.roundNE (x : ℚ) : Int :=
  if x - (Int.floor x : ℚ) < 1 / 2 then Int.floor x
  else if 1 / 2 < x - (Int.floor x : ℚ) then Int.floor x + 1
  else if Int.floor x % 2 = 0 then Int.floor x
  else Int.floor x + 1

/-- Binary search, with the steps `2^(k-1), .., 2, 1`, for the first exponent `i >= j` at
which `2^127 / 2^i <= n / d` (written without division), capped at 253. -/
def Float32.binadeSearch (n d : Nat) : Nat → Nat → Nat
  | 0, j => j
  | k + 1, j =>
    Float32.binadeSearch n d k
      (if j + 2 ^ k ≤ 253 ∧
          ¬ 170141183460469231731687303715884105728 * d ≤ n * 2 ^ (j + 2 ^ k - 1)
        then j + 2 ^ k else j)

/-- The number of halvings of `2^127` that reach the binade of `n / d`: the first `i` with
`2^127 / 2^i <= n / d`, and 253 (the power `2^-126`) when there is none below. -/
def Float32.binadeExp (n d : Nat) : Nat :=
  Float32.binadeSearch n d 8 0

/-- The power of two at the start of the binade of `a >= 0`: the largest `2^e <= a` with
`-126 <= e <= 127`, and `2^-126` for `a` below that (the subnormal range). -/
def Float32.binade (a : ℚ) : ℚ :=
  (170141183460469231731687303715884105728 : ℚ) /
    ((2 ^ Float32.binadeExp a.num.toNat a.den : Nat) : ℚ)

/-- The spacing of the floats in the binade of `a >= 0` (24 bits of precision). -/
def Float32.ulp (a : ℚ) : ℚ :=
  Float32.binade a / 8388608

/-- Rounding of `a >= 0` to the nearest float, ties to even. A result beyond the largest
finite float is `2^128`, which stands for the infinity. -/
def Float32.roundAbs (a : ℚ) : ℚ :=
  min ((Float32.roundNE (a / Float32.ulp a) : ℚ) * Float32.ulp a)
    340282366920938463463374607431768211456

/-- Rounding of a rational to the nearest `float` (IEEE binary32, round to nearest, ties to
even, with subnormals). Not-a-number values are outside the model. -/
def Float32.round (q : ℚ) : ℚ :=
  if 0 ≤ q then Float32.roundAbs q else -Float32.roundAbs (-q)

/-- Addition of two floats. -/
def Float32.add (a b : ℚ) : ℚ := Float32.round (a + b)

/-- Subtraction of two floats. -/
def Float32.sub (a b : ℚ) : ℚ := Float32.round (a - b)

/-- Multiplication of two floats. -/
def Float32.mul (a b : ℚ) : ℚ := Float32.round (a * b)

/-- Division of two floats, for a divisor other than zero. -/
def Float32.div (a b : ℚ) : ℚ := Float32.round (a / b)

/-- Conversion of an `int32` to `float`. -/
def Float32.ofInt (i : Int) : ℚ := Float32.round (i : ℚ)

/-- Engine macro `PI` (`3.1415926535897932f`), which is not defined in the source files: the
float nearest to the literal. -/
def PI : ℚ := Float32.round (31415926535897932 / 10000000000000000)

/-- Modelled from the spec: the engine macro `SMALL_NUMBER` (`1.e-8f`), the "small epsilon
tolerance" of the seed acceptance test; it is not defined in the source files. Its value is
the float nearest to `1e-8`. -/
def SMALL_NUMBER : ℚ := Float32.round (1 / 100000000)

/-- Wrap an integer to the `int32` range (two's complement). -/
def wrapInt32 (n : Int) : Int :=
  (n + 2147483648) % 4294967296 - 2147483648

/-! ## Random stream -/

/-- Engine function `FRandomStream::Initialize`. -/
def FRandomStream.Initialize (InSeed : Int) : FRandomStream :=
  { Seed := InSeed }

/-- Engine function `FRandomStream::FRand`: mutate the seed, return the fraction. -/
def FRandomStream.FRand (E : Engine) (S : FRandomStream) : ℚ × FRandomStream :=
  (E.GetFraction (E.MutateSeed S.Seed), { Seed := E.MutateSeed S.Seed })

/-- Engine function `FRandomStream::FRandRange`. -/
def FRandomStream.FRandRange (E : Engine) (S : FRandomStream) (InMin InMax : ℚ) :
    ℚ × FRandomStream :=
  (InMin + (InMax - InMin) * (S.FRand E).1, (S.FRand E).2)

/-! ## Containers -/

/-- Engine function `TSet::Add` on a set of addresses. -/
def TSetAdd (S : List Nat) (x : Nat) : List Nat :=
  if x ∈ S then S else S ++ [x]

/-- Engine function `TSet::Remove` on a set of addresses. -/
def TSetRemove (S : List Nat) (x : Nat) : List Nat :=
  S.filter (fun y => y != x)

/-- Modelled from the spec: the broadphase (`ProceduralFoliageBroadphase` is not under the
source files). The spatial index "maps instance pointer identity" to an entry; `insert` adds
the instance. The index is the list of indexed addresses. -/
def BroadphaseInsert (BP : List Nat) (x : Nat) : List Nat :=
  if x ∈ BP then BP else BP ++ [x]

/-- Modelled from the spec: broadphase `remove(instance)`, which drops the entry keyed by
the instance. -/
def BroadphaseRemove (BP : List Nat) (x : Nat) : List Nat :=
  BP.filter (fun y => y != x)

/-- Modelled from the spec: broadphase `overlapsOf(instance)`, which "returns every
currently-indexed instance whose radius-disk intersects the query instance's radius-disk",
tagged with the overlap classification. The query instance is `A`, the other one is `B`. -/
def BroadphaseGetOverlaps (E : Engine) (Heap : Nat → FProceduralFoliageInstance)
    (BP : List Nat) (Instance : Nat) : List FProceduralFoliageOverlap :=
  BP.filterMap (fun Other =>
    if Other = Instance then none
    else (E.OverlapTest (Heap Instance) (Heap Other)).map
      (fun K => { A := Instance, B := Other, OverlapType := K }))

/-- Modelled from the spec: broadphase `rangeQuery(box)`, all indexed instances that the
box geometry test accepts. -/
def BroadphaseGetInstancesInBox (E : Engine) (Heap : Nat → FProceduralFoliageInstance)
    (BP : List Nat) (Box : FBox2D) : List Nat :=
  BP.filter (fun x => E.InBoxTest Box (Heap x))

/-! ## The tile -/

/-- State of a `UProceduralFoliageTile`. -/
structure UProceduralFoliageTile where
  Heap : Nat → FProceduralFoliageInstance
  NumAllocated : Nat
  Instances : List Nat
  PendingRemovals : List Nat
  InstancesArray : List FProceduralFoliageInstance
  Broadphase : List Nat
  RandomStream : FRandomStream
  SimulationStep : Int
  ProceduralFoliage : UProceduralFoliage

/-- Modelled from the spec: `FProceduralFoliageInstance::Domination` (not under the source
files) on two instance pointers, the function that "determines which of the two instances,
if either, is suppressed": the dominated
pointer, or null. -/
def Domination (E : Engine) (Heap : Nat → FProceduralFoliageInstance) (A B : Nat)
    (OverlapType : ESimulationOverlap) : Option Nat :=
  match E.Dominates (Heap A) (Heap B) OverlapType with
  | EDominated.Neither => none
  | EDominated.First => some A
  | EDominated.Second => some B

/-- Source function `UProceduralFoliageTile::MarkPendingRemoval`. -/
def MarkPendingRemoval (T : UProceduralFoliageTile) (ToRemove : Nat) : UProceduralFoliageTile :=
  if (T.Heap ToRemove).IsAlive then
    { T with
      Broadphase := BroadphaseRemove T.Broadphase ToRemove
      Heap := Function.update T.Heap ToRemove (T.Heap ToRemove).TerminateInstance
      PendingRemovals := TSetAdd T.PendingRemovals ToRemove }
  else T

/-- Second loop of `HandleOverlaps`: one overlap of the surviving instance. The assertion
`check(Dominated != Instance)` has no effect on the state; the theorems on `HandleOverlaps`
show that it holds. -/
def HandleOverlapsMark (E : Engine) (T : UProceduralFoliageTile)
    (Overlap : FProceduralFoliageOverlap) : UProceduralFoliageTile :=
  match Domination E T.Heap Overlap.A Overlap.B Overlap.OverlapType with
  | some Dominated => MarkPendingRemoval T Dominated
  | none => T

/-- Source function `UProceduralFoliageTile::HandleOverlaps`: the survival flag and the new
state. -/
def HandleOverlaps (E : Engine) (T : UProceduralFoliageTile) (Instance : Nat) :
    Bool × UProceduralFoliageTile :=
  let Overlaps := BroadphaseGetOverlaps E T.Heap T.Broadphase Instance
  let bSurvived := !(Overlaps.any (fun Overlap =>
    decide (Domination E T.Heap Overlap.A Overlap.B Overlap.OverlapType = some Instance)))
  if bSurvived then
    (true, Overlaps.foldl (HandleOverlapsMark E) T)
  else
    (false, MarkPendingRemoval T Instance)

/-- Source function `UProceduralFoliageTile::NewSeed`: the pointer to the new instance if it
survived, and
the new state. -/
def NewSeed (E : Engine) (T : UProceduralFoliageTile) (Location : FVector) (Scale : ℚ)
    (Type_ : UFoliageType_InstancedStaticMesh) (InAge : ℚ) (bBlocker : Bool) :
    Option Nat × UProceduralFoliageTile :=
  let Rot := T.RandomStream.FRandRange E 0 (2 * PI)
  let NewInst : FProceduralFoliageInstance :=
    { Location := Location
      Rotation := Rot.1
      Age := InAge
      Type_ := Type_
      Normal := { X := 0, Y := 0, Z := 1 }
      Scale := Scale
      bBlocker := bBlocker
      bAlive := true
      BaseComponent := none }
  let T1 : UProceduralFoliageTile :=
    { T with
      Heap := Function.update T.Heap T.NumAllocated NewInst
      NumAllocated := T.NumAllocated + 1
      RandomStream := Rot.2 }
  let T2 : UProceduralFoliageTile :=
    { T1 with Broadphase := BroadphaseInsert T1.Broadphase T.NumAllocated }
  let R := HandleOverlaps E T2 T.NumAllocated
  (if R.1 then some T.NumAllocated else none, R.2)

/-- Conversion of a float to `int32` (truncation toward zero). -/
def TruncToInt (q : ℚ) : Int :=
  if 0 ≤ q then Int.floor q else Int.ceil q

/-- Source function `GetSeedMinDistance`: sum of the radii of parent and child at the step
horizon. -/
def GetSeedMinDistance (Instance : FProceduralFoliageInstance) (NewInstanceAge : ℚ)
    (SimulationStep : Int) : ℚ :=
  let Type_ := Instance.Type_
  let StepsLeft : Int := TruncToInt (Float32.sub Type_.MaxAge (Float32.ofInt SimulationStep))
  let InstanceMaxAge := Type_.GetNextAge Instance.Age StepsLeft
  let NewInstanceMaxAge := Type_.GetNextAge NewInstanceAge StepsLeft
  let InstanceMaxScale := Type_.GetScaleForAge InstanceMaxAge
  let NewInstanceMaxScale := Type_.GetScaleForAge NewInstanceMaxAge
  let InstanceMaxRadius := Float32.mul InstanceMaxScale Type_.GetMaxRadius
  let NewInstanceMaxRadius := Float32.mul NewInstanceMaxScale Type_.GetMaxRadius
  Float32.add InstanceMaxRadius NewInstanceMaxRadius

/-- Source function `UProceduralFoliageTile::GetRandomGaussian` (Box-Muller), on the random
stream. -/
def GetRandomGaussian (E : Engine) (S : FRandomStream) : ℚ × FRandomStream :=
  let R1 := S.FRand E
  let Rand1 := max R1.1 SMALL_NUMBER
  let R2 := R1.2.FRand E
  let Rand2 := max R2.1 SMALL_NUMBER
  let SqrtLn := E.Sqrt (Float32.mul (-2) (E.Loge Rand1))
  let Rand2TwoPi := Float32.mul (Float32.mul Rand2 2) PI
  let Z1 := Float32.mul SqrtLn (E.Cos Rand2TwoPi)
  (Z1, R2.2)

/-- Engine function `FMath::Clamp`. -/
def Clamp (X Min Max : ℚ) : ℚ :=
  if X < Min then Min else if X < Max then X else Max

/-- The constant `MaxZScore = 1.64f` of `GetSeedOffset`: the float nearest to `1.64`. -/
def MaxZScore : ℚ := Float32.round (164 / 100)

/-- The scalar distance `AverageDistance + VariationDistance` of `GetSeedOffset` for a
Gaussian draw `Z1`. -/
def GetSeedOffsetDistance (Type_ : UFoliageType_InstancedStaticMesh) (MinDistance Z1 : ℚ) : ℚ :=
  let Z1Clamped := Clamp Z1 (-MaxZScore) MaxZScore
  let VariationDistance := Float32.div (Float32.mul Z1Clamped Type_.SpreadVariance) MaxZScore
  let AverageDistance := Float32.add MinDistance Type_.AverageSpreadDistance
  Float32.add AverageDistance VariationDistance

/-- Source function `UProceduralFoliageTile::GetSeedOffset`. -/
def GetSeedOffset (E : Engine) (S : FRandomStream) (Type_ : UFoliageType_InstancedStaticMesh)
    (MinDistance : ℚ) : FVector × FRandomStream :=
  let G := GetRandomGaussian E S
  let Dist := GetSeedOffsetDistance Type_ MinDistance G.1
  let R := G.2.FRand E
  let RandRad := Float32.mul (Float32.mul (max R.1 SMALL_NUMBER) PI) 2
  let Dir : FVector := { X := E.Cos RandRad, Y := E.Sin RandRad, Z := 0 }
  ({ X := Float32.mul Dir.X Dist, Y := Float32.mul Dir.Y Dist, Z := Float32.mul Dir.Z Dist },
    R.2)

/-- Engine function `FVector::SizeSquared2D`. -/
def FVector.SizeSquared2D (V : FVector) : ℚ :=
  Float32.add (Float32.mul V.X V.X) (Float32.mul V.Y V.Y)

/-- Addition of two `FVector` values. -/
def FVector.add (V W : FVector) : FVector :=
  { X := Float32.add V.X W.X, Y := Float32.add V.Y W.Y, Z := Float32.add V.Z W.Z }

/-- Source function `UProceduralFoliageTile::RemoveInstance`. -/
def RemoveInstance (T : UProceduralFoliageTile) (ToRemove : Nat) : UProceduralFoliageTile :=
  let T1 : UProceduralFoliageTile :=
    if (T.Heap ToRemove).IsAlive then
      { T with
        Broadphase := BroadphaseRemove T.Broadphase ToRemove
        Heap := Function.update T.Heap ToRemove (T.Heap ToRemove).TerminateInstance }
    else T
  { T1 with Instances := TSetRemove T1.Instances ToRemove }

/-- Source function `UProceduralFoliageTile::FlushPendingRemovals`. -/
def FlushPendingRemovals (T : UProceduralFoliageTile) : UProceduralFoliageTile :=
  { T.PendingRemovals.foldl RemoveInstance T with PendingRemovals := [] }

/-- The pattern `if (Inst = NewSeed(...)) { NewSeeds.Add(Inst); }`: the result of a call
of `NewSeed` is appended to the local array when it is not null. -/
def CollectSeed (R : Option Nat × UProceduralFoliageTile) (NewSeeds : List Nat) :
    UProceduralFoliageTile × List Nat :=
  match R.1 with
  | some Inst => (R.2, NewSeeds ++ [Inst])
  | none => (R.2, NewSeeds)

/-- Body of the loop of `AgeSeeds` for one member of `Instances`; the second component is
the local array `NewSeeds`. -/
def AgeSeedsBody (E : Engine) (Acc : UProceduralFoliageTile × List Nat) (Instance : Nat) :
    UProceduralFoliageTile × List Nat :=
  if (Acc.1.Heap Instance).IsAlive then
    let Type_ := (Acc.1.Heap Instance).Type_
    if Acc.1.SimulationStep ≤ Type_.NumSteps then
      let NewAge := Type_.GetNextAge (Acc.1.Heap Instance).Age 1
      let NewScale := Type_.GetScaleForAge NewAge
      let Location := (Acc.1.Heap Instance).Location
      let T1 := MarkPendingRemoval Acc.1 Instance
      CollectSeed (NewSeed E T1 Location NewScale Type_ NewAge false) Acc.2
    else Acc
  else Acc

/-- Source function `UProceduralFoliageTile::AgeSeeds`. -/
def AgeSeeds (E : Engine) (T : UProceduralFoliageTile) : UProceduralFoliageTile :=
  let R := T.Instances.foldl (AgeSeedsBody E) (T, [])
  let T1 : UProceduralFoliageTile := { R.1 with Instances := R.2.foldl TSetAdd R.1.Instances }
  FlushPendingRemovals T1

/-- The values computed by one pass of the seeds-per-step loop of `SpreadSeeds` before the
clearance test. -/
structure FSpreadDraw where
  NewAge : ℚ
  NewScale : ℚ
  MinDistanceToClear : ℚ
  GlobalOffset : FVector
  Stream : FRandomStream

/-- The first four statements of the seeds-per-step loop of `SpreadSeeds` for the parent
`Inst`: age, scale, minimum clearance and offset of the attempt. -/
def SpreadSeedsDraw (E : Engine) (T : UProceduralFoliageTile) (Inst : Nat) : FSpreadDraw :=
  let Type_ := (T.Heap Inst).Type_
  let A := Type_.GetInitAge T.RandomStream
  let NewAge := A.1
  let NewScale := Type_.GetScaleForAge NewAge
  let MinDistanceToClear := GetSeedMinDistance (T.Heap Inst) NewAge T.SimulationStep
  let G := GetSeedOffset E A.2 Type_ MinDistanceToClear
  { NewAge := NewAge
    NewScale := NewScale
    MinDistanceToClear := MinDistanceToClear
    GlobalOffset := G.1
    Stream := G.2 }

/-- The clearance test of `SpreadSeeds`. -/
def SpreadSeedsAccepts (D : FSpreadDraw) : Prop :=
  Float32.add D.GlobalOffset.SizeSquared2D SMALL_NUMBER >
    Float32.mul D.MinDistanceToClear D.MinDistanceToClear

instance instDecidableSpreadSeedsAccepts (D : FSpreadDraw) :
    Decidable (SpreadSeedsAccepts D) := by
  unfold SpreadSeedsAccepts
  infer_instance

/-- One pass of the seeds-per-step loop of `SpreadSeeds` for the parent `Inst`; the second
component is the array `NewSeeds`. -/
def SpreadSeedsAttempt (E : Engine) (Inst : Nat) (Acc : UProceduralFoliageTile × List Nat) :
    UProceduralFoliageTile × List Nat :=
  let D := SpreadSeedsDraw E Acc.1 Inst
  let T1 : UProceduralFoliageTile := { Acc.1 with RandomStream := D.Stream }
  if SpreadSeedsAccepts D then
    let NewLocation := D.GlobalOffset.add (T1.Heap Inst).Location
    CollectSeed (NewSeed E T1 NewLocation D.NewScale (T1.Heap Inst).Type_ D.NewAge false) Acc.2
  else (T1, Acc.2)

/-- Body of the loop of `SpreadSeeds` for one member of `Instances`. -/
def SpreadSeedsBody (E : Engine) (Acc : UProceduralFoliageTile × List Nat) (Inst : Nat) :
    UProceduralFoliageTile × List Nat :=
  if (Acc.1.Heap Inst).IsAlive = false then Acc
  else
    if Acc.1.SimulationStep ≤ (Acc.1.Heap Inst).Type_.NumSteps then
      Nat.iterate (SpreadSeedsAttempt E Inst) (Acc.1.Heap Inst).Type_.SeedsPerStep.toNat Acc
    else Acc

/-- Source function `UProceduralFoliageTile::SpreadSeeds`; the array `NewSeeds` is passed in
and returned. -/
def SpreadSeeds (E : Engine) (T : UProceduralFoliageTile) (NewSeeds : List Nat) :
    UProceduralFoliageTile × List Nat :=
  T.Instances.foldl (SpreadSeedsBody E) (T, NewSeeds)

/-- One pass of the seed loop of `AddRandomSeeds` for a species. -/
def AddRandomSeedsAttempt (E : Engine) (TypeInstance : UFoliageType_InstancedStaticMesh)
    (Acc : UProceduralFoliageTile × List Nat) : UProceduralFoliageTile × List Nat :=
  let RX := Acc.1.RandomStream.FRandRange E 0 Acc.1.ProceduralFoliage.TileSize
  let RY := RX.2.FRandRange E 0 Acc.1.ProceduralFoliage.TileSize
  let A := TypeInstance.GetInitAge RY.2
  let NewAge := A.1
  let Scale := TypeInstance.GetScaleForAge NewAge
  let T1 : UProceduralFoliageTile := { Acc.1 with RandomStream := A.2 }
  CollectSeed (NewSeed E T1 { X := RX.1, Y := RY.1, Z := 0 } Scale TypeInstance NewAge false)
    Acc.2

/-- The counter of `for (int32 i = ..; i < NumSeeds; ++i)` when the loop is left, entered
with the counter at `i`: the comparison converts the counter to `float`. `Fuel` bounds the
number of passes. -/
def LoopCountFrom (NumSeeds : ℚ) : Nat → Nat → Nat
  | 0, i => i
  | Fuel + 1, i =>
    if Float32.ofInt (i : Int) < NumSeeds then LoopCountFrom NumSeeds Fuel (i + 1) else i

/-- Number of passes of `for (int32 i = 0; i < NumSeeds; ++i)` for a float bound. The
counter is an `int32`: after `2^31` passes `++i` overflows, so that is the fuel. -/
def LoopCount (NumSeeds : ℚ) : Nat :=
  LoopCountFrom NumSeeds 2147483648 0

/-- Body of the loop of `AddRandomSeeds` for one species entry. -/
def AddRandomSeedsBody (E : Engine) (Acc : UProceduralFoliageTile × List Nat)
    (Data : FProceduralFoliageTypeData) : UProceduralFoliageTile × List Nat :=
  let TileSize := Acc.1.ProceduralFoliage.TileSize
  let SizeTenM2 : ℚ := Float32.div (Float32.mul TileSize TileSize) (Float32.mul 1000 1000)
  match Data.TypeInstance with
  | some TypeInstance =>
    let NumSeeds := Float32.mul TypeInstance.GetSeedDensitySquared SizeTenM2
    Nat.iterate (AddRandomSeedsAttempt E TypeInstance) (LoopCount NumSeeds) Acc
  | none => Acc

/-- Source function `UProceduralFoliageTile::AddRandomSeeds`. -/
def AddRandomSeeds (E : Engine) (T : UProceduralFoliageTile) (OutInstances : List Nat) :
    UProceduralFoliageTile × List Nat :=
  T.ProceduralFoliage.GetTypes.foldl (AddRandomSeedsBody E) (T, OutInstances)

/-- Source function `UProceduralFoliageTile::InstancesToArray`. -/
def InstancesToArray (T : UProceduralFoliageTile) : UProceduralFoliageTile :=
  { T with
    InstancesArray :=
      (T.Instances.filter (fun FromInst => (T.Heap FromInst).bBlocker == false)).map T.Heap }

/-- Source function `UProceduralFoliageTile::RemoveInstances`. -/
def RemoveInstances (T : UProceduralFoliageTile) : UProceduralFoliageTile :=
  let T1 := T.Instances.foldl MarkPendingRemoval T
  FlushPendingRemovals { T1 with InstancesArray := [] }

/-- Source function `UProceduralFoliageTile::InitSimulation`. The new broadphase is empty. -/
def InitSimulation (T : UProceduralFoliageTile) (InProceduralFoliage : UProceduralFoliage)
    (RandomSeed : Int) : UProceduralFoliageTile :=
  { T with
    RandomStream := FRandomStream.Initialize RandomSeed
    ProceduralFoliage := InProceduralFoliage
    SimulationStep := 0
    Broadphase := [] }

/-- Source function `UProceduralFoliageTile::StepSimulation`. -/
def StepSimulation (E : Engine) (T : UProceduralFoliageTile) : UProceduralFoliageTile :=
  let R : UProceduralFoliageTile × List Nat :=
    if T.SimulationStep = 0 then AddRandomSeeds E T []
    else SpreadSeeds E (AgeSeeds E T) []
  let T1 : UProceduralFoliageTile := { R.1 with Instances := R.2.foldl TSetAdd R.1.Instances }
  FlushPendingRemovals T1

/-- The `MaxSteps` computed by `Simulate` before its step loop. -/
def SimulateMaxSteps (InProceduralFoliage : UProceduralFoliage) (MaxNumSteps : Int) : Int :=
  let MaxSteps : Int := InProceduralFoliage.GetTypes.foldl
    (fun MaxSteps Data =>
      match Data.TypeInstance with
      | some TypeInstance => max MaxSteps (wrapInt32 (TypeInstance.NumSteps + 1))
      | none => MaxSteps) 0
  if MaxNumSteps ≥ 0 then min MaxSteps MaxNumSteps else MaxSteps

/-- Body of the step loop of `Simulate`: `StepSimulation(); ++SimulationStep;`. -/
def SimulateStep (E : Engine) (T : UProceduralFoliageTile) : UProceduralFoliageTile :=
  let T1 := StepSimulation E T
  { T1 with SimulationStep := wrapInt32 (T1.SimulationStep + 1) }

/-- The step loop `for (int32 Step = 0; Step < MaxSteps; ++Step)` of `Simulate`, entered
with the counter at `Step`. `Fuel` bounds the number of passes. -/
def SimulateLoop (E : Engine) (MaxSteps : Int) : Nat → Int → UProceduralFoliageTile →
    UProceduralFoliageTile
  | 0, _, T => T
  | Fuel + 1, Step, T =>
    if Step < MaxSteps then SimulateLoop E MaxSteps Fuel (Step + 1) (SimulateStep E T)
    else T

/-- Source function `UProceduralFoliageTile::Simulate`. -/
def Simulate (E : Engine) (T : UProceduralFoliageTile) (InProceduralFoliage : UProceduralFoliage)
    (RandomSeed : Int) (MaxNumSteps : Int) : UProceduralFoliageTile :=
  let T0 := InitSimulation T InProceduralFoliage RandomSeed
  let MaxSteps := SimulateMaxSteps T0.ProceduralFoliage MaxNumSteps
  InstancesToArray (SimulateLoop E MaxSteps MaxSteps.toNat 0 T0)

/-- Engine function `FMath::DegreesToRadians`. -/
def DegreesToRadians (Deg : ℚ) : ℚ :=
  Deg * (PI / 180)

/-- The point `StartRay` of `CreateInstancesToSpawn` for an element of `InstancesArray`. -/
def SweepStartRay (WorldTM : FTransform) (HalfHeight : ℚ)
    (Instance : FProceduralFoliageInstance) : FVector :=
  let Start0 := Instance.Location.add WorldTM.GetLocation
  { Start0 with Z := Start0.Z + HalfHeight }

/-- The point `EndRay` of `CreateInstancesToSpawn` for an element of `InstancesArray`. -/
def SweepEndRay (WorldTM : FTransform) (HalfHeight : ℚ)
    (Instance : FProceduralFoliageInstance) : FVector :=
  let StartRay := SweepStartRay WorldTM HalfHeight Instance
  { StartRay with Z := StartRay.Z - HalfHeight * 2 }

/-- The test `Cast<AProceduralFoliageBlockingVolume>(..) || Cast<AInstancedFoliageActor>(..)`
on a valid hit actor. -/
def IsBlockingActor (Actor : Option EHitActor) : Bool :=
  match Actor with
  | some EHitActor.BlockingVolume => true
  | some EHitActor.InstancedFoliageActor => true
  | _ => false

/-- Body of the loop of `CreateInstancesToSpawn` for one element of `InstancesArray`: the instance
appended to `OutInstances`, if any. -/
def CreateInstanceToSpawn (E : Engine) (WorldTM : FTransform) (World : UWorld) (HalfHeight : ℚ)
    (Instance : FProceduralFoliageInstance) : Option FProceduralFoliageInstance :=
  let StartRay := SweepStartRay WorldTM HalfHeight Instance
  let EndRay := SweepEndRay WorldTM HalfHeight Instance
  match World.SweepSingle StartRay EndRay (E.GetMaxRadius Instance) with
  | some Hit =>
    if IsBlockingActor Hit.Actor then none
    else
      let Type_ := Instance.Type_
      if Hit.ImpactPoint.Z ≥ Type_.HeightMin ∧ Hit.ImpactPoint.Z ≤ Type_.HeightMax then
        if E.Cos (DegreesToRadians Type_.GroundSlope) ≤ Hit.ImpactNormal.Z then
          some { Instance with
            Location := { X := StartRay.X, Y := StartRay.Y, Z := Hit.ImpactPoint.Z }
            Normal := Hit.ImpactNormal
            BaseComponent :=
              match Hit.Component with
              | some C => some C
              | none => Instance.BaseComponent }
        else none
      else none
  | none => none

/-- Source function `UProceduralFoliageTile::CreateInstancesToSpawn`: the new contents of
`OutInstances`. -/
def CreateInstancesToSpawn (E : Engine) (T : UProceduralFoliageTile)
    (OutInstances : List FProceduralFoliageInstance) (WorldTM : FTransform) (World : UWorld)
    (HalfHeight : ℚ) : List FProceduralFoliageInstance :=
  OutInstances ++ T.InstancesArray.filterMap (CreateInstanceToSpawn E WorldTM World HalfHeight)

/-- Source function `UProceduralFoliageTile::Empty`. -/
def Empty (T : UProceduralFoliageTile) : UProceduralFoliageTile :=
  { T with Broadphase := [], InstancesArray := [], Instances := [], PendingRemovals := [] }

/-- Source function `UProceduralFoliageTile::GetInstancesInAABB`; the result is appended to
`OutInstances`.
The pointers are returned together with the tile they point into, as instance values. -/
def GetInstancesInAABB (E : Engine) (T : UProceduralFoliageTile) (LocalAABB : FBox2D)
    (OutInstances : List FProceduralFoliageInstance) (bOnTheBorder : Bool) :
    List FProceduralFoliageInstance :=
  let InstancesInAABB := BroadphaseGetInstancesInBox E T.Heap T.Broadphase LocalAABB
  OutInstances ++ (InstancesInAABB.map T.Heap).filter (fun Inst =>
    let Rad := E.GetMaxRadius Inst
    let Location := Inst.Location
    bOnTheBorder || decide (Location.X - Rad ≥ LocalAABB.Min.X ∧ Location.X + Rad ≤ LocalAABB.Max.X
      ∧ Location.Y - Rad ≥ LocalAABB.Min.Y ∧ Location.Y + Rad ≤ LocalAABB.Max.Y))

/-- The blocker test of `AddInstances` for one source instance. -/
def AddInstancesIsBlocker (E : Engine) (InnerLocalAABB : FBox2D)
    (Inst : FProceduralFoliageInstance) : Bool :=
  let Location := Inst.Location
  let Radius := E.GetMaxRadius Inst
  decide (Location.X + Radius ≤ InnerLocalAABB.Min.X ∨ Location.X - Radius > InnerLocalAABB.Max.X
    ∨ Location.Y + Radius ≤ InnerLocalAABB.Min.Y ∨ Location.Y - Radius > InnerLocalAABB.Max.Y)

/-- Body of the loop of `AddInstances` for one source instance. -/
def AddInstancesBody (E : Engine) (RelativeTM : FTransform) (InnerLocalAABB : FBox2D)
    (T : UProceduralFoliageTile) (Inst : FProceduralFoliageInstance) : UProceduralFoliageTile :=
  let bBlocker := AddInstancesIsBlocker E InnerLocalAABB Inst
  let NewLocation := RelativeTM.TransformPosition Inst.Location
  let R := NewSeed E T NewLocation Inst.Scale Inst.Type_ Inst.Age bBlocker
  match R.1 with
  | some NewInst => { R.2 with Instances := TSetAdd R.2.Instances NewInst }
  | none => R.2

/-- Source function `UProceduralFoliageTile::AddInstances`. -/
def AddInstances (E : Engine) (T : UProceduralFoliageTile)
    (NewInstances : List FProceduralFoliageInstance) (RelativeTM : FTransform)
    (InnerLocalAABB : FBox2D) : UProceduralFoliageTile :=
  FlushPendingRemovals (NewInstances.foldl (AddInstancesBody E RelativeTM InnerLocalAABB) T)

/-! ## Region helpers of the component -/

/-- Engine function `FBox2D::operator+=(FVector2D)`: grow the box to include the point. -/
def FBox2D.addPoint (Box : FBox2D) (Other : FVector2D) : FBox2D :=
  if Box.bIsValid then
    { Min := { X := min Box.Min.X Other.X, Y := min Box.Min.Y Other.Y }
      Max := { X := max Box.Max.X Other.X, Y := max Box.Max.Y Other.Y }
      bIsValid := true }
  else { Min := Other, Max := Other, bIsValid := true }

/-- Source function `GetTileRegion` of the component. -/
def GetTileRegion (X Y _CountX _CountY : Int) (InnerSize Overlap : ℚ) : FBox2D :=
  let Left : FVector2D := { X := -Overlap, Y := Overlap }
  let Bottom : FVector2D := { X := Overlap, Y := -Overlap }
  let Region : FBox2D :=
    { Min := { X := Overlap, Y := Overlap }
      Max := { X := InnerSize + Overlap, Y := InnerSize + Overlap }
      bIsValid := true }
  let Region1 := if X = 0 then Region.addPoint Left else Region
  let Region2 := if Y = 0 then Region1.addPoint Bottom else Region1
  Region2

/-- Source function `CopyTileInstances` of the component. -/
def CopyTileInstances (E : Engine) (FromTile ToTile : UProceduralFoliageTile)
    (InnerLocalAABB : FBox2D) (ToLocalTM : FTransform) (Overlap : ℚ) : UProceduralFoliageTile :=
  let OuterLocalAABB : FBox2D :=
    { Min := InnerLocalAABB.Min
      Max := { X := InnerLocalAABB.Max.X + Overlap, Y := InnerLocalAABB.Max.Y + Overlap }
      bIsValid := true }
  let ToInstances := GetInstancesInAABB E FromTile OuterLocalAABB [] false
  AddInstances E ToTile ToInstances ToLocalTM InnerLocalAABB

/-! ## State predicates used by the theorems -/

/-- The instance at address `x` is allocated and alive. -/
def AliveAt (T : UProceduralFoliageTile) (x : Nat) : Prop :=
  x < T.NumAllocated ∧ (T.Heap x).bAlive = true

/-- The alive/index invariant between steps: (i) the broadphase holds exactly the alive instances,
(ii) every member of `Instances` is alive and indexed, (iii) `PendingRemovals`
is empty. -/
def TileInvariant (T : UProceduralFoliageTile) : Prop :=
  (∀ x, x ∈ T.Broadphase ↔ AliveAt T x) ∧
  (∀ x ∈ T.Instances, AliveAt T x ∧ x ∈ T.Broadphase) ∧
  T.PendingRemovals = []

/-- An allocated instance that is alive or waits in `PendingRemovals`. -/
def Tracked (T : UProceduralFoliageTile) (x : Nat) : Prop :=
  x < T.NumAllocated ∧ ((T.Heap x).bAlive = true ∨ x ∈ T.PendingRemovals)

/-- The invariant that holds inside a step, while removals are pending: the broadphase
holds exactly the alive instances, members of `Instances` are alive or pending, and pending instances
are allocated and dead. -/
structure Consistent (T : UProceduralFoliageTile) : Prop where
  bp_iff : ∀ x, x ∈ T.Broadphase ↔ AliveAt T x
  inst : ∀ x ∈ T.Instances, Tracked T x
  pend : ∀ x ∈ T.PendingRemovals, x < T.NumAllocated ∧ (T.Heap x).bAlive = false

/-- Every pointer held by the tile refers to an allocated instance. -/
def PointersValid (T : UProceduralFoliageTile) : Prop :=
  (∀ x ∈ T.Instances, x < T.NumAllocated) ∧
  (∀ x ∈ T.Broadphase, x < T.NumAllocated) ∧
  (∀ x ∈ T.PendingRemovals, x < T.NumAllocated)

/-- What a piece of a step may do to the tile: it allocates, it kills, and it leaves
`Instances`, the step counter and the configuration alone. -/
structure Evolves (T T' : UProceduralFoliageTile) : Prop where
  alloc_le : T.NumAllocated ≤ T'.NumAllocated
  instances_eq : T'.Instances = T.Instances
  step_eq : T'.SimulationStep = T.SimulationStep
  foliage_eq : T'.ProceduralFoliage = T.ProceduralFoliage
  tracked : ∀ y, Tracked T y → Tracked T' y
  dead_stays : ∀ y, y < T.NumAllocated → (T.Heap y).bAlive = false →
    (T'.Heap y).bAlive = false
  nodup : T.Broadphase.Nodup → T'.Broadphase.Nodup
  data_eq : ∀ y, y < T.NumAllocated →
    (T'.Heap y).TerminateInstance = (T.Heap y).TerminateInstance
  pending_mono : ∀ y ∈ T.PendingRemovals, y ∈ T'.PendingRemovals

/-- The state of `NewSeed` after `new` and `Broadphase.Insert`, before `HandleOverlaps`. -/
def NewSeedInserted (E : Engine) (T : UProceduralFoliageTile) (Location : FVector) (Scale : ℚ)
    (Type_ : UFoliageType_InstancedStaticMesh) (InAge : ℚ) (bBlocker : Bool) :
    UProceduralFoliageTile :=
  { T with
    Heap := Function.update T.Heap T.NumAllocated
      { Location := Location
        Rotation := (T.RandomStream.FRandRange E 0 (2 * PI)).1
        Age := InAge
        Type_ := Type_
        Normal := { X := 0, Y := 0, Z := 1 }
        Scale := Scale
        bBlocker := bBlocker
        bAlive := true
        BaseComponent := none }
    NumAllocated := T.NumAllocated + 1
    RandomStream := (T.RandomStream.FRandRange E 0 (2 * PI)).2
    Broadphase := BroadphaseInsert T.Broadphase T.NumAllocated }

/-- Invariant of the loops that collect new instances in a local array: the tile is
consistent and every collected address is tracked. -/
def LoopInv (A : UProceduralFoliageTile × List Nat) : Prop :=
  Consistent A.1 ∧ ∀ x ∈ A.2, Tracked A.1 x

/-- What `RemoveInstance` and the flush leave alone. -/
structure FlushFrame (T T' : UProceduralFoliageTile) : Prop where
  alloc_eq : T'.NumAllocated = T.NumAllocated
  step_eq : T'.SimulationStep = T.SimulationStep
  foliage_eq : T'.ProceduralFoliage = T.ProceduralFoliage
  stream_eq : T'.RandomStream = T.RandomStream
  dead_stays : ∀ y, (T.Heap y).bAlive = false → (T'.Heap y).bAlive = false
  instances_sub : ∀ y ∈ T'.Instances, y ∈ T.Instances
  nodup : T.Broadphase.Nodup → T'.Broadphase.Nodup
  data_eq : ∀ y, (T'.Heap y).TerminateInstance = (T.Heap y).TerminateInstance

/-! ## A concrete configuration

One species, an engine with plain disk geometry and the "less fit" domination rule, and a
few tile states. They are the inputs at which the theorems below are instantiated. -/

/-- Radius of the disk of an instance: species radius times scale. -/
def DemoRadius (I : FProceduralFoliageInstance) : ℚ :=
  I.Type_.GetMaxRadius * I.Scale

/-- The less fit of two instances: a blocker always wins, then the older one, then the
larger one. -/
def DemoDominates (A B : FProceduralFoliageInstance) (_K : ESimulationOverlap) : EDominated :=
  if A.bBlocker then EDominated.Second
  else if B.bBlocker then EDominated.First
  else if A.Age = B.Age then
    (if A.Scale < B.Scale then EDominated.First else EDominated.Second)
  else if A.Age < B.Age then EDominated.First else EDominated.Second

/-- Two disks overlap when the distance of the centres is at most the sum of the radii. -/
def DemoOverlapTest (A B : FProceduralFoliageInstance) : Option ESimulationOverlap :=
  if (A.Location.X - B.Location.X) * (A.Location.X - B.Location.X)
      + (A.Location.Y - B.Location.Y) * (A.Location.Y - B.Location.Y)
      ≤ (DemoRadius A + DemoRadius B) * (DemoRadius A + DemoRadius B) then some 0
  else none

/-- An engine: a counter as random stream with constant fraction one half, a Gaussian draw
of zero, a direction along the X axis (cosine 1, sine 0), disk overlaps, and the less-fit
rule. All its values are floats. -/
def DemoEngine : Engine where
  MutateSeed := fun S => S + 1
  GetFraction := fun _ => 1 / 2
  Cos := fun _ => 1
  Sin := fun _ => 0
  Sqrt := fun _ => 0
  Loge := fun _ => 0
  OverlapTest := DemoOverlapTest
  InBoxTest := fun Box I =>
    decide (Box.Min.X ≤ I.Location.X ∧ I.Location.X ≤ Box.Max.X
      ∧ Box.Min.Y ≤ I.Location.Y ∧ I.Location.Y ≤ Box.Max.Y)
  Dominates := DemoDominates
  GetMaxRadius := DemoRadius

/-- A species of radius 10 whose seeds start at age 5, with a flat growth curve, two seeds
per step and no spread beyond the minimum clearance. -/
def DemoType : UFoliageType_InstancedStaticMesh where
  NumSteps := 3
  SeedsPerStep := 2
  MaxAge := 0
  SpreadVariance := 0
  AverageSpreadDistance := 0
  HeightMin := 0
  HeightMax := 100
  GroundSlope := 45
  GetMaxRadius := 10
  GetSeedDensitySquared := 1
  GetNextAge := fun Age _ => Age
  GetScaleForAge := fun _ => 1
  GetInitAge := fun S => (5, S)

/-- The asset: tile size 1000 and the one species. -/
def DemoFoliage : UProceduralFoliage where
  TileSize := 1000
  GetTypes := [{ TypeInstance := some DemoType }]

/-- An instance of the species at the point `(X, Y)` with the given age. -/
def DemoInstance (X Y Age : ℚ) (bBlocker bAlive : Bool) : FProceduralFoliageInstance where
  Location := { X := X, Y := Y, Z := 0 }
  Rotation := 0
  Age := Age
  Type_ := DemoType
  Normal := { X := 0, Y := 0, Z := 1 }
  Scale := 1
  bBlocker := bBlocker
  bAlive := bAlive
  BaseComponent := none

/-- A freshly constructed tile: nothing allocated, all containers empty. -/
def DemoEmptyTile : UProceduralFoliageTile where
  Heap := fun _ => DemoInstance 0 0 0 false false
  NumAllocated := 0
  Instances := []
  PendingRemovals := []
  InstancesArray := []
  Broadphase := []
  RandomStream := { Seed := 0 }
  SimulationStep := 0
  ProceduralFoliage := DemoFoliage

/-- A tile between two steps that holds one alive instance of age 1 at the origin. -/
def DemoParentTile : UProceduralFoliageTile where
  Heap := fun _ => DemoInstance 0 0 1 false true
  NumAllocated := 1
  Instances := [0]
  PendingRemovals := []
  InstancesArray := []
  Broadphase := [0]
  RandomStream := { Seed := 0 }
  SimulationStep := 1
  ProceduralFoliage := DemoFoliage

/-- The non-null domination results over a list of overlaps, evaluated in the heap `H`. -/
def DominatedList (E : Engine) (H : Nat → FProceduralFoliageInstance)
    (Overlaps : List FProceduralFoliageOverlap) : List Nat :=
  Overlaps.filterMap (fun O => Domination E H O.A O.B O.OverlapType)

/-- Two tile states that agree except for the storage at address `N` (and for the
allocation counter, the random stream and the pending set). -/
structure AgreeExceptAt (N : Nat) (T T' : UProceduralFoliageTile) : Prop where
  instances_eq : T'.Instances = T.Instances
  broadphase_eq : T'.Broadphase = T.Broadphase
  heap_eq : ∀ y, y ≠ N → T'.Heap y = T.Heap y

/-- A tile in the middle of a step: the alive instance of age 1 at the origin, and a dead instance
at `(100, 0)` that is still a member of `Instances` and waits in
`PendingRemovals`. -/
def DemoPendingTile : UProceduralFoliageTile where
  Heap := fun x => if x = 0 then DemoInstance 0 0 1 false true
    else DemoInstance 100 0 1 false false
  NumAllocated := 2
  Instances := [0, 1]
  PendingRemovals := [1]
  InstancesArray := []
  Broadphase := [0]
  RandomStream := { Seed := 0 }
  SimulationStep := 1
  ProceduralFoliage := DemoFoliage

/-- The bound of the claim on the step count, in the words of the claim: the maximum of 0
and `NumSteps + 1` over all species with a non-null type instance. -/
def SpecMaxSteps (P : UProceduralFoliage) : Int :=
  (P.GetTypes.filterMap (fun D => D.TypeInstance)).foldr
    (fun TypeInstance M => max (TypeInstance.NumSteps + 1) M) 0

/-- The step count `K` of the claim: `min(m, MaxNumSteps)` if `MaxNumSteps >= 0`, and `m`
if `MaxNumSteps < 0`. -/
def SpecStepCount (P : UProceduralFoliage) (MaxNumSteps : Int) : Int :=
  if MaxNumSteps ≥ 0 then min (SpecMaxSteps P) MaxNumSteps else SpecMaxSteps P

/-- The one-instance tile for a species whose mean spread distance is `-5`, so that the
sampled offset falls short of the minimum clearance. -/
def DemoShortTile : UProceduralFoliageTile where
  Heap := fun _ =>
    { DemoInstance 0 0 1 false true with
      Type_ := { DemoType with AverageSpreadDistance := -5 } }
  NumAllocated := 1
  Instances := [0]
  PendingRemovals := []
  InstancesArray := []
  Broadphase := [0]
  RandomStream := { Seed := 0 }
  SimulationStep := 1
  ProceduralFoliage := DemoFoliage

/-- A world that is flat ground at the given height, hit from above with a vertical normal
and without hit actor. -/
def DemoWorld (Height : ℚ) : UWorld where
  SweepSingle := fun Start _ _ =>
    some { Actor := none
           ImpactPoint := { X := Start.X, Y := Start.Y, Z := Height }
           ImpactNormal := { X := 0, Y := 0, Z := 1 }
           Component := none }

/-- The identity transform. -/
def DemoIdentity : FTransform where
  TransformPosition := fun V => V
  GetLocation := { X := 0, Y := 0, Z := 0 }

/-- The one-instance tile after `NewSeed` has allocated and indexed a candidate of age 5 at
the point `(15, 0)`, whose disk overlaps the one of the instance at the origin: the state on
which `NewSeed` calls `HandleOverlaps` for the candidate at address 1. -/
def DemoSeedTile : UProceduralFoliageTile :=
  NewSeedInserted DemoEngine DemoParentTile { X := 15, Y := 0, Z := 0 } 1 DemoType 5 false

/-- The engine of the examples with the direction `(0.6f, 0.8f)`: the floats nearest to
`3/5` and `4/5`. -/
def DemoObliqueEngine : Engine :=
  { DemoEngine with Cos := fun _ => 5033165 / 8388608, Sin := fun _ => 13421773 / 16777216 }

/-- The seed loop `for (int32 i = 0; i < NumSeeds; ++i)` of `AddRandomSeeds` for one
species, entered with the counter at `i`; the comparison is made in floats. `Fuel` bounds
the number of passes. -/
def AddRandomSeedsLoop (E : Engine) (TypeInstance : UFoliageType_InstancedStaticMesh)
    (NumSeeds : ℚ) : Nat → Int → UProceduralFoliageTile × List Nat →
    UProceduralFoliageTile × List Nat
  | 0, _, A => A
  | Fuel + 1, i, A =>
    if Float32.ofInt i < NumSeeds then
      AddRandomSeedsLoop E TypeInstance NumSeeds Fuel (i + 1)
        (AddRandomSeedsAttempt E TypeInstance A)
    else A

/-- The total number of seed attempts of the seeding step, in the words of the claim: a
species with a type instance makes the smallest non-negative integer count `n` with
`n >= GetSeedDensitySquared * TileSize^2 / 10^6` attempts (exact arithmetic), a species
without one makes none. -/
def SpecSeedAttempts (P : UProceduralFoliage) : Nat :=
  (P.GetTypes.map (fun D =>
    match D.TypeInstance with
    | some Ty =>
      (Int.ceil (Ty.GetSeedDensitySquared * (P.TileSize * P.TileSize) / 1000000)).toNat
    | none => 0)).sum

/-- The float `NumSeeds` of `AddRandomSeeds` for a species and a tile size. -/
def AddRandomSeedsNumSeeds (TypeInstance : UFoliageType_InstancedStaticMesh) (TileSize : ℚ) :
    ℚ :=
  Float32.mul TypeInstance.GetSeedDensitySquared
    (Float32.div (Float32.mul TileSize TileSize) (Float32.mul 1000 1000))

/-- The total number of passes of the seed loops of `AddRandomSeeds`: the loop count of the
float `NumSeeds` for a species with a type instance, none for a species without one. -/
def SeedAttempts (P : UProceduralFoliage) : Nat :=
  (P.GetTypes.map (fun D =>
    match D.TypeInstance with
    | some Ty => LoopCount (AddRandomSeedsNumSeeds Ty P.TileSize)
    | none => 0)).sum

/-- The asset with the one species at a density of four seeds per tile and no step after
the seeding step. -/
def DemoFourSeeds : UProceduralFoliage where
  TileSize := 1000
  GetTypes := [{ TypeInstance := some { DemoType with NumSteps := 0, GetSeedDensitySquared := 4 } }]

/-- The instance `I` of the receiving tile carries the data that `AddInstances` passes to
`NewSeed` for the source instance `Inst`: the blocker flag of the test, the transformed
location, and scale, age and species of the source. -/
def IsCopyOf (E : Engine) (RelativeTM : FTransform) (InnerLocalAABB : FBox2D)
    (Inst I : FProceduralFoliageInstance) : Prop :=
  I.bBlocker = AddInstancesIsBlocker E InnerLocalAABB Inst ∧
  I.Location = RelativeTM.TransformPosition Inst.Location ∧
  I.Scale = Inst.Scale ∧ I.Age = Inst.Age ∧ I.Type_ = Inst.Type_

/-- The instance `Child` is the aged version of `Parent` as `AgeSeeds` passes it to
`NewSeed`: same location and species, age `GetNextAge(age, 1)`, the scale of the new age,
and no blocker. -/
def AgedFrom (Parent Child : FProceduralFoliageInstance) : Prop :=
  Child.Location = Parent.Location ∧ Child.Type_ = Parent.Type_ ∧
  Child.Age = Parent.Type_.GetNextAge Parent.Age 1 ∧
  Child.Scale = Parent.Type_.GetScaleForAge (Parent.Type_.GetNextAge Parent.Age 1) ∧
  Child.bBlocker = false

/-- A species without spreading whose instances grow: the age advances by one per step and
the scale is the age. -/
def DemoGrowType : UFoliageType_InstancedStaticMesh :=
  { DemoType with
    SeedsPerStep := 0
    GetNextAge := fun Age NumSteps => Age + NumSteps
    GetScaleForAge := fun Age => Age }

/-- A tile between two steps with two alive instances of the growing species, of age and
scale 1 (radius 10), at the points `(0, 0)` and `(25, 0)`: their disks do not overlap. -/
def DemoGrowTile : UProceduralFoliageTile where
  Heap := fun x =>
    if x = 0 then { DemoInstance 0 0 1 false true with Type_ := DemoGrowType }
    else { DemoInstance 25 0 1 false true with Type_ := DemoGrowType }
  NumAllocated := 2
  Instances := [0, 1]
  PendingRemovals := []
  InstancesArray := []
  Broadphase := [0, 1]
  RandomStream := { Seed := 0 }
  SimulationStep := 1
  ProceduralFoliage := { TileSize := 1000, GetTypes := [{ TypeInstance := some DemoGrowType }] }

/-- A tile between two steps with two alive instances of the growing species, of age and
scale 1 (radius 10), at the points `(0, 0)` and `(100, 0)`: their disks stay apart when the
instances age (radius 20 each). -/
def DemoFarTile : UProceduralFoliageTile :=
  { DemoGrowTile with
    Heap := fun x =>
      if x = 0 then { DemoInstance 0 0 1 false true with Type_ := DemoGrowType }
      else { DemoInstance 100 0 1 false true with Type_ := DemoGrowType } }

/-- No aged instance of the tile is in a domination relation with another instance: for a
member `x` of `Instances` and another indexed instance `y`, whenever the aged version of `x`
overlaps `y` or, for a member `y`, the aged version of `y`, the domination function
suppresses neither. -/
def AgingUndisturbed (E : Engine) (T : UProceduralFoliageTile) : Prop :=
  ∀ x ∈ T.Instances, ∀ y ∈ T.Broadphase, x ≠ y →
    ∀ (I J : FProceduralFoliageInstance) (K : ESimulationOverlap),
      AgedFrom (T.Heap x) I → (J = T.Heap y ∨ (y ∈ T.Instances ∧ AgedFrom (T.Heap y) J)) →
      E.OverlapTest I J = some K → E.Dominates I J K = EDominated.Neither

/-- A species whose instances shrink with age: the age advances by one per step up to the
horizon `MaxAge = 3`, the scale is `10 - age`, and the seeds (initial age 5) are spread 5
beyond the minimum clearance. -/
def DemoShrinkType : UFoliageType_InstancedStaticMesh :=
  { DemoType with
    MaxAge := 3
    AverageSpreadDistance := 5
    GetNextAge := fun Age NumSteps => Age + NumSteps
    GetScaleForAge := fun Age => 10 - Age }

/-- A tile between two steps that holds one alive instance of the shrinking species, of age
1 and scale 9, at the origin. -/
def DemoShrinkTile : UProceduralFoliageTile where
  Heap := fun _ => { DemoInstance 0 0 1 false true with Type_ := DemoShrinkType, Scale := 9 }
  NumAllocated := 1
  Instances := [0]
  PendingRemovals := []
  InstancesArray := []
  Broadphase := [0]
  RandomStream := { Seed := 0 }
  SimulationStep := 1
  ProceduralFoliage :=
    { TileSize := 1000, GetTypes := [{ TypeInstance := some DemoShrinkType }] }

/-- The example engine with a random stream that walks a grid: the draws of the `n`-th seed
of `AddRandomSeeds` (seeds `3n+1`, `3n+2`, `3n+3` of the counter) give the fractions
`(n mod 16) / 16` for X and `(n div 16) / 16` for Y. -/
def DemoGridEngine : Engine :=
  { DemoEngine with
    GetFraction := fun S =>
      if S % 3 = 1 then (((S / 3) % 16 : Int) : ℚ) / 16
      else if S % 3 = 2 then (((S / 3) / 16 : Int) : ℚ) / 16
      else 0 }

/-- An asset with tile size 300 and one species of radius 5 with the given seed density. -/
def DemoDenseFoliage (Density : ℚ) : UProceduralFoliage where
  TileSize := 300
  GetTypes :=
    [{ TypeInstance := some { DemoType with GetMaxRadius := 5, GetSeedDensitySquared := Density } }]

/-- The fresh tile with the asset of tile size 300. -/
def DemoDenseTile (Density : ℚ) : UProceduralFoliageTile :=
  { DemoEmptyTile with ProceduralFoliage := DemoDenseFoliage Density }

/-! ## Joining a tile with its neighbours -/

/-- Engine constant `FTransform::Identity`. -/
def FTransform.Identity : FTransform where
  TransformPosition := fun V => V
  GetLocation := { X := 0, Y := 0, Z := 0 }

/-- Engine constructor `FTransform(const FVector& InTranslation)`: the translation. -/
def FTransform.ofTranslation (InTranslation : FVector) : FTransform where
  TransformPosition := fun V => V.add InTranslation
  GetLocation := InTranslation

/-- The box `OuterLocalAABB` of `CopyTileInstances`. -/
def CopyTileOuterBox (InnerLocalAABB : FBox2D) (Overlap : ℚ) : FBox2D :=
  { Min := InnerLocalAABB.Min
    Max := { X := InnerLocalAABB.Max.X + Overlap, Y := InnerLocalAABB.Max.Y + Overlap }
    bIsValid := true }

/-- The box `RightBox` of `SpawnTiles`. -/
def SpawnTilesRightBox (InnerBox : FBox2D) (Overlap : ℚ) : FBox2D :=
  { Min := { X := -Overlap, Y := InnerBox.Min.Y }
    Max := { X := Overlap, Y := InnerBox.Max.Y }
    bIsValid := true }

/-- The box `TopBox` of `SpawnTiles`. -/
def SpawnTilesTopBox (InnerBox : FBox2D) (Overlap : ℚ) : FBox2D :=
  { Min := { X := InnerBox.Min.X, Y := -Overlap }
    Max := { X := InnerBox.Max.X, Y := Overlap }
    bIsValid := true }

/-- The box `TopRightBox` of `SpawnTiles`. -/
def SpawnTilesTopRightBox (Overlap : ℚ) : FBox2D :=
  { Min := { X := -Overlap, Y := -Overlap }
    Max := { X := Overlap, Y := Overlap }
    bIsValid := true }

/-- The pointer `RightTile` of `SpawnTiles` for the cell `(X, Y)`; `GetRandomTile` is the
tile the asset hands out for a cell. -/
def SpawnTilesRightTile (GetRandomTile : Int → Int → UProceduralFoliageTile)
    (X Y TilesX : Int) : Option UProceduralFoliageTile :=
  if X + 1 < TilesX then some (GetRandomTile (X + 1) Y) else none

/-- The pointer `TopTile` of `SpawnTiles` for the cell `(X, Y)`. -/
def SpawnTilesTopTile (GetRandomTile : Int → Int → UProceduralFoliageTile)
    (X Y TilesY : Int) : Option UProceduralFoliageTile :=
  if Y + 1 < TilesY then some (GetRandomTile X (Y + 1)) else none

/-- The pointer `TopRightTile` of `SpawnTiles` for the cell `(X, Y)`. -/
def SpawnTilesTopRightTile (GetRandomTile : Int → Int → UProceduralFoliageTile)
    (X Y TilesX TilesY : Int) : Option UProceduralFoliageTile :=
  if (SpawnTilesRightTile GetRandomTile X Y TilesX).isSome
      && (SpawnTilesTopTile GetRandomTile X Y TilesY).isSome then
    some (GetRandomTile (X + 1) (Y + 1))
  else none

/-- The statement `if (RightTile) { ... }` of `SpawnTiles`. -/
def SpawnTilesCopyRight (E : Engine) (RightTile : Option UProceduralFoliageTile)
    (JTile : UProceduralFoliageTile) (InnerBox : FBox2D) (InnerTileSize Overlap : ℚ) :
    UProceduralFoliageTile :=
  match RightTile with
  | some R =>
    CopyTileInstances E R JTile (SpawnTilesRightBox InnerBox Overlap)
      (FTransform.ofTranslation { X := InnerTileSize, Y := 0, Z := 0 }) Overlap
  | none => JTile

/-- The statement `if (TopTile) { ... }` of `SpawnTiles`. -/
def SpawnTilesCopyTop (E : Engine) (TopTile : Option UProceduralFoliageTile)
    (JTile : UProceduralFoliageTile) (InnerBox : FBox2D) (InnerTileSize Overlap : ℚ) :
    UProceduralFoliageTile :=
  match TopTile with
  | some R =>
    CopyTileInstances E R JTile (SpawnTilesTopBox InnerBox Overlap)
      (FTransform.ofTranslation { X := 0, Y := InnerTileSize, Z := 0 }) Overlap
  | none => JTile

/-- The statement `if (TopRightTile) { ... }` of `SpawnTiles`. -/
def SpawnTilesCopyTopRight (E : Engine) (TopRightTile : Option UProceduralFoliageTile)
    (JTile : UProceduralFoliageTile) (InnerTileSize Overlap : ℚ) : UProceduralFoliageTile :=
  match TopRightTile with
  | some R =>
    CopyTileInstances E R JTile (SpawnTilesTopRightBox Overlap)
      (FTransform.ofTranslation { X := InnerTileSize, Y := InnerTileSize, Z := 0 }) Overlap
  | none => JTile

/-- The copies of `SpawnTiles` into the joined tile `JTile` of the cell `(X, Y)`, up to and
including `InstancesToArray`: the inner tile, then the right, top and top-right neighbour
where the grid has one. -/
def SpawnTilesJoin (E : Engine) (GetRandomTile : Int → Int → UProceduralFoliageTile)
    (JTile : UProceduralFoliageTile) (X Y TilesX TilesY : Int) (InnerTileSize Overlap : ℚ) :
    UProceduralFoliageTile :=
  let InnerBox := GetTileRegion X Y TilesX TilesY InnerTileSize Overlap
  let J1 := CopyTileInstances E (GetRandomTile X Y) JTile InnerBox FTransform.Identity Overlap
  let J2 := SpawnTilesCopyRight E (SpawnTilesRightTile GetRandomTile X Y TilesX) J1 InnerBox
    InnerTileSize Overlap
  let J3 := SpawnTilesCopyTop E (SpawnTilesTopTile GetRandomTile X Y TilesY) J2 InnerBox
    InnerTileSize Overlap
  let J4 := SpawnTilesCopyTopRight E (SpawnTilesTopRightTile GetRandomTile X Y TilesX TilesY) J3
    InnerTileSize Overlap
  InstancesToArray J4

/-- The state of the tile on entry to the pass of the loop of `AddInstances` for the input
with index `k`. -/
def AddInstancesAt (E : Engine) (T : UProceduralFoliageTile)
    (NewInstances : List FProceduralFoliageInstance) (RelativeTM : FTransform)
    (InnerLocalAABB : FBox2D) (k : Nat) : UProceduralFoliageTile :=
  (NewInstances.take k).foldl (AddInstancesBody E RelativeTM InnerLocalAABB) T

/-- The state on which `NewSeed` calls `HandleOverlaps` in the pass of the loop of
`AddInstances` for the input `Inst`, entered in the state `U`. -/
def AddInstancesCallSite (E : Engine) (U : UProceduralFoliageTile)
    (Inst : FProceduralFoliageInstance) (RelativeTM : FTransform) (InnerLocalAABB : FBox2D) :
    UProceduralFoliageTile :=
  NewSeedInserted E U (RelativeTM.TransformPosition Inst.Location) Inst.Scale Inst.Type_
    Inst.Age (AddInstancesIsBlocker E InnerLocalAABB Inst)

/-- The tile of cell `(0, 0)`: one instance of age 1 at the local point `(990, 500)`. -/
def DemoLeftTile : UProceduralFoliageTile where
  Heap := fun _ => DemoInstance 990 500 1 false true
  NumAllocated := 1
  Instances := [0]
  PendingRemovals := []
  InstancesArray := []
  Broadphase := [0]
  RandomStream := { Seed := 0 }
  SimulationStep := 4
  ProceduralFoliage := DemoFoliage

/-- A right neighbour with one instance of age 1 at the local point `(10, 500)`. -/
def DemoSeamTile : UProceduralFoliageTile where
  Heap := fun _ => DemoInstance 10 500 1 false true
  NumAllocated := 1
  Instances := [0]
  PendingRemovals := []
  InstancesArray := []
  Broadphase := [0]
  RandomStream := { Seed := 0 }
  SimulationStep := 4
  ProceduralFoliage := DemoFoliage

/-- A right neighbour with two instances whose disks are apart: one of age 5 at the local
point `(5, 500)` and one of age 1 at `(10, 530)`. -/
def DemoRightTile : UProceduralFoliageTile where
  Heap := fun x => if x = 0 then DemoInstance 5 500 5 false true
    else DemoInstance 10 530 1 false true
  NumAllocated := 2
  Instances := [0, 1]
  PendingRemovals := []
  InstancesArray := []
  Broadphase := [0, 1]
  RandomStream := { Seed := 0 }
  SimulationStep := 4
  ProceduralFoliage := DemoFoliage

/-- A grid whose cell `(0, 0)` holds the tile with the instance at `(990, 500)` and whose other
cells hold the given tile. -/
def DemoGrid (Other : UProceduralFoliageTile) : Int → Int → UProceduralFoliageTile :=
  fun X _ => if X = 0 then DemoLeftTile else Other

/-! ## Two runs side by side -/

/-- Two tile states that are the same up to the addresses handed out by `new`: the second
one holds every pointer of the first one moved by `d`, the instances allocated since the
address `N0` have the same data, and every pointer held refers to one of those. -/
structure Shifted (d N0 : Nat) (T T' : UProceduralFoliageTile) : Prop where
  alloc : T'.NumAllocated = T.NumAllocated + d
  base : N0 ≤ T.NumAllocated
  inst : T'.Instances = T.Instances.map (fun x => x + d)
  pend : T'.PendingRemovals = T.PendingRemovals.map (fun x => x + d)
  bp : T'.Broadphase = T.Broadphase.map (fun x => x + d)
  stream : T'.RandomStream = T.RandomStream
  step : T'.SimulationStep = T.SimulationStep
  foliage : T'.ProceduralFoliage = T.ProceduralFoliage
  heap : ∀ x, N0 ≤ x → x < T.NumAllocated → T'.Heap (x + d) = T.Heap x
  valid : ∀ x, x ∈ T.Instances ∨ x ∈ T.PendingRemovals ∨ x ∈ T.Broadphase →
    N0 ≤ x ∧ x < T.NumAllocated

/-- The relation `Shifted` for a tile together with a local array of pointers. -/
structure PairShifted (d N0 : Nat) (A A' : UProceduralFoliageTile × List Nat) : Prop where
  tile : Shifted d N0 A.1 A'.1
  seeds : A'.2 = A.2.map (fun x => x + d)
  valid : ∀ s ∈ A.2, N0 ≤ s ∧ s < A.1.NumAllocated

/-- An overlap with both pointers moved by `d`. -/
def FProceduralFoliageOverlap.shift (d : Nat) (O : FProceduralFoliageOverlap) :
    FProceduralFoliageOverlap :=
  { A := O.A + d, B := O.B + d, OverlapType := O.OverlapType }

theorem Float32.roundNE_bounds (x : ℚ) :
    Int.floor x ≤ Float32.roundNE x ∧ Float32.roundNE x ≤ Int.floor x + 1 := by
  unfold Float32.roundNE
  split
  · omega
  · split
    · omega
    · split <;> omega

theorem Float32.roundNE_intCast (n : Int) : Float32.roundNE (n : ℚ) = n := by
  unfold Float32.roundNE
  rw [Int.floor_intCast, sub_self, if_pos (by norm_num)]

theorem Float32.roundNE_mono {x y : ℚ} (h : x ≤ y) : Float32.roundNE x ≤ Float32.roundNE y := by
  have hf : Int.floor x ≤ Int.floor y := Int.floor_mono h
  rcases lt_or_eq_of_le hf with hlt | heq
  · have h1 := (Float32.roundNE_bounds x).2
    have h2 := (Float32.roundNE_bounds y).1
    omega
  · have hr : x - (Int.floor x : ℚ) ≤ y - (Int.floor y : ℚ) := by
      rw [heq]
      linarith
    unfold Float32.roundNE
    rw [heq] at hr ⊢
    by_cases h1 : x - (Int.floor y : ℚ) < 1 / 2
    · rw [if_pos h1]
      split
      · exact le_refl _
      · split
        · omega
        · split <;> omega
    · rw [if_neg h1]
      have h1' : ¬ (y - (Int.floor y : ℚ) < 1 / 2) := fun hc => h1 (lt_of_le_of_lt hr hc)
      rw [if_neg h1']
      by_cases h2 : 1 / 2 < x - (Int.floor y : ℚ)
      · rw [if_pos h2, if_pos (lt_of_lt_of_le h2 hr)]
      · rw [if_neg h2]
        split
        · split <;> omega
        · split <;> omega

theorem Float32.binadeSearch_spec (n d : Nat) :
    ∀ k j : Nat, j ≤ 253 →
      (∀ i : Nat, i < j → ¬ 170141183460469231731687303715884105728 * d ≤ n * 2 ^ i) →
      (253 ≤ j + 2 ^ k - 1 ∨
        170141183460469231731687303715884105728 * d ≤ n * 2 ^ (j + 2 ^ k - 1)) →
      Float32.binadeSearch n d k j ≤ 253 ∧
      (∀ i : Nat, i < Float32.binadeSearch n d k j →
        ¬ 170141183460469231731687303715884105728 * d ≤ n * 2 ^ i) ∧
      (Float32.binadeSearch n d k j < 253 →
        170141183460469231731687303715884105728 * d ≤
          n * 2 ^ Float32.binadeSearch n d k j) := by
  intro k
  induction k with
  | zero =>
    intro j hj hlow hhigh
    unfold Float32.binadeSearch
    refine ⟨hj, hlow, ?_⟩
    intro h
    rcases hhigh with h1 | h1
    · simp at h1
      omega
    · simpa using h1
  | succ k ih =>
    intro j hj hlow hhigh
    unfold Float32.binadeSearch
    have hpow : 2 ^ (k + 1) = 2 ^ k + 2 ^ k := by rw [pow_succ]; omega
    have hpos : 0 < 2 ^ k := Nat.pos_of_ne_zero (by positivity)
    by_cases hc : j + 2 ^ k ≤ 253 ∧
        ¬ 170141183460469231731687303715884105728 * d ≤ n * 2 ^ (j + 2 ^ k - 1)
    · rw [if_pos hc]
      apply ih (j + 2 ^ k) hc.1
      · intro i hi hcon
        apply hc.2
        refine le_trans hcon (Nat.mul_le_mul_left _ ?_)
        exact Nat.pow_le_pow_right (by decide) (by omega)
      · have e : j + 2 ^ k + 2 ^ k - 1 = j + 2 ^ (k + 1) - 1 := by omega
        rw [e]
        exact hhigh
    · rw [if_neg hc]
      apply ih j hj hlow
      by_cases h1 : j + 2 ^ k ≤ 253
      · right
        by_contra h2
        exact hc ⟨h1, h2⟩
      · left
        omega

theorem Float32.binadeExp_spec (n d : Nat) :
    Float32.binadeExp n d ≤ 253 ∧
      (∀ i : Nat, i < Float32.binadeExp n d →
        ¬ 170141183460469231731687303715884105728 * d ≤ n * 2 ^ i) ∧
      (Float32.binadeExp n d < 253 →
        170141183460469231731687303715884105728 * d ≤ n * 2 ^ Float32.binadeExp n d) :=
  Float32.binadeSearch_spec n d 8 0 (by decide)
    (fun i hi => absurd hi (Nat.not_lt_zero _)) (Or.inl (by decide))

/-- The comparison of the binade search, read in the rationals. -/
theorem Float32.binadeExp_test (a : ℚ) (i : Nat) :
    170141183460469231731687303715884105728 * a.den ≤ a.num.toNat * 2 ^ i ↔
      (170141183460469231731687303715884105728 : ℚ) / 2 ^ i ≤ a := by
  have hd : (0 : ℚ) < (a.den : ℚ) := by exact_mod_cast a.den_pos
  have hp : (0 : ℚ) < 2 ^ i := by positivity
  rw [div_le_iff₀ hp]
  by_cases hn : 0 ≤ a.num
  · have ha : a = (a.num.toNat : ℚ) / (a.den : ℚ) := by
      have h1 : ((a.num.toNat : Nat) : Int) = a.num := Int.toNat_of_nonneg hn
      have h2 : ((a.num.toNat : Nat) : ℚ) = (a.num : ℚ) := by exact_mod_cast congrArg (Int.cast : Int → ℚ) h1
      rw [h2]
      exact (Rat.num_div_den a).symm
    constructor
    · intro h
      have h' : (170141183460469231731687303715884105728 : ℚ) * (a.den : ℚ) ≤
          (a.num.toNat : ℚ) * 2 ^ i := by exact_mod_cast h
      rw [ha, div_mul_eq_mul_div, le_div_iff₀ hd]
      exact h'
    · intro h
      rw [ha, div_mul_eq_mul_div, le_div_iff₀ hd] at h
      exact_mod_cast h
  · have hneg : a < 0 := by
      rw [← Rat.num_neg]
      omega
    have h0 : a.num.toNat = 0 := by omega
    constructor
    · intro h
      rw [h0, zero_mul] at h
      have := a.den_pos
      omega
    · intro h
      have : a * 2 ^ i < 0 := mul_neg_of_neg_of_pos hneg hp
      linarith

/-- The binade of `a`: `2^127` halved `j` times, where `j` is the first count at which the
power of two is at most `a`, or 253 (the binade of the subnormal numbers). -/
theorem Float32.binade_spec (a : ℚ) :
    ∃ j : Nat, j ≤ 253 ∧
      Float32.binade a = 170141183460469231731687303715884105728 / 2 ^ j ∧
      (∀ i : Nat, i < j → a < 170141183460469231731687303715884105728 / 2 ^ i) ∧
      (j < 253 → 170141183460469231731687303715884105728 / 2 ^ j ≤ a) := by
  obtain ⟨h2, h3, h4⟩ := Float32.binadeExp_spec a.num.toNat a.den
  refine ⟨Float32.binadeExp a.num.toNat a.den, h2, ?_, ?_, ?_⟩
  · unfold Float32.binade
    push_cast
    rfl
  · intro i hi
    have := h3 i hi
    rw [Float32.binadeExp_test] at this
    exact lt_of_not_le this
  · intro h
    exact (Float32.binadeExp_test a _).1 (h4 h)

theorem Float32.ulp_pos (a : ℚ) : 0 < Float32.ulp a := by
  obtain ⟨j, _, he, _, _⟩ := Float32.binade_spec a
  unfold Float32.ulp
  rw [he]
  positivity

theorem Float32.roundAbs_nonneg {a : ℚ} (h : 0 ≤ a) : 0 ≤ Float32.roundAbs a := by
  unfold Float32.roundAbs
  apply le_min
  · apply mul_nonneg
    · have := Float32.roundNE_mono (div_nonneg h (le_of_lt (Float32.ulp_pos a)))
      rw [show (0 : ℚ) = ((0 : Int) : ℚ) by norm_num, Float32.roundNE_intCast] at this
      exact_mod_cast this
    · exact le_of_lt (Float32.ulp_pos a)
  · norm_num

theorem Float32.round_zero : Float32.round 0 = 0 := by decide!

/-- A value that is a whole number of units in the last place of its binade is a float. -/
theorem Float32.roundAbs_of_int_mul_ulp {a : ℚ} (m : Int) (h : a = (m : ℚ) * Float32.ulp a)
    (hle : a ≤ 340282366920938463463374607431768211456) : Float32.roundAbs a = a := by
  unfold Float32.roundAbs
  have hu := Float32.ulp_pos a
  have hd : a / Float32.ulp a = (m : ℚ) := by
    rw [div_eq_iff (ne_of_gt hu)]
    exact h
  rw [hd, Float32.roundNE_intCast, ← h]
  exact min_eq_left hle

/-- The counters up to `2^24` are floats: the conversion of the counter is exact. -/
theorem Float32.ofInt_of_le (n : Nat) (h : n ≤ 16777216) : Float32.ofInt (n : Int) = (n : ℚ) := by
  unfold Float32.ofInt Float32.round
  have h0 : (0 : ℚ) ≤ ((n : Int) : ℚ) := by positivity
  rw [if_pos h0]
  have hc : (((n : Int) : ℚ)) = (n : ℚ) := by push_cast; rfl
  rw [hc]
  rcases Nat.eq_zero_or_pos n with hz | hpos
  · subst hz
    have : Float32.roundAbs 0 = 0 := by decide!
    simpa using this
  obtain ⟨j, hj, he, hlt, hle⟩ := Float32.binade_spec (n : ℚ)
  have h1 : (1 : ℚ) ≤ (n : ℚ) := by exact_mod_cast hpos
  have hn : (n : ℚ) ≤ 16777216 := by exact_mod_cast h
  have hj127 : j ≤ 127 := by
    by_contra hcon
    have := hlt 127 (by omega)
    norm_num at this
    linarith
  have hj103 : 103 ≤ j := by
    by_contra hcon
    have h2 := hle (by omega)
    have h3 : (2 : ℚ) ^ j ≤ 2 ^ 102 := pow_le_pow_right₀ (by norm_num) (by omega)
    have h4 : (170141183460469231731687303715884105728 : ℚ) / 2 ^ 102 ≤
        170141183460469231731687303715884105728 / 2 ^ j :=
      div_le_div_of_nonneg_left (by norm_num) (by positivity) h3
    norm_num at h4
    linarith
  have hu : Float32.ulp (n : ℚ) = 170141183460469231731687303715884105728 / 2 ^ j / 8388608 := by
    unfold Float32.ulp
    rw [he]
  rcases Nat.eq_or_lt_of_le hj103 with hj' | hj'
  · -- the top binade: `n = 2^24`
    subst hj'
    have h2 := hle (by omega)
    norm_num at h2
    have hn' : (n : ℚ) = 16777216 := le_antisymm hn (by exact_mod_cast h2)
    apply Float32.roundAbs_of_int_mul_ulp 8388608
    · rw [hu, hn']
      norm_num
    · linarith
  · have hp : (2 : ℚ) ^ j = 2 ^ 104 * 2 ^ (j - 104) := by
      rw [← pow_add]
      congr 1
      omega
    apply Float32.roundAbs_of_int_mul_ulp ((n : Int) * 2 ^ (j - 104))
    · rw [hu, hp]
      push_cast
      have : (0 : ℚ) < 2 ^ (j - 104) := by positivity
      field_simp
      norm_num
      ring
    · linarith

/-! ## The counter of the seed loop -/

theorem LoopCountFrom_spec (q : ℚ) :
    ∀ Fuel i : Nat, i ≤ LoopCountFrom q Fuel i ∧ LoopCountFrom q Fuel i ≤ i + Fuel ∧
      (∀ j : Nat, i ≤ j → j < LoopCountFrom q Fuel i → Float32.ofInt (j : Int) < q) ∧
      (LoopCountFrom q Fuel i < i + Fuel →
        ¬ Float32.ofInt ((LoopCountFrom q Fuel i : Nat) : Int) < q) := by
  intro Fuel
  induction Fuel with
  | zero =>
    intro i
    refine ⟨le_refl _, le_refl _, ?_, ?_⟩
    · intro j h1 h2
      unfold LoopCountFrom at h2
      omega
    · intro h
      unfold LoopCountFrom at h
      omega
  | succ F ih =>
    intro i
    unfold LoopCountFrom
    by_cases hc : Float32.ofInt (i : Int) < q
    · rw [if_pos hc]
      obtain ⟨h1, h2, h3, h4⟩ := ih (i + 1)
      refine ⟨by omega, by omega, ?_, ?_⟩
      · intro j hj1 hj2
        rcases Nat.eq_or_lt_of_le hj1 with he | hl
        · rw [← he]
          exact hc
        · exact h3 j hl hj2
      · intro h
        exact h4 (by omega)
    · rw [if_neg hc]
      refine ⟨le_refl _, by omega, ?_, ?_⟩
      · intro j h1 h2
        omega
      · intro _
        exact hc

/-- The number of passes of the seed loop: every counter below it passes the comparison
with the float bound, and the counter at which the loop is left fails it, unless the
counter has run through the non-negative `int32` values. -/
theorem LoopCount_spec (q : ℚ) :
    LoopCount q ≤ 2147483648 ∧
    (∀ j : Nat, j < LoopCount q → Float32.ofInt (j : Int) < q) ∧
    (LoopCount q < 2147483648 → ¬ Float32.ofInt ((LoopCount q : Nat) : Int) < q) := by
  obtain ⟨_, h2, h3, h4⟩ := LoopCountFrom_spec q 2147483648 0
  refine ⟨by simpa [LoopCount] using h2, ?_, ?_⟩
  · intro j hj
    exact h3 j (Nat.zero_le _) hj
  · intro h
    exact h4 (by simpa [LoopCount] using h)

/-- For a float bound up to `2^24` the seed loop makes the smallest natural number of
passes that is at least the bound. -/
theorem LoopCount_eq_ceil (q : ℚ) (h : q ≤ 16777216) : LoopCount q = (Int.ceil q).toNat := by
  obtain ⟨_, h3, h4⟩ := LoopCount_spec q
  have hc : Int.ceil q ≤ 16777216 := Int.ceil_le.2 (by exact_mod_cast h)
  have hq : q ≤ (((Int.ceil q).toNat : Nat) : ℚ) := by
    have h1 : q ≤ ((Int.ceil q : Int) : ℚ) := Int.le_ceil q
    have h2 : (Int.ceil q : Int) ≤ ((Int.ceil q).toNat : Int) := Int.self_le_toNat _
    have h2' : ((Int.ceil q : Int) : ℚ) ≤ (((Int.ceil q).toNat : Int) : ℚ) := by
      exact_mod_cast h2
    calc q ≤ ((Int.ceil q : Int) : ℚ) := h1
      _ ≤ (((Int.ceil q).toNat : Int) : ℚ) := h2'
      _ = (((Int.ceil q).toNat : Nat) : ℚ) := by push_cast; rfl
  apply le_antisymm
  · by_contra hcon
    have hlt : (Int.ceil q).toNat < LoopCount q := Nat.lt_of_not_le hcon
    have := h3 _ hlt
    rw [Float32.ofInt_of_le _ (by omega)] at this
    linarith
  · by_contra hcon
    have hlt : LoopCount q < (Int.ceil q).toNat := Nat.lt_of_not_le hcon
    have h5 := h4 (by omega)
    rw [Float32.ofInt_of_le _ (by omega), not_lt] at h5
    have h6 : Int.ceil q ≤ ((LoopCount q : Nat) : Int) := Int.ceil_le.2 (by exact_mod_cast h5)
    omega

theorem LoopCount_of_nonpos (q : ℚ) (h : q ≤ 0) : LoopCount q = 0 := by
  rw [LoopCount_eq_ceil q (by linarith)]
  have : Int.ceil q ≤ 0 := Int.ceil_le.2 (by exact_mod_cast h)
  omega

theorem LoopCount_zero : LoopCount 0 = 0 := LoopCount_of_nonpos 0 (le_refl _)


/-! ## The tolerance of the clearance test -/

/-- The binade is determined by the two comparisons of the search. -/
theorem Float32.binade_unique (a : ℚ) (j : Nat) (hj : j ≤ 253)
    (hlow : j < 253 → (170141183460469231731687303715884105728 : ℚ) / 2 ^ j ≤ a)
    (hhigh : ∀ i : Nat, i < j → a < 170141183460469231731687303715884105728 / 2 ^ i) :
    Float32.binade a = 170141183460469231731687303715884105728 / 2 ^ j := by
  obtain ⟨j', hj', he, hlt, hle⟩ := Float32.binade_spec a
  rw [he]
  rcases Nat.lt_trichotomy j' j with h | h | h
  · have h1 := hle (by omega)
    have h2 := hhigh j' h
    linarith
  · rw [h]
  · have h1 := hlow (by omega)
    have h2 := hlt j h
    linarith

theorem Float32.pow_two_antitone {i j : Nat} (h : i ≤ j) :
    (170141183460469231731687303715884105728 : ℚ) / 2 ^ j ≤
      170141183460469231731687303715884105728 / 2 ^ i := by
  apply div_le_div_of_nonneg_left (by norm_num) (by positivity)
  exact pow_le_pow_right₀ (by norm_num) h

/-- A rounded value of at least `1/4` below the overflow threshold is a whole number of
units in the last place of its own binade, which is at least `2^-2`. -/
theorem Float32.roundAbs_is_float (a : ℚ) (h1 : 1 / 4 ≤ Float32.roundAbs a)
    (h2 : Float32.roundAbs a < 340282366920938463463374607431768211456) :
    ∃ (j : Nat) (m : Int), j ≤ 129 ∧ m < 16777216 ∧
      Float32.binade (Float32.roundAbs a) = 170141183460469231731687303715884105728 / 2 ^ j ∧
      Float32.roundAbs a =
        (m : ℚ) * (170141183460469231731687303715884105728 / 2 ^ j / 8388608) := by
  obtain ⟨ja, hja, hea, hlta, hlea⟩ := Float32.binade_spec a
  have hua : Float32.ulp a = 170141183460469231731687303715884105728 / 2 ^ ja / 8388608 := by
    unfold Float32.ulp
    rw [hea]
  have hupos := Float32.ulp_pos a
  have hx : Float32.roundAbs a = (Float32.roundNE (a / Float32.ulp a) : ℚ) * Float32.ulp a := by
    unfold Float32.roundAbs at h2 ⊢
    rcases min_choice ((Float32.roundNE (a / Float32.ulp a) : ℚ) * Float32.ulp a)
      340282366920938463463374607431768211456 with h | h
    · exact h
    · rw [h] at h2
      exact absurd h2 (lt_irrefl _)
  have hpa : (0 : ℚ) < 170141183460469231731687303715884105728 / 2 ^ ja := by positivity
  -- the quotient is below 2^24 + 1
  have hk_hi : Float32.roundNE (a / Float32.ulp a) ≤ 16777216 := by
    rcases Nat.eq_zero_or_pos ja with hz | hpos
    · -- the top binade: a larger quotient would overflow
      by_contra hcon
      have hk : (16777217 : ℚ) ≤ (Float32.roundNE (a / Float32.ulp a) : ℚ) := by
        have : (16777217 : Int) ≤ Float32.roundNE (a / Float32.ulp a) := by omega
        exact_mod_cast this
      have : (16777217 : ℚ) * Float32.ulp a ≤ Float32.roundAbs a := by
        rw [hx]
        exact mul_le_mul_of_nonneg_right hk (le_of_lt hupos)
      rw [hua, hz] at this
      norm_num at this
      linarith
    · have ha2 := hlta (ja - 1) (by omega)
      have hpow : (2 : ℚ) ^ ja = 2 ^ (ja - 1) * 2 := by
        rw [← pow_succ]
        congr 1
        omega
      have hq : a / Float32.ulp a ≤ ((16777216 : Int) : ℚ) := by
        rw [hua, hpow, div_le_iff₀ (by positivity)]
        have : ((16777216 : Int) : ℚ) *
            (170141183460469231731687303715884105728 / (2 ^ (ja - 1) * 2) / 8388608) =
            170141183460469231731687303715884105728 / 2 ^ (ja - 1) := by
          field_simp
          ring
        rw [this]
        exact le_of_lt ha2
      have := Float32.roundNE_mono hq
      rw [Float32.roundNE_intCast] at this
      exact this
  have hk_lo : ja < 253 → (8388608 : Int) ≤ Float32.roundNE (a / Float32.ulp a) := by
    intro hlt
    have hage : (170141183460469231731687303715884105728 : ℚ) / 2 ^ ja ≤ a := hlea hlt
    have hq : ((8388608 : Int) : ℚ) ≤ a / Float32.ulp a := by
      rw [hua, le_div_iff₀ (by positivity)]
      have : ((8388608 : Int) : ℚ) *
          (170141183460469231731687303715884105728 / 2 ^ ja / 8388608) =
          170141183460469231731687303715884105728 / 2 ^ ja := by
        field_simp
        ring
      rw [this]
      exact hage
    have := Float32.roundNE_mono hq
    rw [Float32.roundNE_intCast] at this
    exact this
  generalize Float32.roundNE (a / Float32.ulp a) = k at hx hk_hi hk_lo
  rw [hua] at hx
  by_cases hk24 : k = 16777216
  · -- the value is the next power of two
    have hxv : Float32.roundAbs a = 170141183460469231731687303715884105728 / 2 ^ ja * 2 := by
      rw [hx, hk24]
      push_cast
      field_simp
      ring
    have hja1 : 1 ≤ ja := by
      by_contra hcon
      have hz : ja = 0 := by omega
      rw [hxv, hz] at h2
      norm_num at h2
    have hpow : (2 : ℚ) ^ ja = 2 ^ (ja - 1) * 2 := by
      rw [← pow_succ]
      congr 1
      omega
    have hxv' : Float32.roundAbs a = 170141183460469231731687303715884105728 / 2 ^ (ja - 1) := by
      rw [hxv, hpow]
      field_simp
      ring
    have hj129 : ja - 1 ≤ 129 := by
      by_contra hcon
      have : (170141183460469231731687303715884105728 : ℚ) / 2 ^ (ja - 1) ≤
          170141183460469231731687303715884105728 / 2 ^ 130 :=
        Float32.pow_two_antitone (by omega)
      rw [← hxv'] at this
      norm_num at this
      linarith
    refine ⟨ja - 1, 8388608, hj129, by norm_num, ?_, ?_⟩
    · apply Float32.binade_unique _ _ (by omega)
      · intro _
        rw [hxv']
      · intro i hi
        rw [hxv']
        apply div_lt_div_of_pos_left (by norm_num) (by positivity)
        exact pow_lt_pow_right₀ (by norm_num) hi
    · rw [hxv']
      push_cast
      field_simp
      ring
  · have hklt : k < 16777216 := by omega
    have hklt' : (k : ℚ) < 16777216 := by exact_mod_cast hklt
    have hxlt : Float32.roundAbs a < 170141183460469231731687303715884105728 / 2 ^ ja * 2 := by
      rw [hx]
      calc (k : ℚ) * (170141183460469231731687303715884105728 / 2 ^ ja / 8388608)
          < 16777216 * (170141183460469231731687303715884105728 / 2 ^ ja / 8388608) :=
            mul_lt_mul_of_pos_right hklt' (by positivity)
        _ = 170141183460469231731687303715884105728 / 2 ^ ja * 2 := by
            field_simp
            ring
    have hj129 : ja ≤ 129 := by
      by_contra hcon
      have h3 : (170141183460469231731687303715884105728 : ℚ) / 2 ^ ja ≤
          170141183460469231731687303715884105728 / 2 ^ 130 :=
        Float32.pow_two_antitone (by omega)
      norm_num at h3
      linarith
    have hkge : (8388608 : ℚ) ≤ (k : ℚ) := by exact_mod_cast hk_lo (by omega)
    have hxge : (170141183460469231731687303715884105728 : ℚ) / 2 ^ ja ≤ Float32.roundAbs a := by
      rw [hx]
      calc (170141183460469231731687303715884105728 : ℚ) / 2 ^ ja
          = 8388608 * (170141183460469231731687303715884105728 / 2 ^ ja / 8388608) := by
            field_simp
            ring
        _ ≤ (k : ℚ) * (170141183460469231731687303715884105728 / 2 ^ ja / 8388608) :=
            mul_le_mul_of_nonneg_right hkge (by positivity)
    refine ⟨ja, k, hj129, hklt, ?_, hx⟩
    apply Float32.binade_unique _ _ hja
    · intro _
      exact hxge
    · intro i hi
      have h3 : (170141183460469231731687303715884105728 : ℚ) / 2 ^ (ja - 1) ≤
          170141183460469231731687303715884105728 / 2 ^ i :=
        Float32.pow_two_antitone (by omega)
      have hpow : (2 : ℚ) ^ ja = 2 ^ (ja - 1) * 2 := by
        rw [← pow_succ]
        congr 1
        omega
      have h4 : (170141183460469231731687303715884105728 : ℚ) / 2 ^ ja * 2 =
          170141183460469231731687303715884105728 / 2 ^ (ja - 1) := by
        rw [hpow]
        field_simp
        ring
      linarith

/-- The tolerance is absorbed: adding `SMALL_NUMBER` to a float of at least `1/4` gives the
same float. -/
theorem Float32.roundAbs_add_small (a : ℚ) (h1 : 1 / 4 ≤ Float32.roundAbs a)
    (h2 : Float32.roundAbs a < 340282366920938463463374607431768211456) :
    Float32.add (Float32.roundAbs a) SMALL_NUMBER = Float32.roundAbs a := by
  obtain ⟨j, m, hj, hm, hb, hx⟩ := Float32.roundAbs_is_float a h1 h2
  have hs : SMALL_NUMBER = 11258999 / 1125899906842624 := by decide!
  generalize Float32.roundAbs a = x at h1 h2 hb hx
  have hupos : (0 : ℚ) < 170141183460469231731687303715884105728 / 2 ^ j / 8388608 := by
    positivity
  -- the unit in the last place is at least 2^-25
  have hu : (1 : ℚ) / 33554432 ≤ 170141183460469231731687303715884105728 / 2 ^ j / 8388608 := by
    have h3 : (170141183460469231731687303715884105728 : ℚ) / 2 ^ 129 ≤
        170141183460469231731687303715884105728 / 2 ^ j := Float32.pow_two_antitone hj
    have h4 : (170141183460469231731687303715884105728 : ℚ) / 2 ^ 129 / 8388608 ≤
        170141183460469231731687303715884105728 / 2 ^ j / 8388608 :=
      div_le_div_of_nonneg_right h3 (by norm_num)
    norm_num at h4 ⊢
    linarith
  have hxs : Float32.binade (x + 11258999 / 1125899906842624) =
      170141183460469231731687303715884105728 / 2 ^ j := by
    obtain ⟨j', hj', he', hlt', hle'⟩ := Float32.binade_spec x
    have hjj : j' = j := by
      have hpos2 : (0 : ℚ) < 2 ^ j := by positivity
      have hpos2' : (0 : ℚ) < 2 ^ j' := by positivity
      have e : (170141183460469231731687303715884105728 : ℚ) / 2 ^ j' =
          170141183460469231731687303715884105728 / 2 ^ j := by rw [← he', hb]
      rw [div_eq_div_iff (ne_of_gt hpos2') (ne_of_gt hpos2)] at e
      have e2 : (2 : ℚ) ^ j = 2 ^ j' := mul_left_cancel₀ (by norm_num) e
      exact (pow_right_injective₀ (by norm_num) (by norm_num) e2).symm
    subst hjj
    apply Float32.binade_unique _ _ hj'
    · intro h
      have := hle' h
      linarith
    · intro i hi
      -- x is at most (2^24 - 1) units, below the next power of two by one unit
      have h3 : (170141183460469231731687303715884105728 : ℚ) / 2 ^ (j' - 1) ≤
          170141183460469231731687303715884105728 / 2 ^ i :=
        Float32.pow_two_antitone (by omega)
      have hpow : (2 : ℚ) ^ j' = 2 ^ (j' - 1) * 2 := by
        rw [← pow_succ]
        congr 1
        omega
      have h4 : (170141183460469231731687303715884105728 : ℚ) / 2 ^ (j' - 1) =
          16777216 * (170141183460469231731687303715884105728 / 2 ^ j' / 8388608) := by
        rw [hpow]
        field_simp
        ring
      have hm' : (m : ℚ) ≤ 16777215 := by
        have : m ≤ 16777215 := by omega
        exact_mod_cast this
      have h5 : x ≤ 16777215 * (170141183460469231731687303715884105728 / 2 ^ j' / 8388608) := by
        rw [hx]
        exact mul_le_mul_of_nonneg_right hm' (le_of_lt hupos)
      linarith
  have hxpos : (0 : ℚ) ≤ x + 11258999 / 1125899906842624 := by linarith
  unfold Float32.add Float32.round
  rw [hs, if_pos hxpos]
  unfold Float32.roundAbs Float32.ulp
  rw [hxs]
  have hq : (x + 11258999 / 1125899906842624) /
      (170141183460469231731687303715884105728 / 2 ^ j / 8388608) =
      (m : ℚ) + (11258999 / 1125899906842624) /
        (170141183460469231731687303715884105728 / 2 ^ j / 8388608) := by
    rw [add_div]
    congr 1
    rw [div_eq_iff (ne_of_gt hupos)]
    exact hx
  have hfrac0 : (0 : ℚ) ≤ (11258999 / 1125899906842624) /
      (170141183460469231731687303715884105728 / 2 ^ j / 8388608) := by positivity
  have hfrac : (11258999 / 1125899906842624 : ℚ) /
      (170141183460469231731687303715884105728 / 2 ^ j / 8388608) < 1 / 2 := by
    rw [div_lt_iff₀ hupos]
    linarith
  have hfl : Int.floor ((m : ℚ) + (11258999 / 1125899906842624) /
      (170141183460469231731687303715884105728 / 2 ^ j / 8388608)) = m := by
    rw [Int.floor_eq_iff]
    constructor
    · linarith
    · linarith
  have hr : Float32.roundNE ((m : ℚ) + (11258999 / 1125899906842624) /
      (170141183460469231731687303715884105728 / 2 ^ j / 8388608)) = m := by
    unfold Float32.roundNE
    rw [hfl, if_pos (by linarith)]
  rw [hq, hr, ← hx]
  exact min_eq_left (le_of_lt h2)

/-- The tolerance is absorbed: adding `SMALL_NUMBER` to a rounded value of at least `1/4`
gives the same value. -/
theorem Float32.round_add_small (a : ℚ) (h1 : 1 / 4 ≤ Float32.round a)
    (h2 : Float32.round a < 340282366920938463463374607431768211456) :
    Float32.add (Float32.round a) SMALL_NUMBER = Float32.round a := by
  unfold Float32.round at h1 h2 ⊢
  by_cases ha : 0 ≤ a
  · rw [if_pos ha] at h1 h2 ⊢
    exact Float32.roundAbs_add_small a h1 h2
  · rw [if_neg ha] at h1
    have := Float32.roundAbs_nonneg (show (0 : ℚ) ≤ -a by linarith)
    linarith

/-! ## Containers -/

theorem mem_TSetAdd {S : List Nat} {x y : Nat} : y ∈ TSetAdd S x ↔ y ∈ S ∨ y = x := by
  unfold TSetAdd
  split
  · constructor
    · intro h; exact Or.inl h
    · rintro (h | rfl)
      · exact h
      · assumption
  · simp

theorem mem_TSetRemove {S : List Nat} {x y : Nat} : y ∈ TSetRemove S x ↔ y ∈ S ∧ y ≠ x := by
  simp [TSetRemove]

theorem mem_BroadphaseInsert {S : List Nat} {x y : Nat} :
    y ∈ BroadphaseInsert S x ↔ y ∈ S ∨ y = x := by
  unfold BroadphaseInsert
  split
  · constructor
    · intro h; exact Or.inl h
    · rintro (h | rfl)
      · exact h
      · assumption
  · simp

theorem mem_BroadphaseRemove {S : List Nat} {x y : Nat} :
    y ∈ BroadphaseRemove S x ↔ y ∈ S ∧ y ≠ x := by
  simp [BroadphaseRemove]

theorem mem_foldl_TSetAdd (L : List Nat) (S : List Nat) (y : Nat) :
    y ∈ L.foldl TSetAdd S ↔ y ∈ S ∨ y ∈ L := by
  induction L generalizing S with
  | nil => simp
  | cons a L ih =>
    rw [List.foldl_cons, ih, mem_TSetAdd]
    simp only [List.mem_cons]
    tauto

/-! ## Evolution of the tile inside a step -/

theorem BroadphaseInsert_nodup (BP : List Nat) (x : Nat) (h : BP.Nodup) :
    (BroadphaseInsert BP x).Nodup := by
  unfold BroadphaseInsert
  split
  · exact h
  · rename_i hx
    rw [List.nodup_append]
    refine ⟨h, List.nodup_singleton x, ?_⟩
    intro a ha hb
    rw [List.mem_singleton] at hb
    exact hx (hb ▸ ha)

theorem BroadphaseRemove_nodup (BP : List Nat) (x : Nat) (h : BP.Nodup) :
    (BroadphaseRemove BP x).Nodup :=
  List.Nodup.filter _ h

theorem TerminateInstance_idem (I : FProceduralFoliageInstance) :
    I.TerminateInstance.TerminateInstance = I.TerminateInstance := rfl

theorem Evolves.refl (T : UProceduralFoliageTile) : Evolves T T :=
  ⟨le_refl _, rfl, rfl, rfl, fun _ h => h, fun _ _ h => h, fun h => h, fun _ _ => rfl,
   fun _ h => h⟩

theorem Evolves.trans {T1 T2 T3 : UProceduralFoliageTile} (h12 : Evolves T1 T2)
    (h23 : Evolves T2 T3) : Evolves T1 T3 :=
  ⟨le_trans h12.alloc_le h23.alloc_le,
   h23.instances_eq.trans h12.instances_eq,
   h23.step_eq.trans h12.step_eq,
   h23.foliage_eq.trans h12.foliage_eq,
   fun y h => h23.tracked y (h12.tracked y h),
   fun y hy hd => h23.dead_stays y (lt_of_lt_of_le hy h12.alloc_le) (h12.dead_stays y hy hd),
   fun h => h23.nodup (h12.nodup h),
   fun y hy => (h23.data_eq y (lt_of_lt_of_le hy h12.alloc_le)).trans (h12.data_eq y hy),
   fun y hy => h23.pending_mono y (h12.pending_mono y hy)⟩

/-! ## MarkPendingRemoval -/

theorem MarkPendingRemoval_of_alive (T : UProceduralFoliageTile) (x : Nat)
    (h : (T.Heap x).bAlive = true) :
    MarkPendingRemoval T x =
      { T with
        Broadphase := BroadphaseRemove T.Broadphase x
        Heap := Function.update T.Heap x (T.Heap x).TerminateInstance
        PendingRemovals := TSetAdd T.PendingRemovals x } := by
  simp [MarkPendingRemoval, FProceduralFoliageInstance.IsAlive, h]

theorem MarkPendingRemoval_of_dead (T : UProceduralFoliageTile) (x : Nat)
    (h : (T.Heap x).bAlive = false) : MarkPendingRemoval T x = T := by
  simp [MarkPendingRemoval, FProceduralFoliageInstance.IsAlive, h]

theorem MarkPendingRemoval_alive_iff (T : UProceduralFoliageTile) (x y : Nat) :
    ((MarkPendingRemoval T x).Heap y).bAlive = true ↔ (T.Heap y).bAlive = true ∧ y ≠ x := by
  cases h : (T.Heap x).bAlive
  · rw [MarkPendingRemoval_of_dead T x h]
    constructor
    · intro hy
      refine ⟨hy, ?_⟩
      rintro rfl
      rw [h] at hy
      exact Bool.noConfusion hy
    · exact fun hy => hy.1
  · rw [MarkPendingRemoval_of_alive T x h]
    by_cases hyx : y = x
    · subst hyx
      simp [FProceduralFoliageInstance.TerminateInstance]
    · simp [Function.update_noteq hyx, hyx]

theorem MarkPendingRemoval_heap_of_ne (T : UProceduralFoliageTile) (x y : Nat) (hyx : y ≠ x) :
    (MarkPendingRemoval T x).Heap y = T.Heap y := by
  cases h : (T.Heap x).bAlive
  · rw [MarkPendingRemoval_of_dead T x h]
  · rw [MarkPendingRemoval_of_alive T x h]
    simp [Function.update_noteq hyx]

theorem MarkPendingRemoval_mem_broadphase (T : UProceduralFoliageTile) (x y : Nat)
    (hx : (T.Heap x).bAlive = true ∨ x ∉ T.Broadphase) :
    y ∈ (MarkPendingRemoval T x).Broadphase ↔ y ∈ T.Broadphase ∧ y ≠ x := by
  cases h : (T.Heap x).bAlive
  · rw [MarkPendingRemoval_of_dead T x h]
    constructor
    · intro hy
      refine ⟨hy, ?_⟩
      rintro rfl
      rcases hx with hx | hx
      · rw [h] at hx; exact Bool.noConfusion hx
      · exact hx hy
    · exact fun hy => hy.1
  · rw [MarkPendingRemoval_of_alive T x h]
    exact mem_BroadphaseRemove

theorem MarkPendingRemoval_mem_pending (T : UProceduralFoliageTile) (x y : Nat) :
    y ∈ (MarkPendingRemoval T x).PendingRemovals ↔
      y ∈ T.PendingRemovals ∨ (y = x ∧ (T.Heap x).bAlive = true) := by
  cases h : (T.Heap x).bAlive
  · rw [MarkPendingRemoval_of_dead T x h]; simp
  · rw [MarkPendingRemoval_of_alive T x h]; simp [mem_TSetAdd]

theorem MarkPendingRemoval_numAllocated (T : UProceduralFoliageTile) (x : Nat) :
    (MarkPendingRemoval T x).NumAllocated = T.NumAllocated := by
  unfold MarkPendingRemoval; split <;> rfl

theorem MarkPendingRemoval_instances (T : UProceduralFoliageTile) (x : Nat) :
    (MarkPendingRemoval T x).Instances = T.Instances := by
  unfold MarkPendingRemoval; split <;> rfl

theorem MarkPendingRemoval_randomStream (T : UProceduralFoliageTile) (x : Nat) :
    (MarkPendingRemoval T x).RandomStream = T.RandomStream := by
  unfold MarkPendingRemoval; split <;> rfl

theorem MarkPendingRemoval_evolves (T : UProceduralFoliageTile) (x : Nat) :
    Evolves T (MarkPendingRemoval T x) := by
  refine ⟨?_, MarkPendingRemoval_instances T x, ?_, ?_, ?_, ?_, ?_, ?_, ?_⟩
  rotate_right 3
  · intro h
    unfold MarkPendingRemoval
    split
    · exact BroadphaseRemove_nodup _ _ h
    · exact h
  · intro y _
    by_cases hyx : y = x
    · subst hyx
      cases h : (T.Heap y).bAlive
      · rw [MarkPendingRemoval_of_dead T y h]
      · rw [MarkPendingRemoval_of_alive T y h]
        simp [FProceduralFoliageInstance.TerminateInstance]
    · rw [MarkPendingRemoval_heap_of_ne T x y hyx]
  · intro y hy
    exact (MarkPendingRemoval_mem_pending T x y).2 (Or.inl hy)
  · rw [MarkPendingRemoval_numAllocated]
  · unfold MarkPendingRemoval; split <;> rfl
  · unfold MarkPendingRemoval; split <;> rfl
  · intro y hy
    refine ⟨by rw [MarkPendingRemoval_numAllocated]; exact hy.1, ?_⟩
    rw [MarkPendingRemoval_alive_iff, MarkPendingRemoval_mem_pending]
    rcases hy.2 with h | h
    · by_cases hyx : y = x
      · subst hyx; exact Or.inr (Or.inr ⟨rfl, h⟩)
      · exact Or.inl ⟨h, hyx⟩
    · exact Or.inr (Or.inl h)
  · intro y _ hd
    cases h : ((MarkPendingRemoval T x).Heap y).bAlive
    · rfl
    · rw [MarkPendingRemoval_alive_iff] at h
      rw [hd] at h
      exact Bool.noConfusion h.1

theorem MarkPendingRemoval_consistent (T : UProceduralFoliageTile) (x : Nat)
    (hC : Consistent T) (hx : x < T.NumAllocated) : Consistent (MarkPendingRemoval T x) := by
  refine ⟨?_, ?_, ?_⟩
  · intro y
    have hx' : (T.Heap x).bAlive = true ∨ x ∉ T.Broadphase := by
      cases h : (T.Heap x).bAlive
      · right
        intro hm
        have := ((hC.bp_iff x).1 hm).2
        rw [h] at this
        exact Bool.noConfusion this
      · left; rfl
    rw [MarkPendingRemoval_mem_broadphase T x y hx', hC.bp_iff y]
    unfold AliveAt
    rw [MarkPendingRemoval_numAllocated, MarkPendingRemoval_alive_iff]
    tauto
  · intro y hy
    rw [MarkPendingRemoval_instances] at hy
    exact (MarkPendingRemoval_evolves T x).tracked y (hC.inst y hy)
  · intro y hy
    rw [MarkPendingRemoval_mem_pending] at hy
    rw [MarkPendingRemoval_numAllocated]
    rcases hy with hy | ⟨rfl, _⟩
    · refine ⟨(hC.pend y hy).1, ?_⟩
      exact (MarkPendingRemoval_evolves T x).dead_stays y (hC.pend y hy).1 (hC.pend y hy).2
    · refine ⟨hx, ?_⟩
      cases h : ((MarkPendingRemoval T y).Heap y).bAlive
      · rfl
      · rw [MarkPendingRemoval_alive_iff] at h
        exact absurd rfl h.2

/-! ## HandleOverlaps -/

theorem mem_BroadphaseGetOverlaps {E : Engine} {H : Nat → FProceduralFoliageInstance}
    {BP : List Nat} {I : Nat} {O : FProceduralFoliageOverlap}
    (h : O ∈ BroadphaseGetOverlaps E H BP I) :
    O.A = I ∧ O.B ∈ BP ∧ O.B ≠ I ∧ E.OverlapTest (H I) (H O.B) = some O.OverlapType := by
  unfold BroadphaseGetOverlaps at h
  rw [List.mem_filterMap] at h
  obtain ⟨b, hb, hO⟩ := h
  by_cases hbI : b = I
  · simp [hbI] at hO
  · rw [if_neg hbI] at hO
    cases hk : E.OverlapTest (H I) (H b) with
    | none => rw [hk] at hO; simp at hO
    | some k =>
      rw [hk] at hO
      simp only [Option.map_some', Option.some.injEq] at hO
      subst hO
      exact ⟨rfl, hb, hbI, hk⟩

theorem Domination_cases (E : Engine) (H : Nat → FProceduralFoliageInstance) (A B : Nat)
    (K : ESimulationOverlap) :
    Domination E H A B K = none ∨ Domination E H A B K = some A ∨
      Domination E H A B K = some B := by
  unfold Domination
  cases E.Dominates (H A) (H B) K <;> simp

theorem HandleOverlapsMark_evolves (E : Engine) (T : UProceduralFoliageTile)
    (O : FProceduralFoliageOverlap) : Evolves T (HandleOverlapsMark E T O) := by
  unfold HandleOverlapsMark
  split
  · exact MarkPendingRemoval_evolves T _
  · exact Evolves.refl T

theorem HandleOverlapsMark_numAllocated (E : Engine) (T : UProceduralFoliageTile)
    (O : FProceduralFoliageOverlap) :
    (HandleOverlapsMark E T O).NumAllocated = T.NumAllocated := by
  unfold HandleOverlapsMark
  split
  · exact MarkPendingRemoval_numAllocated T _
  · rfl

theorem HandleOverlapsMark_randomStream (E : Engine) (T : UProceduralFoliageTile)
    (O : FProceduralFoliageOverlap) :
    (HandleOverlapsMark E T O).RandomStream = T.RandomStream := by
  unfold HandleOverlapsMark
  split
  · exact MarkPendingRemoval_randomStream T _
  · rfl

theorem HandleOverlapsMark_consistent (E : Engine) (T : UProceduralFoliageTile)
    (O : FProceduralFoliageOverlap) (hC : Consistent T) (hA : O.A < T.NumAllocated)
    (hB : O.B < T.NumAllocated) : Consistent (HandleOverlapsMark E T O) := by
  unfold HandleOverlapsMark
  split
  · rename_i d hd
    rcases Domination_cases E T.Heap O.A O.B O.OverlapType with h | h | h
    · rw [h] at hd; exact Option.noConfusion hd
    · rw [h] at hd
      cases hd
      exact MarkPendingRemoval_consistent T _ hC hA
    · rw [h] at hd
      cases hd
      exact MarkPendingRemoval_consistent T _ hC hB
  · exact hC

theorem foldl_HandleOverlapsMark_evolves (E : Engine) (L : List FProceduralFoliageOverlap)
    (T : UProceduralFoliageTile) : Evolves T (L.foldl (HandleOverlapsMark E) T) := by
  induction L generalizing T with
  | nil => exact Evolves.refl T
  | cons O L ih => exact (HandleOverlapsMark_evolves E T O).trans (ih _)

theorem foldl_HandleOverlapsMark_numAllocated (E : Engine)
    (L : List FProceduralFoliageOverlap) (T : UProceduralFoliageTile) :
    (L.foldl (HandleOverlapsMark E) T).NumAllocated = T.NumAllocated := by
  induction L generalizing T with
  | nil => rfl
  | cons O L ih => rw [List.foldl_cons, ih, HandleOverlapsMark_numAllocated]

theorem foldl_HandleOverlapsMark_randomStream (E : Engine)
    (L : List FProceduralFoliageOverlap) (T : UProceduralFoliageTile) :
    (L.foldl (HandleOverlapsMark E) T).RandomStream = T.RandomStream := by
  induction L generalizing T with
  | nil => rfl
  | cons O L ih => rw [List.foldl_cons, ih, HandleOverlapsMark_randomStream]

theorem foldl_HandleOverlapsMark_consistent (E : Engine) (L : List FProceduralFoliageOverlap)
    (T : UProceduralFoliageTile) (hC : Consistent T)
    (hL : ∀ O ∈ L, O.A < T.NumAllocated ∧ O.B < T.NumAllocated) :
    Consistent (L.foldl (HandleOverlapsMark E) T) := by
  induction L generalizing T with
  | nil => exact hC
  | cons O L ih =>
    rw [List.foldl_cons]
    apply ih
    · exact HandleOverlapsMark_consistent E T O hC (hL O (List.mem_cons_self _ _)).1
        (hL O (List.mem_cons_self _ _)).2
    · intro O' hO'
      rw [HandleOverlapsMark_numAllocated]
      exact hL O' (List.mem_cons_of_mem _ hO')

theorem HandleOverlaps_evolves (E : Engine) (T : UProceduralFoliageTile) (I : Nat) :
    Evolves T (HandleOverlaps E T I).2 := by
  unfold HandleOverlaps
  simp only
  split
  · exact foldl_HandleOverlapsMark_evolves E _ T
  · exact MarkPendingRemoval_evolves T I

theorem HandleOverlaps_numAllocated (E : Engine) (T : UProceduralFoliageTile) (I : Nat) :
    (HandleOverlaps E T I).2.NumAllocated = T.NumAllocated := by
  unfold HandleOverlaps
  simp only
  split
  · exact foldl_HandleOverlapsMark_numAllocated E _ T
  · exact MarkPendingRemoval_numAllocated T I

theorem HandleOverlaps_randomStream (E : Engine) (T : UProceduralFoliageTile) (I : Nat) :
    (HandleOverlaps E T I).2.RandomStream = T.RandomStream := by
  unfold HandleOverlaps
  simp only
  split
  · exact foldl_HandleOverlapsMark_randomStream E _ T
  · exact MarkPendingRemoval_randomStream T I

theorem HandleOverlaps_consistent (E : Engine) (T : UProceduralFoliageTile) (I : Nat)
    (hC : Consistent T) (hI : I < T.NumAllocated) : Consistent (HandleOverlaps E T I).2 := by
  unfold HandleOverlaps
  simp only
  split
  · apply foldl_HandleOverlapsMark_consistent E _ T hC
    intro O hO
    obtain ⟨hA, hB, _, _⟩ := mem_BroadphaseGetOverlaps hO
    exact ⟨hA ▸ hI, ((hC.bp_iff O.B).1 hB).1⟩
  · exact MarkPendingRemoval_consistent T I hC hI

/-! ## NewSeed -/

theorem NewSeed_eq (E : Engine) (T : UProceduralFoliageTile) (Location : FVector) (Scale : ℚ)
    (Type_ : UFoliageType_InstancedStaticMesh) (InAge : ℚ) (bBlocker : Bool) :
    NewSeed E T Location Scale Type_ InAge bBlocker =
      (if (HandleOverlaps E (NewSeedInserted E T Location Scale Type_ InAge bBlocker)
            T.NumAllocated).1 then some T.NumAllocated else none,
       (HandleOverlaps E (NewSeedInserted E T Location Scale Type_ InAge bBlocker)
            T.NumAllocated).2) := rfl

theorem NewSeedInserted_evolves (E : Engine) (T : UProceduralFoliageTile) (Location : FVector)
    (Scale : ℚ) (Type_ : UFoliageType_InstancedStaticMesh) (InAge : ℚ) (bBlocker : Bool) :
    Evolves T (NewSeedInserted E T Location Scale Type_ InAge bBlocker) := by
  refine ⟨Nat.le_succ _, rfl, rfl, rfl, ?_, ?_, fun h => BroadphaseInsert_nodup _ _ h, ?_,
    fun _ h => h⟩
  rotate_right
  · intro y hy
    have hne : y ≠ T.NumAllocated := Nat.ne_of_lt hy
    simp only [NewSeedInserted, Function.update_noteq hne]
  · intro y hy
    have hne : y ≠ T.NumAllocated := Nat.ne_of_lt hy.1
    refine ⟨Nat.lt_succ_of_lt hy.1, ?_⟩
    simp only [NewSeedInserted, Function.update_noteq hne]
    exact hy.2
  · intro y hy hd
    have hne : y ≠ T.NumAllocated := Nat.ne_of_lt hy
    simp only [NewSeedInserted, Function.update_noteq hne]
    exact hd

theorem NewSeedInserted_tracked_new (E : Engine) (T : UProceduralFoliageTile)
    (Location : FVector) (Scale : ℚ) (Type_ : UFoliageType_InstancedStaticMesh) (InAge : ℚ)
    (bBlocker : Bool) :
    Tracked (NewSeedInserted E T Location Scale Type_ InAge bBlocker) T.NumAllocated := by
  refine ⟨Nat.lt_succ_self _, Or.inl ?_⟩
  simp [NewSeedInserted]

theorem NewSeedInserted_consistent (E : Engine) (T : UProceduralFoliageTile)
    (Location : FVector) (Scale : ℚ) (Type_ : UFoliageType_InstancedStaticMesh) (InAge : ℚ)
    (bBlocker : Bool) (hC : Consistent T) :
    Consistent (NewSeedInserted E T Location Scale Type_ InAge bBlocker) := by
  refine ⟨?_, ?_, ?_⟩
  · intro y
    show y ∈ BroadphaseInsert T.Broadphase T.NumAllocated ↔ _
    rw [mem_BroadphaseInsert]
    by_cases hy : y = T.NumAllocated
    · subst hy
      simp [AliveAt, NewSeedInserted]
    · rw [hC.bp_iff y]
      simp only [AliveAt, NewSeedInserted, Function.update_noteq hy]
      constructor
      · rintro (h | h)
        · exact ⟨Nat.lt_succ_of_lt h.1, h.2⟩
        · exact absurd h hy
      · intro h
        exact Or.inl ⟨lt_of_le_of_ne (Nat.le_of_lt_succ h.1) hy, h.2⟩
  · intro y hy
    exact (NewSeedInserted_evolves E T Location Scale Type_ InAge bBlocker).tracked y
      (hC.inst y hy)
  · intro y hy
    have hp := hC.pend y hy
    refine ⟨Nat.lt_succ_of_lt hp.1, ?_⟩
    exact (NewSeedInserted_evolves E T Location Scale Type_ InAge bBlocker).dead_stays y
      hp.1 hp.2

theorem NewSeed_evolves (E : Engine) (T : UProceduralFoliageTile) (Location : FVector)
    (Scale : ℚ) (Type_ : UFoliageType_InstancedStaticMesh) (InAge : ℚ) (bBlocker : Bool) :
    Evolves T (NewSeed E T Location Scale Type_ InAge bBlocker).2 := by
  rw [NewSeed_eq]
  exact (NewSeedInserted_evolves E T Location Scale Type_ InAge bBlocker).trans
    (HandleOverlaps_evolves E _ _)

theorem NewSeed_numAllocated (E : Engine) (T : UProceduralFoliageTile) (Location : FVector)
    (Scale : ℚ) (Type_ : UFoliageType_InstancedStaticMesh) (InAge : ℚ) (bBlocker : Bool) :
    (NewSeed E T Location Scale Type_ InAge bBlocker).2.NumAllocated = T.NumAllocated + 1 := by
  rw [NewSeed_eq]
  simp only
  rw [HandleOverlaps_numAllocated]
  rfl

theorem NewSeed_consistent (E : Engine) (T : UProceduralFoliageTile) (Location : FVector)
    (Scale : ℚ) (Type_ : UFoliageType_InstancedStaticMesh) (InAge : ℚ) (bBlocker : Bool)
    (hC : Consistent T) :
    Consistent (NewSeed E T Location Scale Type_ InAge bBlocker).2 := by
  rw [NewSeed_eq]
  exact HandleOverlaps_consistent E _ _
    (NewSeedInserted_consistent E T Location Scale Type_ InAge bBlocker hC)
    (Nat.lt_succ_self _)

theorem NewSeed_result (E : Engine) (T : UProceduralFoliageTile) (Location : FVector)
    (Scale : ℚ) (Type_ : UFoliageType_InstancedStaticMesh) (InAge : ℚ) (bBlocker : Bool)
    (p : Nat) (h : (NewSeed E T Location Scale Type_ InAge bBlocker).1 = some p) :
    p = T.NumAllocated := by
  rw [NewSeed_eq] at h
  simp only at h
  split at h
  · exact (Option.some.inj h).symm
  · exact Option.noConfusion h

theorem NewSeed_tracked_new (E : Engine) (T : UProceduralFoliageTile) (Location : FVector)
    (Scale : ℚ) (Type_ : UFoliageType_InstancedStaticMesh) (InAge : ℚ) (bBlocker : Bool) :
    Tracked (NewSeed E T Location Scale Type_ InAge bBlocker).2 T.NumAllocated := by
  rw [NewSeed_eq]
  exact (HandleOverlaps_evolves E _ _).tracked _
    (NewSeedInserted_tracked_new E T Location Scale Type_ InAge bBlocker)

/-! ## FlushPendingRemovals -/

theorem RemoveInstance_of_dead (T : UProceduralFoliageTile) (x : Nat)
    (h : (T.Heap x).bAlive = false) :
    RemoveInstance T x = { T with Instances := TSetRemove T.Instances x } := by
  simp [RemoveInstance, FProceduralFoliageInstance.IsAlive, h]

theorem foldl_RemoveInstance_of_dead (L : List Nat) (T : UProceduralFoliageTile)
    (h : ∀ x ∈ L, (T.Heap x).bAlive = false) :
    L.foldl RemoveInstance T =
      { T with Instances := T.Instances.filter (fun y => decide (y ∉ L)) } := by
  induction L generalizing T with
  | nil => simp
  | cons a L ih =>
    rw [List.foldl_cons, RemoveInstance_of_dead T a (h a (List.mem_cons_self _ _)), ih]
    · simp only [TSetRemove, List.filter_filter]
      congr 1
      apply List.filter_congr
      intro y _
      simp only [List.mem_cons, not_or, bne_iff_ne, ne_eq, Bool.decide_and,
        Bool.and_eq_true, decide_eq_true_eq, Bool.decide_eq_true]
      by_cases hya : y = a <;> simp [hya]
    · intro x hx
      exact h x (List.mem_cons_of_mem _ hx)

theorem FlushPendingRemovals_of_dead (T : UProceduralFoliageTile)
    (h : ∀ x ∈ T.PendingRemovals, (T.Heap x).bAlive = false) :
    FlushPendingRemovals T =
      { T with
        Instances := T.Instances.filter (fun y => decide (y ∉ T.PendingRemovals))
        PendingRemovals := [] } := by
  unfold FlushPendingRemovals
  rw [foldl_RemoveInstance_of_dead T.PendingRemovals T h]

theorem TileInvariant.consistent {T : UProceduralFoliageTile} (h : TileInvariant T) :
    Consistent T := by
  refine ⟨h.1, ?_, ?_⟩
  · intro x hx
    exact ⟨(h.2.1 x hx).1.1, Or.inl (h.2.1 x hx).1.2⟩
  · intro x hx
    rw [h.2.2] at hx
    exact absurd hx (List.not_mem_nil _)

theorem FlushPendingRemovals_invariant (T : UProceduralFoliageTile) (hC : Consistent T) :
    TileInvariant (FlushPendingRemovals T) := by
  rw [FlushPendingRemovals_of_dead T (fun x hx => (hC.pend x hx).2)]
  refine ⟨hC.bp_iff, ?_, rfl⟩
  intro x hx
  simp only [List.mem_filter, decide_eq_true_eq] at hx
  have ht := hC.inst x hx.1
  have ha : AliveAt T x := by
    refine ⟨ht.1, ?_⟩
    rcases ht.2 with h | h
    · exact h
    · exact absurd h hx.2
  exact ⟨ha, (hC.bp_iff x).2 ha⟩

theorem Consistent.addInstances {T : UProceduralFoliageTile} (hC : Consistent T)
    (L : List Nat) (hL : ∀ x ∈ L, Tracked T x) :
    Consistent { T with Instances := L.foldl TSetAdd T.Instances } := by
  refine ⟨hC.bp_iff, ?_, hC.pend⟩
  intro x hx
  have hx' : x ∈ T.Instances ∨ x ∈ L := (mem_foldl_TSetAdd L T.Instances x).1 hx
  rcases hx' with h | h
  · exact hC.inst x h
  · exact hL x h

/-! ## The loops of a step -/

theorem foldl_loopInv {α : Type} (f : UProceduralFoliageTile × List Nat → α →
    UProceduralFoliageTile × List Nat)
    (hf : ∀ A a, LoopInv A → LoopInv (f A a) ∧ Evolves A.1 (f A a).1)
    (L : List α) (A : UProceduralFoliageTile × List Nat) (hA : LoopInv A) :
    LoopInv (L.foldl f A) ∧ Evolves A.1 (L.foldl f A).1 := by
  induction L generalizing A with
  | nil => exact ⟨hA, Evolves.refl _⟩
  | cons a L ih =>
    rw [List.foldl_cons]
    have h1 := hf A a hA
    have h2 := ih (f A a) h1.1
    exact ⟨h2.1, h1.2.trans h2.2⟩

theorem iterate_loopInv (f : UProceduralFoliageTile × List Nat →
    UProceduralFoliageTile × List Nat)
    (hf : ∀ A, LoopInv A → LoopInv (f A) ∧ Evolves A.1 (f A).1)
    (n : Nat) (A : UProceduralFoliageTile × List Nat) (hA : LoopInv A) :
    LoopInv (Nat.iterate f n A) ∧ Evolves A.1 (Nat.iterate f n A).1 := by
  induction n generalizing A with
  | zero => exact ⟨hA, Evolves.refl _⟩
  | succ n ih =>
    rw [Function.iterate_succ_apply]
    have h1 := hf A hA
    have h2 := ih (f A) h1.1
    exact ⟨h2.1, h1.2.trans h2.2⟩

theorem Consistent.setRandomStream {T : UProceduralFoliageTile} (hC : Consistent T)
    (S : FRandomStream) : Consistent { T with RandomStream := S } :=
  ⟨hC.bp_iff, hC.inst, hC.pend⟩

theorem Evolves.of_setRandomStream (T : UProceduralFoliageTile) (S : FRandomStream) :
    Evolves T { T with RandomStream := S } :=
  ⟨le_refl _, rfl, rfl, rfl, fun _ h => h, fun _ _ h => h, fun h => h, fun _ _ => rfl,
   fun _ h => h⟩

/-- A call of `NewSeed` whose result is appended to the local array when it survived. -/
theorem NewSeed_collect (E : Engine) (T : UProceduralFoliageTile) (S : List Nat)
    (Location : FVector) (Scale : ℚ) (Type_ : UFoliageType_InstancedStaticMesh) (InAge : ℚ)
    (bBlocker : Bool) (hC : Consistent T) (hS : ∀ x ∈ S, Tracked T x) :
    LoopInv (CollectSeed (NewSeed E T Location Scale Type_ InAge bBlocker) S) ∧
    Evolves T (CollectSeed (NewSeed E T Location Scale Type_ InAge bBlocker) S).1 := by
  have hE := NewSeed_evolves E T Location Scale Type_ InAge bBlocker
  have hC' := NewSeed_consistent E T Location Scale Type_ InAge bBlocker hC
  unfold CollectSeed
  cases h : (NewSeed E T Location Scale Type_ InAge bBlocker).1 with
  | none =>
    exact ⟨⟨hC', fun x hx => hE.tracked x (hS x hx)⟩, hE⟩
  | some p =>
    refine ⟨⟨hC', ?_⟩, hE⟩
    intro x hx
    rcases List.mem_append.1 hx with hx | hx
    · exact hE.tracked x (hS x hx)
    · rw [List.mem_singleton] at hx
      rw [hx, NewSeed_result E T Location Scale Type_ InAge bBlocker p h]
      exact NewSeed_tracked_new E T Location Scale Type_ InAge bBlocker

theorem AgeSeedsBody_loopInv (E : Engine) (A : UProceduralFoliageTile × List Nat) (I : Nat)
    (hI : I < A.1.NumAllocated) (hA : LoopInv A) :
    LoopInv (AgeSeedsBody E A I) ∧ Evolves A.1 (AgeSeedsBody E A I).1 := by
  unfold AgeSeedsBody
  split
  · simp only
    split
    · have hM := MarkPendingRemoval_evolves A.1 I
      have h := NewSeed_collect E (MarkPendingRemoval A.1 I) A.2
        (A.1.Heap I).Location
        ((A.1.Heap I).Type_.GetScaleForAge ((A.1.Heap I).Type_.GetNextAge (A.1.Heap I).Age 1))
        (A.1.Heap I).Type_ ((A.1.Heap I).Type_.GetNextAge (A.1.Heap I).Age 1) false
        (MarkPendingRemoval_consistent A.1 I hA.1 hI)
        (fun x hx => hM.tracked x (hA.2 x hx))
      exact ⟨h.1, hM.trans h.2⟩
    · exact ⟨hA, Evolves.refl _⟩
  · exact ⟨hA, Evolves.refl _⟩

theorem SpreadSeedsAttempt_loopInv (E : Engine) (Inst : Nat)
    (A : UProceduralFoliageTile × List Nat) (hA : LoopInv A) :
    LoopInv (SpreadSeedsAttempt E Inst A) ∧ Evolves A.1 (SpreadSeedsAttempt E Inst A).1 := by
  unfold SpreadSeedsAttempt
  simp only
  split
  · have h := NewSeed_collect E { A.1 with RandomStream := (SpreadSeedsDraw E A.1 Inst).Stream }
      A.2 ((SpreadSeedsDraw E A.1 Inst).GlobalOffset.add (A.1.Heap Inst).Location)
      (SpreadSeedsDraw E A.1 Inst).NewScale (A.1.Heap Inst).Type_
      (SpreadSeedsDraw E A.1 Inst).NewAge false (hA.1.setRandomStream _) hA.2
    exact ⟨h.1, (Evolves.of_setRandomStream _ _).trans h.2⟩
  · exact ⟨⟨hA.1.setRandomStream _, hA.2⟩, Evolves.of_setRandomStream _ _⟩

theorem SpreadSeedsBody_loopInv (E : Engine) (A : UProceduralFoliageTile × List Nat)
    (Inst : Nat) (hA : LoopInv A) :
    LoopInv (SpreadSeedsBody E A Inst) ∧ Evolves A.1 (SpreadSeedsBody E A Inst).1 := by
  unfold SpreadSeedsBody
  split
  · exact ⟨hA, Evolves.refl _⟩
  · split
    · exact iterate_loopInv _ (fun B hB => SpreadSeedsAttempt_loopInv E Inst B hB) _ A hA
    · exact ⟨hA, Evolves.refl _⟩

theorem SpreadSeeds_loopInv (E : Engine) (T : UProceduralFoliageTile) (S : List Nat)
    (hA : LoopInv (T, S)) :
    LoopInv (SpreadSeeds E T S) ∧ Evolves T (SpreadSeeds E T S).1 :=
  foldl_loopInv _ (fun A a hA => SpreadSeedsBody_loopInv E A a hA) _ (T, S) hA

theorem AddRandomSeedsAttempt_loopInv (E : Engine)
    (TypeInstance : UFoliageType_InstancedStaticMesh)
    (A : UProceduralFoliageTile × List Nat) (hA : LoopInv A) :
    LoopInv (AddRandomSeedsAttempt E TypeInstance A) ∧
      Evolves A.1 (AddRandomSeedsAttempt E TypeInstance A).1 := by
  unfold AddRandomSeedsAttempt
  have h := NewSeed_collect E
    { A.1 with RandomStream := (TypeInstance.GetInitAge
        ((A.1.RandomStream.FRandRange E 0 A.1.ProceduralFoliage.TileSize).2.FRandRange E 0
          A.1.ProceduralFoliage.TileSize).2).2 }
    A.2
    { X := (A.1.RandomStream.FRandRange E 0 A.1.ProceduralFoliage.TileSize).1
      Y := ((A.1.RandomStream.FRandRange E 0 A.1.ProceduralFoliage.TileSize).2.FRandRange E 0
          A.1.ProceduralFoliage.TileSize).1
      Z := 0 }
    (TypeInstance.GetScaleForAge (TypeInstance.GetInitAge
        ((A.1.RandomStream.FRandRange E 0 A.1.ProceduralFoliage.TileSize).2.FRandRange E 0
          A.1.ProceduralFoliage.TileSize).2).1)
    TypeInstance
    (TypeInstance.GetInitAge
        ((A.1.RandomStream.FRandRange E 0 A.1.ProceduralFoliage.TileSize).2.FRandRange E 0
          A.1.ProceduralFoliage.TileSize).2).1
    false (hA.1.setRandomStream _) hA.2
  exact ⟨h.1, (Evolves.of_setRandomStream _ _).trans h.2⟩

theorem AddRandomSeedsBody_loopInv (E : Engine) (A : UProceduralFoliageTile × List Nat)
    (Data : FProceduralFoliageTypeData) (hA : LoopInv A) :
    LoopInv (AddRandomSeedsBody E A Data) ∧ Evolves A.1 (AddRandomSeedsBody E A Data).1 := by
  unfold AddRandomSeedsBody
  simp only
  split
  · exact iterate_loopInv _ (fun B hB => AddRandomSeedsAttempt_loopInv E _ B hB) _ A hA
  · exact ⟨hA, Evolves.refl _⟩

theorem AddRandomSeeds_loopInv (E : Engine) (T : UProceduralFoliageTile) (S : List Nat)
    (hA : LoopInv (T, S)) :
    LoopInv (AddRandomSeeds E T S) ∧ Evolves T (AddRandomSeeds E T S).1 :=
  foldl_loopInv _ (fun A a hA => AddRandomSeedsBody_loopInv E A a hA) _ (T, S) hA

theorem foldl_AgeSeedsBody_loopInv (E : Engine) (L : List Nat)
    (A : UProceduralFoliageTile × List Nat) (hA : LoopInv A)
    (hL : ∀ I ∈ L, I < A.1.NumAllocated) :
    LoopInv (L.foldl (AgeSeedsBody E) A) ∧ Evolves A.1 (L.foldl (AgeSeedsBody E) A).1 := by
  induction L generalizing A with
  | nil => exact ⟨hA, Evolves.refl _⟩
  | cons I L ih =>
    rw [List.foldl_cons]
    have h1 := AgeSeedsBody_loopInv E A I (hL I (List.mem_cons_self _ _)) hA
    have h2 := ih (AgeSeedsBody E A I) h1.1
      (fun J hJ => lt_of_lt_of_le (hL J (List.mem_cons_of_mem _ hJ)) h1.2.alloc_le)
    exact ⟨h2.1, h1.2.trans h2.2⟩

theorem FlushPendingRemovals_fields (T : UProceduralFoliageTile)
    (h : ∀ x ∈ T.PendingRemovals, (T.Heap x).bAlive = false) :
    (FlushPendingRemovals T).Heap = T.Heap ∧
    (FlushPendingRemovals T).NumAllocated = T.NumAllocated ∧
    (FlushPendingRemovals T).Broadphase = T.Broadphase ∧
    (FlushPendingRemovals T).SimulationStep = T.SimulationStep ∧
    (FlushPendingRemovals T).ProceduralFoliage = T.ProceduralFoliage ∧
    (FlushPendingRemovals T).RandomStream = T.RandomStream := by
  rw [FlushPendingRemovals_of_dead T h]
  exact ⟨rfl, rfl, rfl, rfl, rfl, rfl⟩

theorem AgeSeeds_invariant (E : Engine) (T : UProceduralFoliageTile) (h : TileInvariant T) :
    TileInvariant (AgeSeeds E T) ∧ (AgeSeeds E T).SimulationStep = T.SimulationStep ∧
      (AgeSeeds E T).ProceduralFoliage = T.ProceduralFoliage ∧
      T.NumAllocated ≤ (AgeSeeds E T).NumAllocated := by
  have hA : LoopInv (T, []) := ⟨h.consistent, fun x hx => absurd hx (List.not_mem_nil _)⟩
  have hL := foldl_AgeSeedsBody_loopInv E T.Instances (T, []) hA
    (fun I hI => (h.2.1 I hI).1.1)
  have hC := hL.1.1.addInstances _ hL.1.2
  have hF := FlushPendingRemovals_fields _ (fun x hx => (hC.pend x hx).2)
  unfold AgeSeeds
  simp only
  refine ⟨FlushPendingRemovals_invariant _ hC, ?_, ?_, ?_⟩
  · rw [hF.2.2.2.1]; exact hL.2.step_eq
  · rw [hF.2.2.2.2.1]; exact hL.2.foliage_eq
  · rw [hF.2.1]; exact hL.2.alloc_le

theorem StepSimulation_invariant (E : Engine) (T : UProceduralFoliageTile)
    (h : TileInvariant T) : TileInvariant (StepSimulation E T) := by
  unfold StepSimulation
  simp only
  apply FlushPendingRemovals_invariant
  split
  · have hL := AddRandomSeeds_loopInv E T []
      ⟨h.consistent, fun x hx => absurd hx (List.not_mem_nil _)⟩
    exact hL.1.1.addInstances _ hL.1.2
  · have hAge := AgeSeeds_invariant E T h
    have hL := SpreadSeeds_loopInv E (AgeSeeds E T) []
      ⟨hAge.1.consistent, fun x hx => absurd hx (List.not_mem_nil _)⟩
    exact hL.1.1.addInstances _ hL.1.2

theorem AddInstancesBody_consistent (E : Engine) (RelativeTM : FTransform)
    (InnerLocalAABB : FBox2D) (T : UProceduralFoliageTile) (Inst : FProceduralFoliageInstance)
    (hC : Consistent T) : Consistent (AddInstancesBody E RelativeTM InnerLocalAABB T Inst) := by
  unfold AddInstancesBody
  simp only
  have hC' := NewSeed_consistent E T (RelativeTM.TransformPosition Inst.Location) Inst.Scale
    Inst.Type_ Inst.Age (AddInstancesIsBlocker E InnerLocalAABB Inst) hC
  split
  · rename_i p hp
    have hp' := NewSeed_result E T _ _ _ _ _ p hp
    have ht := NewSeed_tracked_new E T (RelativeTM.TransformPosition Inst.Location) Inst.Scale
      Inst.Type_ Inst.Age (AddInstancesIsBlocker E InnerLocalAABB Inst)
    refine ⟨hC'.bp_iff, ?_, hC'.pend⟩
    intro x hx
    rcases mem_TSetAdd.1 hx with hx | hx
    · exact hC'.inst x hx
    · rw [hx, hp']; exact ht
  · exact hC'

theorem AddInstances_invariant (E : Engine) (T : UProceduralFoliageTile)
    (NewInstances : List FProceduralFoliageInstance) (RelativeTM : FTransform)
    (InnerLocalAABB : FBox2D) (h : TileInvariant T) :
    TileInvariant (AddInstances E T NewInstances RelativeTM InnerLocalAABB) := by
  unfold AddInstances
  apply FlushPendingRemovals_invariant
  have hC := h.consistent
  clear h
  induction NewInstances generalizing T with
  | nil => exact hC
  | cons I L ih =>
    rw [List.foldl_cons]
    exact ih _ (AddInstancesBody_consistent E RelativeTM InnerLocalAABB T I hC)

/-! ## What a step never touches -/

theorem foldl_evolves {α : Type} (f : UProceduralFoliageTile × List Nat → α →
    UProceduralFoliageTile × List Nat) (hf : ∀ A a, Evolves A.1 (f A a).1)
    (L : List α) (A : UProceduralFoliageTile × List Nat) : Evolves A.1 (L.foldl f A).1 := by
  induction L generalizing A with
  | nil => exact Evolves.refl _
  | cons a L ih =>
    rw [List.foldl_cons]
    exact (hf A a).trans (ih (f A a))

theorem iterate_evolves (f : UProceduralFoliageTile × List Nat →
    UProceduralFoliageTile × List Nat) (hf : ∀ A, Evolves A.1 (f A).1)
    (n : Nat) (A : UProceduralFoliageTile × List Nat) : Evolves A.1 (Nat.iterate f n A).1 := by
  induction n generalizing A with
  | zero => exact Evolves.refl _
  | succ n ih =>
    rw [Function.iterate_succ_apply]
    exact (hf A).trans (ih (f A))

theorem CollectSeed_fst (R : Option Nat × UProceduralFoliageTile) (S : List Nat) :
    (CollectSeed R S).1 = R.2 := by
  unfold CollectSeed
  split <;> rfl

theorem AgeSeedsBody_evolves (E : Engine) (A : UProceduralFoliageTile × List Nat) (I : Nat) :
    Evolves A.1 (AgeSeedsBody E A I).1 := by
  unfold AgeSeedsBody
  split
  · simp only
    split
    · rw [CollectSeed_fst]
      exact (MarkPendingRemoval_evolves A.1 I).trans (NewSeed_evolves E _ _ _ _ _ _)
    · exact Evolves.refl _
  · exact Evolves.refl _

theorem SpreadSeedsAttempt_evolves (E : Engine) (Inst : Nat)
    (A : UProceduralFoliageTile × List Nat) : Evolves A.1 (SpreadSeedsAttempt E Inst A).1 := by
  unfold SpreadSeedsAttempt
  simp only
  split
  · rw [CollectSeed_fst]
    exact (Evolves.of_setRandomStream _ _).trans (NewSeed_evolves E _ _ _ _ _ _)
  · exact Evolves.of_setRandomStream _ _

theorem SpreadSeedsBody_evolves (E : Engine) (A : UProceduralFoliageTile × List Nat)
    (Inst : Nat) : Evolves A.1 (SpreadSeedsBody E A Inst).1 := by
  unfold SpreadSeedsBody
  split
  · exact Evolves.refl _
  · split
    · exact iterate_evolves _ (fun B => SpreadSeedsAttempt_evolves E Inst B) _ A
    · exact Evolves.refl _

theorem SpreadSeeds_evolves (E : Engine) (T : UProceduralFoliageTile) (S : List Nat) :
    Evolves T (SpreadSeeds E T S).1 :=
  foldl_evolves _ (fun A a => SpreadSeedsBody_evolves E A a) _ (T, S)

theorem AddRandomSeedsAttempt_evolves (E : Engine)
    (TypeInstance : UFoliageType_InstancedStaticMesh)
    (A : UProceduralFoliageTile × List Nat) :
    Evolves A.1 (AddRandomSeedsAttempt E TypeInstance A).1 := by
  unfold AddRandomSeedsAttempt
  simp only
  rw [CollectSeed_fst]
  exact (Evolves.of_setRandomStream _ _).trans (NewSeed_evolves E _ _ _ _ _ _)

theorem AddRandomSeedsBody_evolves (E : Engine) (A : UProceduralFoliageTile × List Nat)
    (Data : FProceduralFoliageTypeData) : Evolves A.1 (AddRandomSeedsBody E A Data).1 := by
  unfold AddRandomSeedsBody
  simp only
  split
  · exact iterate_evolves _ (fun B => AddRandomSeedsAttempt_evolves E _ B) _ A
  · exact Evolves.refl _

theorem AddRandomSeeds_evolves (E : Engine) (T : UProceduralFoliageTile) (S : List Nat) :
    Evolves T (AddRandomSeeds E T S).1 :=
  foldl_evolves _ (fun A a => AddRandomSeedsBody_evolves E A a) _ (T, S)

theorem FlushFrame.frame_refl (T : UProceduralFoliageTile) : FlushFrame T T :=
  ⟨rfl, rfl, rfl, rfl, fun _ h => h, fun _ h => h, fun h => h, fun _ => rfl⟩

theorem FlushFrame.frame_trans {T1 T2 T3 : UProceduralFoliageTile} (h12 : FlushFrame T1 T2)
    (h23 : FlushFrame T2 T3) : FlushFrame T1 T3 :=
  ⟨h23.alloc_eq.trans h12.alloc_eq, h23.step_eq.trans h12.step_eq,
   h23.foliage_eq.trans h12.foliage_eq, h23.stream_eq.trans h12.stream_eq,
   fun y h => h23.dead_stays y (h12.dead_stays y h),
   fun y h => h12.instances_sub y (h23.instances_sub y h),
   fun h => h23.nodup (h12.nodup h),
   fun y => (h23.data_eq y).trans (h12.data_eq y)⟩

theorem RemoveInstance_frame (T : UProceduralFoliageTile) (x : Nat) :
    FlushFrame T (RemoveInstance T x) := by
  cases h : (T.Heap x).bAlive
  · rw [RemoveInstance_of_dead T x h]
    exact ⟨rfl, rfl, rfl, rfl, fun _ h => h, fun y hy => (mem_TSetRemove.1 hy).1, fun h => h,
      fun _ => rfl⟩
  · have hR : RemoveInstance T x =
        { T with
          Broadphase := BroadphaseRemove T.Broadphase x
          Heap := Function.update T.Heap x (T.Heap x).TerminateInstance
          Instances := TSetRemove T.Instances x } := by
      simp [RemoveInstance, FProceduralFoliageInstance.IsAlive, h]
    rw [hR]
    refine ⟨rfl, rfl, rfl, rfl, ?_, fun y hy => (mem_TSetRemove.1 hy).1,
      fun h => BroadphaseRemove_nodup _ _ h, ?_⟩
    rotate_right
    · intro y
      show (Function.update T.Heap x (T.Heap x).TerminateInstance y).TerminateInstance = _
      by_cases hyx : y = x
      · subst hyx
        simp [FProceduralFoliageInstance.TerminateInstance]
      · simp only [Function.update_noteq hyx]
    intro y hy
    by_cases hyx : y = x
    · subst hyx
      simp [FProceduralFoliageInstance.TerminateInstance]
    · simp only [Function.update_noteq hyx]
      exact hy

theorem foldl_RemoveInstance_frame (L : List Nat) (T : UProceduralFoliageTile) :
    FlushFrame T (L.foldl RemoveInstance T) := by
  induction L generalizing T with
  | nil => exact FlushFrame.frame_refl T
  | cons a L ih => exact (RemoveInstance_frame T a).frame_trans (ih _)

theorem FlushPendingRemovals_frame (T : UProceduralFoliageTile) :
    FlushFrame T (FlushPendingRemovals T) := by
  have h := foldl_RemoveInstance_frame T.PendingRemovals T
  exact ⟨h.alloc_eq, h.step_eq, h.foliage_eq, h.stream_eq, h.dead_stays, h.instances_sub,
    h.nodup, h.data_eq⟩

theorem AgeSeeds_simulationStep (E : Engine) (T : UProceduralFoliageTile) :
    (AgeSeeds E T).SimulationStep = T.SimulationStep := by
  unfold AgeSeeds
  simp only
  rw [(FlushPendingRemovals_frame _).step_eq]
  exact (foldl_evolves _ (fun A a => AgeSeedsBody_evolves E A a) T.Instances (T, [])).step_eq

theorem StepSimulation_simulationStep (E : Engine) (T : UProceduralFoliageTile) :
    (StepSimulation E T).SimulationStep = T.SimulationStep := by
  unfold StepSimulation
  simp only
  rw [(FlushPendingRemovals_frame _).step_eq]
  split
  · exact (AddRandomSeeds_evolves E T []).step_eq
  · exact ((SpreadSeeds_evolves E (AgeSeeds E T) []).step_eq).trans
      (AgeSeeds_simulationStep E T)

/-! ## The second loop of HandleOverlaps as a list of removals -/

theorem Domination_congr (E : Engine) (H H' : Nat → FProceduralFoliageInstance) (A B : Nat)
    (K : ESimulationOverlap) (hA : H' A = H A) (hB : H' B = H B) :
    Domination E H' A B K = Domination E H A B K := by
  unfold Domination
  rw [hA, hB]

theorem mem_DominatedList {E : Engine} {H : Nat → FProceduralFoliageInstance}
    {Overlaps : List FProceduralFoliageOverlap} {y : Nat} :
    y ∈ DominatedList E H Overlaps ↔
      ∃ O ∈ Overlaps, Domination E H O.A O.B O.OverlapType = some y := by
  unfold DominatedList
  rw [List.mem_filterMap]

theorem BroadphaseGetOverlaps_map_B_sublist (E : Engine)
    (H : Nat → FProceduralFoliageInstance) (BP : List Nat) (I : Nat) :
    List.Sublist ((BroadphaseGetOverlaps E H BP I).map (fun O => O.B)) BP := by
  unfold BroadphaseGetOverlaps
  induction BP with
  | nil => exact List.Sublist.slnil
  | cons b BP ih =>
    rw [List.filterMap_cons]
    by_cases hb : b = I
    · simp only [hb, if_true]
      exact List.Sublist.cons _ ih
    · simp only [if_neg hb]
      cases hk : E.OverlapTest (H I) (H b) with
      | none =>
        simp only [Option.map_none']
        exact List.Sublist.cons _ ih
      | some k =>
        simp only [Option.map_some', List.map_cons]
        exact List.Sublist.cons₂ _ ih

theorem foldl_MarkPendingRemoval_spec (Ds : List Nat) (T : UProceduralFoliageTile)
    (hbp : ∀ x ∈ T.Broadphase, (T.Heap x).bAlive = true) :
    (∀ y, ((Ds.foldl MarkPendingRemoval T).Heap y).bAlive = true ↔
      (T.Heap y).bAlive = true ∧ y ∉ Ds) ∧
    (∀ y, y ∉ Ds → (Ds.foldl MarkPendingRemoval T).Heap y = T.Heap y) ∧
    (∀ y, y ∈ (Ds.foldl MarkPendingRemoval T).Broadphase ↔ y ∈ T.Broadphase ∧ y ∉ Ds) ∧
    (∀ y, y ∈ (Ds.foldl MarkPendingRemoval T).PendingRemovals ↔
      y ∈ T.PendingRemovals ∨ (y ∈ Ds ∧ (T.Heap y).bAlive = true)) := by
  induction Ds generalizing T with
  | nil => simp
  | cons d Ds ih =>
    have hd : (T.Heap d).bAlive = true ∨ d ∉ T.Broadphase := by
      cases h : (T.Heap d).bAlive
      · right
        intro hm
        rw [hbp d hm] at h
        exact Bool.noConfusion h
      · left; rfl
    have hbp' : ∀ x ∈ (MarkPendingRemoval T d).Broadphase,
        ((MarkPendingRemoval T d).Heap x).bAlive = true := by
      intro x hx
      rw [MarkPendingRemoval_mem_broadphase T d x hd] at hx
      rw [MarkPendingRemoval_alive_iff]
      exact ⟨hbp x hx.1, hx.2⟩
    obtain ⟨h1, h2, h3, h4⟩ := ih (MarkPendingRemoval T d) hbp'
    rw [List.foldl_cons]
    refine ⟨?_, ?_, ?_, ?_⟩
    · intro y
      rw [h1 y, MarkPendingRemoval_alive_iff, List.mem_cons]
      tauto
    · intro y hy
      rw [List.mem_cons, not_or] at hy
      rw [h2 y hy.2, MarkPendingRemoval_heap_of_ne T d y hy.1]
    · intro y
      rw [h3 y, MarkPendingRemoval_mem_broadphase T d y hd, List.mem_cons]
      tauto
    · intro y
      rw [h4 y, MarkPendingRemoval_mem_pending, MarkPendingRemoval_alive_iff, List.mem_cons]
      constructor
      · rintro ((h | ⟨rfl, h⟩) | ⟨h, h', _⟩)
        · exact Or.inl h
        · exact Or.inr ⟨Or.inl rfl, h⟩
        · exact Or.inr ⟨Or.inr h, h'⟩
      · rintro (h | ⟨h | h, h'⟩)
        · exact Or.inl (Or.inl h)
        · exact Or.inl (Or.inr ⟨h, h ▸ h'⟩)
        · by_cases hyd : y = d
          · exact Or.inl (Or.inr ⟨hyd, hyd ▸ h'⟩)
          · exact Or.inr ⟨h, h', hyd⟩

theorem foldl_HandleOverlapsMark_eq (E : Engine) (I : Nat)
    (Overlaps : List FProceduralFoliageOverlap) (T : UProceduralFoliageTile)
    (hA : ∀ O ∈ Overlaps, O.A = I) (hB : ∀ O ∈ Overlaps, O.B ≠ I)
    (hnd : (Overlaps.map (fun O => O.B)).Nodup)
    (hs : ∀ O ∈ Overlaps, Domination E T.Heap O.A O.B O.OverlapType ≠ some I) :
    Overlaps.foldl (HandleOverlapsMark E) T =
      (DominatedList E T.Heap Overlaps).foldl MarkPendingRemoval T := by
  induction Overlaps generalizing T with
  | nil => rfl
  | cons O Ov ih =>
    have hA' : ∀ O' ∈ Ov, O'.A = I := fun O' h => hA O' (List.mem_cons_of_mem _ h)
    have hB' : ∀ O' ∈ Ov, O'.B ≠ I := fun O' h => hB O' (List.mem_cons_of_mem _ h)
    rw [List.map_cons, List.nodup_cons] at hnd
    rw [List.foldl_cons]
    unfold DominatedList
    rw [List.filterMap_cons]
    cases hD : Domination E T.Heap O.A O.B O.OverlapType with
    | none =>
      have hM : HandleOverlapsMark E T O = T := by
        unfold HandleOverlapsMark; rw [hD]
      rw [hM]
      simp only
      exact ih T hA' hB' hnd.2 (fun O' h => hs O' (List.mem_cons_of_mem _ h))
    | some d =>
      have hM : HandleOverlapsMark E T O = MarkPendingRemoval T d := by
        unfold HandleOverlapsMark; rw [hD]
      have hdB : d = O.B := by
        rcases Domination_cases E T.Heap O.A O.B O.OverlapType with h | h | h
        · rw [h] at hD; exact Option.noConfusion hD
        · rw [h] at hD
          exact absurd (by rw [h, hA O (List.mem_cons_self _ _)])
            (hs O (List.mem_cons_self _ _))
        · rw [h] at hD; exact (Option.some.inj hD).symm
      have hcongr : ∀ O' ∈ Ov,
          Domination E (MarkPendingRemoval T d).Heap O'.A O'.B O'.OverlapType =
            Domination E T.Heap O'.A O'.B O'.OverlapType := by
        intro O' hO'
        apply Domination_congr
        · apply MarkPendingRemoval_heap_of_ne
          rw [hA' O' hO', hdB]
          exact (hB O (List.mem_cons_self _ _)).symm
        · apply MarkPendingRemoval_heap_of_ne
          rw [hdB]
          intro heq
          exact hnd.1 (List.mem_map.2 ⟨O', hO', heq⟩)
      rw [hM]
      simp only [List.foldl_cons]
      rw [ih (MarkPendingRemoval T d) hA' hB' hnd.2
        (fun O' h => by
          rw [hcongr O' h]; exact hs O' (List.mem_cons_of_mem _ h))]
      congr 1
      unfold DominatedList
      apply List.filterMap_congr
      intro O' hO'
      exact hcongr O' hO'

/-- The survival flag of `HandleOverlaps` is the outcome of its first loop. -/
theorem HandleOverlaps_fst_eq_false_iff (E : Engine) (T : UProceduralFoliageTile) (I : Nat) :
    (HandleOverlaps E T I).1 = false ↔
      ∃ O ∈ BroadphaseGetOverlaps E T.Heap T.Broadphase I,
        Domination E T.Heap O.A O.B O.OverlapType = some I := by
  unfold HandleOverlaps
  simp only
  split
  · rename_i h
    simp only [Bool.not_eq_true', List.any_eq_false, decide_eq_true_eq] at h
    constructor
    · intro hf; exact Bool.noConfusion hf
    · rintro ⟨O, hO, hD⟩
      exact absurd hD (h O hO)
  · rename_i h
    simp only [Bool.not_eq_true', Bool.not_eq_false, List.any_eq_true, decide_eq_true_eq] at h
    exact ⟨fun _ => h, fun _ => rfl⟩

theorem HandleOverlaps_of_died (E : Engine) (T : UProceduralFoliageTile) (I : Nat)
    (h : (HandleOverlaps E T I).1 = false) :
    (HandleOverlaps E T I).2 = MarkPendingRemoval T I := by
  unfold HandleOverlaps at h ⊢
  simp only at h ⊢
  split
  · rename_i hs
    rw [if_pos hs] at h
    exact Bool.noConfusion h
  · rfl

theorem HandleOverlaps_of_survived (E : Engine) (T : UProceduralFoliageTile) (I : Nat)
    (hnd : T.Broadphase.Nodup) (h : (HandleOverlaps E T I).1 = true) :
    (HandleOverlaps E T I).2 =
      (DominatedList E T.Heap (BroadphaseGetOverlaps E T.Heap T.Broadphase I)).foldl
        MarkPendingRemoval T := by
  have hs : ∀ O ∈ BroadphaseGetOverlaps E T.Heap T.Broadphase I,
      Domination E T.Heap O.A O.B O.OverlapType ≠ some I := by
    intro O hO hD
    have hf := (HandleOverlaps_fst_eq_false_iff E T I).2 ⟨O, hO, hD⟩
    rw [h] at hf
    exact Bool.noConfusion hf
  have hE := foldl_HandleOverlapsMark_eq E I (BroadphaseGetOverlaps E T.Heap T.Broadphase I) T
    (fun O hO => (mem_BroadphaseGetOverlaps hO).1)
    (fun O hO => (mem_BroadphaseGetOverlaps hO).2.2.1)
    (List.Nodup.sublist (BroadphaseGetOverlaps_map_B_sublist E T.Heap T.Broadphase I) hnd) hs
  rw [← hE]
  unfold HandleOverlaps at h ⊢
  simp only at h ⊢
  split
  · rfl
  · rename_i hn
    rw [if_neg hn] at h
    exact Bool.noConfusion h

/-! ## A failed NewSeed followed by a flush -/

theorem TSetRemove_of_not_mem (S : List Nat) (x : Nat) (h : x ∉ S) : TSetRemove S x = S := by
  unfold TSetRemove
  rw [List.filter_eq_self]
  intro y hy
  simp only [bne_iff_ne, ne_eq]
  rintro rfl
  exact h hy

theorem RemoveInstance_agree (N : Nat) (T T' : UProceduralFoliageTile)
    (h : AgreeExceptAt N T T') (x : Nat) (hx : x ≠ N) :
    AgreeExceptAt N (RemoveInstance T x) (RemoveInstance T' x) := by
  have hxe : T'.Heap x = T.Heap x := h.heap_eq x hx
  cases ha : (T.Heap x).bAlive
  · rw [RemoveInstance_of_dead T x ha, RemoveInstance_of_dead T' x (by rw [hxe]; exact ha)]
    exact ⟨by show TSetRemove T'.Instances x = TSetRemove T.Instances x; rw [h.instances_eq],
      h.broadphase_eq, h.heap_eq⟩
  · have hR : ∀ U : UProceduralFoliageTile, (U.Heap x).bAlive = true → RemoveInstance U x =
        { U with
          Broadphase := BroadphaseRemove U.Broadphase x
          Heap := Function.update U.Heap x (U.Heap x).TerminateInstance
          Instances := TSetRemove U.Instances x } := by
      intro U hU
      simp [RemoveInstance, FProceduralFoliageInstance.IsAlive, hU]
    rw [hR T ha, hR T' (by rw [hxe]; exact ha)]
    refine ⟨?_, ?_, ?_⟩
    · show TSetRemove T'.Instances x = TSetRemove T.Instances x
      rw [h.instances_eq]
    · show BroadphaseRemove T'.Broadphase x = BroadphaseRemove T.Broadphase x
      rw [h.broadphase_eq]
    · intro y hy
      show Function.update T'.Heap x (T'.Heap x).TerminateInstance y =
        Function.update T.Heap x (T.Heap x).TerminateInstance y
      by_cases hyx : y = x
      · subst hyx
        simp [hxe]
      · simp only [Function.update_noteq hyx]
        exact h.heap_eq y hy

theorem foldl_RemoveInstance_agree (N : Nat) (L : List Nat) (T T' : UProceduralFoliageTile)
    (h : AgreeExceptAt N T T') (hL : ∀ x ∈ L, x ≠ N) :
    AgreeExceptAt N (L.foldl RemoveInstance T) (L.foldl RemoveInstance T') := by
  induction L generalizing T T' with
  | nil => exact h
  | cons a L ih =>
    rw [List.foldl_cons, List.foldl_cons]
    exact ih _ _ (RemoveInstance_agree N T T' h a (hL a (List.mem_cons_self _ _)))
      (fun x hx => hL x (List.mem_cons_of_mem _ hx))

theorem BroadphaseRemove_insert_of_not_mem (BP : List Nat) (x : Nat) (h : x ∉ BP) :
    BroadphaseRemove (BroadphaseInsert BP x) x = BP := by
  unfold BroadphaseInsert BroadphaseRemove
  rw [if_neg h, List.filter_append]
  have h1 : BP.filter (fun y => y != x) = BP := by
    rw [List.filter_eq_self]
    intro y hy
    simp only [bne_iff_ne, ne_eq]
    rintro rfl
    exact h hy
  rw [h1]
  simp

theorem NewSeed_of_none (E : Engine) (T : UProceduralFoliageTile) (Location : FVector)
    (Scale : ℚ) (Type_ : UFoliageType_InstancedStaticMesh) (InAge : ℚ) (bBlocker : Bool)
    (h : (NewSeed E T Location Scale Type_ InAge bBlocker).1 = none) :
    (NewSeed E T Location Scale Type_ InAge bBlocker).2 =
      MarkPendingRemoval (NewSeedInserted E T Location Scale Type_ InAge bBlocker)
        T.NumAllocated := by
  rw [NewSeed_eq] at h ⊢
  simp only at h ⊢
  apply HandleOverlaps_of_died
  cases hs : (HandleOverlaps E (NewSeedInserted E T Location Scale Type_ InAge bBlocker)
      T.NumAllocated).1
  · rfl
  · rw [hs] at h
    simp at h

/-- The state after a failed `NewSeed`, field by field. -/
theorem NewSeed_failure_fields (E : Engine) (T : UProceduralFoliageTile) (Location : FVector)
    (Scale : ℚ) (Type_ : UFoliageType_InstancedStaticMesh) (InAge : ℚ) (bBlocker : Bool)
    (hv : PointersValid T)
    (h : (NewSeed E T Location Scale Type_ InAge bBlocker).1 = none) :
    (NewSeed E T Location Scale Type_ InAge bBlocker).2.Instances = T.Instances ∧
    (NewSeed E T Location Scale Type_ InAge bBlocker).2.Broadphase = T.Broadphase ∧
    (NewSeed E T Location Scale Type_ InAge bBlocker).2.PendingRemovals =
      T.PendingRemovals ++ [T.NumAllocated] ∧
    (∀ y, y ≠ T.NumAllocated →
      (NewSeed E T Location Scale Type_ InAge bBlocker).2.Heap y = T.Heap y) ∧
    ((NewSeed E T Location Scale Type_ InAge bBlocker).2.Heap T.NumAllocated).bAlive = false := by
  have hN1 : T.NumAllocated ∉ T.Broadphase := fun hm => lt_irrefl _ (hv.2.1 _ hm)
  have hN2 : T.NumAllocated ∉ T.PendingRemovals := fun hm => lt_irrefl _ (hv.2.2 _ hm)
  rw [NewSeed_of_none E T Location Scale Type_ InAge bBlocker h]
  have ha : ((NewSeedInserted E T Location Scale Type_ InAge bBlocker).Heap
      T.NumAllocated).bAlive = true := by
    simp [NewSeedInserted]
  rw [MarkPendingRemoval_of_alive _ _ ha]
  refine ⟨rfl, ?_, ?_, ?_, ?_⟩
  · show BroadphaseRemove (BroadphaseInsert T.Broadphase T.NumAllocated) T.NumAllocated = _
    exact BroadphaseRemove_insert_of_not_mem _ _ hN1
  · show TSetAdd T.PendingRemovals T.NumAllocated = _
    unfold TSetAdd
    rw [if_neg hN2]
  · intro y hy
    simp [NewSeedInserted, Function.update_noteq hy]
  · simp [FProceduralFoliageInstance.TerminateInstance]

/-- A failed `NewSeed` leaves no trace after the next flush: the flushed state has the
`Instances`, the broadphase and the storage of every older instance that a flush of the
state before the call would have produced. -/
theorem NewSeed_failure_flush (E : Engine) (T : UProceduralFoliageTile) (Location : FVector)
    (Scale : ℚ) (Type_ : UFoliageType_InstancedStaticMesh) (InAge : ℚ) (bBlocker : Bool)
    (hv : PointersValid T)
    (h : (NewSeed E T Location Scale Type_ InAge bBlocker).1 = none) :
    AgreeExceptAt T.NumAllocated (FlushPendingRemovals T)
      (FlushPendingRemovals (NewSeed E T Location Scale Type_ InAge bBlocker).2) := by
  obtain ⟨hI, hB, hP, hH, hD⟩ :=
    NewSeed_failure_fields E T Location Scale Type_ InAge bBlocker hv h
  have hagree : AgreeExceptAt T.NumAllocated T
      (NewSeed E T Location Scale Type_ InAge bBlocker).2 := ⟨hI, hB, hH⟩
  have hfold := foldl_RemoveInstance_agree T.NumAllocated T.PendingRemovals T _ hagree
    (fun x hx => Nat.ne_of_lt (hv.2.2 x hx))
  have hframe := foldl_RemoveInstance_frame T.PendingRemovals
    (NewSeed E T Location Scale Type_ InAge bBlocker).2
  have hframeT := foldl_RemoveInstance_frame T.PendingRemovals T
  have hdead := hframe.dead_stays T.NumAllocated hD
  have hnot : T.NumAllocated ∉ (T.PendingRemovals.foldl RemoveInstance
      (NewSeed E T Location Scale Type_ InAge bBlocker).2).Instances := by
    rw [hfold.instances_eq]
    intro hm
    exact lt_irrefl _ (hv.1 _ (hframeT.instances_sub _ hm))
  unfold FlushPendingRemovals
  rw [hP, List.foldl_append, List.foldl_cons, List.foldl_nil,
    RemoveInstance_of_dead _ _ hdead, TSetRemove_of_not_mem _ _ hnot]
  exact ⟨hfold.instances_eq, hfold.broadphase_eq, hfold.heap_eq⟩

theorem FlushPendingRemovals_of_empty (T : UProceduralFoliageTile)
    (h : T.PendingRemovals = []) : FlushPendingRemovals T = T := by
  unfold FlushPendingRemovals
  rw [h]
  simp only [List.foldl_nil]
  cases T
  simp only at h
  subst h
  rfl

/-! ## The step loop of Simulate -/

theorem wrapInt32_of_range (n : Int) (h1 : -2147483648 ≤ n) (h2 : n < 2147483648) :
    wrapInt32 n = n := by
  unfold wrapInt32
  omega

theorem SpecMaxSteps_nonneg_aux (L : List UFoliageType_InstancedStaticMesh) :
    0 ≤ L.foldr (fun TypeInstance M => max (TypeInstance.NumSteps + 1) M) (0 : Int) := by
  induction L with
  | nil => exact le_refl _
  | cons a L ih => exact le_trans ih (le_max_right _ _)

theorem SpecMaxSteps_nonneg (P : UProceduralFoliage) : 0 ≤ SpecMaxSteps P :=
  SpecMaxSteps_nonneg_aux _

theorem SpecMaxSteps_le (P : UProceduralFoliage)
    (hNo : ∀ D ∈ P.GetTypes, ∀ Ty, D.TypeInstance = some Ty →
      -2147483648 ≤ Ty.NumSteps ∧ Ty.NumSteps < 2147483647) :
    SpecMaxSteps P ≤ 2147483647 := by
  unfold SpecMaxSteps
  have h : ∀ Ty ∈ P.GetTypes.filterMap (fun D => D.TypeInstance),
      Ty.NumSteps < 2147483647 := by
    intro Ty hTy
    obtain ⟨D, hD, hDT⟩ := List.mem_filterMap.1 hTy
    exact (hNo D hD Ty hDT).2
  generalize P.GetTypes.filterMap (fun D => D.TypeInstance) = L at h
  induction L with
  | nil => simp
  | cons a L ih =>
    rw [List.foldr_cons]
    apply max_le
    · have := h a (List.mem_cons_self _ _)
      omega
    · exact ih (fun Ty hTy => h Ty (List.mem_cons_of_mem _ hTy))

theorem SimulateMaxSteps_foldl (L : List FProceduralFoliageTypeData) (a : Int) (ha : 0 ≤ a)
    (hNo : ∀ D ∈ L, ∀ Ty, D.TypeInstance = some Ty →
      -2147483648 ≤ Ty.NumSteps ∧ Ty.NumSteps < 2147483647) :
    L.foldl (fun MaxSteps Data =>
      match Data.TypeInstance with
      | some TypeInstance => max MaxSteps (wrapInt32 (TypeInstance.NumSteps + 1))
      | none => MaxSteps) a =
    max a ((L.filterMap (fun D => D.TypeInstance)).foldr
      (fun TypeInstance M => max (TypeInstance.NumSteps + 1) M) 0) := by
  induction L generalizing a with
  | nil =>
    simp only [List.foldl_nil, List.filterMap_nil, List.foldr_nil]
    exact (max_eq_left ha).symm
  | cons D L ih =>
    have hNo' : ∀ D' ∈ L, ∀ Ty, D'.TypeInstance = some Ty →
        -2147483648 ≤ Ty.NumSteps ∧ Ty.NumSteps < 2147483647 :=
      fun D' hD' => hNo D' (List.mem_cons_of_mem _ hD')
    rw [List.foldl_cons, List.filterMap_cons]
    cases hT : D.TypeInstance with
    | none =>
      simp only
      exact ih a ha hNo'
    | some Ty =>
      have hr := hNo D (List.mem_cons_self _ _) Ty hT
      have hw : wrapInt32 (Ty.NumSteps + 1) = Ty.NumSteps + 1 :=
        wrapInt32_of_range _ (by omega) (by omega)
      simp only [List.foldr_cons]
      rw [hw, ih _ (le_trans ha (le_max_left _ _)) hNo', max_assoc]

theorem SimulateMaxSteps_eq (P : UProceduralFoliage) (MaxNumSteps : Int)
    (hNo : ∀ D ∈ P.GetTypes, ∀ Ty, D.TypeInstance = some Ty →
      -2147483648 ≤ Ty.NumSteps ∧ Ty.NumSteps < 2147483647) :
    SimulateMaxSteps P MaxNumSteps = SpecStepCount P MaxNumSteps := by
  unfold SimulateMaxSteps SpecStepCount
  simp only
  rw [SimulateMaxSteps_foldl P.GetTypes 0 (le_refl _) hNo]
  have h0 : max 0 (SpecMaxSteps P) = SpecMaxSteps P := max_eq_right (SpecMaxSteps_nonneg P)
  unfold SpecMaxSteps at h0
  rw [h0]
  rfl

theorem SimulateLoop_eq_iterate (E : Engine) (MaxSteps : Int) (n : Nat) :
    ∀ (Step : Int) (T : UProceduralFoliageTile) (Fuel : Nat), Step + n = MaxSteps → n ≤ Fuel →
      SimulateLoop E MaxSteps Fuel Step T = Nat.iterate (SimulateStep E) n T := by
  induction n with
  | zero =>
    intro Step T Fuel h _
    cases Fuel with
    | zero => rfl
    | succ F =>
      unfold SimulateLoop
      rw [if_neg (by omega)]
      rfl
  | succ n ih =>
    intro Step T Fuel h hF
    cases Fuel with
    | zero => omega
    | succ F =>
      unfold SimulateLoop
      rw [if_pos (by omega), Function.iterate_succ_apply]
      exact ih (Step + 1) (SimulateStep E T) F (by omega) (by omega)

theorem iterate_SimulateStep_simulationStep (E : Engine) (n : Nat) :
    ∀ T : UProceduralFoliageTile, 0 ≤ T.SimulationStep → T.SimulationStep + n < 2147483648 →
      (Nat.iterate (SimulateStep E) n T).SimulationStep = T.SimulationStep + n := by
  induction n with
  | zero => intro T _ _; simp
  | succ n ih =>
    intro T h0 h1
    have hs : (SimulateStep E T).SimulationStep = T.SimulationStep + 1 := by
      show wrapInt32 ((StepSimulation E T).SimulationStep + 1) = _
      rw [StepSimulation_simulationStep]
      exact wrapInt32_of_range _ (by omega) (by omega)
    rw [Function.iterate_succ_apply, ih (SimulateStep E T) (by omega) (by rw [hs]; omega), hs]
    push_cast
    omega

/-! ## The invariant along Simulate -/

theorem TileInvariant_of_fields {T T' : UProceduralFoliageTile} (h : TileInvariant T)
    (hH : T'.Heap = T.Heap) (hN : T'.NumAllocated = T.NumAllocated)
    (hB : T'.Broadphase = T.Broadphase) (hI : T'.Instances = T.Instances)
    (hP : T'.PendingRemovals = T.PendingRemovals) : TileInvariant T' := by
  unfold TileInvariant AliveAt at h ⊢
  rw [hH, hN, hB, hI, hP]
  exact h

theorem SimulateStep_invariant (E : Engine) (T : UProceduralFoliageTile)
    (h : TileInvariant T) : TileInvariant (SimulateStep E T) :=
  TileInvariant_of_fields (StepSimulation_invariant E T h) rfl rfl rfl rfl rfl

theorem SimulateLoop_invariant (E : Engine) (MaxSteps : Int) (Fuel : Nat) :
    ∀ (Step : Int) (T : UProceduralFoliageTile), TileInvariant T →
      TileInvariant (SimulateLoop E MaxSteps Fuel Step T) := by
  induction Fuel with
  | zero => intro Step T h; exact h
  | succ F ih =>
    intro Step T h
    unfold SimulateLoop
    split
    · exact ih _ _ (SimulateStep_invariant E T h)
    · exact h

theorem InitSimulation_invariant (T : UProceduralFoliageTile) (P : UProceduralFoliage)
    (RandomSeed : Int)
    (hFresh : T.NumAllocated = 0 ∧ T.Instances = [] ∧ T.PendingRemovals = []) :
    TileInvariant (InitSimulation T P RandomSeed) := by
  refine ⟨?_, ?_, hFresh.2.2⟩
  · intro x
    show x ∈ [] ↔ x < T.NumAllocated ∧ _
    rw [hFresh.1]
    simp
  · intro x hx
    have hx' : x ∈ T.Instances := hx
    rw [hFresh.2.1] at hx'
    exact absurd hx' (List.not_mem_nil _)

/-! ## The broadphase keeps one entry per instance -/

theorem AgeSeeds_broadphase_nodup (E : Engine) (T : UProceduralFoliageTile)
    (h : T.Broadphase.Nodup) : (AgeSeeds E T).Broadphase.Nodup := by
  unfold AgeSeeds
  simp only
  apply (FlushPendingRemovals_frame _).nodup
  exact (foldl_evolves _ (fun A a => AgeSeedsBody_evolves E A a) T.Instances (T, [])).nodup h

theorem StepSimulation_broadphase_nodup (E : Engine) (T : UProceduralFoliageTile)
    (h : T.Broadphase.Nodup) : (StepSimulation E T).Broadphase.Nodup := by
  unfold StepSimulation
  simp only
  apply (FlushPendingRemovals_frame _).nodup
  split
  · exact (AddRandomSeeds_evolves E T []).nodup h
  · exact (SpreadSeeds_evolves E (AgeSeeds E T) []).nodup (AgeSeeds_broadphase_nodup E T h)

theorem AddInstances_broadphase_nodup (E : Engine) (T : UProceduralFoliageTile)
    (NewInstances : List FProceduralFoliageInstance) (RelativeTM : FTransform)
    (InnerLocalAABB : FBox2D) (h : T.Broadphase.Nodup) :
    (AddInstances E T NewInstances RelativeTM InnerLocalAABB).Broadphase.Nodup := by
  unfold AddInstances
  apply (FlushPendingRemovals_frame _).nodup
  induction NewInstances generalizing T with
  | nil => exact h
  | cons I L ih =>
    rw [List.foldl_cons]
    apply ih
    unfold AddInstancesBody
    simp only
    split
    · exact (NewSeed_evolves E T _ _ _ _ _).nodup h
    · exact (NewSeed_evolves E T _ _ _ _ _).nodup h

/-- The state on which `NewSeed` calls `HandleOverlaps`: in a consistent tile whose
broadphase has one entry per instance, the broadphase still has one entry per instance and
holds only alive instances, and the candidate is alive and indexed. -/
theorem NewSeedInserted_call_site (E : Engine) (T : UProceduralFoliageTile)
    (Location : FVector) (Scale : ℚ) (Type_ : UFoliageType_InstancedStaticMesh) (InAge : ℚ)
    (bBlocker : Bool) (hC : Consistent T) (hnd : T.Broadphase.Nodup) :
    (NewSeedInserted E T Location Scale Type_ InAge bBlocker).Broadphase.Nodup ∧
    (∀ x ∈ (NewSeedInserted E T Location Scale Type_ InAge bBlocker).Broadphase,
      ((NewSeedInserted E T Location Scale Type_ InAge bBlocker).Heap x).bAlive = true) ∧
    ((NewSeedInserted E T Location Scale Type_ InAge bBlocker).Heap T.NumAllocated).bAlive
      = true ∧
    T.NumAllocated ∈ (NewSeedInserted E T Location Scale Type_ InAge bBlocker).Broadphase := by
  have hC' := NewSeedInserted_consistent E T Location Scale Type_ InAge bBlocker hC
  have hnew := NewSeedInserted_tracked_new E T Location Scale Type_ InAge bBlocker
  have halive : ((NewSeedInserted E T Location Scale Type_ InAge bBlocker).Heap
      T.NumAllocated).bAlive = true := by
    simp [NewSeedInserted]
  exact ⟨(NewSeedInserted_evolves E T Location Scale Type_ InAge bBlocker).nodup hnd,
    fun x hx => ((hC'.bp_iff x).1 hx).2, halive, (hC'.bp_iff _).2 ⟨hnew.1, halive⟩⟩

/-! ## Dead instances in the loops over Instances -/

/-- The liveness guard of `SpreadSeeds`: the pass of the loop over `Instances` for a dead
instance changes nothing. -/
theorem SpreadSeedsBody_of_dead (E : Engine) (A : UProceduralFoliageTile × List Nat) (B : Nat)
    (h : (A.1.Heap B).bAlive = false) : SpreadSeedsBody E A B = A := by
  unfold SpreadSeedsBody
  have h' : (A.1.Heap B).IsAlive = false := h
  rw [if_pos h']

/-- The liveness guard of `AgeSeeds`: the pass of the loop over `Instances` for a dead
instance changes nothing. -/
theorem AgeSeedsBody_of_dead (E : Engine) (A : UProceduralFoliageTile × List Nat) (B : Nat)
    (h : (A.1.Heap B).bAlive = false) : AgeSeedsBody E A B = A := by
  unfold AgeSeedsBody
  have h' : ¬ (A.1.Heap B).IsAlive = true := by
    show ¬ (A.1.Heap B).bAlive = true
    rw [h]
    exact Bool.noConfusion
  rw [if_neg h']

/-- An instance that is dead when `StepSimulation` returns, whether it was marked during
the step or before, is not a member of `Instances`, hence not copied by
`InstancesToArray`. -/
theorem StepSimulation_dead_not_member (E : Engine) (T : UProceduralFoliageTile)
    (h : TileInvariant T) (B : Nat) (hd : ((StepSimulation E T).Heap B).bAlive = false) :
    B ∉ (StepSimulation E T).Instances := by
  intro hm
  have ha := ((StepSimulation_invariant E T h).2.1 B hm).1.2
  rw [hd] at ha
  exact Bool.noConfusion ha

/-- The same for `AddInstances`. -/
theorem AddInstances_dead_not_member (E : Engine) (T : UProceduralFoliageTile)
    (NewInstances : List FProceduralFoliageInstance) (RelativeTM : FTransform)
    (InnerLocalAABB : FBox2D) (h : TileInvariant T) (B : Nat)
    (hd : ((AddInstances E T NewInstances RelativeTM InnerLocalAABB).Heap B).bAlive = false) :
    B ∉ (AddInstances E T NewInstances RelativeTM InnerLocalAABB).Instances := by
  intro hm
  have ha := ((AddInstances_invariant E T NewInstances RelativeTM InnerLocalAABB h).2.1 B
    hm).1.2
  rw [hd] at ha
  exact Bool.noConfusion ha

/-! ## The clipped spread distance -/

theorem SpreadSeedsAttempt_of_accepts (E : Engine) (Inst : Nat)
    (A : UProceduralFoliageTile × List Nat)
    (h : SpreadSeedsAccepts (SpreadSeedsDraw E A.1 Inst)) :
    SpreadSeedsAttempt E Inst A =
      CollectSeed (NewSeed E { A.1 with RandomStream := (SpreadSeedsDraw E A.1 Inst).Stream }
        ((SpreadSeedsDraw E A.1 Inst).GlobalOffset.add (A.1.Heap Inst).Location)
        (SpreadSeedsDraw E A.1 Inst).NewScale (A.1.Heap Inst).Type_
        (SpreadSeedsDraw E A.1 Inst).NewAge false) A.2 := by
  unfold SpreadSeedsAttempt
  simp only
  rw [if_pos h]

theorem SpreadSeedsAttempt_of_rejects (E : Engine) (Inst : Nat)
    (A : UProceduralFoliageTile × List Nat)
    (h : ¬ SpreadSeedsAccepts (SpreadSeedsDraw E A.1 Inst)) :
    SpreadSeedsAttempt E Inst A =
      ({ A.1 with RandomStream := (SpreadSeedsDraw E A.1 Inst).Stream }, A.2) := by
  unfold SpreadSeedsAttempt
  simp only
  rw [if_neg h]

theorem Evolves.type_eq {T T' : UProceduralFoliageTile} (h : Evolves T T') (y : Nat)
    (hy : y < T.NumAllocated) : (T'.Heap y).Type_ = (T.Heap y).Type_ :=
  show (T'.Heap y).TerminateInstance.Type_ = (T.Heap y).TerminateInstance.Type_ from
    congrArg FProceduralFoliageInstance.Type_ (h.data_eq y hy)

/-! ## Simulate on a tile without instances -/

theorem AddRandomSeedsBody_of_tileSize_zero (E : Engine)
    (A : UProceduralFoliageTile × List Nat) (Data : FProceduralFoliageTypeData)
    (h : A.1.ProceduralFoliage.TileSize = 0) : AddRandomSeedsBody E A Data = A := by
  unfold AddRandomSeedsBody
  cases hD : Data.TypeInstance with
  | none => rfl
  | some TypeInstance =>
    have h1 : Float32.mul (0 : ℚ) 0 = 0 := by
      unfold Float32.mul
      rw [mul_zero, Float32.round_zero]
    have h2 : Float32.div 0 (Float32.mul 1000 1000) = 0 := by
      unfold Float32.div
      rw [zero_div, Float32.round_zero]
    have h3 : Float32.mul TypeInstance.GetSeedDensitySquared 0 = 0 := by
      unfold Float32.mul
      rw [mul_zero, Float32.round_zero]
    simp only [h, h1, h2, h3, LoopCount_zero, Function.iterate_zero, id_eq]

theorem AddRandomSeeds_of_tileSize_zero (E : Engine) (T : UProceduralFoliageTile)
    (Out : List Nat) (h : T.ProceduralFoliage.TileSize = 0) :
    AddRandomSeeds E T Out = (T, Out) := by
  unfold AddRandomSeeds
  generalize T.ProceduralFoliage.GetTypes = L
  induction L with
  | nil => rfl
  | cons D L ih =>
    rw [List.foldl_cons, AddRandomSeedsBody_of_tileSize_zero E (T, Out) D h]
    exact ih

theorem setInstances_self (T : UProceduralFoliageTile) :
    ({ T with Instances := T.Instances } : UProceduralFoliageTile) = T := by
  cases T
  rfl

theorem AgeSeeds_of_empty (E : Engine) (T : UProceduralFoliageTile)
    (hI : T.Instances = []) (hP : T.PendingRemovals = []) : AgeSeeds E T = T := by
  unfold AgeSeeds
  simp only [hI, List.foldl_nil]
  rw [← hI, setInstances_self, FlushPendingRemovals_of_empty T hP]

theorem SpreadSeeds_of_empty (E : Engine) (T : UProceduralFoliageTile) (Out : List Nat)
    (hI : T.Instances = []) : SpreadSeeds E T Out = (T, Out) := by
  unfold SpreadSeeds
  rw [hI]
  rfl

/-- A step on a tile without instances does nothing when the tile size is zero or the step
is not the seeding step. -/
theorem StepSimulation_of_empty (E : Engine) (T : UProceduralFoliageTile)
    (hI : T.Instances = []) (hP : T.PendingRemovals = [])
    (h : T.SimulationStep ≠ 0 ∨ T.ProceduralFoliage.TileSize = 0) :
    StepSimulation E T = T := by
  unfold StepSimulation
  by_cases h0 : T.SimulationStep = 0
  · have hT : T.ProceduralFoliage.TileSize = 0 := h.resolve_left (fun hn => hn h0)
    simp only [if_pos h0, AddRandomSeeds_of_tileSize_zero E T [] hT, List.foldl_nil]
    rw [setInstances_self, FlushPendingRemovals_of_empty T hP]
  · simp only [if_neg h0]
    rw [AgeSeeds_of_empty E T hI hP, SpreadSeeds_of_empty E T [] hI]
    simp only [List.foldl_nil]
    rw [setInstances_self, FlushPendingRemovals_of_empty T hP]

theorem SimulateLoop_of_tileSize_zero (E : Engine) (MaxSteps : Int) (Fuel : Nat) :
    ∀ (Step : Int) (T : UProceduralFoliageTile), T.Instances = [] → T.PendingRemovals = [] →
      T.ProceduralFoliage.TileSize = 0 →
      (SimulateLoop E MaxSteps Fuel Step T).Instances = [] := by
  induction Fuel with
  | zero => intro Step T hI _ _; exact hI
  | succ F ih =>
    intro Step T hI hP hT
    unfold SimulateLoop
    by_cases hS : Step < MaxSteps
    · rw [if_pos hS]
      have hstep : SimulateStep E T =
          { T with SimulationStep := wrapInt32 (T.SimulationStep + 1) } := by
        unfold SimulateStep
        rw [StepSimulation_of_empty E T hI hP (Or.inr hT)]
      rw [hstep]
      exact ih _ _ hI hP hT
    · rw [if_neg hS]
      exact hI

theorem SimulateMaxSteps_of_negative (P : UProceduralFoliage) (MaxNumSteps : Int)
    (h : ∀ D ∈ P.GetTypes, ∀ Ty, D.TypeInstance = some Ty →
      -2147483648 ≤ Ty.NumSteps ∧ Ty.NumSteps < 0) :
    SimulateMaxSteps P MaxNumSteps ≤ 0 := by
  unfold SimulateMaxSteps
  have key : ∀ (L : List FProceduralFoliageTypeData),
      (∀ D ∈ L, ∀ Ty, D.TypeInstance = some Ty → -2147483648 ≤ Ty.NumSteps ∧ Ty.NumSteps < 0) →
      ∀ M : Int, M ≤ 0 →
      L.foldl (fun MaxSteps Data =>
        match Data.TypeInstance with
        | some TypeInstance => max MaxSteps (wrapInt32 (TypeInstance.NumSteps + 1))
        | none => MaxSteps) M ≤ 0 := by
    intro L
    induction L with
    | nil => intro _ M hM; exact hM
    | cons D L ih =>
      intro hL M hM
      rw [List.foldl_cons]
      apply ih (fun D' hD' => hL D' (List.mem_cons_of_mem _ hD'))
      cases hD : D.TypeInstance with
      | none => exact hM
      | some Ty =>
        have := hL D (List.mem_cons_self _ _) Ty hD
        simp only
        rw [wrapInt32_of_range _ (by omega) (by omega)]
        exact max_le hM (by omega)
  have h0 := key P.GetTypes h 0 (le_refl _)
  simp only
  split
  · exact le_trans (min_le_left _ _) h0
  · exact h0

theorem SimulateLoop_of_maxSteps_nonpos (E : Engine) (MaxSteps : Int) (h : MaxSteps ≤ 0)
    (Fuel : Nat) (T : UProceduralFoliageTile) : SimulateLoop E MaxSteps Fuel 0 T = T := by
  cases Fuel with
  | zero => rfl
  | succ F =>
    unfold SimulateLoop
    rw [if_neg (by omega)]

/-! ## Counting the seeds of the seeding step -/

theorem AddRandomSeedsLoop_eq_iterate (E : Engine)
    (TypeInstance : UFoliageType_InstancedStaticMesh) (NumSeeds : ℚ) :
    ∀ (Fuel i : Nat) (A : UProceduralFoliageTile × List Nat),
      AddRandomSeedsLoop E TypeInstance NumSeeds Fuel (i : Int) A =
        Nat.iterate (AddRandomSeedsAttempt E TypeInstance)
          (LoopCountFrom NumSeeds Fuel i - i) A := by
  intro Fuel
  induction Fuel with
  | zero =>
    intro i A
    unfold AddRandomSeedsLoop LoopCountFrom
    rw [Nat.sub_self]
    rfl
  | succ F ih =>
    intro i A
    unfold AddRandomSeedsLoop LoopCountFrom
    by_cases hc : Float32.ofInt (i : Int) < NumSeeds
    · rw [if_pos hc, if_pos hc]
      have hcast : ((i : Int) + 1) = ((i + 1 : Nat) : Int) := by push_cast; rfl
      rw [hcast, ih (i + 1) (AddRandomSeedsAttempt E TypeInstance A)]
      have hle := (LoopCountFrom_spec NumSeeds F (i + 1)).1
      have : LoopCountFrom NumSeeds F (i + 1) - i =
          (LoopCountFrom NumSeeds F (i + 1) - (i + 1)) + 1 := by omega
      rw [this, Function.iterate_succ_apply]
    · rw [if_neg hc, if_neg hc, Nat.sub_self]
      rfl

theorem CollectSeed_snd_length (R : Option Nat × UProceduralFoliageTile) (S : List Nat) :
    (CollectSeed R S).2.length ≤ S.length + 1 := by
  unfold CollectSeed
  split
  · simp
  · simp

theorem AddRandomSeedsAttempt_length (E : Engine)
    (TypeInstance : UFoliageType_InstancedStaticMesh)
    (A : UProceduralFoliageTile × List Nat) :
    (AddRandomSeedsAttempt E TypeInstance A).2.length ≤ A.2.length + 1 := by
  unfold AddRandomSeedsAttempt
  exact CollectSeed_snd_length _ _

theorem iterate_AddRandomSeedsAttempt_length (E : Engine)
    (TypeInstance : UFoliageType_InstancedStaticMesh) (n : Nat) :
    ∀ A : UProceduralFoliageTile × List Nat,
      (Nat.iterate (AddRandomSeedsAttempt E TypeInstance) n A).2.length ≤ A.2.length + n := by
  induction n with
  | zero => intro A; exact le_refl _
  | succ n ih =>
    intro A
    rw [Function.iterate_succ_apply]
    have h1 := ih (AddRandomSeedsAttempt E TypeInstance A)
    have h2 := AddRandomSeedsAttempt_length E TypeInstance A
    omega

theorem foldl_AddRandomSeedsBody_length (E : Engine) (P : UProceduralFoliage)
    (L : List FProceduralFoliageTypeData) :
    ∀ A : UProceduralFoliageTile × List Nat, A.1.ProceduralFoliage = P →
      (L.foldl (AddRandomSeedsBody E) A).2.length ≤ A.2.length +
        (L.map (fun D =>
          match D.TypeInstance with
          | some Ty => LoopCount (AddRandomSeedsNumSeeds Ty P.TileSize)
          | none => 0)).sum := by
  induction L with
  | nil => intro A _; exact le_refl _
  | cons D L ih =>
    intro A hA
    rw [List.foldl_cons, List.map_cons, List.sum_cons]
    have hE := AddRandomSeedsBody_evolves E A D
    have h1 := ih (AddRandomSeedsBody E A D) (by rw [hE.foliage_eq, hA])
    have h2 : (AddRandomSeedsBody E A D).2.length ≤ A.2.length +
        (match D.TypeInstance with
          | some Ty => LoopCount (AddRandomSeedsNumSeeds Ty P.TileSize)
          | none => 0) := by
      unfold AddRandomSeedsBody
      cases hD : D.TypeInstance with
      | none => exact le_refl _
      | some Ty =>
        simp only
        rw [hA]
        exact iterate_AddRandomSeedsAttempt_length E Ty
          (LoopCount (AddRandomSeedsNumSeeds Ty P.TileSize)) A
    omega

theorem foldl_TSetAdd_length (L S : List Nat) :
    (L.foldl TSetAdd S).length ≤ S.length + L.length := by
  induction L generalizing S with
  | nil => exact le_refl _
  | cons a L ih =>
    rw [List.foldl_cons, List.length_cons]
    have h1 := ih (TSetAdd S a)
    have h2 : (TSetAdd S a).length ≤ S.length + 1 := by
      unfold TSetAdd
      split <;> simp
    omega

theorem RemoveInstance_instances_sublist (T : UProceduralFoliageTile) (x : Nat) :
    (RemoveInstance T x).Instances.Sublist T.Instances := by
  unfold RemoveInstance
  simp only
  split <;> exact List.filter_sublist _

theorem foldl_RemoveInstance_instances_sublist (L : List Nat) (T : UProceduralFoliageTile) :
    (L.foldl RemoveInstance T).Instances.Sublist T.Instances := by
  induction L generalizing T with
  | nil => exact List.Sublist.refl _
  | cons a L ih =>
    rw [List.foldl_cons]
    exact (ih _).trans (RemoveInstance_instances_sublist T a)

theorem FlushPendingRemovals_instances_sublist (T : UProceduralFoliageTile) :
    (FlushPendingRemovals T).Instances.Sublist T.Instances :=
  foldl_RemoveInstance_instances_sublist T.PendingRemovals T

theorem StepSimulation_seeding_length (E : Engine) (T : UProceduralFoliageTile)
    (hI : T.Instances = []) (h0 : T.SimulationStep = 0) :
    (StepSimulation E T).Instances.length ≤ SeedAttempts T.ProceduralFoliage := by
  unfold StepSimulation
  simp only [if_pos h0]
  refine le_trans (FlushPendingRemovals_instances_sublist _).length_le ?_
  show ((AddRandomSeeds E T []).2.foldl TSetAdd (AddRandomSeeds E T []).1.Instances).length ≤ _
  rw [(AddRandomSeeds_evolves E T []).instances_eq, hI]
  refine le_trans (foldl_TSetAdd_length _ _) ?_
  have := foldl_AddRandomSeedsBody_length E T.ProceduralFoliage T.ProceduralFoliage.GetTypes
    (T, []) rfl
  unfold SeedAttempts AddRandomSeeds
  simpa using this

theorem InstancesToArray_length (T : UProceduralFoliageTile) :
    (InstancesToArray T).InstancesArray.length ≤ T.Instances.length := by
  unfold InstancesToArray
  simp only [List.length_map]
  exact List.length_filter_le _ _

theorem Simulate_seeding_only_length (E : Engine) (T : UProceduralFoliageTile)
    (P : UProceduralFoliage) (RandomSeed MaxNumSteps : Int) (hI : T.Instances = [])
    (hM : SimulateMaxSteps P MaxNumSteps ≤ 1) :
    (Simulate E T P RandomSeed MaxNumSteps).InstancesArray.length ≤ SeedAttempts P := by
  have hM' : SimulateMaxSteps (InitSimulation T P RandomSeed).ProceduralFoliage
      MaxNumSteps ≤ 1 := hM
  unfold Simulate
  simp only
  refine le_trans (InstancesToArray_length _) ?_
  by_cases h0 : SimulateMaxSteps (InitSimulation T P RandomSeed).ProceduralFoliage
      MaxNumSteps ≤ 0
  · rw [SimulateLoop_of_maxSteps_nonpos E _ h0]
    show T.Instances.length ≤ _
    rw [hI]
    exact Nat.zero_le _
  · have h1 : SimulateMaxSteps (InitSimulation T P RandomSeed).ProceduralFoliage
        MaxNumSteps = 1 := by omega
    rw [h1]
    show (SimulateLoop E 1 1 0 (InitSimulation T P RandomSeed)).Instances.length ≤ _
    unfold SimulateLoop
    rw [if_pos (by decide)]
    unfold SimulateLoop
    exact StepSimulation_seeding_length E (InitSimulation T P RandomSeed) hI rfl

/-! ## The instances allocated by AddInstances -/

theorem IsCopyOf_congr (E : Engine) (RelativeTM : FTransform) (InnerLocalAABB : FBox2D)
    (Inst I I' : FProceduralFoliageInstance)
    (h : I'.TerminateInstance = I.TerminateInstance)
    (hI : IsCopyOf E RelativeTM InnerLocalAABB Inst I) :
    IsCopyOf E RelativeTM InnerLocalAABB Inst I' := by
  have hb : I'.bBlocker = I.bBlocker :=
    show I'.TerminateInstance.bBlocker = I.TerminateInstance.bBlocker from
      congrArg FProceduralFoliageInstance.bBlocker h
  have hl : I'.Location = I.Location :=
    show I'.TerminateInstance.Location = I.TerminateInstance.Location from
      congrArg FProceduralFoliageInstance.Location h
  have hs : I'.Scale = I.Scale :=
    show I'.TerminateInstance.Scale = I.TerminateInstance.Scale from
      congrArg FProceduralFoliageInstance.Scale h
  have ha : I'.Age = I.Age :=
    show I'.TerminateInstance.Age = I.TerminateInstance.Age from
      congrArg FProceduralFoliageInstance.Age h
  have ht : I'.Type_ = I.Type_ :=
    show I'.TerminateInstance.Type_ = I.TerminateInstance.Type_ from
      congrArg FProceduralFoliageInstance.Type_ h
  unfold IsCopyOf
  rw [hb, hl, hs, ha, ht]
  exact hI

theorem AddInstancesBody_heap (E : Engine) (RelativeTM : FTransform) (InnerLocalAABB : FBox2D)
    (T : UProceduralFoliageTile) (Inst : FProceduralFoliageInstance) :
    (AddInstancesBody E RelativeTM InnerLocalAABB T Inst).Heap =
      (NewSeed E T (RelativeTM.TransformPosition Inst.Location) Inst.Scale Inst.Type_ Inst.Age
        (AddInstancesIsBlocker E InnerLocalAABB Inst)).2.Heap ∧
    (AddInstancesBody E RelativeTM InnerLocalAABB T Inst).NumAllocated = T.NumAllocated + 1 := by
  unfold AddInstancesBody
  simp only
  split
  · exact ⟨rfl, NewSeed_numAllocated E T _ _ _ _ _⟩
  · exact ⟨rfl, NewSeed_numAllocated E T _ _ _ _ _⟩

theorem AddInstancesBody_data_eq (E : Engine) (RelativeTM : FTransform)
    (InnerLocalAABB : FBox2D) (T : UProceduralFoliageTile) (Inst : FProceduralFoliageInstance)
    (y : Nat) (hy : y < T.NumAllocated) :
    ((AddInstancesBody E RelativeTM InnerLocalAABB T Inst).Heap y).TerminateInstance =
      (T.Heap y).TerminateInstance := by
  rw [(AddInstancesBody_heap E RelativeTM InnerLocalAABB T Inst).1]
  exact (NewSeed_evolves E T _ _ _ _ _).data_eq y hy

theorem AddInstancesBody_new (E : Engine) (RelativeTM : FTransform) (InnerLocalAABB : FBox2D)
    (T : UProceduralFoliageTile) (Inst : FProceduralFoliageInstance) :
    IsCopyOf E RelativeTM InnerLocalAABB Inst
      ((AddInstancesBody E RelativeTM InnerLocalAABB T Inst).Heap T.NumAllocated) := by
  rw [(AddInstancesBody_heap E RelativeTM InnerLocalAABB T Inst).1, NewSeed_eq]
  have h := (HandleOverlaps_evolves E
    (NewSeedInserted E T (RelativeTM.TransformPosition Inst.Location) Inst.Scale Inst.Type_
      Inst.Age (AddInstancesIsBlocker E InnerLocalAABB Inst)) T.NumAllocated).data_eq
    T.NumAllocated (Nat.lt_succ_self _)
  refine IsCopyOf_congr E RelativeTM InnerLocalAABB Inst _ _ h ?_
  simp only [NewSeedInserted, Function.update_same]
  exact ⟨rfl, rfl, rfl, rfl, rfl⟩

theorem foldl_AddInstancesBody_data (E : Engine) (RelativeTM : FTransform)
    (InnerLocalAABB : FBox2D) (L : List FProceduralFoliageInstance) :
    ∀ T : UProceduralFoliageTile,
      (L.foldl (AddInstancesBody E RelativeTM InnerLocalAABB) T).NumAllocated =
        T.NumAllocated + L.length ∧
      (∀ y, y < T.NumAllocated →
        ((L.foldl (AddInstancesBody E RelativeTM InnerLocalAABB) T).Heap y).TerminateInstance =
          (T.Heap y).TerminateInstance) ∧
      (∀ k (hk : k < L.length), IsCopyOf E RelativeTM InnerLocalAABB (L.get ⟨k, hk⟩)
        ((L.foldl (AddInstancesBody E RelativeTM InnerLocalAABB) T).Heap
          (T.NumAllocated + k))) := by
  induction L with
  | nil =>
    intro T
    exact ⟨rfl, fun _ _ => rfl, fun k hk => absurd hk (Nat.not_lt_zero _)⟩
  | cons a L ih =>
    intro T
    rw [List.foldl_cons]
    obtain ⟨h1, h2, h3⟩ := ih (AddInstancesBody E RelativeTM InnerLocalAABB T a)
    have hN := (AddInstancesBody_heap E RelativeTM InnerLocalAABB T a).2
    refine ⟨?_, ?_, ?_⟩
    · rw [h1, hN, List.length_cons]
      omega
    · intro y hy
      rw [h2 y (by omega)]
      exact AddInstancesBody_data_eq E RelativeTM InnerLocalAABB T a y hy
    · intro k hk
      cases k with
      | zero =>
        refine IsCopyOf_congr E RelativeTM InnerLocalAABB a _ _ (h2 T.NumAllocated (by omega)) ?_
        exact AddInstancesBody_new E RelativeTM InnerLocalAABB T a
      | succ k =>
        have := h3 k (Nat.lt_of_succ_lt_succ hk)
        rw [hN] at this
        have he : T.NumAllocated + (k + 1) = T.NumAllocated + 1 + k := by omega
        rw [he]
        exact this

theorem AddInstances_data (E : Engine) (T : UProceduralFoliageTile)
    (L : List FProceduralFoliageInstance) (RelativeTM : FTransform) (InnerLocalAABB : FBox2D) :
    (AddInstances E T L RelativeTM InnerLocalAABB).NumAllocated = T.NumAllocated + L.length ∧
    (∀ y, y < T.NumAllocated →
      ((AddInstances E T L RelativeTM InnerLocalAABB).Heap y).TerminateInstance =
        (T.Heap y).TerminateInstance) ∧
    (∀ k (hk : k < L.length), IsCopyOf E RelativeTM InnerLocalAABB (L.get ⟨k, hk⟩)
      ((AddInstances E T L RelativeTM InnerLocalAABB).Heap (T.NumAllocated + k))) := by
  obtain ⟨h1, h2, h3⟩ := foldl_AddInstancesBody_data E RelativeTM InnerLocalAABB L T
  have hF := FlushPendingRemovals_frame
    (L.foldl (AddInstancesBody E RelativeTM InnerLocalAABB) T)
  unfold AddInstances
  refine ⟨by rw [hF.alloc_eq, h1], ?_, ?_⟩
  · intro y hy
    rw [hF.data_eq y, h2 y hy]
  · intro k hk
    exact IsCopyOf_congr E RelativeTM InnerLocalAABB _ _ _ (hF.data_eq _) (h3 k hk)

theorem TerminateInstance_fields (I J : FProceduralFoliageInstance)
    (h : I.TerminateInstance = J.TerminateInstance) :
    I.Location = J.Location ∧ I.Type_ = J.Type_ ∧ I.Age = J.Age ∧ I.Scale = J.Scale ∧
      I.bBlocker = J.bBlocker :=
  ⟨show I.TerminateInstance.Location = J.TerminateInstance.Location by rw [h],
   show I.TerminateInstance.Type_ = J.TerminateInstance.Type_ by rw [h],
   show I.TerminateInstance.Age = J.TerminateInstance.Age by rw [h],
   show I.TerminateInstance.Scale = J.TerminateInstance.Scale by rw [h],
   show I.TerminateInstance.bBlocker = J.TerminateInstance.bBlocker by rw [h]⟩

theorem eq_of_TerminateInstance_eq (I J : FProceduralFoliageInstance)
    (h : I.TerminateInstance = J.TerminateInstance) (ha : I.bAlive = J.bAlive) : I = J := by
  cases I
  cases J
  simp only [FProceduralFoliageInstance.TerminateInstance,
    FProceduralFoliageInstance.mk.injEq] at h ha ⊢
  obtain ⟨h1, h2, h3, h4, h5, h6, h7, _, h9⟩ := h
  exact ⟨h1, h2, h3, h4, h5, h6, h7, ha, h9⟩

theorem AgedFrom_congr (P P' C C' : FProceduralFoliageInstance)
    (hP : P'.TerminateInstance = P.TerminateInstance)
    (hC : C'.TerminateInstance = C.TerminateInstance) (h : AgedFrom P C) : AgedFrom P' C' := by
  obtain ⟨p1, p2, p3, _, _⟩ := TerminateInstance_fields P' P hP
  obtain ⟨c1, c2, c3, c4, c5⟩ := TerminateInstance_fields C' C hC
  unfold AgedFrom
  rw [p1, p2, p3, c1, c2, c3, c4, c5]
  exact h

theorem NewSeed_new_fields (E : Engine) (T : UProceduralFoliageTile) (Location : FVector)
    (Scale : ℚ) (Type_ : UFoliageType_InstancedStaticMesh) (InAge : ℚ) (bBlocker : Bool) :
    ((NewSeed E T Location Scale Type_ InAge bBlocker).2.Heap T.NumAllocated).Location
      = Location ∧
    ((NewSeed E T Location Scale Type_ InAge bBlocker).2.Heap T.NumAllocated).Type_ = Type_ ∧
    ((NewSeed E T Location Scale Type_ InAge bBlocker).2.Heap T.NumAllocated).Age = InAge ∧
    ((NewSeed E T Location Scale Type_ InAge bBlocker).2.Heap T.NumAllocated).Scale = Scale ∧
    ((NewSeed E T Location Scale Type_ InAge bBlocker).2.Heap T.NumAllocated).bBlocker
      = bBlocker := by
  rw [NewSeed_eq]
  have h := (HandleOverlaps_evolves E
    (NewSeedInserted E T Location Scale Type_ InAge bBlocker) T.NumAllocated).data_eq
    T.NumAllocated (Nat.lt_succ_self _)
  have hf := TerminateInstance_fields _ _ h
  simp only [NewSeedInserted, Function.update_same] at hf
  exact hf

theorem CollectSeed_snd_cases (E : Engine) (T : UProceduralFoliageTile) (Location : FVector)
    (Scale : ℚ) (Type_ : UFoliageType_InstancedStaticMesh) (InAge : ℚ) (bBlocker : Bool)
    (S : List Nat) :
    (CollectSeed (NewSeed E T Location Scale Type_ InAge bBlocker) S).2 = S ∨
    (CollectSeed (NewSeed E T Location Scale Type_ InAge bBlocker) S).2
      = S ++ [T.NumAllocated] := by
  unfold CollectSeed
  cases h : (NewSeed E T Location Scale Type_ InAge bBlocker).1 with
  | none => exact Or.inl rfl
  | some p =>
    right
    simp only
    rw [NewSeed_result E T Location Scale Type_ InAge bBlocker p h]

/-- The two ways through the body of the loop of `AgeSeeds`. -/
theorem AgeSeedsBody_cases (E : Engine) (A : UProceduralFoliageTile × List Nat) (I : Nat) :
    (((A.1.Heap I).bAlive = false ∨ (A.1.Heap I).Type_.NumSteps < A.1.SimulationStep) ∧
      AgeSeedsBody E A I = A) ∨
    ((A.1.Heap I).bAlive = true ∧ A.1.SimulationStep ≤ (A.1.Heap I).Type_.NumSteps ∧
      I ∈ (AgeSeedsBody E A I).1.PendingRemovals ∧
      AgedFrom (A.1.Heap I) ((AgeSeedsBody E A I).1.Heap A.1.NumAllocated) ∧
      ((AgeSeedsBody E A I).2 = A.2 ∨ (AgeSeedsBody E A I).2 = A.2 ++ [A.1.NumAllocated])) := by
  unfold AgeSeedsBody
  cases ha : (A.1.Heap I).bAlive with
  | false =>
    left
    have h' : (A.1.Heap I).IsAlive = false := ha
    refine ⟨Or.inl rfl, ?_⟩
    rw [h']
    rfl
  | true =>
    have h' : (A.1.Heap I).IsAlive = true := ha
    rw [h']
    simp only [if_true]
    by_cases hs : A.1.SimulationStep ≤ (A.1.Heap I).Type_.NumSteps
    · right
      rw [if_pos hs]
      refine ⟨trivial, hs, ?_, ?_, ?_⟩
      · rw [CollectSeed_fst]
        apply (NewSeed_evolves E _ _ _ _ _ _).pending_mono
        exact (MarkPendingRemoval_mem_pending A.1 I I).2 (Or.inr ⟨rfl, ha⟩)
      · rw [CollectSeed_fst]
        have hf := NewSeed_new_fields E (MarkPendingRemoval A.1 I) (A.1.Heap I).Location
          ((A.1.Heap I).Type_.GetScaleForAge ((A.1.Heap I).Type_.GetNextAge (A.1.Heap I).Age 1))
          (A.1.Heap I).Type_ ((A.1.Heap I).Type_.GetNextAge (A.1.Heap I).Age 1) false
        rw [MarkPendingRemoval_numAllocated] at hf
        exact ⟨hf.1, hf.2.1, hf.2.2.1, hf.2.2.2.1, hf.2.2.2.2⟩
      · have hc := CollectSeed_snd_cases E (MarkPendingRemoval A.1 I) (A.1.Heap I).Location
          ((A.1.Heap I).Type_.GetScaleForAge ((A.1.Heap I).Type_.GetNextAge (A.1.Heap I).Age 1))
          (A.1.Heap I).Type_ ((A.1.Heap I).Type_.GetNextAge (A.1.Heap I).Age 1) false A.2
        rw [MarkPendingRemoval_numAllocated] at hc
        exact hc
    · left
      rw [if_neg hs]
      exact ⟨Or.inr (not_le.1 hs), rfl⟩

theorem filter_not_mem_length_le (L P Q : List Nat) (hsub : ∀ y ∈ P, y ∈ Q) :
    (L.filter (fun y => decide (y ∉ Q))).length ≤ (L.filter (fun y => decide (y ∉ P))).length := by
  induction L with
  | nil => exact le_refl _
  | cons a L ih =>
    by_cases hQ : a ∈ Q
    · rw [List.filter_cons_of_neg (by simpa using hQ)]
      by_cases hP : a ∈ P
      · rw [List.filter_cons_of_neg (by simpa using hP)]
        exact ih
      · rw [List.filter_cons_of_pos (by simpa using hP), List.length_cons]
        omega
    · have hP : a ∉ P := fun h => hQ (hsub a h)
      rw [List.filter_cons_of_pos (by simpa using hQ),
        List.filter_cons_of_pos (by simpa using hP), List.length_cons, List.length_cons]
      omega

theorem filter_not_mem_length_lt (L P Q : List Nat) (hsub : ∀ y ∈ P, y ∈ Q) (x : Nat)
    (hx : x ∈ L) (hxP : x ∉ P) (hxQ : x ∈ Q) :
    (L.filter (fun y => decide (y ∉ Q))).length + 1 ≤
      (L.filter (fun y => decide (y ∉ P))).length := by
  induction L with
  | nil => exact absurd hx (List.not_mem_nil _)
  | cons a L ih =>
    by_cases hax : a = x
    · subst hax
      rw [List.filter_cons_of_neg (by simpa using hxQ),
        List.filter_cons_of_pos (by simpa using hxP), List.length_cons]
      have := filter_not_mem_length_le L P Q hsub
      omega
    · have hxL : x ∈ L := by
        rcases List.mem_cons.1 hx with h | h
        · exact absurd h.symm hax
        · exact h
      have h1 := ih hxL
      by_cases hQ : a ∈ Q
      · rw [List.filter_cons_of_neg (by simpa using hQ)]
        by_cases hP : a ∈ P
        · rw [List.filter_cons_of_neg (by simpa using hP)]
          exact h1
        · rw [List.filter_cons_of_pos (by simpa using hP), List.length_cons]
          omega
      · have hP : a ∉ P := fun h => hQ (hsub a h)
        rw [List.filter_cons_of_pos (by simpa using hQ),
          List.filter_cons_of_pos (by simpa using hP), List.length_cons, List.length_cons]
        omega

theorem filter_foldl_TSetAdd_length (q : Nat → Bool) (S : List Nat) :
    ∀ L : List Nat, ((S.foldl TSetAdd L).filter q).length ≤ (L.filter q).length + S.length := by
  induction S with
  | nil => intro L; exact le_refl _
  | cons a S ih =>
    intro L
    rw [List.foldl_cons, List.length_cons]
    have h1 := ih (TSetAdd L a)
    have h2 : ((TSetAdd L a).filter q).length ≤ (L.filter q).length + 1 := by
      unfold TSetAdd
      split
      · omega
      · rw [List.filter_append, List.length_append]
        have := List.length_filter_le q [a]
        simp only [List.length_singleton] at this
        omega
    omega

/-- The number of members of `L0` that are not pending plus the number of collected seeds
does not grow in the loop of `AgeSeeds`. -/
theorem foldl_AgeSeedsBody_count (E : Engine) (L0 : List Nat) (L : List Nat) :
    ∀ A : UProceduralFoliageTile × List Nat, Consistent A.1 →
      (∀ I ∈ L, I < A.1.NumAllocated) → (∀ I ∈ L, I ∈ L0) →
      (L0.filter (fun y => decide (y ∉ (L.foldl (AgeSeedsBody E) A).1.PendingRemovals))).length
          + (L.foldl (AgeSeedsBody E) A).2.length ≤
        (L0.filter (fun y => decide (y ∉ A.1.PendingRemovals))).length + A.2.length := by
  induction L with
  | nil => intro A _ _ _; exact le_refl _
  | cons I L ih =>
    intro A hC hL hL0
    rw [List.foldl_cons]
    have hI := hL I (List.mem_cons_self _ _)
    have hE := AgeSeedsBody_evolves E A I
    have hC' : Consistent (AgeSeedsBody E A I).1 := by
      have := AgeSeedsBody_loopInv E (A.1, []) I hI
        ⟨hC, fun x hx => absurd hx (List.not_mem_nil _)⟩
      have hfst : (AgeSeedsBody E A I).1 = (AgeSeedsBody E (A.1, []) I).1 := by
        unfold AgeSeedsBody
        simp only
        split
        · split
          · rw [CollectSeed_fst, CollectSeed_fst]
          · rfl
        · rfl
      rw [hfst]
      exact this.1.1
    have h1 := ih (AgeSeedsBody E A I) hC'
      (fun J hJ => lt_of_lt_of_le (hL J (List.mem_cons_of_mem _ hJ)) hE.alloc_le)
      (fun J hJ => hL0 J (List.mem_cons_of_mem _ hJ))
    refine le_trans h1 ?_
    rcases AgeSeedsBody_cases E A I with ⟨_, heq⟩ | ⟨ha, _, hp, _, hs⟩
    · rw [heq]
    · have hnp : I ∉ A.1.PendingRemovals := by
        intro hm
        have := (hC.pend I hm).2
        rw [ha] at this
        exact Bool.noConfusion this
      have h2 := filter_not_mem_length_lt L0 A.1.PendingRemovals
        (AgeSeedsBody E A I).1.PendingRemovals hE.pending_mono I
        (hL0 I (List.mem_cons_self _ _)) hnp hp
      have h3 : (AgeSeedsBody E A I).2.length ≤ A.2.length + 1 := by
        rcases hs with h | h
        · rw [h]; omega
        · rw [h, List.length_append, List.length_singleton]
      omega

/-- A member of the list that is not pending after the loop of `AgeSeeds` belongs to a
species whose steps are over. -/
theorem foldl_AgeSeedsBody_not_pending (E : Engine) (T0 : UProceduralFoliageTile)
    (L : List Nat) :
    ∀ A : UProceduralFoliageTile × List Nat, Evolves T0 A.1 → (∀ x ∈ L, Tracked T0 x) →
      ∀ x ∈ L, x ∉ (L.foldl (AgeSeedsBody E) A).1.PendingRemovals →
        (T0.Heap x).Type_.NumSteps < T0.SimulationStep := by
  induction L with
  | nil => intro A _ _ x hx; exact absurd hx (List.not_mem_nil _)
  | cons I L ih =>
    intro A hE hT x hx hnp
    rw [List.foldl_cons] at hnp
    have hB := AgeSeedsBody_evolves E A I
    have hF := foldl_evolves _ (fun A a => AgeSeedsBody_evolves E A a) L (AgeSeedsBody E A I)
    rcases List.mem_cons.1 hx with rfl | hxL
    · have hTx := hT x (List.mem_cons_self _ _)
      rcases AgeSeedsBody_cases E A x with ⟨hskip, _⟩ | ⟨_, _, hp, _, _⟩
      · rcases hskip with hd | hin
        · have hTA := hE.tracked x hTx
          rcases hTA.2 with hal | hpen
          · rw [hd] at hal
            exact Bool.noConfusion hal
          · exact absurd (hF.pending_mono x (hB.pending_mono x hpen)) hnp
        · rw [hE.type_eq x hTx.1, hE.step_eq] at hin
          exact hin
      · exact absurd (hF.pending_mono x hp) hnp
    · exact ih (AgeSeedsBody E A I) (hE.trans hB)
        (fun y hy => hT y (List.mem_cons_of_mem _ hy)) x hxL hnp

/-- Every seed collected by the loop of `AgeSeeds` is the aged version of a member of the
list whose species still has steps. -/
theorem foldl_AgeSeedsBody_aged (E : Engine) (T0 : UProceduralFoliageTile) (L0 : List Nat)
    (L : List Nat) :
    ∀ A : UProceduralFoliageTile × List Nat, Evolves T0 A.1 →
      (∀ x ∈ L, x ∈ L0 ∧ x < T0.NumAllocated) →
      (∀ s ∈ A.2, s < A.1.NumAllocated ∧ ∃ x ∈ L0,
        T0.SimulationStep ≤ (T0.Heap x).Type_.NumSteps ∧ AgedFrom (T0.Heap x) (A.1.Heap s)) →
      ∀ s ∈ (L.foldl (AgeSeedsBody E) A).2, s < (L.foldl (AgeSeedsBody E) A).1.NumAllocated ∧
        ∃ x ∈ L0, T0.SimulationStep ≤ (T0.Heap x).Type_.NumSteps ∧
          AgedFrom (T0.Heap x) ((L.foldl (AgeSeedsBody E) A).1.Heap s) := by
  induction L with
  | nil => intro A _ _ hS; exact hS
  | cons I L ih =>
    intro A hE hL hS
    rw [List.foldl_cons]
    have hB := AgeSeedsBody_evolves E A I
    have hI := hL I (List.mem_cons_self _ _)
    apply ih (AgeSeedsBody E A I) (hE.trans hB)
      (fun y hy => hL y (List.mem_cons_of_mem _ hy))
    have hold : ∀ s ∈ A.2, s < (AgeSeedsBody E A I).1.NumAllocated ∧ ∃ x ∈ L0,
        T0.SimulationStep ≤ (T0.Heap x).Type_.NumSteps ∧
          AgedFrom (T0.Heap x) ((AgeSeedsBody E A I).1.Heap s) := by
      intro s hs
      obtain ⟨h1, x, hx, hst, hag⟩ := hS s hs
      exact ⟨lt_of_lt_of_le h1 hB.alloc_le, x, hx, hst,
        AgedFrom_congr _ _ _ _ rfl (hB.data_eq s h1) hag⟩
    rcases AgeSeedsBody_cases E A I with ⟨_, heq⟩ | ⟨ha, hst, hp, hag, hs⟩
    · rw [heq]
      exact hS
    · rcases hs with h | h
      · rw [h]
        exact hold
      · rw [h]
        intro s hs
        rcases List.mem_append.1 hs with hs | hs
        · exact hold s hs
        · rw [List.mem_singleton] at hs
          subst hs
          have hlt : A.1.NumAllocated < (AgeSeedsBody E A I).1.NumAllocated := by
            unfold AgeSeedsBody
            have h' : (A.1.Heap I).IsAlive = true := ha
            simp only [h', if_true, if_pos hst]
            rw [CollectSeed_fst, NewSeed_numAllocated, MarkPendingRemoval_numAllocated]
            exact Nat.lt_succ_self _
          refine ⟨hlt, I, hI.1, ?_, ?_⟩
          · rw [← hE.type_eq I hI.2, ← hE.step_eq]
            exact hst
          · exact AgedFrom_congr _ _ _ _ (hE.data_eq I hI.2).symm rfl hag

/-- What `AgeSeeds` does to a tile between two steps: the population does not grow, and a
member of the result is either an untouched member whose species has used up its steps, or
the aged version of a member whose species still has steps. -/
theorem AgeSeeds_spec (E : Engine) (T : UProceduralFoliageTile) (h : TileInvariant T) :
    (AgeSeeds E T).Instances.length ≤ T.Instances.length ∧
    ∀ p ∈ (AgeSeeds E T).Instances,
      (p ∈ T.Instances ∧ (T.Heap p).Type_.NumSteps < T.SimulationStep ∧
        (AgeSeeds E T).Heap p = T.Heap p) ∨
      (∃ x ∈ T.Instances, T.SimulationStep ≤ (T.Heap x).Type_.NumSteps ∧
        AgedFrom (T.Heap x) ((AgeSeeds E T).Heap p)) := by
  have hA : LoopInv (T, []) := ⟨h.consistent, fun x hx => absurd hx (List.not_mem_nil _)⟩
  have hL := foldl_AgeSeedsBody_loopInv E T.Instances (T, []) hA
    (fun I hI => (h.2.1 I hI).1.1)
  have hC := hL.1.1.addInstances _ hL.1.2
  have hFl := FlushPendingRemovals_of_dead _ (fun x hx => (hC.pend x hx).2)
  have hInst : (AgeSeeds E T).Instances =
      ((T.Instances.foldl (AgeSeedsBody E) (T, [])).2.foldl TSetAdd T.Instances).filter
        (fun y => decide (y ∉ (T.Instances.foldl (AgeSeedsBody E) (T, [])).1.PendingRemovals)) := by
    unfold AgeSeeds
    simp only
    rw [hFl]
    simp only
    rw [hL.2.instances_eq]
  have hHeap : (AgeSeeds E T).Heap = (T.Instances.foldl (AgeSeedsBody E) (T, [])).1.Heap := by
    unfold AgeSeeds
    simp only
    rw [hFl]
  constructor
  · rw [hInst]
    refine le_trans (filter_foldl_TSetAdd_length _ _ _) ?_
    have hc := foldl_AgeSeedsBody_count E T.Instances T.Instances (T, []) h.consistent
      (fun I hI => (h.2.1 I hI).1.1) (fun _ hI => hI)
    have h0 : (T.Instances.filter (fun y => decide (y ∉ (T, ([] : List Nat)).1.PendingRemovals))).length
        = T.Instances.length := by
      simp only [h.2.2, List.not_mem_nil, not_false_eq_true, decide_True, List.filter_true]
    rw [h0] at hc
    simpa using hc
  · intro p hp
    rw [hInst, List.mem_filter, decide_eq_true_eq] at hp
    rcases (mem_foldl_TSetAdd _ _ _).1 hp.1 with hpL | hpS
    · left
      have hT : ∀ x ∈ T.Instances, Tracked T x :=
        fun x hx => ⟨(h.2.1 x hx).1.1, Or.inl (h.2.1 x hx).1.2⟩
      have hin := foldl_AgeSeedsBody_not_pending E T T.Instances (T, []) (Evolves.refl T) hT
        p hpL hp.2
      refine ⟨hpL, hin, ?_⟩
      rw [hHeap]
      have hal : ((T.Instances.foldl (AgeSeedsBody E) (T, [])).1.Heap p).bAlive = true := by
        rcases (hL.2.tracked p (hT p hpL)).2 with ha | ha
        · exact ha
        · exact absurd ha hp.2
      apply eq_of_TerminateInstance_eq _ _ (hL.2.data_eq p (h.2.1 p hpL).1.1)
      rw [hal, (h.2.1 p hpL).1.2]
    · right
      have := foldl_AgeSeedsBody_aged E T T.Instances T.Instances (T, []) (Evolves.refl T)
        (fun x hx => ⟨hx, (h.2.1 x hx).1.1⟩)
        (fun s hs => absurd hs (List.not_mem_nil _)) p hpS
      rw [hHeap]
      exact this.2

theorem AgeSeedsBody_of_ineligible (E : Engine) (A : UProceduralFoliageTile × List Nat)
    (I : Nat) (h : (A.1.Heap I).Type_.NumSteps < A.1.SimulationStep) :
    AgeSeedsBody E A I = A := by
  unfold AgeSeedsBody
  simp only [if_neg (not_le.2 h), ite_self]

theorem AgeSeeds_of_ineligible (E : Engine) (T : UProceduralFoliageTile)
    (hP : T.PendingRemovals = [])
    (h : ∀ x ∈ T.Instances, (T.Heap x).Type_.NumSteps < T.SimulationStep) :
    AgeSeeds E T = T := by
  have hf : ∀ L : List Nat, (∀ x ∈ L, (T.Heap x).Type_.NumSteps < T.SimulationStep) →
      L.foldl (AgeSeedsBody E) (T, []) = (T, []) := by
    intro L
    induction L with
    | nil => intro _; rfl
    | cons a L ih =>
      intro hL
      rw [List.foldl_cons, AgeSeedsBody_of_ineligible E (T, []) a (hL a (List.mem_cons_self _ _))]
      exact ih (fun x hx => hL x (List.mem_cons_of_mem _ hx))
  unfold AgeSeeds
  simp only [hf T.Instances h, List.foldl_nil]
  rw [setInstances_self, FlushPendingRemovals_of_empty T hP]

theorem SpreadSeedsBody_of_no_seeds (E : Engine) (A : UProceduralFoliageTile × List Nat)
    (Inst : Nat) (h : (A.1.Heap Inst).Type_.SeedsPerStep = 0) :
    SpreadSeedsBody E A Inst = A := by
  unfold SpreadSeedsBody
  rw [h]
  simp only [Int.toNat_zero, Function.iterate_zero, id_eq, ite_self]

theorem SpreadSeeds_of_no_seeds (E : Engine) (T : UProceduralFoliageTile) (S : List Nat)
    (h : ∀ x ∈ T.Instances, (T.Heap x).Type_.SeedsPerStep = 0) :
    SpreadSeeds E T S = (T, S) := by
  have hf : ∀ L : List Nat, (∀ x ∈ L, (T.Heap x).Type_.SeedsPerStep = 0) →
      L.foldl (SpreadSeedsBody E) (T, S) = (T, S) := by
    intro L
    induction L with
    | nil => intro _; rfl
    | cons a L ih =>
      intro hL
      rw [List.foldl_cons, SpreadSeedsBody_of_no_seeds E (T, S) a (hL a (List.mem_cons_self _ _))]
      exact ih (fun x hx => hL x (List.mem_cons_of_mem _ hx))
  exact hf T.Instances h

/-- With spreading disabled a step after the seeding step is `AgeSeeds`. -/
theorem StepSimulation_of_no_seeds (E : Engine) (T : UProceduralFoliageTile)
    (Ty : UFoliageType_InstancedStaticMesh) (hInv : TileInvariant T)
    (hS : T.SimulationStep ≠ 0) (hTy : ∀ x ∈ T.Instances, (T.Heap x).Type_ = Ty)
    (h0 : Ty.SeedsPerStep = 0) : StepSimulation E T = AgeSeeds E T := by
  have hsp := AgeSeeds_spec E T hInv
  have hAI := AgeSeeds_invariant E T hInv
  have hno : ∀ p ∈ (AgeSeeds E T).Instances, ((AgeSeeds E T).Heap p).Type_.SeedsPerStep = 0 := by
    intro p hp
    rcases hsp.2 p hp with ⟨hpT, _, heq⟩ | ⟨x, hx, _, hag⟩
    · rw [heq, hTy p hpT]
      exact h0
    · rw [hag.2.1, hTy x hx]
      exact h0
  unfold StepSimulation
  simp only [if_neg hS]
  rw [SpreadSeeds_of_no_seeds E (AgeSeeds E T) [] hno]
  simp only [List.foldl_nil]
  rw [setInstances_self, FlushPendingRemovals_of_empty _ hAI.1.2.2]

/-! ## Aging when no instance is suppressed -/

theorem HandleOverlaps_of_no_domination (E : Engine) (T : UProceduralFoliageTile) (I : Nat)
    (hND : ∀ O ∈ BroadphaseGetOverlaps E T.Heap T.Broadphase I,
      Domination E T.Heap O.A O.B O.OverlapType = none) :
    HandleOverlaps E T I = (true, T) := by
  have hM : ∀ (L : List FProceduralFoliageOverlap),
      (∀ O ∈ L, Domination E T.Heap O.A O.B O.OverlapType = none) →
      L.foldl (HandleOverlapsMark E) T = T := by
    intro L
    induction L with
    | nil => intro _; rfl
    | cons O L ih =>
      intro h
      rw [List.foldl_cons]
      have : HandleOverlapsMark E T O = T := by
        unfold HandleOverlapsMark
        rw [h O (List.mem_cons_self _ _)]
      rw [this]
      exact ih (fun O' hO' => h O' (List.mem_cons_of_mem _ hO'))
  have hany : (BroadphaseGetOverlaps E T.Heap T.Broadphase I).any (fun Overlap =>
      decide (Domination E T.Heap Overlap.A Overlap.B Overlap.OverlapType = some I)) =
        false := by
    rw [List.any_eq_false]
    intro O hO
    rw [hND O hO]
    simp
  unfold HandleOverlaps
  simp only [hany, hM _ hND]
  simp

theorem AgeSeedsBody_of_no_domination (E : Engine)
    (A : UProceduralFoliageTile × List Nat) (I : Nat)
    (ha : (A.1.Heap I).bAlive = true)
    (hs : A.1.SimulationStep ≤ (A.1.Heap I).Type_.NumSteps)
    (hND : ∀ O ∈ BroadphaseGetOverlaps E
        (NewSeedInserted E (MarkPendingRemoval A.1 I) (A.1.Heap I).Location
          ((A.1.Heap I).Type_.GetScaleForAge ((A.1.Heap I).Type_.GetNextAge (A.1.Heap I).Age 1))
          (A.1.Heap I).Type_ ((A.1.Heap I).Type_.GetNextAge (A.1.Heap I).Age 1) false).Heap
        (NewSeedInserted E (MarkPendingRemoval A.1 I) (A.1.Heap I).Location
          ((A.1.Heap I).Type_.GetScaleForAge ((A.1.Heap I).Type_.GetNextAge (A.1.Heap I).Age 1))
          (A.1.Heap I).Type_ ((A.1.Heap I).Type_.GetNextAge (A.1.Heap I).Age 1)
          false).Broadphase
        (MarkPendingRemoval A.1 I).NumAllocated,
      Domination E
        (NewSeedInserted E (MarkPendingRemoval A.1 I) (A.1.Heap I).Location
          ((A.1.Heap I).Type_.GetScaleForAge ((A.1.Heap I).Type_.GetNextAge (A.1.Heap I).Age 1))
          (A.1.Heap I).Type_ ((A.1.Heap I).Type_.GetNextAge (A.1.Heap I).Age 1) false).Heap
        O.A O.B O.OverlapType = none) :
    AgeSeedsBody E A I =
      (NewSeedInserted E (MarkPendingRemoval A.1 I) (A.1.Heap I).Location
        ((A.1.Heap I).Type_.GetScaleForAge ((A.1.Heap I).Type_.GetNextAge (A.1.Heap I).Age 1))
        (A.1.Heap I).Type_ ((A.1.Heap I).Type_.GetNextAge (A.1.Heap I).Age 1) false,
       A.2 ++ [A.1.NumAllocated]) := by
  unfold AgeSeedsBody
  have h' : (A.1.Heap I).IsAlive = true := ha
  simp only [h', if_true, if_pos hs]
  rw [NewSeed_eq, HandleOverlaps_of_no_domination E _ _ hND]
  simp only [CollectSeed, if_true, MarkPendingRemoval_numAllocated]

theorem foldl_AgeSeedsBody_of_undisturbed (E : Engine) (T : UProceduralFoliageTile)
    (hU : AgingUndisturbed E T) (hIB : ∀ x ∈ T.Instances, x ∈ T.Broadphase) (L : List Nat) :
    ∀ A : UProceduralFoliageTile × List Nat, L.Nodup →
      (∀ x ∈ L, x ∈ T.Instances ∧ x < A.1.NumAllocated ∧ (A.1.Heap x).bAlive = true ∧
        A.1.SimulationStep ≤ (A.1.Heap x).Type_.NumSteps ∧ A.1.Heap x = T.Heap x) →
      (∀ b ∈ A.1.Broadphase, b < A.1.NumAllocated ∧
        ((b ∈ T.Broadphase ∧ A.1.Heap b = T.Heap b) ∨
          ∃ y ∈ T.Instances, y ∉ L ∧ AgedFrom (T.Heap y) (A.1.Heap b))) →
      (∀ y ∈ A.1.PendingRemovals, y < A.1.NumAllocated) →
      A.2.Nodup → (∀ s ∈ A.2, s < A.1.NumAllocated ∧ s ∉ A.1.PendingRemovals ∧ s ∉ L) →
      (L.foldl (AgeSeedsBody E) A).2.length = A.2.length + L.length ∧
      (L.foldl (AgeSeedsBody E) A).2.Nodup ∧
      ∀ s ∈ (L.foldl (AgeSeedsBody E) A).2,
        s ∉ (L.foldl (AgeSeedsBody E) A).1.PendingRemovals := by
  induction L with
  | nil =>
    intro A _ _ _ _ hS hS2
    exact ⟨rfl, hS, fun s hs => (hS2 s hs).2.1⟩
  | cons I L ih =>
    intro A hnd hL hBP hPV hS hS2
    rw [List.foldl_cons]
    obtain ⟨hIT, hIlt, hIa, hIs, hIheap⟩ := hL I (List.mem_cons_self _ _)
    have hInL : I ∉ L := (List.nodup_cons.1 hnd).1
    have hN0 : (MarkPendingRemoval A.1 I).NumAllocated = A.1.NumAllocated :=
      MarkPendingRemoval_numAllocated A.1 I
    -- the aged instance written by `NewSeed`
    have hnew : AgedFrom (T.Heap I)
        ((NewSeedInserted E (MarkPendingRemoval A.1 I) (A.1.Heap I).Location
          ((A.1.Heap I).Type_.GetScaleForAge ((A.1.Heap I).Type_.GetNextAge (A.1.Heap I).Age 1))
          (A.1.Heap I).Type_ ((A.1.Heap I).Type_.GetNextAge (A.1.Heap I).Age 1) false).Heap
          (MarkPendingRemoval A.1 I).NumAllocated) := by
      simp only [NewSeedInserted, Function.update_same]
      rw [hIheap]
      exact ⟨rfl, rfl, rfl, rfl, rfl⟩
    -- the other indexed instances
    have hother : ∀ b, b ∈ (NewSeedInserted E (MarkPendingRemoval A.1 I) (A.1.Heap I).Location
          ((A.1.Heap I).Type_.GetScaleForAge ((A.1.Heap I).Type_.GetNextAge (A.1.Heap I).Age 1))
          (A.1.Heap I).Type_ ((A.1.Heap I).Type_.GetNextAge (A.1.Heap I).Age 1)
          false).Broadphase →
        b ≠ (MarkPendingRemoval A.1 I).NumAllocated →
        b ∈ A.1.Broadphase ∧ b ≠ I ∧
        (NewSeedInserted E (MarkPendingRemoval A.1 I) (A.1.Heap I).Location
          ((A.1.Heap I).Type_.GetScaleForAge ((A.1.Heap I).Type_.GetNextAge (A.1.Heap I).Age 1))
          (A.1.Heap I).Type_ ((A.1.Heap I).Type_.GetNextAge (A.1.Heap I).Age 1) false).Heap b =
            A.1.Heap b := by
      intro b hb hbN
      have hb' : b ∈ BroadphaseInsert (MarkPendingRemoval A.1 I).Broadphase
          (MarkPendingRemoval A.1 I).NumAllocated := hb
      rw [mem_BroadphaseInsert] at hb'
      rcases hb' with hb' | hb'
      · rw [MarkPendingRemoval_mem_broadphase A.1 I b (Or.inl hIa)] at hb'
        refine ⟨hb'.1, hb'.2, ?_⟩
        simp only [NewSeedInserted]
        rw [Function.update_noteq hbN, MarkPendingRemoval_heap_of_ne A.1 I b hb'.2]
      · exact absurd hb' hbN
    have hND : ∀ O ∈ BroadphaseGetOverlaps E
        (NewSeedInserted E (MarkPendingRemoval A.1 I) (A.1.Heap I).Location
          ((A.1.Heap I).Type_.GetScaleForAge ((A.1.Heap I).Type_.GetNextAge (A.1.Heap I).Age 1))
          (A.1.Heap I).Type_ ((A.1.Heap I).Type_.GetNextAge (A.1.Heap I).Age 1) false).Heap
        (NewSeedInserted E (MarkPendingRemoval A.1 I) (A.1.Heap I).Location
          ((A.1.Heap I).Type_.GetScaleForAge ((A.1.Heap I).Type_.GetNextAge (A.1.Heap I).Age 1))
          (A.1.Heap I).Type_ ((A.1.Heap I).Type_.GetNextAge (A.1.Heap I).Age 1)
          false).Broadphase
        (MarkPendingRemoval A.1 I).NumAllocated,
      Domination E
        (NewSeedInserted E (MarkPendingRemoval A.1 I) (A.1.Heap I).Location
          ((A.1.Heap I).Type_.GetScaleForAge ((A.1.Heap I).Type_.GetNextAge (A.1.Heap I).Age 1))
          (A.1.Heap I).Type_ ((A.1.Heap I).Type_.GetNextAge (A.1.Heap I).Age 1) false).Heap
        O.A O.B O.OverlapType = none := by
      intro O hO
      obtain ⟨hOA, hOB, hOne, hOv⟩ := mem_BroadphaseGetOverlaps hO
      obtain ⟨hb1, hb2, hb3⟩ := hother O.B hOB hOne
      have hdom : E.Dominates
          ((NewSeedInserted E (MarkPendingRemoval A.1 I) (A.1.Heap I).Location
            ((A.1.Heap I).Type_.GetScaleForAge
              ((A.1.Heap I).Type_.GetNextAge (A.1.Heap I).Age 1))
            (A.1.Heap I).Type_ ((A.1.Heap I).Type_.GetNextAge (A.1.Heap I).Age 1) false).Heap
            (MarkPendingRemoval A.1 I).NumAllocated)
          ((NewSeedInserted E (MarkPendingRemoval A.1 I) (A.1.Heap I).Location
            ((A.1.Heap I).Type_.GetScaleForAge
              ((A.1.Heap I).Type_.GetNextAge (A.1.Heap I).Age 1))
            (A.1.Heap I).Type_ ((A.1.Heap I).Type_.GetNextAge (A.1.Heap I).Age 1) false).Heap
            O.B) O.OverlapType = EDominated.Neither := by
        rcases (hBP O.B hb1).2 with ⟨hTB, hTH⟩ | ⟨y, hyT, hyL, hyA⟩
        · exact hU I hIT O.B hTB (fun h => hb2 h.symm) _ _ _ hnew
            (Or.inl (by rw [hb3, hTH])) hOv
        · have hIy : I ≠ y := fun h => hyL (h ▸ List.mem_cons_self _ _)
          exact hU I hIT y (hIB y hyT) hIy _ _ _ hnew
            (Or.inr ⟨hyT, by rw [hb3]; exact hyA⟩) hOv
      unfold Domination
      rw [hOA, hdom]
    have hbody := AgeSeedsBody_of_no_domination E A I hIa hIs hND
    have hheap : ∀ y, y ≠ I → y < A.1.NumAllocated →
        (AgeSeedsBody E A I).1.Heap y = A.1.Heap y := by
      intro y hy hlt
      rw [hbody]
      simp only [NewSeedInserted, MarkPendingRemoval_numAllocated]
      rw [Function.update_noteq (Nat.ne_of_lt hlt), MarkPendingRemoval_heap_of_ne A.1 I y hy]
    have hpend : ∀ y, y ∈ (AgeSeedsBody E A I).1.PendingRemovals ↔
        y ∈ A.1.PendingRemovals ∨ y = I := by
      intro y
      rw [hbody]
      show y ∈ (MarkPendingRemoval A.1 I).PendingRemovals ↔ _
      rw [MarkPendingRemoval_mem_pending]
      constructor
      · rintro (h | ⟨h, _⟩)
        · exact Or.inl h
        · exact Or.inr h
      · rintro (h | h)
        · exact Or.inl h
        · exact Or.inr ⟨h, hIa⟩
    have hN : (AgeSeedsBody E A I).1.NumAllocated = A.1.NumAllocated + 1 := by
      rw [hbody]
      show (MarkPendingRemoval A.1 I).NumAllocated + 1 = _
      rw [MarkPendingRemoval_numAllocated]
    have hstep : (AgeSeedsBody E A I).1.SimulationStep = A.1.SimulationStep :=
      (AgeSeedsBody_evolves E A I).step_eq
    have h2 : (AgeSeedsBody E A I).2 = A.2 ++ [A.1.NumAllocated] := by rw [hbody]
    have hL' : ∀ x ∈ L, x ∈ T.Instances ∧ x < (AgeSeedsBody E A I).1.NumAllocated ∧
        ((AgeSeedsBody E A I).1.Heap x).bAlive = true ∧
        (AgeSeedsBody E A I).1.SimulationStep ≤ ((AgeSeedsBody E A I).1.Heap x).Type_.NumSteps ∧
        (AgeSeedsBody E A I).1.Heap x = T.Heap x := by
      intro x hx
      obtain ⟨h0, h1, h2', h3, h4⟩ := hL x (List.mem_cons_of_mem _ hx)
      have hne : x ≠ I := fun h => hInL (h ▸ hx)
      rw [hheap x hne h1, hN, hstep]
      exact ⟨h0, Nat.lt_succ_of_lt h1, h2', h3, h4⟩
    have hBP' : ∀ b ∈ (AgeSeedsBody E A I).1.Broadphase,
        b < (AgeSeedsBody E A I).1.NumAllocated ∧
        ((b ∈ T.Broadphase ∧ (AgeSeedsBody E A I).1.Heap b = T.Heap b) ∨
          ∃ y ∈ T.Instances, y ∉ L ∧ AgedFrom (T.Heap y) ((AgeSeedsBody E A I).1.Heap b)) := by
      intro b hb
      rw [hN]
      by_cases hbN : b = (MarkPendingRemoval A.1 I).NumAllocated
      · refine ⟨by rw [hbN, hN0]; exact Nat.lt_succ_self _, Or.inr ⟨I, hIT, hInL, ?_⟩⟩
        rw [hbN, hbody]
        exact hnew
      · rw [hbody] at hb
        obtain ⟨hb1, hb2, hb3⟩ := hother b hb hbN
        have hlt := (hBP b hb1).1
        refine ⟨Nat.lt_succ_of_lt hlt, ?_⟩
        rw [hheap b hb2 hlt]
        rcases (hBP b hb1).2 with h | ⟨y, hyT, hyL, hyA⟩
        · exact Or.inl h
        · exact Or.inr ⟨y, hyT, fun h => hyL (List.mem_cons_of_mem _ h), hyA⟩
    have hPV' : ∀ y ∈ (AgeSeedsBody E A I).1.PendingRemovals,
        y < (AgeSeedsBody E A I).1.NumAllocated := by
      intro y hy
      rw [hN]
      rcases (hpend y).1 hy with h | h
      · exact Nat.lt_succ_of_lt (hPV y h)
      · rw [h]
        exact Nat.lt_succ_of_lt hIlt
    have hS' : (AgeSeedsBody E A I).2.Nodup := by
      rw [h2]
      refine List.Nodup.append hS (List.nodup_singleton _) ?_
      intro s hs1 hs2
      rw [List.mem_singleton] at hs2
      exact absurd hs2 (Nat.ne_of_lt (hS2 s hs1).1)
    have hS2' : ∀ s ∈ (AgeSeedsBody E A I).2, s < (AgeSeedsBody E A I).1.NumAllocated ∧
        s ∉ (AgeSeedsBody E A I).1.PendingRemovals ∧ s ∉ L := by
      intro s hs
      rw [h2] at hs
      rw [hN, hpend]
      rcases List.mem_append.1 hs with hs | hs
      · obtain ⟨h1, h2', h3⟩ := hS2 s hs
        refine ⟨Nat.lt_succ_of_lt h1, ?_, fun h => h3 (List.mem_cons_of_mem _ h)⟩
        rintro (h | h)
        · exact h2' h
        · exact h3 (h ▸ List.mem_cons_self _ _)
      · rw [List.mem_singleton] at hs
        subst hs
        refine ⟨Nat.lt_succ_self _, ?_, ?_⟩
        · rintro (h | h)
          · exact Nat.lt_irrefl _ (hPV _ h)
          · rw [h] at hIlt
            exact Nat.lt_irrefl _ hIlt
        · intro hm
          exact Nat.lt_irrefl _ (hL _ (List.mem_cons_of_mem _ hm)).2.1
    obtain ⟨r1, r2, r3⟩ := ih (AgeSeedsBody E A I) (List.nodup_cons.1 hnd).2 hL' hBP' hPV'
      hS' hS2'
    refine ⟨?_, r2, r3⟩
    rw [r1, h2, List.length_append, List.length_singleton, List.length_cons]
    omega

/-- When no aged instance is in a domination relation with another instance of the tile and
every member is of a species that still has steps, `AgeSeeds` keeps the number of
instances. -/
theorem AgeSeeds_length_of_undisturbed (E : Engine) (T : UProceduralFoliageTile)
    (hU : AgingUndisturbed E T) (h : TileInvariant T) (hnd : T.Instances.Nodup)
    (hs : ∀ x ∈ T.Instances, T.SimulationStep ≤ (T.Heap x).Type_.NumSteps) :
    (AgeSeeds E T).Instances.length = T.Instances.length := by
  apply le_antisymm (AgeSeeds_spec E T h).1
  have hA : LoopInv (T, []) := ⟨h.consistent, fun x hx => absurd hx (List.not_mem_nil _)⟩
  have hL := foldl_AgeSeedsBody_loopInv E T.Instances (T, []) hA
    (fun I hI => (h.2.1 I hI).1.1)
  have hC := hL.1.1.addInstances _ hL.1.2
  have hFl := FlushPendingRemovals_of_dead _ (fun x hx => (hC.pend x hx).2)
  have hInst : (AgeSeeds E T).Instances =
      ((T.Instances.foldl (AgeSeedsBody E) (T, [])).2.foldl TSetAdd T.Instances).filter
        (fun y => decide (y ∉ (T.Instances.foldl (AgeSeedsBody E) (T, [])).1.PendingRemovals)) := by
    unfold AgeSeeds
    simp only
    rw [hFl]
    simp only
    rw [hL.2.instances_eq]
  obtain ⟨r1, r2, r3⟩ := foldl_AgeSeedsBody_of_undisturbed E T hU
    (fun x hx => (h.2.1 x hx).2) T.Instances (T, []) hnd
    (fun x hx => ⟨hx, (h.2.1 x hx).1.1, (h.2.1 x hx).1.2, hs x hx, rfl⟩)
    (fun b hb => ⟨((h.1 b).1 hb).1, Or.inl ⟨hb, rfl⟩⟩)
    (fun y hy => by
      have hp : T.PendingRemovals = [] := h.2.2
      rw [hp] at hy
      exact absurd hy (List.not_mem_nil _))
    List.nodup_nil (fun s hs => absurd hs (List.not_mem_nil _))
  have hsub : (T.Instances.foldl (AgeSeedsBody E) (T, [])).2 ⊆ (AgeSeeds E T).Instances := by
    intro s hs
    rw [hInst, List.mem_filter, decide_eq_true_eq]
    exact ⟨(mem_foldl_TSetAdd _ _ _).2 (Or.inr hs), r3 s hs⟩
  have hle := (List.Nodup.subperm r2 hsub).length_le
  rw [r1] at hle
  simpa using hle

/-! ## The copies into a joined tile -/

theorem CopyTileInstances_eq (E : Engine) (FromTile ToTile : UProceduralFoliageTile)
    (InnerLocalAABB : FBox2D) (ToLocalTM : FTransform) (Overlap : ℚ) :
    CopyTileInstances E FromTile ToTile InnerLocalAABB ToLocalTM Overlap =
      AddInstances E ToTile
        (GetInstancesInAABB E FromTile (CopyTileOuterBox InnerLocalAABB Overlap) [] false)
        ToLocalTM InnerLocalAABB := rfl

theorem foldl_AddInstancesBody_consistent (E : Engine) (RelativeTM : FTransform)
    (InnerLocalAABB : FBox2D) (L : List FProceduralFoliageInstance) :
    ∀ T : UProceduralFoliageTile, Consistent T →
      Consistent (L.foldl (AddInstancesBody E RelativeTM InnerLocalAABB) T) := by
  induction L with
  | nil => intro T hC; exact hC
  | cons I L ih =>
    intro T hC
    rw [List.foldl_cons]
    exact ih _ (AddInstancesBody_consistent E RelativeTM InnerLocalAABB T I hC)

theorem AddInstancesAt_data (E : Engine) (T : UProceduralFoliageTile)
    (L : List FProceduralFoliageInstance) (RelativeTM : FTransform) (InnerLocalAABB : FBox2D)
    (k : Nat) (hk : k ≤ L.length) (hC : Consistent T) :
    (AddInstancesAt E T L RelativeTM InnerLocalAABB k).NumAllocated = T.NumAllocated + k ∧
    Consistent (AddInstancesAt E T L RelativeTM InnerLocalAABB k) := by
  unfold AddInstancesAt
  refine ⟨?_, foldl_AddInstancesBody_consistent E RelativeTM InnerLocalAABB _ T hC⟩
  rw [(foldl_AddInstancesBody_data E RelativeTM InnerLocalAABB (L.take k) T).1,
    List.length_take, Nat.min_eq_left hk]

theorem AddInstances_split (E : Engine) (T : UProceduralFoliageTile)
    (L : List FProceduralFoliageInstance) (RelativeTM : FTransform) (InnerLocalAABB : FBox2D)
    (k : Nat) (hk : k < L.length) :
    AddInstances E T L RelativeTM InnerLocalAABB =
      FlushPendingRemovals ((L.drop (k + 1)).foldl
        (AddInstancesBody E RelativeTM InnerLocalAABB)
        (AddInstancesBody E RelativeTM InnerLocalAABB
          (AddInstancesAt E T L RelativeTM InnerLocalAABB k) (L.get ⟨k, hk⟩))) := by
  unfold AddInstances AddInstancesAt
  have hL : L = L.take k ++ L.get ⟨k, hk⟩ :: L.drop (k + 1) := by
    rw [List.get_eq_getElem, ← List.drop_eq_getElem_cons hk, List.take_append_drop]
  conv_lhs => rw [hL]
  rw [List.foldl_append, List.foldl_cons]

/-- The instance at an older address is in the broadphase on which `HandleOverlaps` runs
for a new input exactly when it is alive on entry to the pass. -/
theorem AddInstancesCallSite_mem_broadphase (E : Engine) (U : UProceduralFoliageTile)
    (Inst : FProceduralFoliageInstance) (RelativeTM : FTransform) (InnerLocalAABB : FBox2D)
    (hC : Consistent U) (p : Nat) (hp : p < U.NumAllocated) :
    p ∈ (AddInstancesCallSite E U Inst RelativeTM InnerLocalAABB).Broadphase ↔
      (U.Heap p).bAlive = true := by
  unfold AddInstancesCallSite
  have hC' := NewSeedInserted_consistent E U (RelativeTM.TransformPosition Inst.Location)
    Inst.Scale Inst.Type_ Inst.Age (AddInstancesIsBlocker E InnerLocalAABB Inst) hC
  rw [hC'.bp_iff p]
  unfold AliveAt
  have hH : (NewSeedInserted E U (RelativeTM.TransformPosition Inst.Location)
      Inst.Scale Inst.Type_ Inst.Age (AddInstancesIsBlocker E InnerLocalAABB Inst)).Heap p
      = U.Heap p := by
    simp only [NewSeedInserted]
    exact Function.update_noteq (Nat.ne_of_lt hp) _ _
  rw [hH]
  constructor
  · exact fun h => h.2
  · exact fun h => ⟨Nat.lt_succ_of_lt hp, h⟩

theorem NewSeed_of_empty_broadphase (E : Engine) (T : UProceduralFoliageTile)
    (Location : FVector) (Scale : ℚ) (Type_ : UFoliageType_InstancedStaticMesh) (InAge : ℚ)
    (bBlocker : Bool) (h : T.Broadphase = []) :
    NewSeed E T Location Scale Type_ InAge bBlocker =
      (some T.NumAllocated, NewSeedInserted E T Location Scale Type_ InAge bBlocker) := by
  rw [NewSeed_eq]
  have hO : BroadphaseGetOverlaps E
      (NewSeedInserted E T Location Scale Type_ InAge bBlocker).Heap
      (NewSeedInserted E T Location Scale Type_ InAge bBlocker).Broadphase T.NumAllocated
      = [] := by
    simp [NewSeedInserted, h, BroadphaseInsert, BroadphaseGetOverlaps]
  have hH : HandleOverlaps E (NewSeedInserted E T Location Scale Type_ InAge bBlocker)
      T.NumAllocated = (true, NewSeedInserted E T Location Scale Type_ InAge bBlocker) := by
    unfold HandleOverlaps
    simp only [hO, List.any_nil, Bool.not_false, if_true, List.foldl_nil]
  rw [hH]
  rfl

/-- A single instance copied into a tile with an empty index is alive after the copy. -/
theorem AddInstances_single_alive (E : Engine) (T : UProceduralFoliageTile)
    (L : List FProceduralFoliageInstance) (RelativeTM : FTransform) (InnerLocalAABB : FBox2D)
    (hB : T.Broadphase = []) (hP : T.PendingRemovals = []) (hL : L.length = 1) :
    ((AddInstances E T L RelativeTM InnerLocalAABB).Heap T.NumAllocated).bAlive = true := by
  obtain ⟨a, rfl⟩ := List.length_eq_one.1 hL
  have hBody : AddInstancesBody E RelativeTM InnerLocalAABB T a =
      { NewSeedInserted E T (RelativeTM.TransformPosition a.Location) a.Scale a.Type_ a.Age
          (AddInstancesIsBlocker E InnerLocalAABB a) with
        Instances := TSetAdd T.Instances T.NumAllocated } := by
    unfold AddInstancesBody
    simp only [NewSeed_of_empty_broadphase E T _ _ _ _ _ hB]
    rfl
  unfold AddInstances
  rw [List.foldl_cons, List.foldl_nil, hBody]
  rw [FlushPendingRemovals_of_empty
    { NewSeedInserted E T (RelativeTM.TransformPosition a.Location) a.Scale a.Type_ a.Age
        (AddInstancesIsBlocker E InnerLocalAABB a) with
      Instances := TSetAdd T.Instances T.NumAllocated } hP]
  simp only [NewSeedInserted, Function.update_same]

/-! ## Determinism: two runs side by side -/

theorem mem_map_shift (d : Nat) (L : List Nat) (x : Nat) :
    x + d ∈ L.map (fun y => y + d) ↔ x ∈ L := by
  rw [List.mem_map]
  constructor
  · rintro ⟨y, hy, he⟩
    have : y = x := by omega
    rw [← this]
    exact hy
  · intro h
    exact ⟨x, h, rfl⟩

theorem TSetAdd_map_shift (d : Nat) (L : List Nat) (x : Nat) :
    TSetAdd (L.map (fun y => y + d)) (x + d) = (TSetAdd L x).map (fun y => y + d) := by
  unfold TSetAdd
  by_cases h : x ∈ L
  · rw [if_pos h, if_pos ((mem_map_shift d L x).2 h)]
  · rw [if_neg h, if_neg (fun hm => h ((mem_map_shift d L x).1 hm)), List.map_append]
    rfl

theorem BroadphaseInsert_map_shift (d : Nat) (L : List Nat) (x : Nat) :
    BroadphaseInsert (L.map (fun y => y + d)) (x + d) =
      (BroadphaseInsert L x).map (fun y => y + d) :=
  TSetAdd_map_shift d L x

theorem TSetRemove_map_shift (d : Nat) (L : List Nat) (x : Nat) :
    TSetRemove (L.map (fun y => y + d)) (x + d) = (TSetRemove L x).map (fun y => y + d) := by
  unfold TSetRemove
  induction L with
  | nil => rfl
  | cons a L ih =>
    by_cases h : a = x
    · subst h
      simp only [List.map_cons, List.filter_cons, bne_self_eq_false, Bool.false_eq_true,
        if_false]
      exact ih
    · have h1 : (a != x) = true := by simpa using h
      have h2 : (a + d != x + d) = true := by
        simp only [bne_iff_ne, ne_eq]
        omega
      simp only [List.map_cons, List.filter_cons, h1, h2, if_true]
      rw [ih]

theorem BroadphaseRemove_map_shift (d : Nat) (L : List Nat) (x : Nat) :
    BroadphaseRemove (L.map (fun y => y + d)) (x + d) =
      (BroadphaseRemove L x).map (fun y => y + d) :=
  TSetRemove_map_shift d L x

theorem foldl_TSetAdd_map_shift (d : Nat) (S : List Nat) :
    ∀ L : List Nat, (S.map (fun y => y + d)).foldl TSetAdd (L.map (fun y => y + d)) =
      (S.foldl TSetAdd L).map (fun y => y + d) := by
  induction S with
  | nil => intro L; rfl
  | cons a S ih =>
    intro L
    rw [List.map_cons, List.foldl_cons, List.foldl_cons, TSetAdd_map_shift]
    exact ih _

theorem Shifted.heap_update {d N0 : Nat} {T T' : UProceduralFoliageTile}
    (h : Shifted d N0 T T') (x : Nat) (v : FProceduralFoliageInstance) (y : Nat)
    (hy1 : N0 ≤ y) (hy2 : y < T.NumAllocated) :
    Function.update T'.Heap (x + d) v (y + d) = Function.update T.Heap x v y := by
  by_cases hyx : y = x
  · subst hyx
    rw [Function.update_same, Function.update_same]
  · rw [Function.update_noteq hyx, Function.update_noteq (by omega)]
    exact h.heap y hy1 hy2

theorem MarkPendingRemoval_shifted {d N0 : Nat} {T T' : UProceduralFoliageTile}
    (h : Shifted d N0 T T') (x : Nat) (hx1 : N0 ≤ x) (hx2 : x < T.NumAllocated) :
    Shifted d N0 (MarkPendingRemoval T x) (MarkPendingRemoval T' (x + d)) := by
  have hH := h.heap x hx1 hx2
  cases ha : (T.Heap x).bAlive
  · rw [MarkPendingRemoval_of_dead T x ha, MarkPendingRemoval_of_dead T' (x + d) (by rw [hH, ha])]
    exact h
  · rw [MarkPendingRemoval_of_alive T x ha,
      MarkPendingRemoval_of_alive T' (x + d) (by rw [hH, ha])]
    refine ⟨h.alloc, h.base, h.inst, ?_, ?_, h.stream, h.step, h.foliage, ?_, ?_⟩
    · show TSetAdd T'.PendingRemovals (x + d) = _
      rw [h.pend, TSetAdd_map_shift]
    · show BroadphaseRemove T'.Broadphase (x + d) = _
      rw [h.bp, BroadphaseRemove_map_shift]
    · intro y hy1 hy2
      show Function.update T'.Heap (x + d) (T'.Heap (x + d)).TerminateInstance (y + d) =
        Function.update T.Heap x (T.Heap x).TerminateInstance y
      rw [hH]
      exact h.heap_update x _ y hy1 hy2
    · intro y hy
      rcases hy with hy | hy | hy
      · exact h.valid y (Or.inl hy)
      · rcases mem_TSetAdd.1 hy with hy | hy
        · exact h.valid y (Or.inr (Or.inl hy))
        · rw [hy]
          exact ⟨hx1, hx2⟩
      · exact h.valid y (Or.inr (Or.inr (mem_BroadphaseRemove.1 hy).1))

theorem RemoveInstance_shifted {d N0 : Nat} {T T' : UProceduralFoliageTile}
    (h : Shifted d N0 T T') (x : Nat) (hx1 : N0 ≤ x) (hx2 : x < T.NumAllocated) :
    Shifted d N0 (RemoveInstance T x) (RemoveInstance T' (x + d)) := by
  have hH := h.heap x hx1 hx2
  cases ha : (T.Heap x).bAlive
  · rw [RemoveInstance_of_dead T x ha, RemoveInstance_of_dead T' (x + d) (by rw [hH, ha])]
    refine ⟨h.alloc, h.base, ?_, h.pend, h.bp, h.stream, h.step, h.foliage, h.heap, ?_⟩
    · show TSetRemove T'.Instances (x + d) = _
      rw [h.inst, TSetRemove_map_shift]
    · intro y hy
      rcases hy with hy | hy | hy
      · exact h.valid y (Or.inl (mem_TSetRemove.1 hy).1)
      · exact h.valid y (Or.inr (Or.inl hy))
      · exact h.valid y (Or.inr (Or.inr hy))
  · have ha' : (T'.Heap (x + d)).bAlive = true := by rw [hH, ha]
    have e1 : RemoveInstance T x =
        { T with
          Broadphase := BroadphaseRemove T.Broadphase x
          Heap := Function.update T.Heap x (T.Heap x).TerminateInstance
          Instances := TSetRemove T.Instances x } := by
      simp [RemoveInstance, FProceduralFoliageInstance.IsAlive, ha]
    have e2 : RemoveInstance T' (x + d) =
        { T' with
          Broadphase := BroadphaseRemove T'.Broadphase (x + d)
          Heap := Function.update T'.Heap (x + d) (T'.Heap (x + d)).TerminateInstance
          Instances := TSetRemove T'.Instances (x + d) } := by
      simp [RemoveInstance, FProceduralFoliageInstance.IsAlive, ha']
    rw [e1, e2]
    refine ⟨h.alloc, h.base, ?_, h.pend, ?_, h.stream, h.step, h.foliage, ?_, ?_⟩
    · show TSetRemove T'.Instances (x + d) = _
      rw [h.inst, TSetRemove_map_shift]
    · show BroadphaseRemove T'.Broadphase (x + d) = _
      rw [h.bp, BroadphaseRemove_map_shift]
    · intro y hy1 hy2
      show Function.update T'.Heap (x + d) (T'.Heap (x + d)).TerminateInstance (y + d) =
        Function.update T.Heap x (T.Heap x).TerminateInstance y
      rw [hH]
      exact h.heap_update x _ y hy1 hy2
    · intro y hy
      rcases hy with hy | hy | hy
      · exact h.valid y (Or.inl (mem_TSetRemove.1 hy).1)
      · exact h.valid y (Or.inr (Or.inl hy))
      · exact h.valid y (Or.inr (Or.inr (mem_BroadphaseRemove.1 hy).1))

theorem RemoveInstance_fields_frame (T : UProceduralFoliageTile) (x : Nat) :
    (RemoveInstance T x).NumAllocated = T.NumAllocated ∧
    (RemoveInstance T x).PendingRemovals = T.PendingRemovals :=
  ⟨(RemoveInstance_frame T x).alloc_eq, by unfold RemoveInstance; simp only; split <;> rfl⟩

theorem foldl_RemoveInstance_shifted {d N0 : Nat} (L : List Nat) :
    ∀ {T T' : UProceduralFoliageTile}, Shifted d N0 T T' →
      (∀ x ∈ L, N0 ≤ x ∧ x < T.NumAllocated) →
      Shifted d N0 (L.foldl RemoveInstance T) ((L.map (fun y => y + d)).foldl RemoveInstance T') := by
  induction L with
  | nil => intro T T' h _; exact h
  | cons a L ih =>
    intro T T' h hL
    rw [List.map_cons, List.foldl_cons, List.foldl_cons]
    have ha := hL a (List.mem_cons_self _ _)
    apply ih (RemoveInstance_shifted h a ha.1 ha.2)
    intro x hx
    rw [(RemoveInstance_fields_frame T a).1]
    exact hL x (List.mem_cons_of_mem _ hx)

theorem FlushPendingRemovals_shifted {d N0 : Nat} {T T' : UProceduralFoliageTile}
    (h : Shifted d N0 T T') :
    Shifted d N0 (FlushPendingRemovals T) (FlushPendingRemovals T') := by
  have hF := foldl_RemoveInstance_shifted T.PendingRemovals h
    (fun x hx => h.valid x (Or.inr (Or.inl hx)))
  rw [← h.pend] at hF
  unfold FlushPendingRemovals
  refine ⟨hF.alloc, hF.base, hF.inst, rfl, hF.bp, hF.stream, hF.step, hF.foliage, hF.heap, ?_⟩
  intro y hy
  rcases hy with hy | hy | hy
  · exact hF.valid y (Or.inl hy)
  · exact absurd hy (List.not_mem_nil _)
  · exact hF.valid y (Or.inr (Or.inr hy))

theorem any_congr_of_mem {α : Type} (L : List α) (p q : α → Bool)
    (h : ∀ x ∈ L, p x = q x) : L.any p = L.any q := by
  induction L with
  | nil => rfl
  | cons a L ih =>
    rw [List.any_cons, List.any_cons, h a (List.mem_cons_self _ _),
      ih (fun x hx => h x (List.mem_cons_of_mem _ hx))]

theorem Domination_shifted {d N0 : Nat} {T T' : UProceduralFoliageTile} (E : Engine)
    (h : Shifted d N0 T T') (a b : Nat) (k : ESimulationOverlap)
    (ha : N0 ≤ a ∧ a < T.NumAllocated) (hb : N0 ≤ b ∧ b < T.NumAllocated) :
    Domination E T'.Heap (a + d) (b + d) k =
      (Domination E T.Heap a b k).map (fun y => y + d) := by
  unfold Domination
  rw [h.heap a ha.1 ha.2, h.heap b hb.1 hb.2]
  cases E.Dominates (T.Heap a) (T.Heap b) k <;> rfl

theorem BroadphaseGetOverlaps_shifted {d N0 : Nat} {T T' : UProceduralFoliageTile}
    (E : Engine) (h : Shifted d N0 T T') (I : Nat) (hI : N0 ≤ I ∧ I < T.NumAllocated) :
    BroadphaseGetOverlaps E T'.Heap T'.Broadphase (I + d) =
      (BroadphaseGetOverlaps E T.Heap T.Broadphase I).map
        (FProceduralFoliageOverlap.shift d) := by
  unfold BroadphaseGetOverlaps
  rw [h.bp, List.filterMap_map, List.map_filterMap]
  apply List.filterMap_congr
  intro x hx
  have hv := h.valid x (Or.inr (Or.inr hx))
  simp only [Function.comp]
  by_cases hxI : x = I
  · subst hxI
    simp
  · have hne : x + d ≠ I + d := by omega
    rw [if_neg hne, if_neg hxI, h.heap I hI.1 hI.2, h.heap x hv.1 hv.2]
    cases E.OverlapTest (T.Heap I) (T.Heap x) <;> rfl

theorem BroadphaseGetOverlaps_valid (E : Engine) (T : UProceduralFoliageTile) (I : Nat)
    (O : FProceduralFoliageOverlap)
    (hO : O ∈ BroadphaseGetOverlaps E T.Heap T.Broadphase I) :
    O.A = I ∧ O.B ∈ T.Broadphase := by
  unfold BroadphaseGetOverlaps at hO
  rw [List.mem_filterMap] at hO
  obtain ⟨x, hx, he⟩ := hO
  split at he
  · exact absurd he (by simp)
  · rw [Option.map_eq_some'] at he
    obtain ⟨K, _, rfl⟩ := he
    exact ⟨rfl, hx⟩

theorem HandleOverlapsMark_shifted {d N0 : Nat} {T T' : UProceduralFoliageTile} (E : Engine)
    (h : Shifted d N0 T T') (O : FProceduralFoliageOverlap)
    (hA : N0 ≤ O.A ∧ O.A < T.NumAllocated) (hB : N0 ≤ O.B ∧ O.B < T.NumAllocated) :
    Shifted d N0 (HandleOverlapsMark E T O) (HandleOverlapsMark E T' (O.shift d)) := by
  unfold HandleOverlapsMark
  show Shifted d N0 _
    (match Domination E T'.Heap (O.A + d) (O.B + d) O.OverlapType with
      | some Dominated => MarkPendingRemoval T' Dominated
      | none => T')
  rw [Domination_shifted E h O.A O.B O.OverlapType hA hB]
  rcases Domination_cases E T.Heap O.A O.B O.OverlapType with hD | hD | hD
  · rw [hD]
    exact h
  · rw [hD]
    exact MarkPendingRemoval_shifted h O.A hA.1 hA.2
  · rw [hD]
    exact MarkPendingRemoval_shifted h O.B hB.1 hB.2

theorem foldl_HandleOverlapsMark_shifted {d N0 : Nat} (E : Engine)
    (L : List FProceduralFoliageOverlap) :
    ∀ {T T' : UProceduralFoliageTile}, Shifted d N0 T T' →
      (∀ O ∈ L, (N0 ≤ O.A ∧ O.A < T.NumAllocated) ∧ (N0 ≤ O.B ∧ O.B < T.NumAllocated)) →
      Shifted d N0 (L.foldl (HandleOverlapsMark E) T)
        ((L.map (FProceduralFoliageOverlap.shift d)).foldl (HandleOverlapsMark E) T') := by
  induction L with
  | nil => intro T T' h _; exact h
  | cons O L ih =>
    intro T T' h hL
    rw [List.map_cons, List.foldl_cons, List.foldl_cons]
    have hO := hL O (List.mem_cons_self _ _)
    apply ih (HandleOverlapsMark_shifted E h O hO.1 hO.2)
    intro O' hO'
    rw [HandleOverlapsMark_numAllocated]
    exact hL O' (List.mem_cons_of_mem _ hO')

theorem HandleOverlaps_shifted {d N0 : Nat} {T T' : UProceduralFoliageTile} (E : Engine)
    (h : Shifted d N0 T T') (I : Nat) (hI : N0 ≤ I ∧ I < T.NumAllocated) :
    (HandleOverlaps E T' (I + d)).1 = (HandleOverlaps E T I).1 ∧
    Shifted d N0 (HandleOverlaps E T I).2 (HandleOverlaps E T' (I + d)).2 := by
  have hOv := BroadphaseGetOverlaps_shifted E h I hI
  have hval : ∀ O ∈ BroadphaseGetOverlaps E T.Heap T.Broadphase I,
      (N0 ≤ O.A ∧ O.A < T.NumAllocated) ∧ (N0 ≤ O.B ∧ O.B < T.NumAllocated) := by
    intro O hO
    obtain ⟨h1, h2⟩ := BroadphaseGetOverlaps_valid E T I O hO
    exact ⟨by rw [h1]; exact hI, h.valid O.B (Or.inr (Or.inr h2))⟩
  have hany : ((BroadphaseGetOverlaps E T'.Heap T'.Broadphase (I + d)).any (fun Overlap =>
        decide (Domination E T'.Heap Overlap.A Overlap.B Overlap.OverlapType = some (I + d)))) =
      ((BroadphaseGetOverlaps E T.Heap T.Broadphase I).any (fun Overlap =>
        decide (Domination E T.Heap Overlap.A Overlap.B Overlap.OverlapType = some I))) := by
    rw [hOv, List.any_map]
    apply any_congr_of_mem
    intro O hO
    obtain ⟨hA, hB⟩ := hval O hO
    show decide (Domination E T'.Heap (O.A + d) (O.B + d) O.OverlapType = some (I + d)) = _
    rw [Domination_shifted E h O.A O.B O.OverlapType hA hB]
    rcases Domination_cases E T.Heap O.A O.B O.OverlapType with hD | hD | hD
    · rw [hD]
      simp
    · rw [hD]
      simp
    · rw [hD]
      simp
  unfold HandleOverlaps
  simp only [hany]
  split
  · refine ⟨rfl, ?_⟩
    rw [hOv]
    exact foldl_HandleOverlapsMark_shifted E _ h hval
  · exact ⟨rfl, MarkPendingRemoval_shifted h I hI.1 hI.2⟩

theorem NewSeedInserted_shifted {d N0 : Nat} {T T' : UProceduralFoliageTile} (E : Engine)
    (h : Shifted d N0 T T') (Location : FVector) (Scale : ℚ)
    (Type_ : UFoliageType_InstancedStaticMesh) (InAge : ℚ) (bBlocker : Bool) :
    Shifted d N0 (NewSeedInserted E T Location Scale Type_ InAge bBlocker)
      (NewSeedInserted E T' Location Scale Type_ InAge bBlocker) := by
  unfold NewSeedInserted
  refine ⟨?_, ?_, h.inst, h.pend, ?_, ?_, h.step, h.foliage, ?_, ?_⟩
  · show T'.NumAllocated + 1 = T.NumAllocated + 1 + d
    rw [h.alloc]
    omega
  · exact Nat.le_succ_of_le h.base
  · show BroadphaseInsert T'.Broadphase T'.NumAllocated = _
    rw [h.bp, h.alloc, BroadphaseInsert_map_shift]
  · show (T'.RandomStream.FRandRange E 0 (2 * PI)).2 = (T.RandomStream.FRandRange E 0 (2 * PI)).2
    rw [h.stream]
  · intro y hy1 hy2
    simp only
    rw [h.alloc, h.stream]
    by_cases hy : y = T.NumAllocated
    · subst hy
      rw [Function.update_same, Function.update_same]
    · rw [Function.update_noteq hy, Function.update_noteq (by omega)]
      exact h.heap y hy1 (by
        have : y < T.NumAllocated + 1 := hy2
        omega)
  · intro y hy
    show N0 ≤ y ∧ y < T.NumAllocated + 1
    rcases hy with hy | hy | hy
    · have := h.valid y (Or.inl hy)
      exact ⟨this.1, Nat.lt_succ_of_lt this.2⟩
    · have := h.valid y (Or.inr (Or.inl hy))
      exact ⟨this.1, Nat.lt_succ_of_lt this.2⟩
    · rcases mem_BroadphaseInsert.1 hy with hy | hy
      · have := h.valid y (Or.inr (Or.inr hy))
        exact ⟨this.1, Nat.lt_succ_of_lt this.2⟩
      · rw [hy]
        exact ⟨h.base, Nat.lt_succ_self _⟩

theorem NewSeed_shifted {d N0 : Nat} {T T' : UProceduralFoliageTile} (E : Engine)
    (h : Shifted d N0 T T') (Location : FVector) (Scale : ℚ)
    (Type_ : UFoliageType_InstancedStaticMesh) (InAge : ℚ) (bBlocker : Bool) :
    (NewSeed E T' Location Scale Type_ InAge bBlocker).1 =
      (NewSeed E T Location Scale Type_ InAge bBlocker).1.map (fun y => y + d) ∧
    Shifted d N0 (NewSeed E T Location Scale Type_ InAge bBlocker).2
      (NewSeed E T' Location Scale Type_ InAge bBlocker).2 := by
  have hI := NewSeedInserted_shifted E h Location Scale Type_ InAge bBlocker
  have hH := HandleOverlaps_shifted E hI T.NumAllocated
    ⟨h.base, Nat.lt_succ_self _⟩
  rw [← h.alloc] at hH
  rw [NewSeed_eq, NewSeed_eq]
  refine ⟨?_, hH.2⟩
  simp only
  rw [hH.1]
  split
  · show some T'.NumAllocated = some (T.NumAllocated + d)
    rw [h.alloc]
  · rfl

theorem CollectSeed_shifted {d N0 : Nat} {T T' : UProceduralFoliageTile} (E : Engine)
    (h : Shifted d N0 T T') (Location : FVector) (Scale : ℚ)
    (Type_ : UFoliageType_InstancedStaticMesh) (InAge : ℚ) (bBlocker : Bool)
    (S S' : List Nat) (hS : S' = S.map (fun x => x + d))
    (hv : ∀ s ∈ S, N0 ≤ s ∧ s < T.NumAllocated) :
    PairShifted d N0 (CollectSeed (NewSeed E T Location Scale Type_ InAge bBlocker) S)
      (CollectSeed (NewSeed E T' Location Scale Type_ InAge bBlocker) S') := by
  obtain ⟨h1, h2⟩ := NewSeed_shifted E h Location Scale Type_ InAge bBlocker
  have hN := NewSeed_numAllocated E T Location Scale Type_ InAge bBlocker
  unfold CollectSeed
  rw [h1]
  cases hr : (NewSeed E T Location Scale Type_ InAge bBlocker).1 with
  | none =>
    refine ⟨h2, hS, ?_⟩
    intro s hs
    have := hv s hs
    show N0 ≤ s ∧ s < (NewSeed E T Location Scale Type_ InAge bBlocker).2.NumAllocated
    rw [hN]
    exact ⟨this.1, Nat.lt_succ_of_lt this.2⟩
  | some p =>
    have hp := NewSeed_result E T Location Scale Type_ InAge bBlocker p hr
    refine ⟨h2, ?_, ?_⟩
    · show S' ++ [p + d] = (S ++ [p]).map (fun x => x + d)
      rw [hS, List.map_append]
      rfl
    · intro s hs
      show N0 ≤ s ∧ s < (NewSeed E T Location Scale Type_ InAge bBlocker).2.NumAllocated
      rw [hN]
      rcases List.mem_append.1 hs with hs | hs
      · have := hv s hs
        exact ⟨this.1, Nat.lt_succ_of_lt this.2⟩
      · rw [List.mem_singleton] at hs
        rw [hs, hp]
        exact ⟨h.base, Nat.lt_succ_self _⟩

theorem Shifted.with_randomStream {d N0 : Nat} {T T' : UProceduralFoliageTile}
    (h : Shifted d N0 T T') (S : FRandomStream) :
    Shifted d N0 { T with RandomStream := S } { T' with RandomStream := S } :=
  ⟨h.alloc, h.base, h.inst, h.pend, h.bp, rfl, h.step, h.foliage, h.heap, h.valid⟩

theorem foldl_pairShifted_map {d N0 : Nat}
    (f : UProceduralFoliageTile × List Nat → Nat → UProceduralFoliageTile × List Nat)
    (hmono : ∀ A x, A.1.NumAllocated ≤ (f A x).1.NumAllocated)
    (hf : ∀ A A' x, PairShifted d N0 A A' → N0 ≤ x ∧ x < A.1.NumAllocated →
      PairShifted d N0 (f A x) (f A' (x + d)))
    (L : List Nat) :
    ∀ A A', PairShifted d N0 A A' → (∀ x ∈ L, N0 ≤ x ∧ x < A.1.NumAllocated) →
      PairShifted d N0 (L.foldl f A) ((L.map (fun y => y + d)).foldl f A') := by
  induction L with
  | nil => intro A A' h _; exact h
  | cons a L ih =>
    intro A A' h hL
    rw [List.map_cons, List.foldl_cons, List.foldl_cons]
    apply ih _ _ (hf A A' a h (hL a (List.mem_cons_self _ _)))
    intro x hx
    have := hL x (List.mem_cons_of_mem _ hx)
    exact ⟨this.1, lt_of_lt_of_le this.2 (hmono A a)⟩

theorem foldl_pairShifted_same {d N0 : Nat} {α : Type}
    (f : UProceduralFoliageTile × List Nat → α → UProceduralFoliageTile × List Nat)
    (hf : ∀ A A' a, PairShifted d N0 A A' → PairShifted d N0 (f A a) (f A' a))
    (L : List α) :
    ∀ A A', PairShifted d N0 A A' → PairShifted d N0 (L.foldl f A) (L.foldl f A') := by
  induction L with
  | nil => intro A A' h; exact h
  | cons a L ih =>
    intro A A' h
    rw [List.foldl_cons, List.foldl_cons]
    exact ih _ _ (hf A A' a h)

theorem iterate_pairShifted {d N0 : Nat}
    (f f' : UProceduralFoliageTile × List Nat → UProceduralFoliageTile × List Nat)
    (P : UProceduralFoliageTile × List Nat → Prop)
    (hf : ∀ A A', PairShifted d N0 A A' → P A → PairShifted d N0 (f A) (f' A') ∧ P (f A))
    (n : Nat) :
    ∀ A A', PairShifted d N0 A A' → P A →
      PairShifted d N0 (Nat.iterate f n A) (Nat.iterate f' n A') := by
  induction n with
  | zero => intro A A' h _; exact h
  | succ n ih =>
    intro A A' h hP
    rw [Function.iterate_succ_apply, Function.iterate_succ_apply]
    exact ih _ _ (hf A A' h hP).1 (hf A A' h hP).2

theorem AgeSeedsBody_shifted {d N0 : Nat} (E : Engine)
    (A A' : UProceduralFoliageTile × List Nat) (I : Nat) (h : PairShifted d N0 A A')
    (hI : N0 ≤ I ∧ I < A.1.NumAllocated) :
    PairShifted d N0 (AgeSeedsBody E A I) (AgeSeedsBody E A' (I + d)) := by
  have hH := h.tile.heap I hI.1 hI.2
  unfold AgeSeedsBody
  rw [hH, h.tile.step]
  split
  · simp only
    split
    · exact CollectSeed_shifted E (MarkPendingRemoval_shifted h.tile I hI.1 hI.2) _ _ _ _ _
        A.2 A'.2 h.seeds (fun s hs => by
          rw [MarkPendingRemoval_numAllocated]
          exact h.valid s hs)
    · exact h
  · exact h

theorem SpreadSeedsDraw_shifted {d N0 : Nat} (E : Engine) {T T' : UProceduralFoliageTile}
    (h : Shifted d N0 T T') (I : Nat) (hI : N0 ≤ I ∧ I < T.NumAllocated) :
    SpreadSeedsDraw E T' (I + d) = SpreadSeedsDraw E T I := by
  unfold SpreadSeedsDraw
  rw [h.heap I hI.1 hI.2, h.stream, h.step]

theorem SpreadSeedsAttempt_shifted {d N0 : Nat} (E : Engine)
    (A A' : UProceduralFoliageTile × List Nat) (I : Nat) (h : PairShifted d N0 A A')
    (hI : N0 ≤ I ∧ I < A.1.NumAllocated) :
    PairShifted d N0 (SpreadSeedsAttempt E I A) (SpreadSeedsAttempt E (I + d) A') := by
  have hH := h.tile.heap I hI.1 hI.2
  have hD := SpreadSeedsDraw_shifted E h.tile I hI
  unfold SpreadSeedsAttempt
  simp only
  rw [hD, hH]
  split
  · exact CollectSeed_shifted E (h.tile.with_randomStream _) _ _ _ _ _ A.2 A'.2 h.seeds h.valid
  · exact ⟨h.tile.with_randomStream _, h.seeds, h.valid⟩

theorem SpreadSeedsBody_shifted {d N0 : Nat} (E : Engine)
    (A A' : UProceduralFoliageTile × List Nat) (I : Nat) (h : PairShifted d N0 A A')
    (hI : N0 ≤ I ∧ I < A.1.NumAllocated) :
    PairShifted d N0 (SpreadSeedsBody E A I) (SpreadSeedsBody E A' (I + d)) := by
  have hH := h.tile.heap I hI.1 hI.2
  unfold SpreadSeedsBody
  rw [hH, h.tile.step]
  split
  · exact h
  · split
    · exact iterate_pairShifted (SpreadSeedsAttempt E I) (SpreadSeedsAttempt E (I + d))
        (fun B => N0 ≤ I ∧ I < B.1.NumAllocated)
        (fun B B' hB hP => ⟨SpreadSeedsAttempt_shifted E B B' I hB hP,
          hP.1, lt_of_lt_of_le hP.2 (SpreadSeedsAttempt_evolves E I B).alloc_le⟩)
        _ A A' h hI
    · exact h

theorem AddRandomSeedsAttempt_shifted {d N0 : Nat} (E : Engine)
    (TypeInstance : UFoliageType_InstancedStaticMesh)
    (A A' : UProceduralFoliageTile × List Nat) (h : PairShifted d N0 A A') :
    PairShifted d N0 (AddRandomSeedsAttempt E TypeInstance A)
      (AddRandomSeedsAttempt E TypeInstance A') := by
  have hc := CollectSeed_shifted E
    (h.tile.with_randomStream (TypeInstance.GetInitAge
        ((A.1.RandomStream.FRandRange E 0 A.1.ProceduralFoliage.TileSize).2.FRandRange E 0
          A.1.ProceduralFoliage.TileSize).2).2)
    { X := (A.1.RandomStream.FRandRange E 0 A.1.ProceduralFoliage.TileSize).1
      Y := ((A.1.RandomStream.FRandRange E 0 A.1.ProceduralFoliage.TileSize).2.FRandRange E 0
          A.1.ProceduralFoliage.TileSize).1
      Z := 0 }
    (TypeInstance.GetScaleForAge (TypeInstance.GetInitAge
        ((A.1.RandomStream.FRandRange E 0 A.1.ProceduralFoliage.TileSize).2.FRandRange E 0
          A.1.ProceduralFoliage.TileSize).2).1)
    TypeInstance
    (TypeInstance.GetInitAge
        ((A.1.RandomStream.FRandRange E 0 A.1.ProceduralFoliage.TileSize).2.FRandRange E 0
          A.1.ProceduralFoliage.TileSize).2).1
    false A.2 A'.2 h.seeds h.valid
  unfold AddRandomSeedsAttempt
  rw [h.tile.stream, h.tile.foliage]
  exact hc

theorem AddRandomSeedsBody_shifted {d N0 : Nat} (E : Engine)
    (A A' : UProceduralFoliageTile × List Nat) (Data : FProceduralFoliageTypeData)
    (h : PairShifted d N0 A A') :
    PairShifted d N0 (AddRandomSeedsBody E A Data) (AddRandomSeedsBody E A' Data) := by
  unfold AddRandomSeedsBody
  simp only
  rw [h.tile.foliage]
  split
  · exact iterate_pairShifted _ _ (fun _ => True)
      (fun B B' hB _ => ⟨AddRandomSeedsAttempt_shifted E _ B B' hB, trivial⟩) _ A A' h trivial
  · exact h

theorem PairShifted.addSeeds {d N0 : Nat} {A A' : UProceduralFoliageTile × List Nat}
    (h : PairShifted d N0 A A') :
    Shifted d N0 { A.1 with Instances := A.2.foldl TSetAdd A.1.Instances }
      { A'.1 with Instances := A'.2.foldl TSetAdd A'.1.Instances } := by
  refine ⟨h.tile.alloc, h.tile.base, ?_, h.tile.pend, h.tile.bp, h.tile.stream, h.tile.step,
    h.tile.foliage, h.tile.heap, ?_⟩
  · show A'.2.foldl TSetAdd A'.1.Instances = _
    rw [h.seeds, h.tile.inst, foldl_TSetAdd_map_shift]
  · intro y hy
    rcases hy with hy | hy | hy
    · rcases (mem_foldl_TSetAdd _ _ _).1 hy with hy | hy
      · exact h.tile.valid y (Or.inl hy)
      · exact h.valid y hy
    · exact h.tile.valid y (Or.inr (Or.inl hy))
    · exact h.tile.valid y (Or.inr (Or.inr hy))

theorem Shifted.pair_nil {d N0 : Nat} {T T' : UProceduralFoliageTile}
    (h : Shifted d N0 T T') : PairShifted d N0 (T, []) (T', []) :=
  ⟨h, rfl, fun _ hs => absurd hs (List.not_mem_nil _)⟩

theorem AgeSeeds_shifted {d N0 : Nat} (E : Engine) {T T' : UProceduralFoliageTile}
    (h : Shifted d N0 T T') : Shifted d N0 (AgeSeeds E T) (AgeSeeds E T') := by
  have hR := foldl_pairShifted_map (AgeSeedsBody E)
    (fun A x => (AgeSeedsBody_evolves E A x).alloc_le)
    (fun A A' x hA hx => AgeSeedsBody_shifted E A A' x hA hx)
    T.Instances (T, []) (T', []) h.pair_nil (fun x hx => h.valid x (Or.inl hx))
  rw [← h.inst] at hR
  unfold AgeSeeds
  exact FlushPendingRemovals_shifted hR.addSeeds

theorem SpreadSeeds_shifted {d N0 : Nat} (E : Engine) {T T' : UProceduralFoliageTile}
    (h : Shifted d N0 T T') :
    PairShifted d N0 (SpreadSeeds E T []) (SpreadSeeds E T' []) := by
  have hR := foldl_pairShifted_map (SpreadSeedsBody E)
    (fun A x => (SpreadSeedsBody_evolves E A x).alloc_le)
    (fun A A' x hA hx => SpreadSeedsBody_shifted E A A' x hA hx)
    T.Instances (T, []) (T', []) h.pair_nil (fun x hx => h.valid x (Or.inl hx))
  rw [← h.inst] at hR
  exact hR

theorem AddRandomSeeds_shifted {d N0 : Nat} (E : Engine) {T T' : UProceduralFoliageTile}
    (h : Shifted d N0 T T') :
    PairShifted d N0 (AddRandomSeeds E T []) (AddRandomSeeds E T' []) := by
  unfold AddRandomSeeds
  rw [h.foliage]
  exact foldl_pairShifted_same (AddRandomSeedsBody E)
    (fun A A' a hA => AddRandomSeedsBody_shifted E A A' a hA) _ _ _ h.pair_nil

theorem StepSimulation_shifted {d N0 : Nat} (E : Engine) {T T' : UProceduralFoliageTile}
    (h : Shifted d N0 T T') : Shifted d N0 (StepSimulation E T) (StepSimulation E T') := by
  unfold StepSimulation
  simp only
  rw [h.step]
  apply FlushPendingRemovals_shifted
  split
  · exact (AddRandomSeeds_shifted E h).addSeeds
  · exact (SpreadSeeds_shifted E (AgeSeeds_shifted E h)).addSeeds

theorem SimulateStep_shifted {d N0 : Nat} (E : Engine) {T T' : UProceduralFoliageTile}
    (h : Shifted d N0 T T') : Shifted d N0 (SimulateStep E T) (SimulateStep E T') := by
  have hS := StepSimulation_shifted E h
  unfold SimulateStep
  simp only
  rw [hS.step]
  exact ⟨hS.alloc, hS.base, hS.inst, hS.pend, hS.bp, hS.stream, rfl, hS.foliage, hS.heap,
    hS.valid⟩

theorem SimulateLoop_shifted {d N0 : Nat} (E : Engine) (MaxSteps : Int) (Fuel : Nat) :
    ∀ (Step : Int) {T T' : UProceduralFoliageTile}, Shifted d N0 T T' →
      Shifted d N0 (SimulateLoop E MaxSteps Fuel Step T) (SimulateLoop E MaxSteps Fuel Step T') := by
  induction Fuel with
  | zero => intro Step T T' h; exact h
  | succ F ih =>
    intro Step T T' h
    unfold SimulateLoop
    split
    · exact ih _ (SimulateStep_shifted E h)
    · exact h

theorem InstancesToArray_shifted {d N0 : Nat} {T T' : UProceduralFoliageTile}
    (h : Shifted d N0 T T') :
    (InstancesToArray T').InstancesArray = (InstancesToArray T).InstancesArray := by
  unfold InstancesToArray
  simp only
  rw [h.inst, List.filter_map, List.map_map]
  have hv : ∀ x ∈ T.Instances, T'.Heap (x + d) = T.Heap x :=
    fun x hx => h.heap x (h.valid x (Or.inl hx)).1 (h.valid x (Or.inl hx)).2
  generalize T.Instances = L at hv
  induction L with
  | nil => rfl
  | cons a L ih =>
    have ha := hv a (List.mem_cons_self _ _)
    have ih' := ih (fun x hx => hv x (List.mem_cons_of_mem _ hx))
    simp only [List.filter_cons, Function.comp, ha]
    split
    · simp only [List.map_cons, Function.comp, ha]
      rw [ih']
    · exact ih'

/-- Two runs of `Simulate` with the same arguments on tiles that hold no instances give the
same output array. -/
theorem Simulate_array_eq_of_le (E : Engine) (T T' : UProceduralFoliageTile)
    (P : UProceduralFoliage) (RandomSeed MaxNumSteps : Int)
    (hI : T.Instances = []) (hP : T.PendingRemovals = [])
    (hI' : T'.Instances = []) (hP' : T'.PendingRemovals = [])
    (hle : T.NumAllocated ≤ T'.NumAllocated) :
    (Simulate E T' P RandomSeed MaxNumSteps).InstancesArray =
      (Simulate E T P RandomSeed MaxNumSteps).InstancesArray := by
  have h0 : Shifted (T'.NumAllocated - T.NumAllocated) T.NumAllocated
      (InitSimulation T P RandomSeed) (InitSimulation T' P RandomSeed) := by
    refine ⟨?_, le_refl _, ?_, ?_, rfl, rfl, rfl, rfl, ?_, ?_⟩
    · show T'.NumAllocated = T.NumAllocated + (T'.NumAllocated - T.NumAllocated)
      omega
    · show T'.Instances = T.Instances.map _
      rw [hI, hI']
      rfl
    · show T'.PendingRemovals = T.PendingRemovals.map _
      rw [hP, hP']
      rfl
    · intro x h1 h2
      have : x < T.NumAllocated := h2
      omega
    · intro y hy
      have hy' : y ∈ T.Instances ∨ y ∈ T.PendingRemovals ∨ y ∈ ([] : List Nat) := hy
      rw [hI, hP] at hy'
      simp at hy'
  unfold Simulate
  exact InstancesToArray_shifted (SimulateLoop_shifted E _ _ 0 h0)

/-! ## The copy filter and the blocker test -/

/-- The result of `AgeSeeds` on a tile between two steps, in terms of the state after its
loop: the members are the old members and the collected seeds that are not pending, and the
storage is that after the loop. -/
theorem AgeSeeds_result (E : Engine) (T : UProceduralFoliageTile) (h : TileInvariant T) :
    (AgeSeeds E T).Instances =
      ((T.Instances.foldl (AgeSeedsBody E) (T, [])).2.foldl TSetAdd T.Instances).filter
        (fun y => decide (y ∉ (T.Instances.foldl (AgeSeedsBody E) (T, [])).1.PendingRemovals)) ∧
    (AgeSeeds E T).Heap = (T.Instances.foldl (AgeSeedsBody E) (T, [])).1.Heap := by
  have hA : LoopInv (T, []) := ⟨h.consistent, fun x hx => absurd hx (List.not_mem_nil _)⟩
  have hL := foldl_AgeSeedsBody_loopInv E T.Instances (T, []) hA
    (fun I hI => (h.2.1 I hI).1.1)
  have hC := hL.1.1.addInstances _ hL.1.2
  have hFl := FlushPendingRemovals_of_dead _ (fun x hx => (hC.pend x hx).2)
  constructor
  · unfold AgeSeeds
    simp only
    rw [hFl]
    simp only
    rw [hL.2.instances_eq]
  · unfold AgeSeeds
    simp only
    rw [hFl]

theorem AgeSeedsBody_numAllocated_of_aged (E : Engine)
    (A : UProceduralFoliageTile × List Nat) (I : Nat) (ha : (A.1.Heap I).bAlive = true)
    (hs : A.1.SimulationStep ≤ (A.1.Heap I).Type_.NumSteps) :
    (AgeSeedsBody E A I).1.NumAllocated = A.1.NumAllocated + 1 := by
  unfold AgeSeedsBody
  have h' : (A.1.Heap I).IsAlive = true := ha
  simp only [h', if_true, if_pos hs]
  rw [CollectSeed_fst, NewSeed_numAllocated, MarkPendingRemoval_numAllocated]

/-! ## The claims -/

theorem DemoParentTile_invariant : TileInvariant DemoParentTile := by
  refine ⟨?_, ?_, rfl⟩
  · intro x
    show x ∈ [0] ↔ x < 1 ∧ true = true
    simp
  · intro x hx
    have hx0 : x = 0 := by simpa [DemoParentTile] using hx
    subst hx0
    exact ⟨⟨Nat.zero_lt_one, rfl⟩, List.mem_singleton_self 0⟩

/-- C1 (alive/index invariant). For every tile state in which (i) the broadphase holds
exactly the alive instances, (ii) every member of `Instances` is alive and indexed and
(iii) `PendingRemovals` is empty, the state after `StepSimulation` (for any step counter,
any engine, that is any domination function, overlap geometry and random draws) and the
state after `AddInstances` (for any input list, transform and inner box) satisfies (i)-(iii)
again. -/
theorem C1_alive_index_invariant (E : Engine) (T : UProceduralFoliageTile)
    (h : TileInvariant T) :
    TileInvariant (StepSimulation E T) ∧
    ∀ (NewInstances : List FProceduralFoliageInstance) (RelativeTM : FTransform)
      (InnerLocalAABB : FBox2D),
      TileInvariant (AddInstances E T NewInstances RelativeTM InnerLocalAABB) :=
  ⟨StepSimulation_invariant E T h,
   fun NewInstances RelativeTM InnerLocalAABB =>
     AddInstances_invariant E T NewInstances RelativeTM InnerLocalAABB h⟩

/-- The invariant holds in the one-instance tile, hence after a growing step of it and
after copying two instances into it. -/
theorem C1_alive_index_invariant_witness :
    TileInvariant DemoParentTile ∧
    (TileInvariant (StepSimulation DemoEngine DemoParentTile) ∧
     ∀ (NewInstances : List FProceduralFoliageInstance) (RelativeTM : FTransform)
       (InnerLocalAABB : FBox2D),
       TileInvariant (AddInstances DemoEngine DemoParentTile NewInstances RelativeTM
         InnerLocalAABB)) :=
  ⟨DemoParentTile_invariant,
   C1_alive_index_invariant DemoEngine DemoParentTile DemoParentTile_invariant⟩

theorem DemoParentTile_nodup : DemoParentTile.Broadphase.Nodup := by
  show [0].Nodup
  decide

theorem DemoSeedTile_nodup : DemoSeedTile.Broadphase.Nodup :=
  (NewSeedInserted_call_site DemoEngine DemoParentTile { X := 15, Y := 0, Z := 0 } 1 DemoType
    5 false DemoParentTile_invariant.consistent DemoParentTile_nodup).1

theorem DemoSeedTile_indexed_alive :
    ∀ x ∈ DemoSeedTile.Broadphase, (DemoSeedTile.Heap x).bAlive = true :=
  (NewSeedInserted_call_site DemoEngine DemoParentTile { X := 15, Y := 0, Z := 0 } 1 DemoType
    5 false DemoParentTile_invariant.consistent DemoParentTile_nodup).2.1

theorem DemoSeedTile_survives : (HandleOverlaps DemoEngine DemoSeedTile 1).1 = true := by
  decide!

/-- C2 (survival flag of `HandleOverlaps`). In a tile whose broadphase has one entry per instance
and holds only alive instances, `HandleOverlaps(Instance)` returns false if and only
if some overlap returned by the broadphase for `Instance` has `Instance` itself as domination
result; when it returns false, `Instance` is dead and out of the broadphase afterwards; when
it returns true, an `Instance` that was alive and indexed is still alive and still indexed. -/
theorem C2_HandleOverlaps_survival (E : Engine) (T : UProceduralFoliageTile) (I : Nat)
    (hnd : T.Broadphase.Nodup)
    (hbp : ∀ x ∈ T.Broadphase, (T.Heap x).bAlive = true) :
    ((HandleOverlaps E T I).1 = false ↔
      ∃ O ∈ BroadphaseGetOverlaps E T.Heap T.Broadphase I,
        Domination E T.Heap O.A O.B O.OverlapType = some I) ∧
    ((HandleOverlaps E T I).1 = false →
      ((HandleOverlaps E T I).2.Heap I).bAlive = false ∧
        I ∉ (HandleOverlaps E T I).2.Broadphase) ∧
    ((HandleOverlaps E T I).1 = true → (T.Heap I).bAlive = true → I ∈ T.Broadphase →
      ((HandleOverlaps E T I).2.Heap I).bAlive = true ∧
        I ∈ (HandleOverlaps E T I).2.Broadphase) := by
  refine ⟨HandleOverlaps_fst_eq_false_iff E T I, ?_, ?_⟩
  · intro hf
    rw [HandleOverlaps_of_died E T I hf]
    constructor
    · cases h : ((MarkPendingRemoval T I).Heap I).bAlive
      · rfl
      · rw [MarkPendingRemoval_alive_iff] at h
        exact absurd rfl h.2
    · intro hm
      have hI : (T.Heap I).bAlive = true ∨ I ∉ T.Broadphase := by
        cases h : (T.Heap I).bAlive
        · right
          intro hm'
          rw [hbp I hm'] at h
          exact Bool.noConfusion h
        · left; rfl
      rw [MarkPendingRemoval_mem_broadphase T I I hI] at hm
      exact hm.2 rfl
  · intro ht hal hin
    rw [HandleOverlaps_of_survived E T I hnd ht]
    obtain ⟨h1, _, h3, _⟩ := foldl_MarkPendingRemoval_spec
      (DominatedList E T.Heap (BroadphaseGetOverlaps E T.Heap T.Broadphase I)) T hbp
    have hnot : I ∉ DominatedList E T.Heap (BroadphaseGetOverlaps E T.Heap T.Broadphase I) := by
      intro hm
      have hf := (HandleOverlaps_fst_eq_false_iff E T I).2 (mem_DominatedList.1 hm)
      rw [ht] at hf
      exact Bool.noConfusion hf
    exact ⟨(h1 I).2 ⟨hal, hnot⟩, (h3 I).2 ⟨hin, hnot⟩⟩

/-- The claim at the candidate of age 5 next to the instance of age 1. -/
theorem C2_HandleOverlaps_survival_witness :
    DemoSeedTile.Broadphase.Nodup ∧
    (∀ x ∈ DemoSeedTile.Broadphase, (DemoSeedTile.Heap x).bAlive = true) ∧
    (((HandleOverlaps DemoEngine DemoSeedTile 1).1 = false ↔
      ∃ O ∈ BroadphaseGetOverlaps DemoEngine DemoSeedTile.Heap DemoSeedTile.Broadphase 1,
        Domination DemoEngine DemoSeedTile.Heap O.A O.B O.OverlapType = some 1) ∧
    ((HandleOverlaps DemoEngine DemoSeedTile 1).1 = false →
      ((HandleOverlaps DemoEngine DemoSeedTile 1).2.Heap 1).bAlive = false ∧
        1 ∉ (HandleOverlaps DemoEngine DemoSeedTile 1).2.Broadphase) ∧
    ((HandleOverlaps DemoEngine DemoSeedTile 1).1 = true →
      (DemoSeedTile.Heap 1).bAlive = true → 1 ∈ DemoSeedTile.Broadphase →
      ((HandleOverlaps DemoEngine DemoSeedTile 1).2.Heap 1).bAlive = true ∧
        1 ∈ (HandleOverlaps DemoEngine DemoSeedTile 1).2.Broadphase)) :=
  ⟨DemoSeedTile_nodup, DemoSeedTile_indexed_alive,
   C2_HandleOverlaps_survival DemoEngine DemoSeedTile 1 DemoSeedTile_nodup
     DemoSeedTile_indexed_alive⟩

/-- C3 (frame of `HandleOverlaps`). In a tile whose broadphase has one entry per instance
and holds only alive instances: when the instance survives, the instances that become marked
pending-removal (alive before, dead and in `PendingRemovals` after) are exactly the non-null
domination results over its overlaps, they leave the broadphase, a partner whose domination
result is null stays alive and indexed, and every instance that is not a domination result
keeps its data, its broadphase membership and its pending-removal membership; when the instance
does not survive, no instance other than the instance itself changes its data (in
particular its alive flag), its broadphase membership or its pending-removal membership. -/
theorem C3_HandleOverlaps_frame (E : Engine) (T : UProceduralFoliageTile) (I : Nat)
    (hnd : T.Broadphase.Nodup)
    (hbp : ∀ x ∈ T.Broadphase, (T.Heap x).bAlive = true) :
    ((HandleOverlaps E T I).1 = true →
      (∀ y, ((T.Heap y).bAlive = true ∧ ((HandleOverlaps E T I).2.Heap y).bAlive = false ∧
            y ∈ (HandleOverlaps E T I).2.PendingRemovals) ↔
          ∃ O ∈ BroadphaseGetOverlaps E T.Heap T.Broadphase I,
            Domination E T.Heap O.A O.B O.OverlapType = some y) ∧
      (∀ y, (∃ O ∈ BroadphaseGetOverlaps E T.Heap T.Broadphase I,
            Domination E T.Heap O.A O.B O.OverlapType = some y) →
          y ≠ I ∧ y ∉ (HandleOverlaps E T I).2.Broadphase) ∧
      (∀ O ∈ BroadphaseGetOverlaps E T.Heap T.Broadphase I,
          Domination E T.Heap O.A O.B O.OverlapType = none →
          ((HandleOverlaps E T I).2.Heap O.B).bAlive = true ∧
            O.B ∈ (HandleOverlaps E T I).2.Broadphase) ∧
      (∀ y, (¬ ∃ O ∈ BroadphaseGetOverlaps E T.Heap T.Broadphase I,
            Domination E T.Heap O.A O.B O.OverlapType = some y) →
          (HandleOverlaps E T I).2.Heap y = T.Heap y ∧
          (y ∈ (HandleOverlaps E T I).2.Broadphase ↔ y ∈ T.Broadphase) ∧
          (y ∈ (HandleOverlaps E T I).2.PendingRemovals ↔ y ∈ T.PendingRemovals))) ∧
    ((HandleOverlaps E T I).1 = false →
      ∀ y, y ≠ I →
        (HandleOverlaps E T I).2.Heap y = T.Heap y ∧
        (y ∈ (HandleOverlaps E T I).2.Broadphase ↔ y ∈ T.Broadphase) ∧
        (y ∈ (HandleOverlaps E T I).2.PendingRemovals ↔ y ∈ T.PendingRemovals)) := by
  constructor
  · intro ht
    rw [HandleOverlaps_of_survived E T I hnd ht]
    obtain ⟨h1, h2, h3, h4⟩ := foldl_MarkPendingRemoval_spec
      (DominatedList E T.Heap (BroadphaseGetOverlaps E T.Heap T.Broadphase I)) T hbp
    have hDalive : ∀ y, y ∈ DominatedList E T.Heap
        (BroadphaseGetOverlaps E T.Heap T.Broadphase I) →
        y ≠ I ∧ ∃ O ∈ BroadphaseGetOverlaps E T.Heap T.Broadphase I,
          y = O.B ∧ Domination E T.Heap O.A O.B O.OverlapType = some y := by
      intro y hy
      have hyI : y ≠ I := by
        rintro rfl
        have hf := (HandleOverlaps_fst_eq_false_iff E T y).2 (mem_DominatedList.1 hy)
        rw [ht] at hf
        exact Bool.noConfusion hf
      obtain ⟨O, hO, hD⟩ := mem_DominatedList.1 hy
      refine ⟨hyI, O, hO, ?_, hD⟩
      rcases Domination_cases E T.Heap O.A O.B O.OverlapType with h | h | h
      · rw [h] at hD; exact Option.noConfusion hD
      · rw [h] at hD
        exact absurd ((Option.some.inj hD).symm.trans (mem_BroadphaseGetOverlaps hO).1) hyI
      · rw [h] at hD; exact (Option.some.inj hD).symm
    refine ⟨?_, ?_, ?_, ?_⟩
    · intro y
      rw [← mem_DominatedList]
      constructor
      · rintro ⟨ha, hd, _⟩
        by_contra hn
        rw [(h1 y).2 ⟨ha, hn⟩] at hd
        exact Bool.noConfusion hd
      · intro hy
        obtain ⟨_, O, hO, hyB, _⟩ := hDalive y hy
        have ha : (T.Heap y).bAlive = true := by
          rw [hyB]; exact hbp _ (mem_BroadphaseGetOverlaps hO).2.1
        refine ⟨ha, ?_, (h4 y).2 (Or.inr ⟨hy, ha⟩)⟩
        cases hc : ((List.foldl MarkPendingRemoval T (DominatedList E T.Heap
          (BroadphaseGetOverlaps E T.Heap T.Broadphase I))).Heap y).bAlive
        · rfl
        · exact absurd hy ((h1 y).1 hc).2
    · intro y hy
      rw [← mem_DominatedList] at hy
      exact ⟨(hDalive y hy).1, fun hm => ((h3 y).1 hm).2 hy⟩
    · intro O hO hD
      have hnot : O.B ∉ DominatedList E T.Heap
          (BroadphaseGetOverlaps E T.Heap T.Broadphase I) := by
        intro hm
        obtain ⟨_, O', hO', hB, hD'⟩ := hDalive O.B hm
        have hinj := List.inj_on_of_nodup_map
          (List.Nodup.sublist (BroadphaseGetOverlaps_map_B_sublist E T.Heap T.Broadphase I) hnd)
          hO hO' hB
        rw [← hinj, hD] at hD'
        exact Option.noConfusion hD'
      have hB := (mem_BroadphaseGetOverlaps hO).2.1
      exact ⟨(h1 O.B).2 ⟨hbp _ hB, hnot⟩, (h3 O.B).2 ⟨hB, hnot⟩⟩
    · intro y hy
      rw [← mem_DominatedList] at hy
      refine ⟨h2 y hy, ?_, ?_⟩
      · rw [h3 y]; exact ⟨fun h => h.1, fun h => ⟨h, hy⟩⟩
      · rw [h4 y]
        exact ⟨fun h => h.elim id (fun h' => absurd h'.1 hy), fun h => Or.inl h⟩
  · intro hf y hy
    rw [HandleOverlaps_of_died E T I hf]
    refine ⟨MarkPendingRemoval_heap_of_ne T I y hy, ?_, ?_⟩
    · cases h : (T.Heap I).bAlive
      · rw [MarkPendingRemoval_of_dead T I h]
      · rw [MarkPendingRemoval_mem_broadphase T I y (Or.inl h)]
        exact ⟨fun h' => h'.1, fun h' => ⟨h', hy⟩⟩
    · rw [MarkPendingRemoval_mem_pending]
      exact ⟨fun h => h.elim id (fun h' => absurd h'.1 hy), fun h => Or.inl h⟩

/-- The claim at the candidate of age 5 next to the instance of age 1: the candidate
survives, and the instances that become marked are the domination results. -/
theorem C3_HandleOverlaps_frame_witness :
    DemoSeedTile.Broadphase.Nodup ∧
    (∀ x ∈ DemoSeedTile.Broadphase, (DemoSeedTile.Heap x).bAlive = true) ∧
    (HandleOverlaps DemoEngine DemoSeedTile 1).1 = true ∧
    (∀ y, ((DemoSeedTile.Heap y).bAlive = true ∧
          ((HandleOverlaps DemoEngine DemoSeedTile 1).2.Heap y).bAlive = false ∧
          y ∈ (HandleOverlaps DemoEngine DemoSeedTile 1).2.PendingRemovals) ↔
        ∃ O ∈ BroadphaseGetOverlaps DemoEngine DemoSeedTile.Heap
            DemoSeedTile.Broadphase 1,
          Domination DemoEngine DemoSeedTile.Heap O.A O.B O.OverlapType = some y) :=
  ⟨DemoSeedTile_nodup, DemoSeedTile_indexed_alive, DemoSeedTile_survives,
   ((C3_HandleOverlaps_frame DemoEngine DemoSeedTile 1 DemoSeedTile_nodup
      DemoSeedTile_indexed_alive).1 DemoSeedTile_survives).1⟩

theorem DemoPendingTile_pointersValid : PointersValid DemoPendingTile := by
  refine ⟨?_, ?_, ?_⟩
  · intro x hx
    have h : x = 0 ∨ x = 1 := by simpa [DemoPendingTile] using hx
    rcases h with rfl | rfl <;> decide
  · intro x hx
    have h : x = 0 := by simpa [DemoPendingTile] using hx
    subst h; decide
  · intro x hx
    have h : x = 1 := by simpa [DemoPendingTile] using hx
    subst h; decide

theorem DemoPendingTile_newSeed_fails :
    (NewSeed DemoEngine DemoPendingTile { X := 15, Y := 0, Z := 0 } 1 DemoType 0 false).1
      = none := by
  norm_num [NewSeed, HandleOverlaps, BroadphaseGetOverlaps, BroadphaseInsert, DemoPendingTile,
    DemoEngine, DemoOverlapTest, DemoRadius, DemoInstance, DemoType, Domination, DemoDominates,
    Function.update]

theorem DemoPendingTile_flush_instances :
    (FlushPendingRemovals DemoPendingTile).Instances = [0] := by
  rw [FlushPendingRemovals_of_dead DemoPendingTile (by
    intro x hx
    have h : x = 1 := by simpa [DemoPendingTile] using hx
    subst h; rfl)]
  decide

/-- C4 as stated fails: in the mid-step tile, where the dead instance 1 still waits in
`PendingRemovals`, a candidate of age 0 next to the older instance 0 does not survive, and
after the next `FlushPendingRemovals` the `Instances` collection is `[0]`, not the `[0, 1]`
it was before the `NewSeed` call. -/
theorem C4_NewSeed_failure_counterexample :
    (NewSeed DemoEngine DemoPendingTile { X := 15, Y := 0, Z := 0 } 1 DemoType 0 false).1
      = none ∧
    DemoPendingTile.Instances = [0, 1] ∧
    (FlushPendingRemovals
      (NewSeed DemoEngine DemoPendingTile { X := 15, Y := 0, Z := 0 } 1 DemoType 0 false).2
      ).Instances = [0] ∧
    (FlushPendingRemovals
      (NewSeed DemoEngine DemoPendingTile { X := 15, Y := 0, Z := 0 } 1 DemoType 0 false).2
      ).Instances ≠ DemoPendingTile.Instances := by
  have h3 : (FlushPendingRemovals
      (NewSeed DemoEngine DemoPendingTile { X := 15, Y := 0, Z := 0 } 1 DemoType 0 false).2
      ).Instances = [0] := by
    rw [(NewSeed_failure_flush DemoEngine DemoPendingTile _ _ _ _ _
      DemoPendingTile_pointersValid DemoPendingTile_newSeed_fails).instances_eq]
    exact DemoPendingTile_flush_instances
  refine ⟨DemoPendingTile_newSeed_fails, rfl, h3, ?_⟩
  rw [h3]
  decide

/-- C4, amended (failure of `NewSeed` is atomic up to the pending removals). For every tile
state whose pointers refer to allocated instances, and every candidate: `NewSeed` returns the
new instance if `HandleOverlaps` reports survival and none otherwise; when it returns none,
the candidate is in `PendingRemovals` and not in the broadphase, and after the next
`FlushPendingRemovals` the `Instances` collection, the broadphase contents and the data (in
particular the alive flag) of every pre-existing instance are those that
`FlushPendingRemovals` alone would have produced from the state before the call; they are
the same as before the call whenever `PendingRemovals` was empty before the call. -/
theorem C4_NewSeed_failure_amended (E : Engine) (T : UProceduralFoliageTile)
    (Location : FVector) (Scale : ℚ) (Type_ : UFoliageType_InstancedStaticMesh) (InAge : ℚ)
    (bBlocker : Bool) (hv : PointersValid T) :
    ((NewSeed E T Location Scale Type_ InAge bBlocker).1 =
      if (HandleOverlaps E (NewSeedInserted E T Location Scale Type_ InAge bBlocker)
        T.NumAllocated).1 then some T.NumAllocated else none) ∧
    ((NewSeed E T Location Scale Type_ InAge bBlocker).1 = none →
      T.NumAllocated ∈ (NewSeed E T Location Scale Type_ InAge bBlocker).2.PendingRemovals ∧
      T.NumAllocated ∉ (NewSeed E T Location Scale Type_ InAge bBlocker).2.Broadphase ∧
      (FlushPendingRemovals (NewSeed E T Location Scale Type_ InAge bBlocker).2).Instances =
        (FlushPendingRemovals T).Instances ∧
      (FlushPendingRemovals (NewSeed E T Location Scale Type_ InAge bBlocker).2).Broadphase =
        (FlushPendingRemovals T).Broadphase ∧
      (∀ y, y < T.NumAllocated →
        (FlushPendingRemovals (NewSeed E T Location Scale Type_ InAge bBlocker).2).Heap y =
          (FlushPendingRemovals T).Heap y) ∧
      (T.PendingRemovals = [] →
        (FlushPendingRemovals (NewSeed E T Location Scale Type_ InAge bBlocker).2).Instances =
          T.Instances ∧
        (FlushPendingRemovals (NewSeed E T Location Scale Type_ InAge bBlocker).2).Broadphase =
          T.Broadphase ∧
        ∀ y, y < T.NumAllocated →
          (FlushPendingRemovals (NewSeed E T Location Scale Type_ InAge bBlocker).2).Heap y =
            T.Heap y)) := by
  refine ⟨rfl, ?_⟩
  intro h
  obtain ⟨_, hB, hP, _, _⟩ :=
    NewSeed_failure_fields E T Location Scale Type_ InAge bBlocker hv h
  have hF := NewSeed_failure_flush E T Location Scale Type_ InAge bBlocker hv h
  refine ⟨?_, ?_, hF.instances_eq, hF.broadphase_eq,
    fun y hy => hF.heap_eq y (Nat.ne_of_lt hy), ?_⟩
  · rw [hP]; simp
  · rw [hB]; exact fun hm => lt_irrefl _ (hv.2.1 _ hm)
  · intro hE
    have hT := FlushPendingRemovals_of_empty T hE
    rw [hT] at hF
    exact ⟨hF.instances_eq, hF.broadphase_eq, fun y hy => hF.heap_eq y (Nat.ne_of_lt hy)⟩

/-- The amended claim at the mid-step tile and the candidate that does not survive. -/
theorem C4_NewSeed_failure_amended_witness :
    PointersValid DemoPendingTile ∧
    (NewSeed DemoEngine DemoPendingTile { X := 15, Y := 0, Z := 0 } 1 DemoType 0 false).1
      = none ∧
    (FlushPendingRemovals
      (NewSeed DemoEngine DemoPendingTile { X := 15, Y := 0, Z := 0 } 1 DemoType 0 false).2
      ).Instances = (FlushPendingRemovals DemoPendingTile).Instances :=
  ⟨DemoPendingTile_pointersValid, DemoPendingTile_newSeed_fails,
   ((C4_NewSeed_failure_amended DemoEngine DemoPendingTile { X := 15, Y := 0, Z := 0 } 1
      DemoType 0 false DemoPendingTile_pointersValid).2 DemoPendingTile_newSeed_fails).2.2.1⟩

/-- C5 at a failing input (a step of the tile with one instance of the shrinking species).
After `AgeSeeds` the tile holds the alive instance 1 (age 2, scale 8, radius 80). In the
first pass of the seeds-per-step loop of `SpreadSeeds` for the parent 1 the clearance is 90
and the offset `(95, 0)` passes the clearance test; the seed 2 (age 5, radius 50) overlaps
its parent, survives and dominates it (the domination rule on the overlap of seed 2 with
instance 1 returns instance 1): instance 1 is dead, out of the broadphase and in
`PendingRemovals`. The second pass of the same loop then creates the seed 3 from the
dominated parent 1, at the parent's location plus the sampled offset; that seed survives,
and it is the one instance of the tile when `StepSimulation` returns. -/
theorem C5_seed_from_dominated_parent :
    (AgeSeeds DemoEngine DemoShrinkTile).Instances = [1] ∧
    ((AgeSeeds DemoEngine DemoShrinkTile).Heap 1).bAlive = true ∧
    (SpreadSeedsDraw DemoEngine (AgeSeeds DemoEngine DemoShrinkTile) 1).MinDistanceToClear
      = 90 ∧
    (SpreadSeedsDraw DemoEngine (AgeSeeds DemoEngine DemoShrinkTile) 1).GlobalOffset.X
      = 95 ∧
    (SpreadSeedsDraw DemoEngine (AgeSeeds DemoEngine DemoShrinkTile) 1).GlobalOffset.Y
      = 0 ∧
    (SpreadSeedsAttempt DemoEngine 1 (AgeSeeds DemoEngine DemoShrinkTile, [])).2 = [2] ∧
    Domination DemoEngine
      (SpreadSeedsAttempt DemoEngine 1 (AgeSeeds DemoEngine DemoShrinkTile, [])).1.Heap 2 1 0
      = some 1 ∧
    ((SpreadSeedsAttempt DemoEngine 1 (AgeSeeds DemoEngine DemoShrinkTile, [])).1.Heap 1).bAlive
      = false ∧
    (SpreadSeedsAttempt DemoEngine 1 (AgeSeeds DemoEngine DemoShrinkTile, [])).1.PendingRemovals
      = [1] ∧
    (SpreadSeedsAttempt DemoEngine 1 (AgeSeeds DemoEngine DemoShrinkTile, [])).1.Broadphase
      = [2] ∧
    (SpreadSeedsAttempt DemoEngine 1 (AgeSeeds DemoEngine DemoShrinkTile, [])).1.NumAllocated
      = 3 ∧
    (SpreadSeedsAttempt DemoEngine 1
      (SpreadSeedsAttempt DemoEngine 1 (AgeSeeds DemoEngine DemoShrinkTile, []))).1.NumAllocated
      = 4 ∧
    (SpreadSeedsAttempt DemoEngine 1
      (SpreadSeedsAttempt DemoEngine 1 (AgeSeeds DemoEngine DemoShrinkTile, []))).2 = [2, 3] ∧
    ((SpreadSeedsAttempt DemoEngine 1
      (SpreadSeedsAttempt DemoEngine 1 (AgeSeeds DemoEngine DemoShrinkTile, []))).1.Heap
        3).bAlive = true ∧
    ((SpreadSeedsAttempt DemoEngine 1
      (SpreadSeedsAttempt DemoEngine 1 (AgeSeeds DemoEngine DemoShrinkTile, []))).1.Heap
        3).Location.X =
      ((AgeSeeds DemoEngine DemoShrinkTile).Heap 1).Location.X + 95 ∧
    (SpreadSeeds DemoEngine (AgeSeeds DemoEngine DemoShrinkTile) []).2 = [2, 3] ∧
    (SpreadSeeds DemoEngine (AgeSeeds DemoEngine DemoShrinkTile) []).1.NumAllocated = 4 ∧
    (StepSimulation DemoEngine DemoShrinkTile).Instances = [3] ∧
    ((StepSimulation DemoEngine DemoShrinkTile).Heap 3).bAlive = true := by
  decide!

/-- C6 (number of steps of `Simulate`). When `NumSteps + 1` does not overflow `int32` for
any species with a type instance, `Simulate` runs the body `StepSimulation; ++SimulationStep`
exactly `K` times from the initialised tile (the step loop ends through its own condition,
for every sufficient fuel of the model) and leaves `SimulationStep = K`, where `m` is the
maximum of 0 and `NumSteps + 1` over the species with a type instance and `K = min(m,
MaxNumSteps)` if `MaxNumSteps >= 0`, `K = m` otherwise. A non-negative `MaxNumSteps` caps
`K`, and a species list without type instance gives `K = 0`. -/
theorem C6_Simulate_step_count (E : Engine) (T : UProceduralFoliageTile)
    (P : UProceduralFoliage) (RandomSeed MaxNumSteps : Int)
    (hNo : ∀ D ∈ P.GetTypes, ∀ Ty, D.TypeInstance = some Ty →
      -2147483648 ≤ Ty.NumSteps ∧ Ty.NumSteps < 2147483647) :
    0 ≤ SpecStepCount P MaxNumSteps ∧
    Simulate E T P RandomSeed MaxNumSteps =
      InstancesToArray (Nat.iterate (SimulateStep E) (SpecStepCount P MaxNumSteps).toNat
        (InitSimulation T P RandomSeed)) ∧
    (∀ Fuel, (SpecStepCount P MaxNumSteps).toNat ≤ Fuel →
      SimulateLoop E (SimulateMaxSteps P MaxNumSteps) Fuel 0 (InitSimulation T P RandomSeed) =
        Nat.iterate (SimulateStep E) (SpecStepCount P MaxNumSteps).toNat
          (InitSimulation T P RandomSeed)) ∧
    (Simulate E T P RandomSeed MaxNumSteps).SimulationStep = SpecStepCount P MaxNumSteps ∧
    (0 ≤ MaxNumSteps → SpecStepCount P MaxNumSteps ≤ MaxNumSteps) ∧
    ((∀ D ∈ P.GetTypes, D.TypeInstance = none) → SpecStepCount P MaxNumSteps = 0) := by
  have hK := SimulateMaxSteps_eq P MaxNumSteps hNo
  have hm0 := SpecMaxSteps_nonneg P
  have hm1 := SpecMaxSteps_le P hNo
  have hK0 : 0 ≤ SpecStepCount P MaxNumSteps := by
    unfold SpecStepCount
    split
    · exact le_min hm0 (by assumption)
    · exact hm0
  have hK1 : SpecStepCount P MaxNumSteps ≤ 2147483647 := by
    unfold SpecStepCount
    split
    · exact le_trans (min_le_left _ _) hm1
    · exact hm1
  have hLoop : ∀ Fuel, (SpecStepCount P MaxNumSteps).toNat ≤ Fuel →
      SimulateLoop E (SimulateMaxSteps P MaxNumSteps) Fuel 0 (InitSimulation T P RandomSeed) =
        Nat.iterate (SimulateStep E) (SpecStepCount P MaxNumSteps).toNat
          (InitSimulation T P RandomSeed) := by
    intro Fuel hF
    apply SimulateLoop_eq_iterate E _ _ 0 _ Fuel _ hF
    rw [hK, Int.toNat_of_nonneg hK0]
    omega
  have hSim : Simulate E T P RandomSeed MaxNumSteps =
      InstancesToArray (Nat.iterate (SimulateStep E) (SpecStepCount P MaxNumSteps).toNat
        (InitSimulation T P RandomSeed)) := by
    unfold Simulate
    simp only
    have hP : (InitSimulation T P RandomSeed).ProceduralFoliage = P := rfl
    rw [hP, hLoop _ (by rw [hK])]
  refine ⟨hK0, hSim, hLoop, ?_, ?_, ?_⟩
  · rw [hSim]
    show (Nat.iterate (SimulateStep E) (SpecStepCount P MaxNumSteps).toNat
        (InitSimulation T P RandomSeed)).SimulationStep = _
    rw [iterate_SimulateStep_simulationStep E _ _ (le_refl _)
      (by
        show (0 : Int) + ((SpecStepCount P MaxNumSteps).toNat : Int) < 2147483648
        rw [Int.toNat_of_nonneg hK0]; omega)]
    show (0 : Int) + ((SpecStepCount P MaxNumSteps).toNat : Int) = _
    rw [Int.toNat_of_nonneg hK0]
    omega
  · intro hM
    unfold SpecStepCount
    rw [if_pos hM]
    exact min_le_right _ _
  · intro hnone
    have hm : SpecMaxSteps P = 0 := by
      unfold SpecMaxSteps
      have : P.GetTypes.filterMap (fun D => D.TypeInstance) = [] := by
        rw [List.filterMap_eq_nil_iff]
        exact hnone
      rw [this]
      rfl
    unfold SpecStepCount
    rw [hm]
    split
    · exact min_eq_left (by assumption)
    · rfl

theorem DemoFoliage_numSteps_in_range :
    ∀ D ∈ DemoFoliage.GetTypes, ∀ Ty, D.TypeInstance = some Ty →
      -2147483648 ≤ Ty.NumSteps ∧ Ty.NumSteps < 2147483647 := by
  intro D hD Ty hTy
  have hD' : D = { TypeInstance := some DemoType } := by simpa [DemoFoliage] using hD
  subst hD'
  have hT : Ty = DemoType := (Option.some.inj hTy).symm
  subst hT
  decide

/-- The claim for the one-species asset (`NumSteps = 3`) and the cap `MaxNumSteps = 2`:
two steps are taken and the counter ends at 2. -/
theorem C6_Simulate_step_count_witness :
    (∀ D ∈ DemoFoliage.GetTypes, ∀ Ty, D.TypeInstance = some Ty →
      -2147483648 ≤ Ty.NumSteps ∧ Ty.NumSteps < 2147483647) ∧
    SpecStepCount DemoFoliage 2 = 2 ∧
    (Simulate DemoEngine DemoEmptyTile DemoFoliage 7 2).SimulationStep
      = SpecStepCount DemoFoliage 2 :=
  ⟨DemoFoliage_numSteps_in_range, by decide,
   (C6_Simulate_step_count DemoEngine DemoEmptyTile DemoFoliage 7 2
      DemoFoliage_numSteps_in_range).2.2.2.1⟩

/-- C7 (the output array). `InstancesToArray` sets `InstancesArray` to the value copies of
exactly the members of `Instances` whose `bBlocker` flag is false, one per member and in the
iteration order of `Instances`, and changes nothing else that the simulation reads; and
after `Simulate` on a freshly constructed tile (nothing allocated, `Instances` and
`PendingRemovals` empty) every element of `InstancesArray` is the copy of a member of
`Instances` that is not a blocker, is alive and is present in the broadphase. -/
theorem C7_output_array (E : Engine) (T : UProceduralFoliageTile) (P : UProceduralFoliage)
    (RandomSeed MaxNumSteps : Int)
    (hFresh : T.NumAllocated = 0 ∧ T.Instances = [] ∧ T.PendingRemovals = []) :
    (∀ U : UProceduralFoliageTile,
      (InstancesToArray U).InstancesArray =
        (U.Instances.filter (fun x => (U.Heap x).bBlocker == false)).map U.Heap ∧
      (InstancesToArray U).Instances = U.Instances ∧
      (InstancesToArray U).Heap = U.Heap ∧
      (InstancesToArray U).Broadphase = U.Broadphase) ∧
    (∀ I ∈ (Simulate E T P RandomSeed MaxNumSteps).InstancesArray,
      ∃ x ∈ (Simulate E T P RandomSeed MaxNumSteps).Instances,
        I = (Simulate E T P RandomSeed MaxNumSteps).Heap x ∧
        I.bBlocker = false ∧ I.bAlive = true ∧
        AliveAt (Simulate E T P RandomSeed MaxNumSteps) x ∧
        x ∈ (Simulate E T P RandomSeed MaxNumSteps).Broadphase) := by
  refine ⟨fun U => ⟨rfl, rfl, rfl, rfl⟩, ?_⟩
  have hInv : TileInvariant (Simulate E T P RandomSeed MaxNumSteps) := by
    unfold Simulate
    simp only
    exact TileInvariant_of_fields
      (SimulateLoop_invariant E _ _ 0 _ (InitSimulation_invariant T P RandomSeed hFresh))
      rfl rfl rfl rfl rfl
  intro I hI
  have hArr : (Simulate E T P RandomSeed MaxNumSteps).InstancesArray =
      ((Simulate E T P RandomSeed MaxNumSteps).Instances.filter
        (fun x => ((Simulate E T P RandomSeed MaxNumSteps).Heap x).bBlocker == false)).map
        (Simulate E T P RandomSeed MaxNumSteps).Heap := rfl
  rw [hArr, List.mem_map] at hI
  obtain ⟨x, hx, hxI⟩ := hI
  rw [List.mem_filter] at hx
  have hA := hInv.2.1 x hx.1
  refine ⟨x, hx.1, hxI.symm, ?_, ?_, hA.1, hA.2⟩
  · rw [← hxI]
    simpa using hx.2
  · rw [← hxI]
    exact hA.1.2

/-- The claim for the simulation of the one-species asset on the empty tile. -/
theorem C7_output_array_witness :
    (DemoEmptyTile.NumAllocated = 0 ∧ DemoEmptyTile.Instances = [] ∧
      DemoEmptyTile.PendingRemovals = []) ∧
    (Simulate DemoEngine DemoEmptyTile DemoFoliage 7 2).InstancesArray.length = 1 ∧
    (∀ I ∈ (Simulate DemoEngine DemoEmptyTile DemoFoliage 7 2).InstancesArray,
      ∃ x ∈ (Simulate DemoEngine DemoEmptyTile DemoFoliage 7 2).Instances,
        I = (Simulate DemoEngine DemoEmptyTile DemoFoliage 7 2).Heap x ∧
        I.bBlocker = false ∧ I.bAlive = true ∧
        AliveAt (Simulate DemoEngine DemoEmptyTile DemoFoliage 7 2) x ∧
        x ∈ (Simulate DemoEngine DemoEmptyTile DemoFoliage 7 2).Broadphase) :=
  ⟨⟨rfl, rfl, rfl⟩, by decide!,
   (C7_output_array DemoEngine DemoEmptyTile DemoFoliage 7 2 ⟨rfl, rfl, rfl⟩).2⟩

/-- C8 (seed acceptance test of `SpreadSeeds`, in float arithmetic). For every pass of the
seeds-per-step loop, with offset vector `G = GlobalOffset` and minimum clearance
`D = MinDistanceToClear`: the attempt is passed to `NewSeed` (and then allocates exactly one
instance) if and only if the float sum `|G|^2 + SMALL_NUMBER` is greater than the float
product `D * D`, and is otherwise discarded with no change to the tile but the random
stream. The tolerance does not survive the rounding of the sum: for every squared length
`|G|^2` from `1/4` up (and below the overflow threshold `2^128`) the float sum
`|G|^2 + SMALL_NUMBER` is `|G|^2`, so the attempt is accepted if and only if
`|G|^2 > D * D`, and an attempt with `|G|^2 = D * D` is discarded. At the parent of the
one-instance tile the clearance is 20 and the offset is `(20, 0, 0)`, of length exactly 20;
`400 + SMALL_NUMBER` rounds to 400, the test fails, and the attempt is discarded without a
call of `NewSeed`. -/
theorem C8_seed_acceptance_boundary (E : Engine) (Inst : Nat)
    (A : UProceduralFoliageTile × List Nat) :
    (SpreadSeedsAccepts (SpreadSeedsDraw E A.1 Inst) ↔
      Float32.add
          (Float32.add
            (Float32.mul (SpreadSeedsDraw E A.1 Inst).GlobalOffset.X
              (SpreadSeedsDraw E A.1 Inst).GlobalOffset.X)
            (Float32.mul (SpreadSeedsDraw E A.1 Inst).GlobalOffset.Y
              (SpreadSeedsDraw E A.1 Inst).GlobalOffset.Y))
          SMALL_NUMBER >
        Float32.mul (SpreadSeedsDraw E A.1 Inst).MinDistanceToClear
          (SpreadSeedsDraw E A.1 Inst).MinDistanceToClear) ∧
    (SpreadSeedsAccepts (SpreadSeedsDraw E A.1 Inst) →
      SpreadSeedsAttempt E Inst A =
        CollectSeed (NewSeed E { A.1 with RandomStream := (SpreadSeedsDraw E A.1 Inst).Stream }
          ((SpreadSeedsDraw E A.1 Inst).GlobalOffset.add (A.1.Heap Inst).Location)
          (SpreadSeedsDraw E A.1 Inst).NewScale (A.1.Heap Inst).Type_
          (SpreadSeedsDraw E A.1 Inst).NewAge false) A.2) ∧
    (¬ SpreadSeedsAccepts (SpreadSeedsDraw E A.1 Inst) →
      SpreadSeedsAttempt E Inst A =
        ({ A.1 with RandomStream := (SpreadSeedsDraw E A.1 Inst).Stream }, A.2)) ∧
    ((SpreadSeedsAttempt E Inst A).1.NumAllocated = A.1.NumAllocated + 1 ↔
      SpreadSeedsAccepts (SpreadSeedsDraw E A.1 Inst)) ∧
    (1 / 4 ≤ (SpreadSeedsDraw E A.1 Inst).GlobalOffset.SizeSquared2D →
      (SpreadSeedsDraw E A.1 Inst).GlobalOffset.SizeSquared2D <
        340282366920938463463374607431768211456 →
      Float32.add (SpreadSeedsDraw E A.1 Inst).GlobalOffset.SizeSquared2D SMALL_NUMBER =
          (SpreadSeedsDraw E A.1 Inst).GlobalOffset.SizeSquared2D ∧
        (SpreadSeedsAccepts (SpreadSeedsDraw E A.1 Inst) ↔
          (SpreadSeedsDraw E A.1 Inst).GlobalOffset.SizeSquared2D >
            Float32.mul (SpreadSeedsDraw E A.1 Inst).MinDistanceToClear
              (SpreadSeedsDraw E A.1 Inst).MinDistanceToClear) ∧
        ((SpreadSeedsDraw E A.1 Inst).GlobalOffset.SizeSquared2D =
            Float32.mul (SpreadSeedsDraw E A.1 Inst).MinDistanceToClear
              (SpreadSeedsDraw E A.1 Inst).MinDistanceToClear →
          SpreadSeedsAttempt E Inst A =
            ({ A.1 with RandomStream := (SpreadSeedsDraw E A.1 Inst).Stream }, A.2))) ∧
    (SpreadSeedsDraw DemoEngine DemoParentTile 0).MinDistanceToClear = 20 ∧
    (SpreadSeedsDraw DemoEngine DemoParentTile 0).GlobalOffset.X = 20 ∧
    (SpreadSeedsDraw DemoEngine DemoParentTile 0).GlobalOffset.Y = 0 ∧
    (SpreadSeedsDraw DemoEngine DemoParentTile 0).GlobalOffset.SizeSquared2D = 400 ∧
    Float32.mul (SpreadSeedsDraw DemoEngine DemoParentTile 0).MinDistanceToClear
      (SpreadSeedsDraw DemoEngine DemoParentTile 0).MinDistanceToClear = 400 ∧
    (0 : ℚ) < SMALL_NUMBER ∧
    Float32.add 400 SMALL_NUMBER = 400 ∧
    ¬ SpreadSeedsAccepts (SpreadSeedsDraw DemoEngine DemoParentTile 0) ∧
    (SpreadSeedsAttempt DemoEngine 0 (DemoParentTile, [])).1.NumAllocated =
      DemoParentTile.NumAllocated ∧
    (SpreadSeedsAttempt DemoEngine 0 (DemoParentTile, [])).2 = [] := by
  have hacc : SpreadSeedsAccepts (SpreadSeedsDraw E A.1 Inst) →
      SpreadSeedsAttempt E Inst A =
        CollectSeed (NewSeed E { A.1 with RandomStream := (SpreadSeedsDraw E A.1 Inst).Stream }
          ((SpreadSeedsDraw E A.1 Inst).GlobalOffset.add (A.1.Heap Inst).Location)
          (SpreadSeedsDraw E A.1 Inst).NewScale (A.1.Heap Inst).Type_
          (SpreadSeedsDraw E A.1 Inst).NewAge false) A.2 :=
    SpreadSeedsAttempt_of_accepts E Inst A
  have hrej : ¬ SpreadSeedsAccepts (SpreadSeedsDraw E A.1 Inst) →
      SpreadSeedsAttempt E Inst A =
        ({ A.1 with RandomStream := (SpreadSeedsDraw E A.1 Inst).Stream }, A.2) :=
    SpreadSeedsAttempt_of_rejects E Inst A
  refine ⟨Iff.rfl, hacc, hrej, ?_, ?_, by decide!, by decide!, by decide!, by decide!,
    by decide!, by decide!, by decide!, by decide!, by decide!, by decide!⟩
  · constructor
    · intro hN
      by_contra hn
      rw [hrej hn] at hN
      exact absurd hN (Nat.ne_of_lt (Nat.lt_succ_self _))
    · intro h
      rw [hacc h, CollectSeed_fst, NewSeed_numAllocated]
  · intro h1 h2
    have habs : Float32.add (SpreadSeedsDraw E A.1 Inst).GlobalOffset.SizeSquared2D
        SMALL_NUMBER = (SpreadSeedsDraw E A.1 Inst).GlobalOffset.SizeSquared2D :=
      Float32.round_add_small _ h1 h2
    have hiff : SpreadSeedsAccepts (SpreadSeedsDraw E A.1 Inst) ↔
        (SpreadSeedsDraw E A.1 Inst).GlobalOffset.SizeSquared2D >
          Float32.mul (SpreadSeedsDraw E A.1 Inst).MinDistanceToClear
            (SpreadSeedsDraw E A.1 Inst).MinDistanceToClear := by
      unfold SpreadSeedsAccepts
      rw [habs]
    refine ⟨habs, hiff, ?_⟩
    intro heq
    apply hrej
    rw [hiff, heq]
    exact lt_irrefl _

/-- The acceptance test at an accepted attempt (offset 105 for the clearance 100), at a
discarded one (offset 15 for the clearance 20), and at the boundary (offset 20 for the
clearance 20), which is discarded. -/
theorem C8_seed_acceptance_boundary_witness :
    (SpreadSeedsDraw DemoEngine DemoShrinkTile 0).MinDistanceToClear = 100 ∧
    (SpreadSeedsDraw DemoEngine DemoShrinkTile 0).GlobalOffset.X = 105 ∧
    SpreadSeedsAccepts (SpreadSeedsDraw DemoEngine DemoShrinkTile 0) ∧
    (SpreadSeedsAttempt DemoEngine 0 (DemoShrinkTile, [])).1.NumAllocated = 2 ∧
    (SpreadSeedsDraw DemoEngine DemoShortTile 0).MinDistanceToClear = 20 ∧
    (SpreadSeedsDraw DemoEngine DemoShortTile 0).GlobalOffset.X = 15 ∧
    ¬ SpreadSeedsAccepts (SpreadSeedsDraw DemoEngine DemoShortTile 0) ∧
    SpreadSeedsAttempt DemoEngine 0 (DemoShortTile, []) =
      ({ DemoShortTile with
          RandomStream := (SpreadSeedsDraw DemoEngine DemoShortTile 0).Stream }, []) ∧
    (1 : ℚ) / 4 ≤ (SpreadSeedsDraw DemoEngine DemoParentTile 0).GlobalOffset.SizeSquared2D ∧
    (SpreadSeedsDraw DemoEngine DemoParentTile 0).GlobalOffset.SizeSquared2D =
      Float32.mul (SpreadSeedsDraw DemoEngine DemoParentTile 0).MinDistanceToClear
        (SpreadSeedsDraw DemoEngine DemoParentTile 0).MinDistanceToClear ∧
    SpreadSeedsAttempt DemoEngine 0 (DemoParentTile, []) =
      ({ DemoParentTile with
          RandomStream := (SpreadSeedsDraw DemoEngine DemoParentTile 0).Stream }, []) :=
  ⟨by decide!, by decide!, by decide!,
   ((C8_seed_acceptance_boundary DemoEngine 0 (DemoShrinkTile, [])).2.2.2.1).2 (by decide!),
   by decide!, by decide!, by decide!,
   (C8_seed_acceptance_boundary DemoEngine 0 (DemoShortTile, [])).2.2.1 (by decide!),
   by decide!, by decide!,
   ((C8_seed_acceptance_boundary DemoEngine 0 (DemoParentTile, [])).2.2.2.2.1 (by decide!)
      (by decide!)).2.2 (by decide!)⟩

/-- C9 (height filter of `CreateInstancesToSpawn`). For every element of the output array
and every world, the element is emitted if and only if the sweep hits, the hit actor is
neither a procedural-foliage blocking volume nor an instanced-foliage actor,
`HeightMin <= hit Z <= HeightMax`, and `cos(GroundSlope in degrees) <= hit normal Z`; the
function appends exactly the emitted elements to `OutInstances`. Hence an element whose hit
Z is strictly below `HeightMin` is never emitted, and one whose hit Z equals `HeightMin`,
with `HeightMin <= HeightMax` and the other conditions satisfied, is emitted. -/
theorem C9_height_filter (E : Engine) (WorldTM : FTransform) (World : UWorld)
    (HalfHeight : ℚ) (Instance : FProceduralFoliageInstance) :
    ((CreateInstanceToSpawn E WorldTM World HalfHeight Instance).isSome = true ↔
      ∃ Hit, World.SweepSingle (SweepStartRay WorldTM HalfHeight Instance)
          (SweepEndRay WorldTM HalfHeight Instance) (E.GetMaxRadius Instance) = some Hit ∧
        Hit.Actor ≠ some EHitActor.BlockingVolume ∧
        Hit.Actor ≠ some EHitActor.InstancedFoliageActor ∧
        Instance.Type_.HeightMin ≤ Hit.ImpactPoint.Z ∧
        Hit.ImpactPoint.Z ≤ Instance.Type_.HeightMax ∧
        E.Cos (DegreesToRadians Instance.Type_.GroundSlope) ≤ Hit.ImpactNormal.Z) ∧
    (∀ (T : UProceduralFoliageTile) (OutInstances : List FProceduralFoliageInstance),
      CreateInstancesToSpawn E T OutInstances WorldTM World HalfHeight =
        OutInstances ++
          T.InstancesArray.filterMap (CreateInstanceToSpawn E WorldTM World HalfHeight)) ∧
    (∀ Hit, World.SweepSingle (SweepStartRay WorldTM HalfHeight Instance)
          (SweepEndRay WorldTM HalfHeight Instance) (E.GetMaxRadius Instance) = some Hit →
        Hit.ImpactPoint.Z < Instance.Type_.HeightMin →
        CreateInstanceToSpawn E WorldTM World HalfHeight Instance = none) ∧
    (∀ Hit, World.SweepSingle (SweepStartRay WorldTM HalfHeight Instance)
          (SweepEndRay WorldTM HalfHeight Instance) (E.GetMaxRadius Instance) = some Hit →
        Hit.Actor ≠ some EHitActor.BlockingVolume →
        Hit.Actor ≠ some EHitActor.InstancedFoliageActor →
        Hit.ImpactPoint.Z = Instance.Type_.HeightMin →
        Instance.Type_.HeightMin ≤ Instance.Type_.HeightMax →
        E.Cos (DegreesToRadians Instance.Type_.GroundSlope) ≤ Hit.ImpactNormal.Z →
        (CreateInstanceToSpawn E WorldTM World HalfHeight Instance).isSome = true) := by
  have hblock : ∀ Actor : Option EHitActor, IsBlockingActor Actor = false ↔
      (Actor ≠ some EHitActor.BlockingVolume ∧
        Actor ≠ some EHitActor.InstancedFoliageActor) := by
    intro Actor
    cases Actor with
    | none => simp [IsBlockingActor]
    | some a => cases a <;> simp [IsBlockingActor]
  have hmain : (CreateInstanceToSpawn E WorldTM World HalfHeight Instance).isSome = true ↔
      ∃ Hit, World.SweepSingle (SweepStartRay WorldTM HalfHeight Instance)
          (SweepEndRay WorldTM HalfHeight Instance) (E.GetMaxRadius Instance) = some Hit ∧
        Hit.Actor ≠ some EHitActor.BlockingVolume ∧
        Hit.Actor ≠ some EHitActor.InstancedFoliageActor ∧
        Instance.Type_.HeightMin ≤ Hit.ImpactPoint.Z ∧
        Hit.ImpactPoint.Z ≤ Instance.Type_.HeightMax ∧
        E.Cos (DegreesToRadians Instance.Type_.GroundSlope) ≤ Hit.ImpactNormal.Z := by
    unfold CreateInstanceToSpawn
    simp only
    cases hS : World.SweepSingle (SweepStartRay WorldTM HalfHeight Instance)
        (SweepEndRay WorldTM HalfHeight Instance) (E.GetMaxRadius Instance) with
    | none => simp
    | some Hit =>
      simp only [Option.some.injEq, exists_eq_left']
      cases hB : IsBlockingActor Hit.Actor
      · have hB' := (hblock Hit.Actor).1 hB
        simp only [Bool.false_eq_true, if_false, ge_iff_le]
        by_cases hH : Instance.Type_.HeightMin ≤ Hit.ImpactPoint.Z ∧
            Hit.ImpactPoint.Z ≤ Instance.Type_.HeightMax
        · rw [if_pos hH]
          by_cases hC : E.Cos (DegreesToRadians Instance.Type_.GroundSlope) ≤
              Hit.ImpactNormal.Z
          · rw [if_pos hC]
            simp only [Option.isSome_some, true_iff]
            exact ⟨hB'.1, hB'.2, hH.1, hH.2, hC⟩
          · rw [if_neg hC]
            simp only [Option.isSome_none, Bool.false_eq_true, false_iff]
            exact fun h => hC h.2.2.2.2
        · rw [if_neg hH]
          simp only [Option.isSome_none, Bool.false_eq_true, false_iff]
          exact fun h => hH ⟨h.2.2.1, h.2.2.2.1⟩
      · simp only [if_true, Option.isSome_none, Bool.false_eq_true, false_iff]
        intro h
        have := (hblock Hit.Actor).2 ⟨h.1, h.2.1⟩
        rw [hB] at this
        exact Bool.noConfusion this
  refine ⟨hmain, fun _ _ => rfl, ?_, ?_⟩
  · intro Hit hS hlow
    cases hR : CreateInstanceToSpawn E WorldTM World HalfHeight Instance with
    | none => rfl
    | some R =>
      have hsome : (CreateInstanceToSpawn E WorldTM World HalfHeight Instance).isSome = true := by
        rw [hR]; rfl
      obtain ⟨Hit', hS', _, _, hmin, _, _⟩ := hmain.1 hsome
      rw [hS] at hS'
      cases hS'
      exact absurd hmin (not_le.2 hlow)
  · intro Hit hS h1 h2 hZ hle hC
    exact hmain.2 ⟨Hit, hS, h1, h2, le_of_eq hZ.symm, hZ ▸ hle, hC⟩

/-- The claim on flat ground exactly at `HeightMin = 0`: the instance is emitted. -/
theorem C9_height_filter_witness :
    (DemoWorld 0).SweepSingle (SweepStartRay DemoIdentity 10000 (DemoInstance 3 4 1 false true))
      (SweepEndRay DemoIdentity 10000 (DemoInstance 3 4 1 false true))
      (DemoEngine.GetMaxRadius (DemoInstance 3 4 1 false true)) =
        some { Actor := none
               ImpactPoint := { X := 3, Y := 4, Z := 0 }
               ImpactNormal := { X := 0, Y := 0, Z := 1 }
               Component := none } ∧
    (CreateInstanceToSpawn DemoEngine DemoIdentity (DemoWorld 0) 10000
      (DemoInstance 3 4 1 false true)).isSome = true ∧
    CreateInstanceToSpawn DemoEngine DemoIdentity (DemoWorld (-1)) 10000
      (DemoInstance 3 4 1 false true) = none := by
  have hS0 : (DemoWorld 0).SweepSingle
      (SweepStartRay DemoIdentity 10000 (DemoInstance 3 4 1 false true))
      (SweepEndRay DemoIdentity 10000 (DemoInstance 3 4 1 false true))
      (DemoEngine.GetMaxRadius (DemoInstance 3 4 1 false true)) =
        some { Actor := none
               ImpactPoint := { X := 3, Y := 4, Z := 0 }
               ImpactNormal := { X := 0, Y := 0, Z := 1 }
               Component := none } := by
    simp [DemoWorld, SweepStartRay, DemoIdentity, DemoInstance, FVector.add]
    decide!
  have hS1 : (DemoWorld (-1)).SweepSingle
      (SweepStartRay DemoIdentity 10000 (DemoInstance 3 4 1 false true))
      (SweepEndRay DemoIdentity 10000 (DemoInstance 3 4 1 false true))
      (DemoEngine.GetMaxRadius (DemoInstance 3 4 1 false true)) =
        some { Actor := none
               ImpactPoint := { X := 3, Y := 4, Z := -1 }
               ImpactNormal := { X := 0, Y := 0, Z := 1 }
               Component := none } := by
    simp [DemoWorld, SweepStartRay, DemoIdentity, DemoInstance, FVector.add]
    decide!
  refine ⟨hS0, ?_, ?_⟩
  · exact (C9_height_filter DemoEngine DemoIdentity (DemoWorld 0) 10000
      (DemoInstance 3 4 1 false true)).2.2.2 _ hS0 (by simp) (by simp) rfl (by decide!)
      (by decide!)
  · exact (C9_height_filter DemoEngine DemoIdentity (DemoWorld (-1)) 10000
      (DemoInstance 3 4 1 false true)).2.2.1 _ hS1 (by decide!)

/-- C18 (two-phase removal, mark phase). `MarkPendingRemoval` on an alive instance removes
it from the broadphase, flags it dead (its other fields are kept) and adds it to
`PendingRemovals`, while the `Instances` collection (members and order), every other
instance's data (fields and alive flag), every other broadphase entry (and their order) and
every other pending entry are unchanged; `MarkPendingRemoval` on an instance that is already
dead changes nothing. Hence a second `MarkPendingRemoval` of the same instance, or its
`RemoveInstance` in the flush, does not invoke `Broadphase.Remove` again. -/
theorem C18_MarkPendingRemoval_frame (T : UProceduralFoliageTile) (x : Nat) :
    ((T.Heap x).bAlive = true →
      x ∉ (MarkPendingRemoval T x).Broadphase ∧
      ((MarkPendingRemoval T x).Heap x).bAlive = false ∧
      (MarkPendingRemoval T x).Heap x = (T.Heap x).TerminateInstance ∧
      x ∈ (MarkPendingRemoval T x).PendingRemovals ∧
      (MarkPendingRemoval T x).Instances = T.Instances ∧
      (MarkPendingRemoval T x).Broadphase = T.Broadphase.filter (fun y => y != x) ∧
      (∀ y, y ≠ x →
        (MarkPendingRemoval T x).Heap y = T.Heap y ∧
        (y ∈ (MarkPendingRemoval T x).Broadphase ↔ y ∈ T.Broadphase) ∧
        (y ∈ (MarkPendingRemoval T x).PendingRemovals ↔ y ∈ T.PendingRemovals))) ∧
    ((T.Heap x).bAlive = false → MarkPendingRemoval T x = T) ∧
    MarkPendingRemoval (MarkPendingRemoval T x) x = MarkPendingRemoval T x ∧
    (RemoveInstance (MarkPendingRemoval T x) x).Broadphase =
      (MarkPendingRemoval T x).Broadphase := by
  have hdead : ((MarkPendingRemoval T x).Heap x).bAlive = false := by
    cases h : ((MarkPendingRemoval T x).Heap x).bAlive
    · rfl
    · rw [MarkPendingRemoval_alive_iff] at h
      exact absurd rfl h.2
  refine ⟨?_, MarkPendingRemoval_of_dead T x, MarkPendingRemoval_of_dead _ x hdead, ?_⟩
  · intro ha
    refine ⟨?_, hdead, ?_, ?_, MarkPendingRemoval_instances T x, ?_, ?_⟩
    · intro hm
      exact ((MarkPendingRemoval_mem_broadphase T x x (Or.inl ha)).1 hm).2 rfl
    · rw [MarkPendingRemoval_of_alive T x ha]
      simp
    · exact (MarkPendingRemoval_mem_pending T x x).2 (Or.inr ⟨rfl, ha⟩)
    · rw [MarkPendingRemoval_of_alive T x ha]
      rfl
    · intro y hy
      refine ⟨MarkPendingRemoval_heap_of_ne T x y hy, ?_, ?_⟩
      · rw [MarkPendingRemoval_mem_broadphase T x y (Or.inl ha)]
        exact ⟨fun h => h.1, fun h => ⟨h, hy⟩⟩
      · rw [MarkPendingRemoval_mem_pending]
        exact ⟨fun h => h.elim id (fun h' => absurd h'.1 hy), fun h => Or.inl h⟩
  · rw [RemoveInstance_of_dead _ x hdead]

/-- The claim at the alive instance 0 of the one-instance tile. -/
theorem C18_MarkPendingRemoval_frame_witness :
    (DemoParentTile.Heap 0).bAlive = true ∧
    (MarkPendingRemoval DemoParentTile 0).Broadphase = [] ∧
    (MarkPendingRemoval DemoParentTile 0).PendingRemovals = [0] ∧
    (MarkPendingRemoval DemoParentTile 0).Instances = DemoParentTile.Instances ∧
    ((MarkPendingRemoval DemoParentTile 0).Heap 0).bAlive = false :=
  ⟨rfl, by decide, by decide,
   ((C18_MarkPendingRemoval_frame DemoParentTile 0).1 rfl).2.2.2.2.1,
   ((C18_MarkPendingRemoval_frame DemoParentTile 0).1 rfl).2.1⟩

/-- C20 at a failing input. The parent of the one-instance tile is alive and eligible
(`SimulationStep = 1 <= NumSteps = 3`), its species has `SeedsPerStep = 2` and
`AverageSpreadDistance = SpreadVariance = 0`, and the clearance is `20 >= 0`. With the
direction `(0.6f, 0.8f)` the offset of each pass is `(12, 16, 0)`, of squared length 400,
the square of the clearance; the float sum `400 + SMALL_NUMBER` is 400, so the clearance
test discards both passes: `SpreadSeeds` allocates nothing and collects no seed, where the
claim has two calls of `NewSeed`. The same holds with the direction `(1, 0)`. -/
theorem C20_clearance_discards_covered_mean :
    (DemoParentTile.Heap 0).bAlive = true ∧
    DemoParentTile.SimulationStep ≤ (DemoParentTile.Heap 0).Type_.NumSteps ∧
    (DemoParentTile.Heap 0).Type_.SeedsPerStep = 2 ∧
    (0 : ℚ) ≤ (DemoParentTile.Heap 0).Type_.SpreadVariance ∧
    (DemoParentTile.Heap 0).Type_.SpreadVariance ≤
      (DemoParentTile.Heap 0).Type_.AverageSpreadDistance ∧
    (SpreadSeedsDraw DemoObliqueEngine DemoParentTile 0).MinDistanceToClear = 20 ∧
    (SpreadSeedsDraw DemoObliqueEngine DemoParentTile 0).GlobalOffset.X = 12 ∧
    (SpreadSeedsDraw DemoObliqueEngine DemoParentTile 0).GlobalOffset.Y = 16 ∧
    (SpreadSeedsDraw DemoObliqueEngine DemoParentTile 0).GlobalOffset.SizeSquared2D = 400 ∧
    ¬ SpreadSeedsAccepts (SpreadSeedsDraw DemoObliqueEngine DemoParentTile 0) ∧
    ¬ SpreadSeedsAccepts (SpreadSeedsDraw DemoObliqueEngine
      (SpreadSeedsAttempt DemoObliqueEngine 0 (DemoParentTile, [])).1 0) ∧
    (SpreadSeedsBody DemoObliqueEngine (DemoParentTile, []) 0).1.NumAllocated =
      DemoParentTile.NumAllocated ∧
    (SpreadSeeds DemoObliqueEngine DemoParentTile []).1.NumAllocated =
      DemoParentTile.NumAllocated ∧
    (SpreadSeeds DemoObliqueEngine DemoParentTile []).2 = [] ∧
    (SpreadSeeds DemoEngine DemoParentTile []).1.NumAllocated = DemoParentTile.NumAllocated ∧
    (SpreadSeeds DemoEngine DemoParentTile []).2 = [] := by
  decide!

/-- C16, as stated, fails: `Simulate` has no failure result and no validation of its
configuration. On a fresh tile with tile size zero it runs all four steps (the step counter
ends at 4) and completes with an empty output array, and with `NumSteps = -1` for the
species it completes with an empty output array without running a step. -/
theorem C16_invalid_configuration_counterexample :
    (Simulate DemoEngine DemoEmptyTile { DemoFoliage with TileSize := 0 } 7 (-1)).InstancesArray.length
      = 0 ∧
    (Simulate DemoEngine DemoEmptyTile { DemoFoliage with TileSize := 0 } 7 (-1)).SimulationStep
      = 4 ∧
    (Simulate DemoEngine DemoEmptyTile
      { DemoFoliage with GetTypes := [{ TypeInstance := some { DemoType with NumSteps := -1 } }] }
      7 (-1)).InstancesArray.length = 0 ∧
    (Simulate DemoEngine DemoEmptyTile
      { DemoFoliage with GetTypes := [{ TypeInstance := some { DemoType with NumSteps := -1 } }] }
      7 (-1)).SimulationStep = 0 := by
  decide!

/-- C16 (amended: an invalid configuration gives an empty output, not a failure). `Simulate`
is total and returns only the tile. On a tile without instances and without pending
removals: with tile size zero it completes with an empty output array; and when every
species with a type instance has a negative `NumSteps` (an `int32`) it runs no step, so the
result is `InstancesToArray` of the initialised tile, again with an empty output array. -/
theorem C16_invalid_configuration_amended (E : Engine) (T : UProceduralFoliageTile)
    (P : UProceduralFoliage) (RandomSeed MaxNumSteps : Int)
    (hI : T.Instances = []) (hP : T.PendingRemovals = []) :
    (P.TileSize = 0 → (Simulate E T P RandomSeed MaxNumSteps).InstancesArray = []) ∧
    ((∀ D ∈ P.GetTypes, ∀ Ty, D.TypeInstance = some Ty →
        -2147483648 ≤ Ty.NumSteps ∧ Ty.NumSteps < 0) →
      Simulate E T P RandomSeed MaxNumSteps = InstancesToArray (InitSimulation T P RandomSeed) ∧
      (Simulate E T P RandomSeed MaxNumSteps).InstancesArray = [] ∧
      (Simulate E T P RandomSeed MaxNumSteps).SimulationStep = 0) := by
  constructor
  · intro hT
    unfold Simulate
    simp only [InstancesToArray]
    rw [SimulateLoop_of_tileSize_zero E _ _ 0 (InitSimulation T P RandomSeed) hI hP hT]
    rfl
  · intro hN
    have hM := SimulateMaxSteps_of_negative P MaxNumSteps hN
    have hS : Simulate E T P RandomSeed MaxNumSteps =
        InstancesToArray (InitSimulation T P RandomSeed) := by
      have hM' : SimulateMaxSteps (InitSimulation T P RandomSeed).ProceduralFoliage
          MaxNumSteps ≤ 0 := hM
      unfold Simulate
      simp only
      rw [SimulateLoop_of_maxSteps_nonpos E _ hM']
    refine ⟨hS, ?_, ?_⟩
    · rw [hS]
      simp only [InstancesToArray, InitSimulation, hI, List.filter_nil, List.map_nil]
    · rw [hS]
      rfl

/-- The amended claim on the fresh tile, for tile size zero with the one species. -/
theorem C16_invalid_configuration_amended_witness :
    DemoEmptyTile.Instances = [] ∧ DemoEmptyTile.PendingRemovals = [] ∧
    (Simulate DemoEngine DemoEmptyTile { DemoFoliage with TileSize := 0 } 7 (-1)).InstancesArray
      = [] :=
  ⟨rfl, rfl,
   (C16_invalid_configuration_amended DemoEngine DemoEmptyTile
      { DemoFoliage with TileSize := 0 } 7 (-1) rfl rfl).1 rfl⟩

/-- C15 as stated fails: the seed loop compares its counter with the float product, not
with the exact one. For tile size 300 and a species with `GetSeedDensitySquared = 300` the
exact product `300 * 300^2 / 10^6` is 27, so the claim counts 27 attempts. In the code
`SizeTenM2` is the float nearest to 0.09, which is above 0.09, `NumSeeds` is the float
`14155777 / 524288 > 27`, and the loop makes 28 passes; with a random stream that puts the
seeds on distinct grid points (the disks of radius 5 are apart) the tile holds 28 instances
after the seeding step. For `GetSeedDensitySquared = 2500` the exact product is 225 and the
loop makes 226 passes. -/
theorem C15_seeding_population_counterexample :
    (DemoDenseTile 300).Instances = [] ∧
    (DemoDenseTile 300).SimulationStep = 0 ∧
    (300 : ℚ) * ((DemoDenseFoliage 300).TileSize * (DemoDenseFoliage 300).TileSize) / 1000000
      = 27 ∧
    SpecSeedAttempts (DemoDenseFoliage 300) = 27 ∧
    Float32.div (Float32.mul 300 300) (Float32.mul 1000 1000) = 3019899 / 33554432 ∧
    AddRandomSeedsNumSeeds { DemoType with GetMaxRadius := 5, GetSeedDensitySquared := 300 } 300
      = 14155777 / 524288 ∧
    SeedAttempts (DemoDenseFoliage 300) = 28 ∧
    (StepSimulation DemoGridEngine (DemoDenseTile 300)).Instances.length = 28 ∧
    SpecSeedAttempts (DemoDenseFoliage 2500) = 225 ∧
    AddRandomSeedsNumSeeds { DemoType with GetMaxRadius := 5, GetSeedDensitySquared := 2500 } 300
      = 14745601 / 65536 ∧
    SeedAttempts (DemoDenseFoliage 2500) = 226 := by
  have hq : AddRandomSeedsNumSeeds
      { DemoType with GetMaxRadius := 5, GetSeedDensitySquared := 2500 } 300 =
        14745601 / 65536 := by decide!
  refine ⟨rfl, rfl, by decide!, by decide!, by decide!, by decide!, by decide!, by decide!,
    by decide!, hq, ?_⟩
  show LoopCount (AddRandomSeedsNumSeeds
      { DemoType with GetMaxRadius := 5, GetSeedDensitySquared := 2500 } 300) + 0 = 226
  rw [hq, LoopCount_eq_ceil _ (by norm_num)]
  decide!

/-- C15 (amended: the seeding-step population bound with the float seed count). The seed
loop `for (int32 i = 0; i < NumSeeds; ++i)` of a species runs while the counter, converted
to `float`, is below the float `NumSeeds = GetSeedDensitySquared * ((TileSize * TileSize) /
(1000 * 1000))`, every operation rounded; the counter runs through the non-negative `int32`
values. Its number of passes `LoopCount NumSeeds` is the first counter that fails the
comparison, and for `NumSeeds <= 2^24` that is the smallest natural number `n >= NumSeeds`;
a species without a type instance is skipped. Starting from a tile without instances, after
the seeding step (`SimulationStep == 0`) the number of instances is at most the total number
of passes; so for a single species with float `NumSeeds = 4` and `NumSteps = 0`, the output
array of `Simulate` has length at most 4. -/
theorem C15_seeding_population_bound (E : Engine) (T : UProceduralFoliageTile)
    (hI : T.Instances = []) :
    (∀ q : ℚ, LoopCount q ≤ 2147483648 ∧
      (∀ j : Nat, j < LoopCount q → Float32.ofInt (j : Int) < q) ∧
      (LoopCount q < 2147483648 → ¬ Float32.ofInt ((LoopCount q : Nat) : Int) < q)) ∧
    (∀ q : ℚ, q ≤ 16777216 → LoopCount q = (Int.ceil q).toNat) ∧
    (∀ (Ty : UFoliageType_InstancedStaticMesh) (q : ℚ)
        (A : UProceduralFoliageTile × List Nat),
      AddRandomSeedsLoop E Ty q 2147483648 0 A =
        Nat.iterate (AddRandomSeedsAttempt E Ty) (LoopCount q) A) ∧
    (∀ (A : UProceduralFoliageTile × List Nat) (D : FProceduralFoliageTypeData)
        (Ty : UFoliageType_InstancedStaticMesh), D.TypeInstance = some Ty →
      AddRandomSeedsBody E A D =
        Nat.iterate (AddRandomSeedsAttempt E Ty)
          (LoopCount (AddRandomSeedsNumSeeds Ty A.1.ProceduralFoliage.TileSize)) A) ∧
    (∀ (A : UProceduralFoliageTile × List Nat) (D : FProceduralFoliageTypeData),
      D.TypeInstance = none → AddRandomSeedsBody E A D = A) ∧
    (T.SimulationStep = 0 →
      (StepSimulation E T).Instances.length ≤ SeedAttempts T.ProceduralFoliage) ∧
    (∀ (P : UProceduralFoliage) (Ty : UFoliageType_InstancedStaticMesh)
        (RandomSeed MaxNumSteps : Int),
      P.GetTypes = [{ TypeInstance := some Ty }] → Ty.NumSteps = 0 →
      AddRandomSeedsNumSeeds Ty P.TileSize = 4 →
      (Simulate E T P RandomSeed MaxNumSteps).InstancesArray.length ≤ 4) := by
  refine ⟨LoopCount_spec, LoopCount_eq_ceil, ?_, ?_, ?_, StepSimulation_seeding_length E T hI,
    ?_⟩
  · intro Ty q A
    have h := AddRandomSeedsLoop_eq_iterate E Ty q 2147483648 0 A
    rw [Nat.sub_zero] at h
    exact h
  · intro A D Ty hD
    unfold AddRandomSeedsBody
    simp only [hD]
    rfl
  · intro A D hD
    unfold AddRandomSeedsBody
    simp only [hD]
  · intro P Ty RandomSeed MaxNumSteps hP hN hQ
    have hA : SeedAttempts P = 4 := by
      unfold SeedAttempts
      rw [hP]
      simp only [List.map_cons, List.map_nil, List.sum_cons, List.sum_nil, hQ, add_zero]
      rw [LoopCount_eq_ceil _ (by norm_num)]
      have : Int.ceil (4 : ℚ) = 4 := by
        exact_mod_cast Int.ceil_intCast (4 : Int)
      rw [this]
      rfl
    have hM : SimulateMaxSteps P MaxNumSteps ≤ 1 := by
      unfold SimulateMaxSteps
      rw [hP]
      simp only [List.foldl_cons, List.foldl_nil, hN]
      have hw : wrapInt32 (0 + 1) = 1 := by decide
      rw [hw]
      split
      · exact le_trans (min_le_left _ _) (by decide)
      · decide
    rw [← hA]
    exact Simulate_seeding_only_length E T P RandomSeed MaxNumSteps hI hM

/-- The amended claim on the fresh tile with the species at four seeds for tile size 1000:
the four seeds of the example engine fall on one point and the output array has length 1;
with the random stream that walks the grid they are apart and the array has length 4. -/
theorem C15_seeding_population_bound_witness :
    DemoEmptyTile.Instances = [] ∧
    AddRandomSeedsNumSeeds { DemoType with NumSteps := 0, GetSeedDensitySquared := 4 }
      DemoFourSeeds.TileSize = 4 ∧
    (Simulate DemoEngine DemoEmptyTile DemoFourSeeds 7 (-1)).InstancesArray.length ≤ 4 ∧
    (Simulate DemoEngine DemoEmptyTile DemoFourSeeds 7 (-1)).InstancesArray.length = 1 ∧
    (Simulate DemoGridEngine DemoEmptyTile DemoFourSeeds 0 (-1)).InstancesArray.length = 4 :=
  ⟨rfl, by decide!,
   (C15_seeding_population_bound DemoEngine DemoEmptyTile rfl).2.2.2.2.2.2 DemoFourSeeds
      { DemoType with NumSteps := 0, GetSeedDensitySquared := 4 } 7 (-1) rfl rfl
      (by decide!),
   by decide!, by decide!⟩

theorem DemoGrowTile_invariant : TileInvariant DemoGrowTile := by
  refine ⟨?_, ?_, rfl⟩
  · intro x
    show x ∈ [0, 1] ↔ x < 2 ∧ (DemoGrowTile.Heap x).bAlive = true
    have hb : (DemoGrowTile.Heap x).bAlive = true := by
      unfold DemoGrowTile
      simp only
      split <;> rfl
    rw [hb]
    simp only [List.mem_cons, List.mem_singleton, List.not_mem_nil, or_false, and_true]
    omega
  · intro x hx
    have hx' : x = 0 ∨ x = 1 := by simpa [DemoGrowTile] using hx
    rcases hx' with rfl | rfl
    · exact ⟨⟨by decide, rfl⟩, by decide⟩
    · exact ⟨⟨by decide, rfl⟩, by decide⟩

theorem DemoGrowTile_species :
    ∀ x ∈ DemoGrowTile.Instances, (DemoGrowTile.Heap x).Type_ = DemoGrowType := by
  intro x _
  unfold DemoGrowTile
  simp only
  split <;> rfl

/-- C14, as stated, fails: a single species with `SeedsPerStep = 0` whose instances grow
with age. The tile holds two instances of age 1 at `(0, 0)` and `(25, 0)` whose disks of
radius 10 are apart. In the step with `SimulationStep = 1` the aged version of the first one
has radius 20, overlaps the second one and suppresses it before its turn: one instance is
left of two. -/
theorem C14_aging_population_counterexample :
    DemoGrowType.SeedsPerStep = 0 ∧ DemoGrowTile.SimulationStep = 1 ∧
    DemoGrowTile.Instances.length = 2 ∧
    (BroadphaseGetOverlaps DemoEngine DemoGrowTile.Heap DemoGrowTile.Broadphase 0).length = 0 ∧
    (StepSimulation DemoEngine DemoGrowTile).Instances.length = 1 := by
  decide!

theorem DemoFarTile_invariant : TileInvariant DemoFarTile := by
  refine ⟨?_, ?_, rfl⟩
  · intro x
    show x ∈ [0, 1] ↔ x < 2 ∧ (DemoFarTile.Heap x).bAlive = true
    have hb : (DemoFarTile.Heap x).bAlive = true := by
      unfold DemoFarTile
      simp only
      split <;> rfl
    rw [hb]
    simp only [List.mem_cons, List.mem_singleton, List.not_mem_nil, or_false, and_true]
    omega
  · intro x hx
    have hx' : x = 0 ∨ x = 1 := by simpa [DemoFarTile, DemoGrowTile] using hx
    rcases hx' with rfl | rfl
    · exact ⟨⟨by decide, rfl⟩, by decide⟩
    · exact ⟨⟨by decide, rfl⟩, by decide⟩

theorem DemoFarTile_species :
    ∀ x ∈ DemoFarTile.Instances, (DemoFarTile.Heap x).Type_ = DemoGrowType := by
  intro x _
  unfold DemoFarTile
  simp only
  split <;> rfl

theorem DemoFarTile_heap (x : Nat) :
    (DemoFarTile.Heap x).Location.X = (if x = 0 then 0 else 100) ∧
    (DemoFarTile.Heap x).Location.Y = 0 ∧ (DemoFarTile.Heap x).Type_ = DemoGrowType ∧
    (DemoFarTile.Heap x).Age = 1 ∧ DemoRadius (DemoFarTile.Heap x) = 10 := by
  unfold DemoFarTile
  simp only
  split
  · exact ⟨rfl, rfl, rfl, rfl, by decide!⟩
  · exact ⟨rfl, rfl, rfl, rfl, by decide!⟩

theorem DemoFarTile_aged (x : Nat) (I : FProceduralFoliageInstance)
    (h : AgedFrom (DemoFarTile.Heap x) I) :
    I.Location.X = (if x = 0 then 0 else 100) ∧ I.Location.Y = 0 ∧ DemoRadius I = 20 := by
  obtain ⟨h1, h2, _, h4, _⟩ := h
  obtain ⟨g1, g2, g3, g4, _⟩ := DemoFarTile_heap x
  refine ⟨by rw [h1]; exact g1, by rw [h1]; exact g2, ?_⟩
  unfold DemoRadius
  rw [h2, h4, g3, g4]
  decide!

/-- On the tile with the two instances at distance 100 no aged instance overlaps the other
instance or its aged version, so the less-fit rule is never asked. -/
theorem DemoFarTile_undisturbed : AgingUndisturbed DemoEngine DemoFarTile := by
  intro x hx y hy hne I J K hI hJ hO
  exfalso
  have hx' : x = 0 ∨ x = 1 := by simpa [DemoFarTile, DemoGrowTile] using hx
  have hy' : y = 0 ∨ y = 1 := by simpa [DemoFarTile, DemoGrowTile] using hy
  obtain ⟨i1, i2, i3⟩ := DemoFarTile_aged x I hI
  have hJ' : J.Location.X = (if y = 0 then 0 else 100) ∧ J.Location.Y = 0 ∧
      (DemoRadius J = 10 ∨ DemoRadius J = 20) := by
    rcases hJ with hJ | hJ
    · obtain ⟨g1, g2, _, _, g5⟩ := DemoFarTile_heap y
      rw [hJ]
      exact ⟨g1, g2, Or.inl g5⟩
    · obtain ⟨j1, j2, j3⟩ := DemoFarTile_aged y J hJ.2
      exact ⟨j1, j2, Or.inr j3⟩
  obtain ⟨j1, j2, j3⟩ := hJ'
  have hd : (I.Location.X - J.Location.X) * (I.Location.X - J.Location.X) = 10000 := by
    rw [i1, j1]
    rcases hx' with rfl | rfl <;> rcases hy' with rfl | rfl
    · exact absurd rfl hne
    · norm_num
    · norm_num
    · exact absurd rfl hne
  have hO' : DemoOverlapTest I J = some K := hO
  unfold DemoOverlapTest at hO'
  rw [hd, i2, j2, i3] at hO'
  rcases j3 with j3 | j3
  · rw [j3] at hO'
    norm_num at hO'
    exact Option.noConfusion hO'
  · rw [j3] at hO'
    norm_num at hO'
    exact Option.noConfusion hO'

/-- C14 (amended: aging never grows the population when spreading is disabled, and keeps
it when no instance is suppressed). For a tile that satisfies the alive/index invariant and
holds a single species with `SeedsPerStep = 0`, a `StepSimulation` with `SimulationStep >=
1` is `AgeSeeds`, and the number of instances after it is at most the number before. While
the species has steps left (`SimulationStep <= NumSteps`) every resulting instance is the
aged version (same location and species, age `GetNextAge(age, 1)`, scale
`GetScaleForAge(new age)`) of an instance present before the step, and the count is
unchanged when no instance is dominated, that is when the domination function suppresses
neither instance wherever the aged version of a member overlaps another indexed instance or
the aged version of another member; when the steps are used up (`SimulationStep > NumSteps`) the step leaves
the tile as it is. -/
theorem C14_aging_population_amended (E : Engine) (T : UProceduralFoliageTile)
    (Ty : UFoliageType_InstancedStaticMesh) (hInv : TileInvariant T)
    (hS : 1 ≤ T.SimulationStep) (hTy : ∀ x ∈ T.Instances, (T.Heap x).Type_ = Ty)
    (h0 : Ty.SeedsPerStep = 0) :
    StepSimulation E T = AgeSeeds E T ∧
    (StepSimulation E T).Instances.length ≤ T.Instances.length ∧
    (T.SimulationStep ≤ Ty.NumSteps →
      ∀ p ∈ (StepSimulation E T).Instances, ∃ x ∈ T.Instances,
        AgedFrom (T.Heap x) ((StepSimulation E T).Heap p)) ∧
    (T.SimulationStep ≤ Ty.NumSteps → T.Instances.Nodup → AgingUndisturbed E T →
      (StepSimulation E T).Instances.length = T.Instances.length) ∧
    (Ty.NumSteps < T.SimulationStep → StepSimulation E T = T) := by
  have hEq := StepSimulation_of_no_seeds E T Ty hInv (by omega) hTy h0
  have hsp := AgeSeeds_spec E T hInv
  rw [hEq]
  refine ⟨rfl, hsp.1, ?_, ?_, ?_⟩
  · intro hle p hp
    rcases hsp.2 p hp with ⟨hpT, hlt, _⟩ | ⟨x, hx, _, hag⟩
    · rw [hTy p hpT] at hlt
      omega
    · exact ⟨x, hx, hag⟩
  · intro hle hnd hU
    exact AgeSeeds_length_of_undisturbed E T hU hInv hnd
      (fun x hx => by rw [hTy x hx]; exact hle)
  · intro hlt
    exact AgeSeeds_of_ineligible E T hInv.2.2 (fun x hx => by rw [hTy x hx]; exact hlt)

/-- The amended claim with the less-fit rule: on the tile with the two growing instances
25 apart one instance is left; on the tile with the two instances 100 apart no instance is
dominated and both are aged. -/
theorem C14_aging_population_amended_witness :
    TileInvariant DemoGrowTile ∧
    (StepSimulation DemoEngine DemoGrowTile).Instances.length ≤ DemoGrowTile.Instances.length ∧
    TileInvariant DemoFarTile ∧ AgingUndisturbed DemoEngine DemoFarTile ∧
    (StepSimulation DemoEngine DemoFarTile).Instances.length = DemoFarTile.Instances.length ∧
    (StepSimulation DemoEngine DemoFarTile).Instances = [2, 3] ∧
    ((StepSimulation DemoEngine DemoFarTile).Heap 2).Age = 2 ∧
    ((StepSimulation DemoEngine DemoFarTile).Heap 3).Age = 2 :=
  ⟨DemoGrowTile_invariant,
   (C14_aging_population_amended DemoEngine DemoGrowTile DemoGrowType DemoGrowTile_invariant
      (by decide) DemoGrowTile_species rfl).2.1,
   DemoFarTile_invariant, DemoFarTile_undisturbed,
   (C14_aging_population_amended DemoEngine DemoFarTile DemoGrowType DemoFarTile_invariant
      (by decide) DemoFarTile_species rfl).2.2.2.1 (by decide) (by decide)
      DemoFarTile_undisturbed,
   by decide!, by decide!, by decide!⟩

theorem DemoEmptyTile_invariant : TileInvariant DemoEmptyTile := by
  refine ⟨?_, ?_, rfl⟩
  · intro x
    show x ∈ [] ↔ x < 0 ∧ _
    simp
  · intro x hx
    exact absurd hx (List.not_mem_nil _)

/-- C13, as stated, fails: tile size 1000, overlap 50, a `2 x 1` grid. Tile `(0, 0)` holds
an instance of age 1 at local `(990, 500)`; the right neighbour holds an instance of age 5
at local `(5, 500)` and one of age 1 at local `(10, 530)`; all disks have radius 10 and lie
inside their copy boxes, and both tiles return their instances from the box query. In the
joined tile of cell `(0, 0)` the copy of the first instance (address 0, X = 990) is
dominated by the copy of the neighbour's older instance (X = 1005), which is submitted
before the instance at local X = 10: when `HandleOverlaps` runs on the copy of that one
(address 2, X = 1010), the copy from tile `(0, 0)` is not in the joined tile's broadphase. -/
theorem C13_stitch_seam_counterexample :
    ((GetInstancesInAABB DemoEngine DemoLeftTile
        (CopyTileOuterBox (GetTileRegion 0 0 2 1 1000 50) 50) [] false).map
      (fun I => I.Location.X)) = [990] ∧
    ((GetInstancesInAABB DemoEngine DemoRightTile
        (CopyTileOuterBox (SpawnTilesRightBox (GetTileRegion 0 0 2 1 1000 50) 50) 50) []
        false).map (fun I => I.Location.X)) = [5, 10] ∧
    ((CopyTileInstances DemoEngine DemoLeftTile DemoEmptyTile (GetTileRegion 0 0 2 1 1000 50)
        FTransform.Identity 50).Heap 0).Location.X = 990 ∧
    (CopyTileInstances DemoEngine DemoLeftTile DemoEmptyTile (GetTileRegion 0 0 2 1 1000 50)
        FTransform.Identity 50).Broadphase = [0] ∧
    (AddInstancesCallSite DemoEngine
      (AddInstancesAt DemoEngine
        (CopyTileInstances DemoEngine DemoLeftTile DemoEmptyTile
          (GetTileRegion 0 0 2 1 1000 50) FTransform.Identity 50)
        (GetInstancesInAABB DemoEngine DemoRightTile
          (CopyTileOuterBox (SpawnTilesRightBox (GetTileRegion 0 0 2 1 1000 50) 50) 50) []
          false)
        (FTransform.ofTranslation { X := 1000, Y := 0, Z := 0 })
        (SpawnTilesRightBox (GetTileRegion 0 0 2 1 1000 50) 50) 1)
      (DemoRightTile.Heap 1) (FTransform.ofTranslation { X := 1000, Y := 0, Z := 0 })
      (SpawnTilesRightBox (GetTileRegion 0 0 2 1 1000 50) 50)).Broadphase = [1, 2] ∧
    ((SpawnTilesJoin DemoEngine (DemoGrid DemoRightTile) DemoEmptyTile 0 0 2 1 1000 50).Heap
      2).Location.X = 1010 ∧
    (SpawnTilesJoin DemoEngine (DemoGrid DemoRightTile) DemoEmptyTile 0 0 2 1 1000 50).Instances
      = [1, 2] := by
  decide!

/-- C13 (amended: the seam instances are both submitted, and the later one is checked
against the earlier one if that one is still alive). Tile size 1000, overlap 50, a grid with
`TilesX >= 2`, the joined tile of cell `(0, 0)` built from a tile that satisfies the
alive/index invariant. `LA` and `LB` are the results of the box queries of tile `(0, 0)` and
of its right neighbour (instances whose radius disk lies inside the copy box), `J1` is the
joined tile after the inner copy. An instance of `LA` at local X = 990 (index `k`) and an
instance of `LB` at local X = 10 (index `j`) are both submitted through `NewSeed`: their
copies sit at the addresses `NumAllocated + k` of the joined tile and `NumAllocated + j` of
`J1`, at X = 990 and at joined-frame X = 1010. `HandleOverlaps` runs on the later one in a
state whose broadphase holds the earlier one exactly when the earlier one is still alive on
entry to that pass of the loop (an instance submitted in between may have dominated it); it
does hold it when the two are the only instances copied. -/
theorem C13_stitch_seam_amended (E : Engine)
    (GetRandomTile : Int → Int → UProceduralFoliageTile) (JTile J1 : UProceduralFoliageTile)
    (TilesX TilesY : Int) (InnerBox : FBox2D) (LA LB : List FProceduralFoliageInstance)
    (k j : Nat) (hJ : TileInvariant JTile) (hX : 2 ≤ TilesX)
    (hInner : InnerBox = GetTileRegion 0 0 TilesX TilesY 1000 50)
    (hLA : LA = GetInstancesInAABB E (GetRandomTile 0 0) (CopyTileOuterBox InnerBox 50) [] false)
    (hLB : LB = GetInstancesInAABB E (GetRandomTile 1 0)
      (CopyTileOuterBox (SpawnTilesRightBox InnerBox 50) 50) [] false)
    (hJ1 : J1 = AddInstances E JTile LA FTransform.Identity InnerBox)
    (hk : k < LA.length) (hj : j < LB.length)
    (ha : (LA.get ⟨k, hk⟩).Location.X = 990) (hb : (LB.get ⟨j, hj⟩).Location.X = 10) :
    SpawnTilesJoin E GetRandomTile JTile 0 0 TilesX TilesY 1000 50 =
      InstancesToArray
        (SpawnTilesCopyTopRight E (SpawnTilesTopRightTile GetRandomTile 0 0 TilesX TilesY)
          (SpawnTilesCopyTop E (SpawnTilesTopTile GetRandomTile 0 0 TilesY)
            (AddInstances E J1 LB (FTransform.ofTranslation { X := 1000, Y := 0, Z := 0 })
              (SpawnTilesRightBox InnerBox 50))
            InnerBox 1000 50)
          1000 50) ∧
    (IsCopyOf E FTransform.Identity InnerBox (LA.get ⟨k, hk⟩)
        (J1.Heap (JTile.NumAllocated + k)) ∧
      (J1.Heap (JTile.NumAllocated + k)).Location.X = 990) ∧
    (IsCopyOf E (FTransform.ofTranslation { X := 1000, Y := 0, Z := 0 })
        (SpawnTilesRightBox InnerBox 50) (LB.get ⟨j, hj⟩)
        ((AddInstances E J1 LB (FTransform.ofTranslation { X := 1000, Y := 0, Z := 0 })
          (SpawnTilesRightBox InnerBox 50)).Heap (J1.NumAllocated + j)) ∧
      ((AddInstances E J1 LB (FTransform.ofTranslation { X := 1000, Y := 0, Z := 0 })
          (SpawnTilesRightBox InnerBox 50)).Heap (J1.NumAllocated + j)).Location.X = 1010) ∧
    (AddInstances E J1 LB (FTransform.ofTranslation { X := 1000, Y := 0, Z := 0 })
        (SpawnTilesRightBox InnerBox 50) =
      FlushPendingRemovals ((LB.drop (j + 1)).foldl
        (AddInstancesBody E (FTransform.ofTranslation { X := 1000, Y := 0, Z := 0 })
          (SpawnTilesRightBox InnerBox 50))
        (AddInstancesBody E (FTransform.ofTranslation { X := 1000, Y := 0, Z := 0 })
          (SpawnTilesRightBox InnerBox 50)
          (AddInstancesAt E J1 LB (FTransform.ofTranslation { X := 1000, Y := 0, Z := 0 })
            (SpawnTilesRightBox InnerBox 50) j) (LB.get ⟨j, hj⟩)))) ∧
    (∀ U : UProceduralFoliageTile,
      NewSeed E U ((FTransform.ofTranslation { X := 1000, Y := 0, Z := 0 }).TransformPosition
          (LB.get ⟨j, hj⟩).Location) (LB.get ⟨j, hj⟩).Scale (LB.get ⟨j, hj⟩).Type_
          (LB.get ⟨j, hj⟩).Age
          (AddInstancesIsBlocker E (SpawnTilesRightBox InnerBox 50) (LB.get ⟨j, hj⟩)) =
        (if (HandleOverlaps E (AddInstancesCallSite E U (LB.get ⟨j, hj⟩)
              (FTransform.ofTranslation { X := 1000, Y := 0, Z := 0 })
              (SpawnTilesRightBox InnerBox 50)) U.NumAllocated).1
          then some U.NumAllocated else none,
         (HandleOverlaps E (AddInstancesCallSite E U (LB.get ⟨j, hj⟩)
              (FTransform.ofTranslation { X := 1000, Y := 0, Z := 0 })
              (SpawnTilesRightBox InnerBox 50)) U.NumAllocated).2)) ∧
    (JTile.NumAllocated + k ∈
        (AddInstancesCallSite E
          (AddInstancesAt E J1 LB (FTransform.ofTranslation { X := 1000, Y := 0, Z := 0 })
            (SpawnTilesRightBox InnerBox 50) j)
          (LB.get ⟨j, hj⟩) (FTransform.ofTranslation { X := 1000, Y := 0, Z := 0 })
          (SpawnTilesRightBox InnerBox 50)).Broadphase ↔
      ((AddInstancesAt E J1 LB (FTransform.ofTranslation { X := 1000, Y := 0, Z := 0 })
          (SpawnTilesRightBox InnerBox 50) j).Heap (JTile.NumAllocated + k)).bAlive = true) ∧
    (JTile.Broadphase = [] → LA.length = 1 → j = 0 →
      JTile.NumAllocated + k ∈
        (AddInstancesCallSite E
          (AddInstancesAt E J1 LB (FTransform.ofTranslation { X := 1000, Y := 0, Z := 0 })
            (SpawnTilesRightBox InnerBox 50) j)
          (LB.get ⟨j, hj⟩) (FTransform.ofTranslation { X := 1000, Y := 0, Z := 0 })
          (SpawnTilesRightBox InnerBox 50)).Broadphase) := by
  have hJ1inv : TileInvariant J1 := by
    rw [hJ1]
    exact AddInstances_invariant E JTile LA FTransform.Identity InnerBox hJ
  have hA := AddInstances_data E JTile LA FTransform.Identity InnerBox
  rw [← hJ1] at hA
  have hB := AddInstances_data E J1 LB (FTransform.ofTranslation { X := 1000, Y := 0, Z := 0 })
    (SpawnTilesRightBox InnerBox 50)
  have hU := AddInstancesAt_data E J1 LB (FTransform.ofTranslation { X := 1000, Y := 0, Z := 0 })
    (SpawnTilesRightBox InnerBox 50) j (le_of_lt hj) hJ1inv.consistent
  have hp : JTile.NumAllocated + k <
      (AddInstancesAt E J1 LB (FTransform.ofTranslation { X := 1000, Y := 0, Z := 0 })
        (SpawnTilesRightBox InnerBox 50) j).NumAllocated := by
    rw [hU.1, hA.1]
    omega
  have hmem := AddInstancesCallSite_mem_broadphase E _ (LB.get ⟨j, hj⟩)
    (FTransform.ofTranslation { X := 1000, Y := 0, Z := 0 }) (SpawnTilesRightBox InnerBox 50)
    hU.2 (JTile.NumAllocated + k) hp
  refine ⟨?_, ⟨hA.2.2 k hk, ?_⟩, ⟨hB.2.2 j hj, ?_⟩, ?_, fun U => NewSeed_eq E U _ _ _ _ _,
    hmem, ?_⟩
  · have hR : SpawnTilesRightTile GetRandomTile 0 0 TilesX = some (GetRandomTile 1 0) := by
      unfold SpawnTilesRightTile
      rw [if_pos (by omega)]
      rfl
    unfold SpawnTilesJoin
    simp only [hR, SpawnTilesCopyRight, CopyTileInstances_eq]
    rw [← hInner, ← hLA, ← hJ1, ← hLB]
  · rw [(hA.2.2 k hk).2.1]
    exact ha
  · rw [(hB.2.2 j hj).2.1]
    show Float32.add (LB.get ⟨j, hj⟩).Location.X 1000 = 1010
    rw [hb]
    decide!
  · exact AddInstances_split E J1 LB _ _ j hj
  · intro hBP hLen hj0
    rw [hmem]
    subst hj0
    have hk0 : k = 0 := by omega
    subst hk0
    show (J1.Heap (JTile.NumAllocated + 0)).bAlive = true
    rw [hJ1, Nat.add_zero]
    exact AddInstances_single_alive E JTile LA FTransform.Identity InnerBox hBP hJ.2.2 hLen

/-- The amended claim on the `2 x 1` grid whose tiles hold one instance each, at local
`(990, 500)` and at local `(10, 500)`: the copy of the first one is at address 0 and in the
broadphase `[0, 1]` on which `HandleOverlaps` runs for the copy of the second one. -/
theorem C13_stitch_seam_amended_witness :
    TileInvariant DemoEmptyTile ∧
    ((GetInstancesInAABB DemoEngine DemoLeftTile
        (CopyTileOuterBox (GetTileRegion 0 0 2 1 1000 50) 50) [] false).map
      (fun I => I.Location.X)) = [990] ∧
    ((GetInstancesInAABB DemoEngine DemoSeamTile
        (CopyTileOuterBox (SpawnTilesRightBox (GetTileRegion 0 0 2 1 1000 50) 50) 50) []
        false).map (fun I => I.Location.X)) = [10] ∧
    DemoEmptyTile.NumAllocated + 0 ∈
      (AddInstancesCallSite DemoEngine
        (AddInstancesAt DemoEngine
          (AddInstances DemoEngine DemoEmptyTile
            (GetInstancesInAABB DemoEngine (DemoGrid DemoSeamTile 0 0)
              (CopyTileOuterBox (GetTileRegion 0 0 2 1 1000 50) 50) [] false)
            FTransform.Identity (GetTileRegion 0 0 2 1 1000 50))
          (GetInstancesInAABB DemoEngine (DemoGrid DemoSeamTile 1 0)
            (CopyTileOuterBox (SpawnTilesRightBox (GetTileRegion 0 0 2 1 1000 50) 50) 50) []
            false)
          (FTransform.ofTranslation { X := 1000, Y := 0, Z := 0 })
          (SpawnTilesRightBox (GetTileRegion 0 0 2 1 1000 50) 50) 0)
        ((GetInstancesInAABB DemoEngine (DemoGrid DemoSeamTile 1 0)
            (CopyTileOuterBox (SpawnTilesRightBox (GetTileRegion 0 0 2 1 1000 50) 50) 50) []
            false).get ⟨0, by decide!⟩)
        (FTransform.ofTranslation { X := 1000, Y := 0, Z := 0 })
        (SpawnTilesRightBox (GetTileRegion 0 0 2 1 1000 50) 50)).Broadphase :=
  ⟨DemoEmptyTile_invariant, by decide!, by decide!,
   (C13_stitch_seam_amended DemoEngine (DemoGrid DemoSeamTile) DemoEmptyTile _ 2 1 _ _ _ 0 0
      DemoEmptyTile_invariant (by decide) rfl rfl rfl rfl (by decide!) (by decide!)
      (by decide!) (by decide!)).2.2.2.2.2.2 rfl (by decide!) rfl⟩

/-- C17, as stated, fails for a second run on the same tile right after the first:
`InitSimulation` resets the random stream, the step counter and the broadphase, but not
`Instances`. With the one species, seed 7 and one step, the first run on a fresh tile yields
an array of length 1; the second run on the resulting tile, with identical arguments, keeps
the instance of the first run and yields an array of length 2. -/
theorem C17_Simulate_determinism_counterexample :
    (Simulate DemoEngine DemoEmptyTile DemoFoliage 7 1).InstancesArray.length = 1 ∧
    (Simulate DemoEngine (Simulate DemoEngine DemoEmptyTile DemoFoliage 7 1) DemoFoliage 7
      1).InstancesArray.length = 2 ∧
    (InitSimulation (Simulate DemoEngine DemoEmptyTile DemoFoliage 7 1) DemoFoliage 7).Instances
      = [0] ∧
    (InitSimulation (Simulate DemoEngine DemoEmptyTile DemoFoliage 7 1) DemoFoliage
      7).Broadphase = [] := by
  decide!

/-- C17 (amended: determinism of `Simulate` on tiles that hold no instances). For a fixed
engine (broadphase geometry, domination function, random generator) the output array of
`Simulate` is determined by the species parameters, the tile size, `RandomSeed` and
`MaxNumSteps`: two runs with identical arguments on tiles whose `Instances` and
`PendingRemovals` are empty produce identical output arrays, whatever else the tiles hold
(storage, addresses handed out before, old array, old broadphase, stream and counter); in
particular a second run on the same tile after `Empty` repeats the first. `InitSimulation`
resets the random stream, the step counter and the broadphase, and leaves `Instances` as it
is. -/
theorem C17_Simulate_determinism_amended (E : Engine) (T T' : UProceduralFoliageTile)
    (P : UProceduralFoliage) (RandomSeed MaxNumSteps : Int)
    (hI : T.Instances = []) (hP : T.PendingRemovals = [])
    (hI' : T'.Instances = []) (hP' : T'.PendingRemovals = []) :
    (Simulate E T' P RandomSeed MaxNumSteps).InstancesArray =
      (Simulate E T P RandomSeed MaxNumSteps).InstancesArray ∧
    (Simulate E (Empty (Simulate E T P RandomSeed MaxNumSteps)) P RandomSeed
        MaxNumSteps).InstancesArray =
      (Simulate E T P RandomSeed MaxNumSteps).InstancesArray ∧
    ((InitSimulation T P RandomSeed).RandomStream = FRandomStream.Initialize RandomSeed ∧
      (InitSimulation T P RandomSeed).SimulationStep = 0 ∧
      (InitSimulation T P RandomSeed).Broadphase = [] ∧
      (InitSimulation T P RandomSeed).ProceduralFoliage = P ∧
      ∀ U : UProceduralFoliageTile, (InitSimulation U P RandomSeed).Instances = U.Instances) := by
  have key : ∀ U U' : UProceduralFoliageTile, U.Instances = [] → U.PendingRemovals = [] →
      U'.Instances = [] → U'.PendingRemovals = [] →
      (Simulate E U' P RandomSeed MaxNumSteps).InstancesArray =
        (Simulate E U P RandomSeed MaxNumSteps).InstancesArray := by
    intro U U' h1 h2 h3 h4
    rcases le_total U.NumAllocated U'.NumAllocated with hle | hle
    · exact Simulate_array_eq_of_le E U U' P RandomSeed MaxNumSteps h1 h2 h3 h4 hle
    · exact (Simulate_array_eq_of_le E U' U P RandomSeed MaxNumSteps h3 h4 h1 h2 hle).symm
  exact ⟨key T T' hI hP hI' hP', key T _ hI hP rfl rfl, rfl, rfl, rfl, rfl, fun _ => rfl⟩

/-- The amended claim for the fresh tile and the tile of a first run after `Empty`, which
has handed out one address: both runs yield the same array, of length 1. -/
theorem C17_Simulate_determinism_amended_witness :
    DemoEmptyTile.Instances = [] ∧ DemoEmptyTile.PendingRemovals = [] ∧
    (Empty (Simulate DemoEngine DemoEmptyTile DemoFoliage 7 1)).NumAllocated = 1 ∧
    (Simulate DemoEngine (Empty (Simulate DemoEngine DemoEmptyTile DemoFoliage 7 1)) DemoFoliage
        7 1).InstancesArray =
      (Simulate DemoEngine DemoEmptyTile DemoFoliage 7 1).InstancesArray ∧
    (Simulate DemoEngine (Empty (Simulate DemoEngine DemoEmptyTile DemoFoliage 7 1)) DemoFoliage
        7 1).InstancesArray.length = 1 :=
  ⟨rfl, rfl, by decide!,
   (C17_Simulate_determinism_amended DemoEngine DemoEmptyTile
      (Empty (Simulate DemoEngine DemoEmptyTile DemoFoliage 7 1)) DemoFoliage 7 1
      rfl rfl rfl rfl).1,
   by decide!⟩

/-- C22 (`AgeSeeds` never grows the population). For every tile state that satisfies the
alive/index invariant and every engine (domination function, geometry, random draws) and
species (growth curves): the number of members of `Instances` after `AgeSeeds` is at most
the number before. For a member `I` at its turn in the loop (the state `A` after the
members before it): if `I` is alive then and its species has `SimulationStep <= NumSteps`,
the turn marks it pending, allocates exactly one instance, which is the aged version of `I`
at the same location, and collects at most that one; `I` is not a member after `AgeSeeds`.
If its species has `SimulationStep > NumSteps`, or `I` is no longer alive, the turn changes
nothing. Every member after `AgeSeeds` is either an unchanged old member whose species has
`SimulationStep > NumSteps`, or the aged version of an old member. -/
theorem C22_AgeSeeds_population (E : Engine) (T : UProceduralFoliageTile)
    (h : TileInvariant T) :
    (AgeSeeds E T).Instances.length ≤ T.Instances.length ∧
    (∀ (L1 L2 : List Nat) (I : Nat), T.Instances = L1 ++ I :: L2 →
      ((L1.foldl (AgeSeedsBody E) (T, [])).1.Heap I).bAlive = true →
      T.SimulationStep ≤ (T.Heap I).Type_.NumSteps →
      I ∈ (AgeSeedsBody E (L1.foldl (AgeSeedsBody E) (T, [])) I).1.PendingRemovals ∧
      (AgeSeedsBody E (L1.foldl (AgeSeedsBody E) (T, [])) I).1.NumAllocated =
        (L1.foldl (AgeSeedsBody E) (T, [])).1.NumAllocated + 1 ∧
      ((AgeSeedsBody E (L1.foldl (AgeSeedsBody E) (T, [])) I).2 =
          (L1.foldl (AgeSeedsBody E) (T, [])).2 ∨
        (AgeSeedsBody E (L1.foldl (AgeSeedsBody E) (T, [])) I).2 =
          (L1.foldl (AgeSeedsBody E) (T, [])).2 ++
            [(L1.foldl (AgeSeedsBody E) (T, [])).1.NumAllocated]) ∧
      AgedFrom (T.Heap I)
        ((AgeSeeds E T).Heap (L1.foldl (AgeSeedsBody E) (T, [])).1.NumAllocated) ∧
      I ∉ (AgeSeeds E T).Instances) ∧
    (∀ (L1 L2 : List Nat) (I : Nat), T.Instances = L1 ++ I :: L2 →
      ((T.Heap I).Type_.NumSteps < T.SimulationStep ∨
        ((L1.foldl (AgeSeedsBody E) (T, [])).1.Heap I).bAlive = false) →
      AgeSeedsBody E (L1.foldl (AgeSeedsBody E) (T, [])) I =
        L1.foldl (AgeSeedsBody E) (T, [])) ∧
    (∀ p ∈ (AgeSeeds E T).Instances,
      (p ∈ T.Instances ∧ (T.Heap p).Type_.NumSteps < T.SimulationStep ∧
        (AgeSeeds E T).Heap p = T.Heap p) ∨
      (∃ x ∈ T.Instances, T.SimulationStep ≤ (T.Heap x).Type_.NumSteps ∧
        AgedFrom (T.Heap x) ((AgeSeeds E T).Heap p))) := by
  have hsp := AgeSeeds_spec E T h
  have hres := AgeSeeds_result E T h
  have hturn : ∀ (L1 L2 : List Nat) (I : Nat), T.Instances = L1 ++ I :: L2 →
      Evolves T (L1.foldl (AgeSeedsBody E) (T, [])).1 ∧ I < T.NumAllocated ∧
      T.Instances.foldl (AgeSeedsBody E) (T, []) =
        L2.foldl (AgeSeedsBody E) (AgeSeedsBody E (L1.foldl (AgeSeedsBody E) (T, [])) I) := by
    intro L1 L2 I hL
    refine ⟨foldl_evolves _ (fun A a => AgeSeedsBody_evolves E A a) L1 (T, []), ?_, ?_⟩
    · exact (h.2.1 I (by rw [hL]; simp)).1.1
    · rw [hL, List.foldl_append, List.foldl_cons]
  refine ⟨hsp.1, ?_, ?_, hsp.2⟩
  · intro L1 L2 I hL ha hs
    obtain ⟨hE, hI, hfold⟩ := hturn L1 L2 I hL
    have hs' : (L1.foldl (AgeSeedsBody E) (T, [])).1.SimulationStep ≤
        ((L1.foldl (AgeSeedsBody E) (T, [])).1.Heap I).Type_.NumSteps := by
      rw [hE.type_eq I hI, hE.step_eq]
      exact hs
    have hrest := foldl_evolves _ (fun A a => AgeSeedsBody_evolves E A a) L2
      (AgeSeedsBody E (L1.foldl (AgeSeedsBody E) (T, [])) I)
    have hN := AgeSeedsBody_numAllocated_of_aged E _ I ha hs'
    rcases AgeSeedsBody_cases E (L1.foldl (AgeSeedsBody E) (T, [])) I with
      ⟨hskip, _⟩ | ⟨_, _, hp, hag, hcol⟩
    · rcases hskip with hd | hin
      · rw [ha] at hd
        exact Bool.noConfusion hd
      · exact absurd hs' (not_le.2 hin)
    · refine ⟨hp, hN, hcol, ?_, ?_⟩
      · rw [hres.2, hfold]
        exact AgedFrom_congr _ _ _ _ (hE.data_eq I hI).symm
          (hrest.data_eq _ (by rw [hN]; exact Nat.lt_succ_self _)) hag
      · rw [hres.1, List.mem_filter, decide_eq_true_eq, hfold]
        exact fun hm => hm.2 (hrest.pending_mono I hp)
  · intro L1 L2 I hL hc
    obtain ⟨hE, hI, _⟩ := hturn L1 L2 I hL
    rcases hc with hin | hd
    · apply AgeSeedsBody_of_ineligible
      rw [hE.type_eq I hI, hE.step_eq]
      exact hin
    · rcases AgeSeedsBody_cases E (L1.foldl (AgeSeedsBody E) (T, [])) I with
        ⟨_, heq⟩ | ⟨ha, _⟩
      · exact heq
      · rw [hd] at ha
        exact Bool.noConfusion ha

/-- The claim on the tile with the two growing instances: the first one is aged into the
instance at address 2, which suppresses the second one before its turn; one member is left
of two. -/
theorem C22_AgeSeeds_population_witness :
    TileInvariant DemoGrowTile ∧
    (AgeSeeds DemoEngine DemoGrowTile).Instances.length ≤ DemoGrowTile.Instances.length ∧
    (AgeSeeds DemoEngine DemoGrowTile).Instances = [2] ∧
    ((AgeSeeds DemoEngine DemoGrowTile).Heap 2).Age = 2 ∧
    ((AgeSeeds DemoEngine DemoGrowTile).Heap 2).Location.X = 0 :=
  ⟨DemoGrowTile_invariant,
   (C22_AgeSeeds_population DemoEngine DemoGrowTile DemoGrowTile_invariant).1,
   by decide!, by decide!, by decide!⟩

end ProceduralFoliage
